import Mathlib

/-!
# Mint admission pipeline of the NFT minting backend

A shallow embedding of `src/server.js`, `src/firebaseAuth.js` and `src/githubHelper.js`.

* Unix times, NFT ids and lamport amounts are integer-valued JavaScript numbers, kept as
  `Int`; the arithmetic on lamport amounts is that of double precision. Counters are `Nat`.
* The Firestore collections are functions from the document key to an optional document.
* Every call to an external collaborator (Firestore, the Solana RPC, the file system,
  GitHub) has its outcome for one request recorded in an `Env`; the handler is a pure
  function of the request, the `Env` and the `ServerState`.
-/

namespace MintBackend

/-! ## Tier registry (`src/server.js`, lines 52-90 and 197-212) -/

/-- One entry of `PRICING_TIERS`. -/
structure PricingTier where
  name : String
  startDate : Int
  endDate : Int
  maxSupply : Nat
  priceSOL : ℚ
  priceLamports : ℚ

/-- The constant `LAMPORTS_PER_SOL` of `@solana/web3.js`. -/
def LAMPORTS_PER_SOL : ℚ := 1000000000

/-- The constant `MAX_SUPPLY`. -/
def MAX_SUPPLY : Int := 2500

/-- The first entry of `PRICING_TIERS`; the dates are `new Date(...).getTime() / 1000`
and `priceLamports` is `0.5 * LAMPORTS_PER_SOL`. -/
def spaceCadet : PricingTier :=
  { name := "Space Cadet NFTs"
    startDate := 1752594900    -- 2025-07-15T15:55:00Z
    endDate := 1752767700      -- 2025-07-17T15:55:00Z
    maxSupply := 1000
    priceSOL := 1 / 2
    priceLamports := 500000000 }

/-- The second entry of `PRICING_TIERS`; `priceLamports` is `1 * LAMPORTS_PER_SOL`. -/
def spaceVoyager : PricingTier :=
  { name := "Space Voyager NFTs"
    startDate := 1752768000    -- 2025-07-17T16:00:00Z
    endDate := 1752854100      -- 2025-07-18T15:55:00Z
    maxSupply := 1000
    priceSOL := 1
    priceLamports := 1000000000 }

/-- The third entry of `PRICING_TIERS`; `priceLamports` is `5 * LAMPORTS_PER_SOL`. -/
def spaceExplorer : PricingTier :=
  { name := "Space Explorer NFTs"
    startDate := 1752854400    -- 2025-07-18T16:00:00Z
    endDate := 1752940500      -- 2025-07-19T15:55:00Z
    maxSupply := 400
    priceSOL := 5
    priceLamports := 5000000000 }

/-- The fourth entry of `PRICING_TIERS`; `priceLamports` is `10 * LAMPORTS_PER_SOL`. -/
def spacePioneer : PricingTier :=
  { name := "Space Pioneer NFTs"
    startDate := 1752940800    -- 2025-07-19T16:00:00Z
    endDate := 1753027200      -- 2025-07-20T16:00:00Z
    maxSupply := 100
    priceSOL := 10
    priceLamports := 10000000000 }

/-- The configured tier list `PRICING_TIERS`. -/
def PRICING_TIERS : List PricingTier :=
  [spaceCadet, spaceVoyager, spaceExplorer, spacePioneer]

/-- The function `getCurrentTier`: the `for ... of` loop over the tier list returns the
first tier with `currentTime >= tier.startDate && currentTime < tier.endDate`, and
`null` after the loop. `currentTime` is `Math.floor(Date.now() / 1000)`. -/
def getCurrentTier (tiers : List PricingTier) (currentTime : Int) : Option PricingTier :=
  match tiers with
  | [] => none
  | tier :: rest =>
    if currentTime ≥ tier.startDate ∧ currentTime < tier.endDate then some tier
    else getCurrentTier rest currentTime

/-! ## JavaScript numbers

Every JavaScript number is an IEEE-754 binary64 value, and every arithmetic operation
gives the exact result rounded to 53 significant bits, ties to even. A finite double is
represented by the rational number it denotes; exponent range limits are not modelled.
The handler computes the lamport amount of a payment by two subtractions, divides it
by `LAMPORTS_PER_SOL` and multiplies the quotient by `LAMPORTS_PER_SOL` again before the
comparison with the tier price; each of the four operations rounds. The results of
integer operations are exact as long as they stay below 2^53 in magnitude. -/

/-- Round a rational to the nearest integer, ties to the even neighbour. -/
def roundHalfEven (x : ℚ) : ℤ :=
  if x - ⌊x⌋ < 1 / 2 then ⌊x⌋
  else if 1 / 2 < x - ⌊x⌋ then ⌊x⌋ + 1
  else if ⌊x⌋ % 2 = 0 then ⌊x⌋ else ⌊x⌋ + 1

/-- Round a rational to the nearest binary64 value: with `e = ⌊log₂ |q|⌋` the significand
`q / 2^(e-52)` lies in `[2^52, 2^53)` and is rounded to an integer. -/
def roundDouble (q : ℚ) : ℚ :=
  if q = 0 then 0
  else roundHalfEven (q / 2 ^ (Int.log 2 |q| - 52)) * 2 ^ (Int.log 2 |q| - 52)

/-- JavaScript `a / b` on finite numbers, for a divisor other than 0. -/
def jsDiv (a b : ℚ) : ℚ := roundDouble (a / b)

/-- JavaScript `a * b` on finite numbers. -/
def jsMul (a b : ℚ) : ℚ := roundDouble (a * b)

/-- JavaScript `a - b` on finite numbers. -/
def jsSub (a b : ℚ) : ℚ := roundDouble (a - b)

/-- JavaScript `n + 1` and `n++` on an integer-valued number: the double nearest to the
exact sum, which is the exact sum as long as it is below 2^53 in magnitude; from 2^53 on
the increment leaves a number as it is or moves it to the next double. -/
def jsIncrement (n : Int) : Int := ⌊roundDouble ((n : ℚ) + 1)⌋

/-! ## Documents and server state -/

/-- The constant `MAX_MINTS_PER_WALLET` of `src/firebaseAuth.js`. -/
def MAX_MINTS_PER_WALLET : Nat := 2

/-- A document of the collection `authorized_wallets`; `expiresAt` is the optional
Firestore timestamp, in milliseconds since the epoch. -/
structure AuthorizedWallet where
  expiresAt : Option Int

/-- A document of the collection `wallet_mint_counts`. -/
structure WalletMintCount where
  mintCount : Nat
  mintTransactions : List String

/-- An element of `mintTransactions` of a tier document. -/
structure TierMintEntry where
  signature : String
  wallet : String

/-- A document of the collection `tier_mint_counts`. -/
structure TierMintCount where
  mintCount : Nat
  mintTransactions : List TierMintEntry

/-- The content of `mint-tracking.json`. -/
structure MintTrackingRecord where
  mintedIds : List Int
  lastMintedId : Int
  deriving DecidableEq

/-- Everything the handlers read and write between requests. `tracking` is the tracking
record that the local file `mint-tracking.json` holds (`none`: the file is missing or its
text is not JSON, so that `fs.readFile` or `JSON.parse` throws), `mirror` its copy on
GitHub, `processed` the in-memory set of `txTracker`, and the last three fields are the
Firestore collections. A file whose text is JSON for anything but a tracking record is
not a state of this type; what `loadMintTrackingData` does with it is stated on
`TrackingFile`. -/
structure ServerState where
  tracking : Option MintTrackingRecord
  mirror : Option MintTrackingRecord
  processed : List String
  authorizedWallets : String → Option AuthorizedWallet
  walletMintCounts : String → Option WalletMintCount
  tierMintCounts : String → Option TierMintCount

/-- The part of a fetched payment transaction that `getTransactionAmount` uses:
`meta.preBalances[0]`, `meta.postBalances[0]` and `meta.fee`, in lamports, as the
JavaScript numbers that the RPC client has read from the response. -/
structure PaymentTx where
  preBalance : Int
  postBalance : Int
  fee : Int

/-- The outcomes, during one request, of the calls the server makes to the outside.
* `currentTime`: `Math.floor(Date.now() / 1000)` in `getCurrentTier`;
* `authTime`: `new Date()` in `isWalletAuthorized`, in milliseconds;
* `tierCountReadFails`, `authReadFails`, `walletCountReadFails`: a Firestore `get()` throws;
* `paymentTx`: the result of `connection.getTransaction` (`.ok none` is `null`);
* `txDetailsError`: `getWalletAddressesFromTransaction` throws with this message;
* `sendAndConfirm`: the mint signature, or the error thrown while the mint transaction is
  built, sent or confirmed;
* `parseLeaf`: the asset id derived from the confirmed transaction, or the error thrown by
  `parseLeafFromMintToCollectionV1Transaction`;
* `writeFileError`: `fs.writeFile` on the tracking file throws with this message;
* `githubFails`: `updateFileOnGitHub` throws;
* `addProcessedError`: `txTracker.addProcessedTransaction` throws with this message;
* `walletIncrementFails`, `tierIncrementFails`: the Firestore transaction throws. -/
structure Env where
  currentTime : Int
  authTime : Int
  tierCountReadFails : Bool := false
  authReadFails : Bool := false
  walletCountReadFails : Bool := false
  paymentTx : Except String (Option PaymentTx)
  txDetailsError : Option String := none
  sendAndConfirm : Except String String
  parseLeaf : Except String String
  writeFileError : Option String := none
  githubFails : Bool := false
  addProcessedError : Option String := none
  walletIncrementFails : Bool := false
  tierIncrementFails : Bool := false

/-! ## Wallet and tier counters (`src/firebaseAuth.js`) -/

/-- The function `getWalletMintCount`: 0 when the document does not exist, its `mintCount`
otherwise (`mintCount || 0`), and 0 from the `catch` block when the read throws. -/
def getWalletMintCount (env : Env) (s : ServerState) (walletAddress : String) : Nat :=
  if env.walletCountReadFails then 0
  else
    match s.walletMintCounts walletAddress with
    | none => 0
    | some data => data.mintCount

/-- The function `isWalletAuthorized`. The `catch` block returns `false` when the read of
the authorization document throws; `getWalletMintCount` never throws. The expiry test is
`data.expiresAt && data.expiresAt.toDate() < new Date()`. -/
def isWalletAuthorized (env : Env) (s : ServerState) (walletAddress : String) : Bool :=
  if env.authReadFails then false
  else
    match s.authorizedWallets walletAddress with
    | none => false
    | some data =>
      if (match data.expiresAt with
          | none => false
          | some t => decide (t < env.authTime)) then false
      else if getWalletMintCount env s walletAddress ≥ MAX_MINTS_PER_WALLET then false
      else true

/-- The function `incrementWalletMintCount`: one Firestore transaction on the wallet's
count document. It creates `{mintCount: 1, mintTransactions: [sig]}` when the document is
missing and otherwise stores `mintCount + 1` and appends `sig`; it rethrows on failure,
leaving the document as it was. Returns the new count and the new state. -/
def incrementWalletMintCount (env : Env) (s : ServerState) (walletAddress mintSignature : String) :
    Option (Nat × ServerState) :=
  if env.walletIncrementFails then none
  else
    match s.walletMintCounts walletAddress with
    | none =>
      let walletData : WalletMintCount := { mintCount := 1, mintTransactions := [mintSignature] }
      some (1, { s with
        walletMintCounts := Function.update s.walletMintCounts walletAddress (some walletData) })
    | some currentData =>
      let newMintCount := currentData.mintCount + 1
      let updateData : WalletMintCount :=
        { mintCount := newMintCount,
          mintTransactions := currentData.mintTransactions ++ [mintSignature] }
      some (newMintCount, { s with
        walletMintCounts := Function.update s.walletMintCounts walletAddress (some updateData) })

/-- The function `getTierMintCount` of `src/firebaseAuth.js`: like `getWalletMintCount`,
keyed by tier name. -/
def getTierMintCount (env : Env) (s : ServerState) (tierName : String) : Nat :=
  if env.tierCountReadFails then 0
  else
    match s.tierMintCounts tierName with
    | none => 0
    | some data => data.mintCount

/-- The function `getTierMintedCount` of `src/server.js`: it delegates to
`getTierMintCount`, which never throws, so its own `catch` block is never entered. -/
def getTierMintedCount (env : Env) (s : ServerState) (tierName : String) : Nat :=
  getTierMintCount env s tierName

/-- The function `incrementTierMintCount`: as `incrementWalletMintCount`, keyed by tier
name, recording the signature together with the minting wallet. -/
def incrementTierMintCount (env : Env) (s : ServerState)
    (tierName mintSignature walletAddress : String) : Option (Nat × ServerState) :=
  if env.tierIncrementFails then none
  else
    match s.tierMintCounts tierName with
    | none =>
      let tierData : TierMintCount :=
        { mintCount := 1,
          mintTransactions := [{ signature := mintSignature, wallet := walletAddress }] }
      some (1, { s with
        tierMintCounts := Function.update s.tierMintCounts tierName (some tierData) })
    | some currentData =>
      let newMintCount := currentData.mintCount + 1
      let updateData : TierMintCount :=
        { mintCount := newMintCount,
          mintTransactions := currentData.mintTransactions ++
            [{ signature := mintSignature, wallet := walletAddress }] }
      some (newMintCount, { s with
        tierMintCounts := Function.update s.tierMintCounts tierName (some updateData) })

/-! ## Replay guard -/

/-- Modelled from the spec: the module `./helper/txTracker` that `src/server.js` imports is
not among the sources. The spec describes the replay guard as "an in-memory
(process-lifetime) set of externally-issued payment identifiers already consumed";
`isTransactionProcessed` is membership in that set. -/
def isTransactionProcessed (processed : List String) (signature : String) : Bool :=
  processed.contains signature

/-- Modelled from the spec: the module `./helper/txTracker` is not among the sources;
`addProcessedTransaction` adds a payment id to the set of consumed ids. -/
def addProcessedTransaction (processed : List String) (signature : String) : List String :=
  if processed.contains signature then processed else signature :: processed

/-! ## Payment amount (`getTransactionAmount`) -/

/-- The function `getTransactionAmount`: throws `Transaction not found` when the RPC
returns `null`; otherwise `amountLamports = senderPreBalance - senderPostBalance - fee`
(two double-precision subtractions, from left to right) and the result is the double
`amountLamports / LAMPORTS_PER_SOL`. -/
def getTransactionAmount (env : Env) : Except String ℚ :=
  match env.paymentTx with
  | .error e => .error e
  | .ok none => .error "Transaction not found"
  | .ok (some tx) =>
    let amountLamports := jsSub (jsSub tx.preBalance tx.postBalance) tx.fee
    .ok (jsDiv amountLamports LAMPORTS_PER_SOL)

/-! ## Identifier ledger (`mint-tracking.json`) -/

/-- The record `initialData` that `loadMintTrackingData` creates. -/
def initialData : MintTrackingRecord := { mintedIds := [], lastMintedId := -1 }

/-- The function `loadMintTrackingData` on a file that holds a tracking record or cannot
be read: the parsed file, or, when reading or parsing throws, `initialData` after writing
it to the file (that write may throw in turn). -/
def loadMintTrackingData (env : Env) (s : ServerState) :
    Except String (MintTrackingRecord × ServerState) :=
  match s.tracking with
  | some trackingData => .ok (trackingData, s)
  | none =>
    match env.writeFileError with
    | some e => .error e
    | none => .ok (initialData, { s with tracking := some initialData })

/-- The function `isIdMinted`. -/
def isIdMinted (env : Env) (s : ServerState) (id : Int) : Except String (Bool × ServerState) :=
  match loadMintTrackingData env s with
  | .error e => .error e
  | .ok (trackingData, s') => .ok (trackingData.mintedIds.contains id, s')

/-- The function `getNextMintId`; the sum `trackingData.lastMintedId + 1` is a
double-precision addition. -/
def getNextMintId (env : Env) (s : ServerState) : Except String (Int × ServerState) :=
  match loadMintTrackingData env s with
  | .error e => .error e
  | .ok (trackingData, s') => .ok (jsIncrement trackingData.lastMintedId, s')

/-- The outcome of STEP 5 of the mint handler: a call has thrown, the forward scan has
ended with an id, or the forward scan never ends. -/
inductive Allocation where
  | error (e : String)
  | ok (result : Int × ServerState)
  | unending

/-- The loop `while (await isIdMinted(nftNumber)) { nftNumber++; }`, with at most `fuel`
evaluations of its condition; the loop has not ended when they are used up. -/
def scanForward (env : Env) : Nat → ServerState → Int → Allocation
  | 0, _, _ => .unending
  | fuel + 1, s, nftNumber =>
    match isIdMinted env s nftNumber with
    | .error e => .error e
    | .ok (true, s') => scanForward env fuel s' (jsIncrement nftNumber)
    | .ok (false, s') => .ok (nftNumber, s')

/-- A number of evaluations of its condition within which the forward scan ends if it
ends at all: an iteration that continues has found an element of `mintedIds`, so among
more iterations than `mintedIds` has elements one number has come twice, and from then
on the numbers repeat. -/
def scanFuel (s : ServerState) : Nat :=
  match s.tracking with
  | some trackingData => trackingData.mintedIds.length + 1
  | none => 1

/-- STEP 5 of the mint handler: `getNextMintId()`, then, if that id is already minted, the
forward scan to the next id that is not. -/
def allocateMintId (env : Env) (s : ServerState) : Allocation :=
  match getNextMintId env s with
  | .error e => .error e
  | .ok (nftNumber, s1) =>
    match isIdMinted env s1 nftNumber with
    | .error e => .error e
    | .ok (true, s2) => scanForward env (scanFuel s2) s2 nftNumber
    | .ok (false, s2) => .ok (nftNumber, s2)

/-- The record `recordMintedId` writes: the id is pushed unless already included, and
`lastMintedId` is set to it. -/
def withMintedId (trackingData : MintTrackingRecord) (id : Int) : MintTrackingRecord :=
  { mintedIds :=
      if trackingData.mintedIds.contains id then trackingData.mintedIds
      else trackingData.mintedIds ++ [id]
    lastMintedId := id }

/-- The calls a handler makes to its collaborators, in the order it makes them (the file
reads of `isIdMinted` during the forward scan are not listed). -/
inductive Call where
  | getCurrentTier
  | getTierMintedCount (tierName : String)
  | isWalletAuthorized (walletAddress : String)
  | getTransactionAmount (txSignature : String)
  | isTransactionProcessed (txSignature : String)
  | getWalletAddressesFromTransaction (txnId : String)
  | getNextMintId
  | sendAndConfirm (nftNumber : Int) (leafOwner : String)
  | parseLeaf (mintSignature : String)
  | recordMintedId (id : Int)
  | writeFile (content : MintTrackingRecord)
  | updateFileOnGitHub (content : MintTrackingRecord) (commitMessage : String)
  | addProcessedTransaction (txSignature : String)
  | incrementWalletMintCount (walletAddress mintSignature : String)
  | incrementTierMintCount (tierName mintSignature walletAddress : String)
  | isIdMinted (id : Int)
  | recordAirdropMintedId (id : Int)
  deriving DecidableEq

/-- The function `recordMintedId`: load, update, write the local file (a failing write
throws and leaves the file as it was), then mirror the same content to GitHub inside a
`try`/`catch` that swallows a mirror failure. Returns the new state and the calls made,
of which the write of `initialData` that `loadMintTrackingData` makes for a missing file
is not listed. -/
def recordMintedId (env : Env) (s : ServerState) (id : Int) :
    Except String (ServerState × List Call) :=
  match loadMintTrackingData env s with
  | .error e => .error e
  | .ok (trackingData, s1) =>
    let content := withMintedId trackingData id
    match env.writeFileError with
    | some e => .error e
    | none =>
      let s2 := { s1 with tracking := some content }
      .ok (if env.githubFails then s2 else { s2 with mirror := some content },
           [.writeFile content,
            .updateFileOnGitHub content ("Update mint tracking: NFT #" ++ toString id)])

/-! ## The mint handler (`POST /api/mint`) -/

/-- The error codes of the guard responses: the first seven are those of the mint
handler, the last four those of the airdrop handler. -/
inductive ErrorCode where
  | NO_ACTIVE_TIER
  | TIER_SUPPLY_EXHAUSTED
  | WALLET_NOT_AUTHORIZED
  | INSUFFICIENT_PAYMENT
  | DUPLICATE_TRANSACTION
  | TRANSACTION_VERIFICATION_FAILED
  | MAX_SUPPLY_REACHED
  | UNAUTHORIZED
  | INVALID_REQUEST
  | INVALID_NFT_ID
  | NFT_ALREADY_MINTED
  deriving DecidableEq

/-- The HTTP response of the mint handler and of the airdrop handler: the success body
(status 200) for the NFT number, with `nftId` and `transactionId`; a guard response
`{success: false, error: {code, ...}}` with its status; the response of the outer
`catch` block, `{success: false, error: message}`; or no response at all, when the
handler never comes to its end. -/
inductive Response where
  | success (nftNumber : Int) (nftId : String) (transactionId : String)
  | rejected (status : Nat) (code : ErrorCode)
  | failure (status : Nat) (message : String)
  | unanswered
  deriving DecidableEq

/-- The HTTP status of a response, 0 when there is no response. -/
def Response.status : Response → Nat
  | .success _ _ _ => 200
  | .rejected status _ => status
  | .failure status _ => status
  | .unanswered => 0

/-- The body of a mint request. -/
structure MintRequest where
  userWallet : String
  paymentSignature : String

/-- What one request leaves behind: the response, the state and the calls made. -/
structure Outcome where
  response : Response
  state : ServerState
  calls : List Call

/-- The calls of the seven guards of the mint handler, in order. -/
def guardCalls (currentTierName : String) (req : MintRequest) : List Call :=
  [.getCurrentTier,
   .getTierMintedCount currentTierName,
   .isWalletAuthorized req.userWallet,
   .getTransactionAmount req.paymentSignature,
   .isTransactionProcessed req.paymentSignature,
   .getWalletAddressesFromTransaction req.paymentSignature,
   .getNextMintId]

/-- STEP 9 and STEP 9.1 of the mint handler: inside one `try` block the wallet count is
incremented and then the tier count; the `catch` block only logs. Both are called with
the signature of the mint transaction. -/
def updateFirebaseCounts (env : Env) (s : ServerState) (req : MintRequest)
    (currentTierName mintSignature : String) : ServerState × List Call :=
  match incrementWalletMintCount env s req.userWallet mintSignature with
  | none => (s, [.incrementWalletMintCount req.userWallet mintSignature])
  | some (_, s1) =>
    match incrementTierMintCount env s1 currentTierName mintSignature req.userWallet with
    | none =>
      (s1, [.incrementWalletMintCount req.userWallet mintSignature,
            .incrementTierMintCount currentTierName mintSignature req.userWallet])
    | some (_, s2) =>
      (s2, [.incrementWalletMintCount req.userWallet mintSignature,
            .incrementTierMintCount currentTierName mintSignature req.userWallet])

/-- STEP 7 to STEP 10 of the mint handler, for the allocated `nftNumber`: submit the
mint and wait for its confirmation, parse the leaf, then `recordMintedId`,
`txTracker.addProcessedTransaction`, the two Firestore increments and the success
response. Anything thrown outside the inner `try` reaches the outer `catch` (status 500),
which answers with the message of the error; thrown errors are taken to carry a message
(for one without, the code answers with the text `Mint failed`). -/
def mintAndRecord (env : Env) (s : ServerState) (req : MintRequest) (currentTierName : String)
    (nftNumber : Int) (before : List Call) : Outcome :=
  match env.sendAndConfirm with
  | .error e =>
    ⟨.failure 500 e, s, before ++ [.sendAndConfirm nftNumber req.userWallet]⟩
  | .ok mintSignature =>
    match env.parseLeaf with
    | .error e =>
      ⟨.failure 500 e, s,
        before ++ [.sendAndConfirm nftNumber req.userWallet, .parseLeaf mintSignature]⟩
    | .ok assetId =>
      let minted := before ++ [.sendAndConfirm nftNumber req.userWallet, .parseLeaf mintSignature,
        .recordMintedId nftNumber]
      match recordMintedId env s nftNumber with
      | .error e => ⟨.failure 500 e, s, minted⟩
      | .ok (s1, recordCalls) =>
        match env.addProcessedError with
        | some e =>
          ⟨.failure 500 e, s1,
            minted ++ recordCalls ++ [.addProcessedTransaction req.paymentSignature]⟩
        | none =>
          let s2 := { s1 with
            processed := addProcessedTransaction s1.processed req.paymentSignature }
          let counted := updateFirebaseCounts env s2 req currentTierName mintSignature
          ⟨.success nftNumber assetId mintSignature, counted.1,
            minted ++ recordCalls ++ [.addProcessedTransaction req.paymentSignature] ++
              counted.2⟩

/-- The handler of `POST /api/mint`. `tiers` is the global `PRICING_TIERS`. -/
def mintHandler (tiers : List PricingTier) (env : Env) (s : ServerState) (req : MintRequest) :
    Outcome :=
  match getCurrentTier tiers env.currentTime with
  | none => ⟨.rejected 410 .NO_ACTIVE_TIER, s, [.getCurrentTier]⟩
  | some currentTier =>
    let calls := guardCalls currentTier.name req
    -- Check tier supply limit
    if getTierMintedCount env s currentTier.name ≥ currentTier.maxSupply then
      ⟨.rejected 410 .TIER_SUPPLY_EXHAUSTED, s, calls.take 2⟩
    -- STEP 1: Check if wallet is authorized in Firebase
    else if isWalletAuthorized env s req.userWallet = false then
      ⟨.rejected 403 .WALLET_NOT_AUTHORIZED, s, calls.take 3⟩
    else
      -- STEP 2: Verify payment amount
      match getTransactionAmount env with
      | .error e => ⟨.failure 500 e, s, calls.take 4⟩
      | .ok amount =>
        if jsMul amount LAMPORTS_PER_SOL ≠ currentTier.priceLamports then
          ⟨.rejected 409 .INSUFFICIENT_PAYMENT, s, calls.take 4⟩
        -- STEP 3: Check for duplicate transactions
        else if isTransactionProcessed s.processed req.paymentSignature = true then
          ⟨.rejected 409 .DUPLICATE_TRANSACTION, s, calls.take 5⟩
        -- STEP 4: Verify transaction details
        else if env.txDetailsError.isSome = true then
          ⟨.rejected 400 .TRANSACTION_VERIFICATION_FAILED, s, calls.take 6⟩
        else
          -- STEP 5: Get next mint ID
          match allocateMintId env s with
          | .error e => ⟨.failure 500 e, s, calls⟩
          | .unending => ⟨.unanswered, s, calls⟩
          | .ok (nftNumber, s1) =>
            -- STEP 6: Check supply limit
            if nftNumber ≥ MAX_SUPPLY then
              ⟨.rejected 410 .MAX_SUPPLY_REACHED, s1, calls⟩
            else mintAndRecord env s1 req currentTier.name nftNumber calls

/-- A sequential run of mint requests: each request is handled in the state the previous
one left. Returns the final state and, in order, each request with its response. -/
def runMints (tiers : List PricingTier) (s : ServerState) :
    List (Env × MintRequest) → ServerState × List (MintRequest × Response)
  | [] => (s, [])
  | (env, req) :: rest =>
    let out := mintHandler tiers env s req
    let later := runMints tiers out.state rest
    (later.1, (req, out.response) :: later.2)

/-- Whether a response is the success response. -/
def Response.isSuccess : Response → Bool
  | .success _ _ _ => true
  | _ => false

/-- The number of successful mints by a wallet in the log of a run. -/
def successfulMints (walletAddress : String) (log : List (MintRequest × Response)) : Nat :=
  (log.filter fun entry =>
    decide (entry.1.userWallet = walletAddress) && entry.2.isSuccess).length

/-- The `mintCount` stored for a wallet, 0 when it has no count document. -/
def storedWalletCount (s : ServerState) (walletAddress : String) : Nat :=
  match s.walletMintCounts walletAddress with
  | none => 0
  | some data => data.mintCount

/-- The `mintCount` stored for a tier, 0 when it has no count document. -/
def storedTierCount (s : ServerState) (tierName : String) : Nat :=
  match s.tierMintCounts tierName with
  | none => 0
  | some data => data.mintCount

/-- The payment check of STEP 2 passes: the transaction is found and the amount, converted
back to lamports, is the tier price. -/
def paymentAccepted (env : Env) (tier : PricingTier) : Prop :=
  ∃ amount, getTransactionAmount env = .ok amount ∧
    jsMul amount LAMPORTS_PER_SOL = tier.priceLamports

/-- The payment check of STEP 2 fails: the transaction is found and the amount, converted
back to lamports, differs from the tier price. -/
def paymentRefused (env : Env) (tier : PricingTier) : Prop :=
  ∃ amount, getTransactionAmount env = .ok amount ∧
    jsMul amount LAMPORTS_PER_SOL ≠ tier.priceLamports

/-- The `mintTransactions` stored for a wallet, empty when it has no count document. -/
def storedWalletTransactions (s : ServerState) (walletAddress : String) : List String :=
  match s.walletMintCounts walletAddress with
  | none => []
  | some data => data.mintTransactions

/-- The `mintTransactions` stored for a tier, empty when it has no count document. -/
def storedTierTransactions (s : ServerState) (tierName : String) : List TierMintEntry :=
  match s.tierMintCounts tierName with
  | none => []
  | some data => data.mintTransactions

/-- The state in which the Firestore increments run after a confirmed mint whose id was
recorded: the tracking file and its mirror hold the id, the replay guard the payment id. -/
def recordedState (env : Env) (s : ServerState) (req : MintRequest) (nftNumber : Int) :
    ServerState :=
  { s with
    tracking := some (withMintedId (s.tracking.getD initialData) nftNumber),
    mirror := if env.githubFails then s.mirror
      else some (withMintedId (s.tracking.getD initialData) nftNumber),
    processed := addProcessedTransaction s.processed req.paymentSignature }

/-! ## The airdrop handler (`POST /api/airdrop`) -/

/-- The record `recordAirdropMintedId` writes: the id is pushed unless already included;
`lastMintedId` is not updated. -/
def withAirdropMintedId (trackingData : MintTrackingRecord) (id : Int) : MintTrackingRecord :=
  { mintedIds :=
      if trackingData.mintedIds.contains id then trackingData.mintedIds
      else trackingData.mintedIds ++ [id]
    lastMintedId := trackingData.lastMintedId }

/-- The function `recordAirdropMintedId`: as `recordMintedId`, without the update of
`lastMintedId` and with its own commit message. -/
def recordAirdropMintedId (env : Env) (s : ServerState) (id : Int) :
    Except String (ServerState × List Call) :=
  match loadMintTrackingData env s with
  | .error e => .error e
  | .ok (trackingData, s1) =>
    let content := withAirdropMintedId trackingData id
    match env.writeFileError with
    | some e => .error e
    | none =>
      let s2 := { s1 with tracking := some content }
      .ok (if env.githubFails then s2 else { s2 with mirror := some content },
           [.writeFile content,
            .updateFileOnGitHub content ("Airdrop update: NFT #" ++ toString id)])

/-- The white space that `parseInt` skips at the start of its argument: the ECMAScript
`WhiteSpace` and `LineTerminator` code points. -/
def isJsWhiteSpace (c : Char) : Bool :=
  c.toNat = 0x09 || c.toNat = 0x0A || c.toNat = 0x0B || c.toNat = 0x0C || c.toNat = 0x0D ||
  c.toNat = 0x20 || c.toNat = 0xA0 || c.toNat = 0x1680 ||
  (0x2000 ≤ c.toNat && c.toNat ≤ 0x200A) ||
  c.toNat = 0x2028 || c.toNat = 0x2029 || c.toNat = 0x202F || c.toNat = 0x205F ||
  c.toNat = 0x3000 || c.toNat = 0xFEFF

/-- The value of a list of decimal digits, most significant first, continuing from `acc`. -/
def digitsValue (acc : Nat) : List Char → Nat
  | [] => acc
  | c :: cs => digitsValue (10 * acc + (c.toNat - '0'.toNat)) cs

/-- The JavaScript call `parseInt(s, 10)`: leading white space is skipped, one sign is
read, then the longest run of decimal digits; `none` stands for `NaN` (no digit). The
value is kept as an exact integer: `parseInt` rounds an integer above 2^53 to a double,
which the range check of the airdrop handler rejects like the integer itself. -/
def parseInt (s : String) : Option Int :=
  let trimmed := s.toList.dropWhile isJsWhiteSpace
  let negative := trimmed.head? = some '-'
  let unsigned :=
    if trimmed.head? = some '-' ∨ trimmed.head? = some '+' then trimmed.tail else trimmed
  let digits := unsigned.takeWhile Char.isDigit
  if digits.isEmpty then none
  else if negative then some (-(digitsValue 0 digits : Int))
  else some (digitsValue 0 digits : Int)

/-- The field `nftId` of an airdrop request body: missing, a number or a string. -/
inductive NftIdField where
  | absent
  | number (n : Int)
  | text (s : String)

/-- The JavaScript test `!nftId`: true for a missing field, the number 0 and the empty
string. -/
def NftIdField.isFalsy : NftIdField → Bool
  | .absent => true
  | .number n => decide (n = 0)
  | .text s => decide (s = "")

/-- The conversion `typeof nftId === 'string' ? parseInt(nftId, 10) : nftId`; `none`
stands for a value on which `isNaN` is true. -/
def NftIdField.toNftNumber : NftIdField → Option Int
  | .absent => none
  | .number n => some n
  | .text s => parseInt s

/-- An airdrop request: the `Authorization` header and the body fields `userWallet` (a
missing field is the empty string) and `nftId`. -/
structure AirdropRequest where
  authorization : Option String
  userWallet : String
  nftId : NftIdField

/-- The handler of `POST /api/airdrop`. `adminWallet` is the global `AUTHORIZED_WALLET`
(the environment variable `AIRDROP_ADMIN_WALLET`). -/
def airdropHandler (adminWallet : String) (env : Env) (s : ServerState)
    (req : AirdropRequest) : Outcome :=
  -- Authentication check - only allow the authorized wallet
  if req.authorization ≠ some ("Bearer " ++ adminWallet) then
    ⟨.rejected 401 .UNAUTHORIZED, s, []⟩
  -- Validate inputs
  else if req.userWallet = "" ∨ req.nftId.isFalsy = true then
    ⟨.rejected 400 .INVALID_REQUEST, s, []⟩
  else
    -- Convert nftId to number if it's a string
    match req.nftId.toNftNumber with
    | none => ⟨.rejected 400 .INVALID_NFT_ID, s, []⟩
    | some nftNumber =>
      -- Validate NFT ID
      if nftNumber < 0 ∨ nftNumber ≥ 10000 then
        ⟨.rejected 400 .INVALID_NFT_ID, s, []⟩
      else
        -- Check if NFT ID has already been minted
        match isIdMinted env s nftNumber with
        | .error e => ⟨.failure 500 e, s, [.isIdMinted nftNumber]⟩
        | .ok (true, s1) =>
          ⟨.rejected 409 .NFT_ALREADY_MINTED, s1, [.isIdMinted nftNumber]⟩
        | .ok (false, s1) =>
          -- NFT MINTING PROCESS
          match env.sendAndConfirm with
          | .error e =>
            ⟨.failure 500 e, s1,
              [.isIdMinted nftNumber, .sendAndConfirm nftNumber req.userWallet]⟩
          | .ok mintSignature =>
            match env.parseLeaf with
            | .error e =>
              ⟨.failure 500 e, s1,
                [.isIdMinted nftNumber, .sendAndConfirm nftNumber req.userWallet,
                  .parseLeaf mintSignature]⟩
            | .ok assetId =>
              -- Record the minted ID WITHOUT updating lastMintedId
              match recordAirdropMintedId env s1 nftNumber with
              | .error e =>
                ⟨.failure 500 e, s1,
                  [.isIdMinted nftNumber, .sendAndConfirm nftNumber req.userWallet,
                    .parseLeaf mintSignature, .recordAirdropMintedId nftNumber]⟩
              | .ok (s2, recordCalls) =>
                ⟨.success nftNumber assetId mintSignature, s2,
                  [.isIdMinted nftNumber, .sendAndConfirm nftNumber req.userWallet,
                    .parseLeaf mintSignature, .recordAirdropMintedId nftNumber] ++
                    recordCalls⟩

/-- The ids recorded as minted: the `mintedIds` of the tracking file, none without a
file. -/
def mintedIdsOf (s : ServerState) : List Int :=
  match s.tracking with
  | none => []
  | some trackingData => trackingData.mintedIds

/-! ## Sample data for the examples -/

/-- A store in which only `alice` is authorized (without expiry). -/
def aliceAuthorized : String → Option AuthorizedWallet :=
  fun w => if w = "alice" then some { expiresAt := none } else none

/-- The state of a freshly started server: no tracking file, an empty replay guard, `alice`
authorized, no count documents. -/
def freshState : ServerState :=
  { tracking := none, mirror := none, processed := [],
    authorizedWallets := aliceAuthorized,
    walletMintCounts := fun _ => none,
    tierMintCounts := fun _ => none }

/-- As `freshState`, with `alice` at the per-wallet cap: her stored `mintCount` is 2. -/
def cappedState : ServerState :=
  { freshState with
    walletMintCounts := fun w =>
      if w = "alice" then some { mintCount := 2, mintTransactions := ["m1", "m2"] } else none }

/-- As `freshState`, with the tier "Space Pioneer NFTs" at its supply cap of 100. -/
def pioneerSoldOut : ServerState :=
  { freshState with
    tierMintCounts := fun t =>
      if t = "Space Pioneer NFTs" then
        some { mintCount := 100,
               mintTransactions := List.replicate 100 { signature := "sig", wallet := "w" } }
      else none }

/-- A payment transaction that moved `paid` lamports net of its 5000 lamport fee. -/
def sampleTx (paid : Int) : PaymentTx :=
  { preBalance := paid + 5000 + 1, postBalance := 1, fee := 5000 }

/-- A request environment at unix time `currentTime` in which every collaborator succeeds:
the payment transaction is `sampleTx paid`, the mint is confirmed with signature `mintSig`
and yields the asset id `asset`. -/
def calmEnv (currentTime paid : Int) : Env :=
  { currentTime := currentTime, authTime := 0,
    paymentTx := .ok (some (sampleTx paid)),
    sendAndConfirm := .ok "mintSig", parseLeaf := .ok "asset" }

/-- As `calmEnv`, except that the Firestore read of the tier count throws. -/
def tierReadFailingEnv (currentTime paid : Int) : Env :=
  { currentTime := currentTime, authTime := 0, tierCountReadFails := true,
    paymentTx := .ok (some (sampleTx paid)),
    sendAndConfirm := .ok "mintSig", parseLeaf := .ok "asset" }

/-- As `freshState`, after the payment id `p1` has been consumed. -/
def replayedState : ServerState :=
  { freshState with processed := ["p1"] }

/-- As `freshState`, with a tracking file whose sequence pointer is 0 while the ids 0, 1
and 3 are minted. -/
def gapState : ServerState :=
  { freshState with tracking := some { mintedIds := [0, 1, 3], lastMintedId := 0 } }

/-- The tracking record as `loadMintTrackingData` returns it: the record on file, or
`initialData` without a file. -/
def trackingOf (s : ServerState) : MintTrackingRecord :=
  s.tracking.getD initialData

/-- The header and body of an airdrop request by the administrator `admin` for `bob`. -/
def adminAirdrop (nftId : NftIdField) : AirdropRequest :=
  { authorization := some "Bearer admin", userWallet := "bob", nftId := nftId }

/-- A sequence of calls of `recordAirdropMintedId`, each made with its own outcomes of
the external calls; a call that throws has written nothing. -/
def recordAirdropMintedIds (s : ServerState) : List (Env × Int) → ServerState
  | [] => s
  | (env, id) :: rest =>
    match recordAirdropMintedId env s id with
    | .error _ => recordAirdropMintedIds s rest
    | .ok (s1, _) => recordAirdropMintedIds s1 rest

/-- As `calmEnv`, except that `fs.writeFile` on the tracking file throws `EACCES`. -/
def writeFailingEnv (currentTime paid : Int) : Env :=
  { currentTime := currentTime, authTime := 0,
    paymentTx := .ok (some (sampleTx paid)),
    sendAndConfirm := .ok "mintSig", parseLeaf := .ok "asset",
    writeFileError := some "EACCES" }

/-- As `calmEnv`, except that the Firestore transaction on the wallet count throws. -/
def walletIncrementFailingEnv (currentTime paid : Int) : Env :=
  { currentTime := currentTime, authTime := 0,
    paymentTx := .ok (some (sampleTx paid)),
    sendAndConfirm := .ok "mintSig", parseLeaf := .ok "asset",
    walletIncrementFails := true }


/-! ## The GitHub mirror (`src/githubHelper.js`) -/

/-- The outcomes of the calls that `updateFileOnGitHub` makes: `initializeOctokit` (the
error thrown by the import or the constructor, if any), `repos.getContent` (the `sha` of
the file, or the `status` and message of the error thrown) and
`repos.createOrUpdateFileContents` (the error thrown, if any). -/
structure GitHubApi where
  initializeOctokit : Option String := none
  getContent : Except (Nat × String) String
  createOrUpdateFileContents : Option String := none

/-- The function `updateFileOnGitHub`: a `getContent` error with status 404 stands for a
file that does not exist yet (`sha = null`), any other one is rethrown; the outer
`catch` block logs and rethrows whatever was thrown. -/
def updateFileOnGitHub (api : GitHubApi) : Except String Bool :=
  match api.initializeOctokit with
  | some e => .error e
  | none =>
    let sha : Except String (Option String) :=
      match api.getContent with
      | .ok sha => .ok (some sha)
      | .error (status, e) => if status = 404 then .ok none else .error e
    match sha with
    | .error e => .error e
    | .ok _ =>
      match api.createOrUpdateFileContents with
      | some e => .error e
      | none => .ok true

/-- The request environment in which the calls of `updateFileOnGitHub` have the outcomes
`api`. -/
def Env.withGitHub (env : Env) (api : GitHubApi) : Env :=
  { env with
    githubFails :=
      match updateFileOnGitHub api with
      | .error _ => true
      | .ok _ => false }


/-! ## The tracking file as text (`JSON.stringify`, `JSON.parse`)

The server writes the tracking record with `JSON.stringify(trackingData, null, 2)` and
reads it back with `JSON.parse`. The printer below produces that text for a tracking
record; the reader is a JSON reader for the texts built from objects, arrays, strings
without escape sequences, integers without fraction or exponent, and the three literals,
with any white space between the tokens. -/

/-- A JSON value whose numbers are integers. -/
inductive Json where
  | null
  | bool (b : Bool)
  | number (n : Int)
  | string (s : String)
  | array (items : List Json)
  | object (members : List (String × Json))

/-- The tokens of a JSON text. -/
inductive Token where
  | beginObject
  | endObject
  | beginArray
  | endArray
  | nameSeparator
  | valueSeparator
  | string (s : String)
  | number (n : Int)
  | literal (value : Json)

/-- What the tokenizer is in the middle of: nothing, a string, a number or a literal
name, with the characters read so far. -/
inductive LexMode where
  | idle
  | string (chars : List Char)
  | number (chars : List Char)
  | word (chars : List Char)

/-- The tokens read so far and the token being read. -/
structure LexState where
  tokens : List Token
  mode : LexMode

/-- The white space of JSON: space, tab, line feed and carriage return. -/
def isJsonWhiteSpace (c : Char) : Bool :=
  c.toNat = 0x20 || c.toNat = 0x09 || c.toNat = 0x0A || c.toNat = 0x0D

/-- The number token for the characters of a number: an optional minus sign, then
digits, at least one and without a leading zero unless the digit 0 stands alone. The
integer is read exactly, as `JSON.parse` reads every integer that is a double. -/
def finishNumber (chars : List Char) : Option Token :=
  let negative := chars.head? = some '-'
  let digits := if negative then chars.tail else chars
  if digits.isEmpty ∨ (digits.head? = some '0' ∧ 1 < digits.length) then none
  else if negative then some (.number (-(digitsValue 0 digits : Int)))
  else some (.number (digitsValue 0 digits : Int))

/-- The token for a literal name. -/
def finishWord (chars : List Char) : Option Token :=
  if chars = "true".toList then some (.literal (.bool true))
  else if chars = "false".toList then some (.literal (.bool false))
  else if chars = "null".toList then some (.literal .null)
  else none

/-- One character read between tokens. -/
def lexIdle (tokens : List Token) (c : Char) : Option LexState :=
  if c.toNat = 0x7B then some ⟨tokens ++ [.beginObject], .idle⟩
  else if c.toNat = 0x7D then some ⟨tokens ++ [.endObject], .idle⟩
  else if c.toNat = 0x5B then some ⟨tokens ++ [.beginArray], .idle⟩
  else if c.toNat = 0x5D then some ⟨tokens ++ [.endArray], .idle⟩
  else if c.toNat = 0x3A then some ⟨tokens ++ [.nameSeparator], .idle⟩
  else if c.toNat = 0x2C then some ⟨tokens ++ [.valueSeparator], .idle⟩
  else if c.toNat = 0x22 then some ⟨tokens, .string []⟩
  else if c.toNat = 0x2D ∨ c.isDigit = true then some ⟨tokens, .number [c]⟩
  else if c.isLower = true then some ⟨tokens, .word [c]⟩
  else if isJsonWhiteSpace c = true then some ⟨tokens, .idle⟩
  else none

/-- One character read by the tokenizer; `none` when the text is not of the fragment. A
string ends at the next quotation mark and may not hold a backslash or a control
character; a number or literal name ends before the first character that cannot
continue it, which is then read as the start of the next token. -/
def lexStep (st : LexState) (c : Char) : Option LexState :=
  match st.mode with
  | .idle => lexIdle st.tokens c
  | .string chars =>
    if c.toNat = 0x22 then some ⟨st.tokens ++ [.string (String.mk chars)], .idle⟩
    else if c.toNat = 0x5C ∨ c.toNat < 0x20 then none
    else some ⟨st.tokens, .string (chars ++ [c])⟩
  | .number chars =>
    if c.isDigit = true then some ⟨st.tokens, .number (chars ++ [c])⟩
    else
      match finishNumber chars with
      | none => none
      | some token => lexIdle (st.tokens ++ [token]) c
  | .word chars =>
    if c.isLower = true then some ⟨st.tokens, .word (chars ++ [c])⟩
    else
      match finishWord chars with
      | none => none
      | some token => lexIdle (st.tokens ++ [token]) c

/-- The tokenizer run over a list of characters. -/
def lexFrom : LexState → List Char → Option LexState
  | st, [] => some st
  | st, c :: cs =>
    match lexStep st c with
    | none => none
    | some st1 => lexFrom st1 cs

/-- The end of the text: a pending number or literal name is finished, a pending string
is an error. -/
def lexEnd (st : LexState) : Option (List Token) :=
  match st.mode with
  | .idle => some st.tokens
  | .string _ => none
  | .number chars => (finishNumber chars).map fun token => st.tokens ++ [token]
  | .word chars => (finishWord chars).map fun token => st.tokens ++ [token]

/-- The tokens of a text. -/
def tokenize (text : List Char) : Option (List Token) :=
  match lexFrom ⟨[], .idle⟩ text with
  | none => none
  | some st => lexEnd st

/-- A container that is being read: an array with the items read so far, an object with
the members read so far, or an object in which the value of `key` is awaited. -/
inductive Frame where
  | array (items : List Json)
  | object (members : List (String × Json))
  | member (members : List (String × Json)) (key : String)

/-- What the grammar allows next. -/
inductive Expect where
  | value
  | valueOrEnd
  | keyOrEnd
  | key
  | nameSeparator
  | separatorOrEnd
  | done (value : Json)

/-- The open containers, innermost first, and what may come next. -/
structure ParseState where
  stack : List Frame
  expect : Expect

/-- A complete value is added to the innermost open container, or is the result. -/
def pushValue (value : Json) : List Frame → Option ParseState
  | [] => some ⟨[], .done value⟩
  | .array items :: rest => some ⟨.array (items ++ [value]) :: rest, .separatorOrEnd⟩
  | .member members key :: rest =>
    some ⟨.object (members ++ [(key, value)]) :: rest, .separatorOrEnd⟩
  | .object _ :: _ => none

/-- The token `]`. -/
def closeArray : List Frame → Option ParseState
  | .array items :: rest => pushValue (.array items) rest
  | _ => none

/-- The closing brace of an object. -/
def closeObject : List Frame → Option ParseState
  | .object members :: rest => pushValue (.object members) rest
  | _ => none

/-- A token where a value must start. -/
def startValue (stack : List Frame) : Token → Option ParseState
  | .string s => pushValue (.string s) stack
  | .number n => pushValue (.number n) stack
  | .literal value => pushValue value stack
  | .beginArray => some ⟨.array [] :: stack, .valueOrEnd⟩
  | .beginObject => some ⟨.object [] :: stack, .keyOrEnd⟩
  | _ => none

/-- A token where a member name must stand. -/
def startMember : List Frame → Token → Option ParseState
  | .object members :: rest, .string key => some ⟨.member members key :: rest, .nameSeparator⟩
  | _, _ => none

/-- One token read by the parser; `none` for a token the grammar does not allow here. -/
def parseStep (st : ParseState) (token : Token) : Option ParseState :=
  match st.expect with
  | .value => startValue st.stack token
  | .valueOrEnd =>
    match token with
    | .endArray => closeArray st.stack
    | _ => startValue st.stack token
  | .keyOrEnd =>
    match token with
    | .endObject => closeObject st.stack
    | _ => startMember st.stack token
  | .key => startMember st.stack token
  | .nameSeparator =>
    match token with
    | .nameSeparator => some ⟨st.stack, .value⟩
    | _ => none
  | .separatorOrEnd =>
    match token, st.stack with
    | .valueSeparator, .array _ :: _ => some ⟨st.stack, .value⟩
    | .valueSeparator, .object _ :: _ => some ⟨st.stack, .key⟩
    | .endArray, _ => closeArray st.stack
    | .endObject, _ => closeObject st.stack
    | _, _ => none
  | .done _ => none

/-- The parser run over a list of tokens. -/
def parseFrom : ParseState → List Token → Option ParseState
  | st, [] => some st
  | st, token :: tokens =>
    match parseStep st token with
    | none => none
    | some st1 => parseFrom st1 tokens

/-- The value of a list of tokens: exactly one complete value. -/
def parseTokens (tokens : List Token) : Option Json :=
  match parseFrom ⟨[], .value⟩ tokens with
  | some ⟨_, .done value⟩ => some value
  | _ => none

/-- The call `JSON.parse(data)` on the texts of the fragment; `none` when the text is
not a JSON text of the fragment (for most such texts `JSON.parse` throws a
`SyntaxError`). -/
def JSON.parse (data : String) : Option Json :=
  match tokenize data.toList with
  | none => none
  | some tokens => parseTokens tokens

/-- The characters of an integer as `JSON.stringify` prints it: a minus sign for a
negative number, then the decimal digits. JavaScript prints every integer of magnitude
up to 2^53 in this way. -/
def numberChars (n : Int) : List Char :=
  if n < 0 then '-' :: Nat.toDigits 10 n.natAbs else Nat.toDigits 10 n.natAbs

/-- The items of a non-empty array after the first one, with indentation 4: each is
preceded by a comma and a new line. -/
def itemsTailChars : List Int → List Char
  | [] => []
  | n :: rest => ",\n    ".toList ++ numberChars n ++ itemsTailChars rest

/-- An array of integers that is the value of a member of the top-level object, as
`JSON.stringify(value, null, 2)` prints it: `[]` when empty, and otherwise one item per
line with indentation 4 and the closing bracket with indentation 2. -/
def arrayChars : List Int → List Char
  | [] => "[]".toList
  | n :: rest => "[\n    ".toList ++ numberChars n ++ itemsTailChars rest ++ "\n  ]".toList

/-- The call `JSON.stringify(trackingData, null, 2)` for a tracking record, the members
in the order in which `initialData` lists them. -/
def JSON.stringify (trackingData : MintTrackingRecord) : String :=
  String.mk ("\x7b\n  \x22mintedIds\x22: ".toList ++ arrayChars trackingData.mintedIds ++
    ",\n  \x22lastMintedId\x22: ".toList ++ numberChars trackingData.lastMintedId ++
    "\n\x7d".toList)

/-- The property `name` of a parsed value: for an object the value of the last member of
that name, otherwise nothing. -/
def Json.property (value : Json) (name : String) : Option Json :=
  match value with
  | .object members => (members.reverse.find? fun member => member.1 = name).map Prod.snd
  | _ => none

/-- The integers of a list of JSON values that are all integers. -/
def toIntList : List Json → Option (List Int)
  | [] => some []
  | .number n :: rest => (toIntList rest).map fun ids => n :: ids
  | _ :: _ => none

/-- The tracking record that a parsed value stands for: its property `mintedIds` must be
an array of integers and its property `lastMintedId` an integer. -/
def toMintTrackingRecord (value : Json) : Option MintTrackingRecord :=
  match value.property "mintedIds", value.property "lastMintedId" with
  | some (.array items), some (.number lastMintedId) =>
    (toIntList items).map fun mintedIds =>
      { mintedIds := mintedIds, lastMintedId := lastMintedId }
  | _, _ => none

/-- The tracking record read from the text of the tracking file: `fs.readFile` has
returned `data`, `JSON.parse(data)` is taken as a tracking record; `none` when the text
is not that of a tracking record, which does not mean that reading it throws. -/
def readTrackingFile (data : String) : Option MintTrackingRecord :=
  match JSON.parse data with
  | none => none
  | some value => toMintTrackingRecord value

/-- A tracking file with the ids 0, 1 and 3 and the sequence pointer 3. -/
def sampleRecord : MintTrackingRecord := { mintedIds := [0, 1, 3], lastMintedId := 3 }


/-- The tokens of the items of a non-empty array after the first one. -/
def itemsTailTokens : List Int → List Token
  | [] => []
  | n :: rest => .valueSeparator :: .number n :: itemsTailTokens rest

/-- The tokens of a printed array of integers. -/
def arrayTokens : List Int → List Token
  | [] => [.beginArray, .endArray]
  | n :: rest => [.beginArray, .number n] ++ itemsTailTokens rest ++ [.endArray]

/-- The tokens of a printed tracking record. -/
def recordTokens (trackingData : MintTrackingRecord) : List Token :=
  [.beginObject, .string "mintedIds", .nameSeparator] ++ arrayTokens trackingData.mintedIds ++
    [.valueSeparator, .string "lastMintedId", .nameSeparator,
     .number trackingData.lastMintedId, .endObject]

/-- The JSON value of a tracking record. -/
def recordValue (trackingData : MintTrackingRecord) : Json :=
  .object [("mintedIds", .array (trackingData.mintedIds.map .number)),
           ("lastMintedId", .number trackingData.lastMintedId)]


/-! ## The tracking file, whatever it holds -/

/-- What the `try` block of `loadMintTrackingData` gets from the file: `fs.readFile` or
`JSON.parse` throws, or `JSON.parse` returns a value, a tracking record or not. -/
inductive TrackingFile where
  | unreadable
  | parsed (value : Json)

/-- The function `loadMintTrackingData` on the file itself. The `try` block returns the
parsed value as it is; only when reading or parsing throws does the `catch` block write
`initialData` to the file (`writeFileError`: that write throws) and return it. Returns
the value and the file as it is afterwards. -/
def TrackingFile.loadMintTrackingData (file : TrackingFile) (writeFileError : Option String) :
    Except String (Json × TrackingFile) :=
  match file with
  | .parsed value => .ok (value, .parsed value)
  | .unreadable =>
    match writeFileError with
    | some e => .error e
    | none => .ok (recordValue initialData, .parsed (recordValue initialData))

/-- The file of a server state. -/
def ServerState.trackingFile (s : ServerState) : TrackingFile :=
  match s.tracking with
  | none => .unreadable
  | some trackingData => .parsed (recordValue trackingData)


/-! ## Administrative resets and runs of counter operations (`src/firebaseAuth.js`) -/

/-- The function `resetWalletMintCount`: the wallet's count document is deleted; when the
delete throws (`deleteFails`) the function rethrows and the document stays. -/
def resetWalletMintCount (deleteFails : Bool) (s : ServerState) (walletAddress : String) :
    Option ServerState :=
  if deleteFails then none
  else some { s with
    walletMintCounts := Function.update s.walletMintCounts walletAddress none }

/-- The function `resetTierMintCount`: as `resetWalletMintCount`, keyed by tier name. -/
def resetTierMintCount (deleteFails : Bool) (s : ServerState) (tierName : String) :
    Option ServerState :=
  if deleteFails then none
  else some { s with
    tierMintCounts := Function.update s.tierMintCounts tierName none }

/-- One call of an operation on the count documents, with the outcomes of its Firestore
calls. -/
inductive CountOperation where
  | incrementWalletMintCount (env : Env) (walletAddress mintSignature : String)
  | resetWalletMintCount (deleteFails : Bool) (walletAddress : String)
  | incrementTierMintCount (env : Env) (tierName mintSignature walletAddress : String)
  | resetTierMintCount (deleteFails : Bool) (tierName : String)

/-- The store after one operation; an operation that throws has changed nothing. -/
def applyCountOperation (s : ServerState) : CountOperation → ServerState
  | .incrementWalletMintCount env walletAddress mintSignature =>
    match incrementWalletMintCount env s walletAddress mintSignature with
    | none => s
    | some (_, s1) => s1
  | .resetWalletMintCount deleteFails walletAddress =>
    match resetWalletMintCount deleteFails s walletAddress with
    | none => s
    | some s1 => s1
  | .incrementTierMintCount env tierName mintSignature walletAddress =>
    match incrementTierMintCount env s tierName mintSignature walletAddress with
    | none => s
    | some (_, s1) => s1
  | .resetTierMintCount deleteFails tierName =>
    match resetTierMintCount deleteFails s tierName with
    | none => s
    | some s1 => s1

/-- The store after a sequence of operations. -/
def applyCountOperations (s : ServerState) : List CountOperation → ServerState
  | [] => s
  | operation :: rest => applyCountOperations (applyCountOperation s operation) rest

/-- In every count document `mintCount` is the length of `mintTransactions`. -/
def countsConsistent (s : ServerState) : Prop :=
  (∀ walletAddress data, s.walletMintCounts walletAddress = some data →
    data.mintCount = data.mintTransactions.length) ∧
  (∀ tierName data, s.tierMintCounts tierName = some data →
    data.mintCount = data.mintTransactions.length)


/-- The element that a request of a run adds to the `mintTransactions` of a wallet: the
`transactionId` of its success response, when the request is by that wallet. -/
def recordedSignature (walletAddress : String) (entry : MintRequest × Response) :
    Option String :=
  match entry.2 with
  | .success _ _ transactionId =>
    if entry.1.userWallet = walletAddress then some transactionId else none
  | _ => none

/-- The `transactionId`s of the successful mints by a wallet in the log of a run, in
order. -/
def mintSignaturesOf (walletAddress : String) (log : List (MintRequest × Response)) :
    List String :=
  log.filterMap (recordedSignature walletAddress)


/-! ## The payment transaction as fetched (`getTransactionAmount`) -/

/-- A transaction as `connection.getTransaction` returns it, as far as
`getTransactionAmount` looks at it: `transaction.message.accountKeys` (the first key is
the fee payer, which the code calls the sender; the recipient is among the others),
`meta.preBalances` and `meta.postBalances` (one entry per account key) and `meta.fee`,
the balances and the fee as JavaScript numbers. -/
structure ConfirmedTransaction where
  sender : String
  otherAccountKeys : List String
  senderPreBalance : Int
  otherPreBalances : List Int
  senderPostBalance : Int
  otherPostBalances : List Int
  fee : Int

/-- The three numbers that `getTransactionAmount` computes with: `preBalances[0]`,
`postBalances[0]` and `meta.fee`. -/
def ConfirmedTransaction.toPaymentTx (tx : ConfirmedTransaction) : PaymentTx :=
  { preBalance := tx.senderPreBalance, postBalance := tx.senderPostBalance, fee := tx.fee }

/-- The request environment in which `connection.getTransaction` returns `tx` for the
payment signature of the request. -/
def Env.withPayment (env : Env) (tx : ConfirmedTransaction) : Env :=
  { env with paymentTx := .ok (some tx.toPaymentTx) }

/-- Whether a call submits a mint transaction. -/
def Call.isSubmission : Call → Bool
  | .sendAndConfirm _ _ => true
  | _ => false

/-- A payment of 0.5 SOL sent by `carol` to `merchant`. -/
def carolPays : ConfirmedTransaction :=
  { sender := "carol", otherAccountKeys := ["merchant", "11111111111111111111111111111111"],
    senderPreBalance := 800005000, otherPreBalances := [0, 1],
    senderPostBalance := 300000000, otherPostBalances := [500000000, 1], fee := 5000 }

/-- A payment of 0.5 SOL sent by `dave` to himself. -/
def davePays : ConfirmedTransaction :=
  { sender := "dave", otherAccountKeys := ["dave2"],
    senderPreBalance := 800005000, otherPreBalances := [7],
    senderPostBalance := 300000000, otherPostBalances := [500000007], fee := 5000 }

/-- As `freshState`, with `alice` and `bob` authorized. -/
def twoWallets : ServerState :=
  { freshState with
    authorizedWallets := fun w =>
      if w = "alice" ∨ w = "bob" then some { expiresAt := none } else none }


/-! ## Runs of mint and airdrop requests -/

/-- A request to one of the two minting endpoints. -/
inductive Request where
  | mint (req : MintRequest)
  | airdrop (req : AirdropRequest)

/-- The handler of the endpoint of a request. -/
def handleRequest (tiers : List PricingTier) (adminWallet : String) (env : Env)
    (s : ServerState) : Request → Outcome
  | .mint req => mintHandler tiers env s req
  | .airdrop req => airdropHandler adminWallet env s req

/-- A sequential run of mint and airdrop requests: each request is handled in the state
the previous one left. Returns the final state and, in order, the outcome of each
request. -/
def runRequests (tiers : List PricingTier) (adminWallet : String) (s : ServerState) :
    List (Env × Request) → ServerState × List Outcome
  | [] => (s, [])
  | (env, request) :: rest =>
    let out := handleRequest tiers adminWallet env s request
    let later := runRequests tiers adminWallet out.state rest
    (later.1, out :: later.2)

/-- The id that a request has minted according to its response. -/
def Outcome.mintedId (out : Outcome) : Option Int :=
  match out.response with
  | .success nftNumber _ _ => some nftNumber
  | _ => none

/-- The ids of the success responses of a run, in order. -/
def mintedInRun (log : List Outcome) : List Int :=
  log.filterMap Outcome.mintedId


/-! ## Two mint requests in flight

The handler of `POST /api/mint` is an `async` function: it gives up control at each
`await`, and the handler of another request may run in between. A request in flight is
modelled by the stage it has reached; one step runs one awaited call together with the
synchronous code that follows it up to the next `await`. The Firestore transaction of an
increment is one step. -/

/-- The stage a mint request in flight has reached, named after the awaited call that
runs next, with the local variables of the handler that are set by then. -/
inductive Stage where
  | tierGuard
  | authorizationGuard (currentTier : PricingTier)
  | paymentGuard (currentTier : PricingTier)
  | detailsGuard (currentTier : PricingTier)
  | allocation (currentTier : PricingTier)
  | submission (currentTier : PricingTier) (nftNumber : Int)
  | leafParse (currentTier : PricingTier) (nftNumber : Int) (mintSignature : String)
  | recording (currentTier : PricingTier) (nftNumber : Int) (mintSignature assetId : String)
  | walletCount (currentTier : PricingTier) (nftNumber : Int) (mintSignature assetId : String)
  | tierCount (currentTier : PricingTier) (nftNumber : Int) (mintSignature assetId : String)
  | responded (response : Response)

/-- A mint request in flight: the outcomes of its external calls, its body and its
stage. -/
structure MintInFlight where
  env : Env
  req : MintRequest
  stage : Stage

/-- One step of a request in flight on the shared state: the code of `mintHandler`
between two awaits. A request that has responded does nothing more, and a request whose
forward scan never ends stays at its allocation stage. -/
def MintInFlight.step (tiers : List PricingTier) (task : MintInFlight) (s : ServerState) :
    MintInFlight × ServerState :=
  match task.stage with
  | .tierGuard =>
    match getCurrentTier tiers task.env.currentTime with
    | none => ({ task with stage := .responded (.rejected 410 .NO_ACTIVE_TIER) }, s)
    | some currentTier =>
      if getTierMintedCount task.env s currentTier.name ≥ currentTier.maxSupply then
        ({ task with stage := .responded (.rejected 410 .TIER_SUPPLY_EXHAUSTED) }, s)
      else ({ task with stage := .authorizationGuard currentTier }, s)
  | .authorizationGuard currentTier =>
    if isWalletAuthorized task.env s task.req.userWallet = false then
      ({ task with stage := .responded (.rejected 403 .WALLET_NOT_AUTHORIZED) }, s)
    else ({ task with stage := .paymentGuard currentTier }, s)
  | .paymentGuard currentTier =>
    match getTransactionAmount task.env with
    | .error e => ({ task with stage := .responded (.failure 500 e) }, s)
    | .ok amount =>
      if jsMul amount LAMPORTS_PER_SOL ≠ currentTier.priceLamports then
        ({ task with stage := .responded (.rejected 409 .INSUFFICIENT_PAYMENT) }, s)
      else if isTransactionProcessed s.processed task.req.paymentSignature = true then
        ({ task with stage := .responded (.rejected 409 .DUPLICATE_TRANSACTION) }, s)
      else ({ task with stage := .detailsGuard currentTier }, s)
  | .detailsGuard currentTier =>
    if task.env.txDetailsError.isSome = true then
      ({ task with stage := .responded (.rejected 400 .TRANSACTION_VERIFICATION_FAILED) }, s)
    else ({ task with stage := .allocation currentTier }, s)
  | .allocation currentTier =>
    match allocateMintId task.env s with
    | .error e => ({ task with stage := .responded (.failure 500 e) }, s)
    | .unending => (task, s)
    | .ok (nftNumber, s1) =>
      if nftNumber ≥ MAX_SUPPLY then
        ({ task with stage := .responded (.rejected 410 .MAX_SUPPLY_REACHED) }, s1)
      else ({ task with stage := .submission currentTier nftNumber }, s1)
  | .submission currentTier nftNumber =>
    match task.env.sendAndConfirm with
    | .error e => ({ task with stage := .responded (.failure 500 e) }, s)
    | .ok mintSignature =>
      ({ task with stage := .leafParse currentTier nftNumber mintSignature }, s)
  | .leafParse currentTier nftNumber mintSignature =>
    match task.env.parseLeaf with
    | .error e => ({ task with stage := .responded (.failure 500 e) }, s)
    | .ok assetId =>
      ({ task with stage := .recording currentTier nftNumber mintSignature assetId }, s)
  | .recording currentTier nftNumber mintSignature assetId =>
    match recordMintedId task.env s nftNumber with
    | .error e => ({ task with stage := .responded (.failure 500 e) }, s)
    | .ok (s1, _) =>
      match task.env.addProcessedError with
      | some e => ({ task with stage := .responded (.failure 500 e) }, s1)
      | none =>
        ({ task with stage := .walletCount currentTier nftNumber mintSignature assetId },
         { s1 with
           processed := addProcessedTransaction s1.processed task.req.paymentSignature })
  | .walletCount currentTier nftNumber mintSignature assetId =>
    match incrementWalletMintCount task.env s task.req.userWallet mintSignature with
    | none => ({ task with stage := .responded (.success nftNumber assetId mintSignature) }, s)
    | some (_, s1) =>
      ({ task with stage := .tierCount currentTier nftNumber mintSignature assetId }, s1)
  | .tierCount currentTier nftNumber mintSignature assetId =>
    match incrementTierMintCount task.env s currentTier.name mintSignature
        task.req.userWallet with
    | none => ({ task with stage := .responded (.success nftNumber assetId mintSignature) }, s)
    | some (_, s1) =>
      ({ task with stage := .responded (.success nftNumber assetId mintSignature) }, s1)
  | .responded _ => (task, s)

/-- A number of consecutive steps of one request in flight. -/
def MintInFlight.run (tiers : List PricingTier) :
    Nat → MintInFlight → ServerState → MintInFlight × ServerState
  | 0, task, s => (task, s)
  | k + 1, task, s => MintInFlight.run tiers k (task.step tiers s).1 (task.step tiers s).2

/-- Two mint requests in flight and the state they share. -/
structure Server where
  first : MintInFlight
  second : MintInFlight
  state : ServerState

/-- One step of the server: the second request moves when `second` is true, the first
one otherwise. -/
def Server.step (tiers : List PricingTier) (server : Server) (second : Bool) : Server :=
  if second then
    { server with
      second := (server.second.step tiers server.state).1,
      state := (server.second.step tiers server.state).2 }
  else
    { server with
      first := (server.first.step tiers server.state).1,
      state := (server.first.step tiers server.state).2 }

/-- An interleaving of the two requests: the schedule says which request moves at each
step. -/
def Server.run (tiers : List PricingTier) : Server → List Bool → Server
  | server, [] => server
  | server, second :: rest => Server.run tiers (server.step tiers second) rest

/-- The number of increments of the count document of a wallet that a request in flight
has carried out: one when it is past the wallet count step, is by that wallet and its
increment did not throw. -/
def MintInFlight.counted (task : MintInFlight) (walletAddress : String) : Nat :=
  if task.req.userWallet = walletAddress ∧ task.env.walletIncrementFails = false then
    match task.stage with
    | .tierCount _ _ _ _ => 1
    | .responded response => if response.isSuccess = true then 1 else 0
    | _ => 0
  else 0

/-- As `gapState`, with one mint of `alice` counted: her stored `mintCount` is 1. -/
def aliceHasOne : ServerState :=
  { gapState with
    walletMintCounts := fun w =>
      if w = "alice" then some { mintCount := 1, mintTransactions := ["m0"] } else none }

/-- Two requests of `alice`, with the payments `p1` and `p2`, arriving at the start of
the first tier on the server on which her `mintCount` is 1. -/
def aliceTwice : Server :=
  { first := { env := calmEnv 1752594900 500000000,
               req := { userWallet := "alice", paymentSignature := "p1" },
               stage := .tierGuard },
    second := { env := calmEnv 1752594900 500000000,
                req := { userWallet := "alice", paymentSignature := "p2" },
                stage := .tierGuard },
    state := aliceHasOne }


/-- An interleaving of the two requests of `aliceTwice`: the first request runs up to
the confirmation of its mint and the parsing of the leaf (seven steps), then the second
one does the same, then the first one does its bookkeeping (three steps) and then the
second one. -/
def raceSchedule : List Bool :=
  List.replicate 7 false ++ (List.replicate 7 true ++
    (List.replicate 3 false ++ List.replicate 3 true))


/-! ## Payments with balances above 2^53 lamports -/

/-- As `calmEnv`, with the payment transaction `tx`. -/
def payingEnv (currentTime : Int) (tx : PaymentTx) : Env :=
  { currentTime := currentTime, authTime := 0,
    paymentTx := .ok (some tx),
    sendAndConfirm := .ok "mintSig", parseLeaf := .ok "asset" }

/-- A payment transaction whose first account held 2^54 + 500000004 lamports before and
2 lamports after, and whose fee is 2^54 lamports: the net amount is 500000002 lamports. -/
def roundedTx : PaymentTx :=
  { preBalance := 18014398509481988, postBalance := 2, fee := 18014398009481984 }

/-- A payment transaction whose first account held 2^55 + 8 lamports before and 4
lamports after, and whose fee is 2^55 - 499999996 lamports: the net amount is 500000000
lamports. -/
def tieTx : PaymentTx :=
  { preBalance := 36028797018963976, postBalance := 4, fee := 36028796518963972 }


/-! ## A tracking file at 2^53 -/

/-- As `freshState`, with a tracking file whose sequence pointer is 2^53 - 1 while the id
2^53 is minted. -/
def stuckState : ServerState :=
  { freshState with
    tracking := some { mintedIds := [9007199254740992], lastMintedId := 9007199254740991 } }


/-! ## Theorems -/

/-! ### Rounding to double precision -/

theorem roundHalfEven_intCast (m : ℤ) : roundHalfEven (m : ℚ) = m := by
  simp [roundHalfEven]

theorem abs_roundHalfEven_sub_le (x : ℚ) : |(roundHalfEven x : ℚ) - x| ≤ 1 / 2 := by
  have h0 : 0 ≤ x - ⌊x⌋ := sub_nonneg.2 (Int.floor_le x)
  have h1 : x - ⌊x⌋ < 1 := by have := Int.lt_floor_add_one x; linarith
  unfold roundHalfEven
  rw [abs_le]
  split_ifs with ha hb hc
  · constructor <;> linarith
  · push_cast; constructor <;> linarith
  · have : x - ⌊x⌋ = 1 / 2 := le_antisymm (not_lt.1 hb) (not_lt.1 ha)
    constructor <;> linarith
  · have : x - ⌊x⌋ = 1 / 2 := le_antisymm (not_lt.1 hb) (not_lt.1 ha)
    push_cast; constructor <;> linarith

theorem int_log_eq_of_bounds {r : ℚ} {e : ℤ} (hr : 0 < r) (h1 : (2 : ℚ) ^ e ≤ r)
    (h2 : r < (2 : ℚ) ^ (e + 1)) : Int.log 2 r = e := by
  have a : e ≤ Int.log 2 r := (Int.zpow_le_iff_le_log (by norm_num) hr).1 (by exact_mod_cast h1)
  have b : Int.log 2 r < e + 1 := (Int.lt_zpow_iff_log_lt (by norm_num) hr).1 (by exact_mod_cast h2)
  omega

theorem abs_roundDouble_sub_le (q : ℚ) : |roundDouble q - q| ≤ |q| / 2 ^ 53 := by
  unfold roundDouble
  split_ifs with h0
  · simp [h0]
  · have hq : 0 < |q| := abs_pos.2 h0
    set e := Int.log 2 |q| with he
    have hu : (0 : ℚ) < 2 ^ (e - 52) := zpow_pos (by norm_num) _
    have hle : (2 : ℚ) ^ e ≤ |q| := by
      have := Int.zpow_log_le_self (b := 2) (r := |q|) (by norm_num) hq
      simpa using this
    have hr := abs_roundHalfEven_sub_le (q / 2 ^ (e - 52))
    have key : (roundHalfEven (q / 2 ^ (e - 52)) : ℚ) * 2 ^ (e - 52) - q
        = ((roundHalfEven (q / 2 ^ (e - 52)) : ℚ) - q / 2 ^ (e - 52)) * 2 ^ (e - 52) := by
      field_simp
    rw [key, abs_mul, abs_of_pos hu]
    have h2 : (2 : ℚ) ^ (e - 52) = 2 ^ e / 2 ^ 52 := by
      rw [zpow_sub₀ (by norm_num)]; norm_cast
    calc |(roundHalfEven (q / 2 ^ (e - 52)) : ℚ) - q / 2 ^ (e - 52)| * 2 ^ (e - 52)
        ≤ 1 / 2 * 2 ^ (e - 52) := by gcongr
      _ = 2 ^ e / 2 ^ 53 := by rw [h2]; ring
      _ ≤ |q| / 2 ^ 53 := by gcongr

theorem roundDouble_scaled (m k : ℤ) (h1 : 2 ^ 52 ≤ m) (h2 : m < 2 ^ 53) :
    roundDouble ((m : ℚ) * 2 ^ k) = (m : ℚ) * 2 ^ k := by
  have hm : (0 : ℚ) < m := by
    have : (0 : ℤ) < m := lt_of_lt_of_le (by norm_num) h1
    exact_mod_cast this
  have hk : (0 : ℚ) < 2 ^ k := zpow_pos (by norm_num) _
  have hpos : (0 : ℚ) < (m : ℚ) * 2 ^ k := mul_pos hm hk
  have hlog : Int.log 2 |(m : ℚ) * 2 ^ k| = 52 + k := by
    rw [abs_of_pos hpos]
    apply int_log_eq_of_bounds hpos
    · rw [zpow_add₀ (by norm_num)]
      have : ((2 : ℚ) ^ (52 : ℤ)) ≤ m := by exact_mod_cast h1
      gcongr
    · rw [show (52 + k + 1 : ℤ) = 53 + k by ring, zpow_add₀ (by norm_num)]
      have : (m : ℚ) < (2 : ℚ) ^ (53 : ℤ) := by exact_mod_cast h2
      gcongr
  unfold roundDouble
  rw [if_neg hpos.ne', hlog]
  have : (m : ℚ) * 2 ^ k / 2 ^ (52 + k - 52) = m := by
    rw [show (52 + k - 52 : ℤ) = k by ring]; field_simp
  rw [this, roundHalfEven_intCast, show (52 + k - 52 : ℤ) = k by ring]


theorem roundDouble_half : roundDouble (1 / 2) = 1 / 2 := by
  have h := roundDouble_scaled (2 ^ 52) (-53) (by norm_num) (by norm_num)
  have e : ((2 ^ 52 : ℤ) : ℚ) * 2 ^ (-53 : ℤ) = 1 / 2 := by norm_num [zpow_neg]
  rwa [e] at h


theorem roundtrip_eq_imp (x : ℤ) (p : ℤ) (hp0 : 0 ≤ p) (hp : p ≤ 10000000000)
    (h : roundDouble (roundDouble ((x : ℚ) / 1000000000) * 1000000000) = p) : x = p := by
  set a := roundDouble ((x : ℚ) / 1000000000) with ha
  have e1 := abs_roundDouble_sub_le ((x : ℚ) / 1000000000)
  have e2 := abs_roundDouble_sub_le (a * 1000000000)
  rw [← ha] at e1
  rw [h] at e2
  rw [abs_div, abs_of_pos (by norm_num : (0 : ℚ) < 1000000000)] at e1
  rw [abs_mul, abs_of_pos (by norm_num : (0 : ℚ) < 1000000000)] at e2
  have hx : |(p : ℚ) - x| < 1 := by
    have t1 : |a * 1000000000 - x| ≤ |(x : ℚ)| / 2 ^ 53 := by
      have : a * 1000000000 - x = (a - x / 1000000000) * 1000000000 := by ring
      rw [this, abs_mul, abs_of_pos (by norm_num : (0 : ℚ) < 1000000000)]
      calc |a - x / 1000000000| * 1000000000 ≤ |(x : ℚ)| / 1000000000 / 2 ^ 53 * 1000000000 := by
            gcongr
        _ = |(x : ℚ)| / 2 ^ 53 := by ring
    have t2 : |a| * 1000000000 ≤ |(x : ℚ)| + |(x : ℚ)| / 2 ^ 53 := by
      have : |a * 1000000000| ≤ |a * 1000000000 - x| + |(x : ℚ)| := by
        have := abs_add (a * 1000000000 - x) x
        simpa using this
      rw [abs_mul, abs_of_pos (by norm_num : (0 : ℚ) < 1000000000)] at this
      linarith
    have t3 : |(p : ℚ) - x| ≤ |(p : ℚ) - a * 1000000000| + |a * 1000000000 - x| := by
      have := abs_add ((p : ℚ) - a * 1000000000) (a * 1000000000 - x)
      simpa using this
    have t4 : |(x : ℚ)| ≤ |(p : ℚ) - x| + p := by
      have := abs_add ((x : ℚ) - p) p
      have hp' : |(p : ℚ)| = p := abs_of_nonneg (by exact_mod_cast hp0)
      rw [abs_sub_comm (p : ℚ) x]
      simpa [hp'] using this
    have hpq : (p : ℚ) ≤ 10000000000 := by exact_mod_cast hp
    have hxn : 0 ≤ |(x : ℚ)| := abs_nonneg _
    have hdn : 0 ≤ |(p : ℚ) - x| := abs_nonneg _
    by_contra hcon
    push_neg at hcon
    have b1 : |(p : ℚ) - x| ≤ (|a| * 1000000000) / 2 ^ 53 + |(x : ℚ)| / 2 ^ 53 := by linarith
    have b2 : |(p : ℚ) - x| ≤ (|(x : ℚ)| + |(x : ℚ)| / 2 ^ 53) / 2 ^ 53 + |(x : ℚ)| / 2 ^ 53 := by
      have : (|a| * 1000000000) / 2 ^ 53 ≤ (|(x : ℚ)| + |(x : ℚ)| / 2 ^ 53) / 2 ^ 53 := by gcongr
      linarith
    have b3 : |(p : ℚ) - x| ≤ |(x : ℚ)| * (3 / 2 ^ 53) := by
      have : |(x : ℚ)| / 2 ^ 53 / 2 ^ 53 ≤ |(x : ℚ)| / 2 ^ 53 := by
        apply div_le_self (by positivity); norm_num
      have e : (|(x : ℚ)| + |(x : ℚ)| / 2 ^ 53) / 2 ^ 53 + |(x : ℚ)| / 2 ^ 53
          = 2 * (|(x : ℚ)| / 2 ^ 53) + |(x : ℚ)| / 2 ^ 53 / 2 ^ 53 := by ring
      rw [e] at b2
      have : |(x : ℚ)| * (3 / 2 ^ 53) = 3 * (|(x : ℚ)| / 2 ^ 53) := by ring
      linarith
    have b4 : |(p : ℚ) - x| ≤ (|(p : ℚ) - x| + 10000000000) * (3 / 2 ^ 53) := by
      calc |(p : ℚ) - x| ≤ |(x : ℚ)| * (3 / 2 ^ 53) := b3
        _ ≤ (|(p : ℚ) - x| + 10000000000) * (3 / 2 ^ 53) := by
          apply mul_le_mul_of_nonneg_right (by linarith) (by norm_num)
    norm_num at b4
    linarith
  have hz : |p - x| < 1 := by exact_mod_cast hx
  have := Int.abs_lt_one_iff.1 hz
  omega
theorem roundDouble_intCast (n : ℤ) (h : |n| < 2 ^ 53) : roundDouble (n : ℚ) = n := by
  unfold roundDouble
  split_ifs with h0
  · exact h0.symm
  · have hq : 0 < |(n : ℚ)| := abs_pos.2 h0
    have hlt : Int.log 2 |(n : ℚ)| < 53 := by
      apply (Int.lt_zpow_iff_log_lt (by norm_num) hq).1
      have : |(n : ℚ)| < ((2 ^ 53 : ℤ) : ℚ) := by
        rw [← Int.cast_abs]; exact_mod_cast h
      norm_num at this ⊢
      exact this
    obtain ⟨k, hk⟩ : ∃ k : ℕ, Int.log 2 |(n : ℚ)| - 52 = -(k : ℤ) :=
      ⟨(52 - Int.log 2 |(n : ℚ)|).toNat, by omega⟩
    rw [hk, zpow_neg, zpow_natCast]
    have e : (n : ℚ) / (2 ^ k)⁻¹ = ((n * 2 ^ k : ℤ) : ℚ) := by
      push_cast; field_simp
    rw [e, roundHalfEven_intCast]
    push_cast; field_simp

theorem paymentRoundTrip_iff (x p : ℤ) (hp0 : 0 < p) (hp : p ≤ 10000000000)
    (hdiv : roundDouble ((p : ℚ) / 1000000000) = (p : ℚ) / 1000000000) :
    roundDouble (roundDouble ((x : ℚ) / 1000000000) * 1000000000) = p ↔ x = p := by
  constructor
  · exact roundtrip_eq_imp x p hp0.le hp
  · rintro rfl
    rw [hdiv]
    have : (x : ℚ) / 1000000000 * 1000000000 = x := by field_simp
    rw [this]
    apply roundDouble_intCast
    rw [abs_of_pos hp0]
    omega



theorem roundHalfEven_add_half (m : ℤ) :
    roundHalfEven ((m : ℚ) + 1 / 2) = if m % 2 = 0 then m else m + 1 := by
  have hf : ⌊(m : ℚ) + 1 / 2⌋ = m := by
    rw [Int.floor_eq_iff]
    constructor <;> norm_num
  unfold roundHalfEven
  rw [hf]
  norm_num

/-- The double nearest to a positive rational, given its binary exponent. -/
theorem roundDouble_of_exponent {q : ℚ} {e : ℤ} (h1 : (2 : ℚ) ^ e ≤ q)
    (h2 : q < (2 : ℚ) ^ (e + 1)) :
    roundDouble q = roundHalfEven (q / 2 ^ (e - 52)) * 2 ^ (e - 52) := by
  have hq : 0 < q := lt_of_lt_of_le (zpow_pos (by norm_num) _) h1
  unfold roundDouble
  rw [if_neg hq.ne', abs_of_pos hq, int_log_eq_of_bounds hq h1 h2]

/-- Rounding an integer to double precision gives an integer. -/
theorem roundDouble_intCast_isInt (n : ℤ) : ∃ k : ℤ, roundDouble (n : ℚ) = k := by
  by_cases h : |n| < 2 ^ 53
  · exact ⟨n, roundDouble_intCast n h⟩
  · have hn0 : (n : ℚ) ≠ 0 := by
      intro h0
      have : n = 0 := by exact_mod_cast h0
      subst this
      norm_num at h
    have hq : 0 < |(n : ℚ)| := abs_pos.2 hn0
    have hle : (53 : ℤ) ≤ Int.log 2 |(n : ℚ)| := by
      apply (Int.zpow_le_iff_le_log (by norm_num) hq).1
      have : ((2 ^ 53 : ℤ) : ℚ) ≤ |(n : ℚ)| := by
        rw [← Int.cast_abs]; exact_mod_cast not_lt.1 h
      norm_num at this ⊢
      exact this
    obtain ⟨j, hj⟩ : ∃ j : ℕ, Int.log 2 |(n : ℚ)| - 52 = (j : ℤ) :=
      ⟨(Int.log 2 |(n : ℚ)| - 52).toNat, by omega⟩
    refine ⟨roundHalfEven ((n : ℚ) / 2 ^ (Int.log 2 |(n : ℚ)| - 52)) * 2 ^ j, ?_⟩
    unfold roundDouble
    rw [if_neg hn0, hj, zpow_natCast]
    push_cast
    rfl

/-- A double-precision subtraction of integers gives an integer. -/
theorem jsSub_isInt (a b : ℤ) : ∃ k : ℤ, jsSub (a : ℚ) (b : ℚ) = k := by
  obtain ⟨k, hk⟩ := roundDouble_intCast_isInt (a - b)
  exact ⟨k, by unfold jsSub; rw [← hk]; push_cast; rfl⟩

/-- A double-precision subtraction of integers is exact when the difference is below
2^53 in magnitude. -/
theorem jsSub_exact (a b : ℤ) (h : |a - b| < 2 ^ 53) :
    jsSub (a : ℚ) (b : ℚ) = ((a - b : ℤ) : ℚ) := by
  unfold jsSub
  rw [← roundDouble_intCast (a - b) h]
  push_cast
  rfl

/-- An integer that rounds to an integer below 2^52 in magnitude is that integer. -/
theorem roundDouble_intCast_eq_iff (x p : ℤ) (hp : |p| < 2 ^ 52) :
    roundDouble (x : ℚ) = p ↔ x = p := by
  constructor
  · intro h
    by_cases hx : |x| < 2 ^ 53
    · rw [roundDouble_intCast x hx] at h
      exact_mod_cast h
    · exfalso
      have e1 := abs_roundDouble_sub_le (x : ℚ)
      rw [h] at e1
      have hx' : ((2 : ℚ) ^ 53) ≤ |(x : ℚ)| := by
        have : ((2 ^ 53 : ℤ) : ℚ) ≤ |(x : ℚ)| := by
          rw [← Int.cast_abs]; exact_mod_cast not_lt.1 hx
        norm_num at this ⊢
        exact this
      have hp' : |(p : ℚ)| < 2 ^ 52 := by
        have : |(p : ℚ)| < ((2 ^ 52 : ℤ) : ℚ) := by
          rw [← Int.cast_abs]; exact_mod_cast hp
        norm_num at this ⊢
        exact this
      have t : |(x : ℚ)| ≤ |(p : ℚ) - x| + |(p : ℚ)| := by
        have := abs_add ((x : ℚ) - p) p
        rw [abs_sub_comm (p : ℚ) x]
        simpa using this
      have hdiv : |(x : ℚ)| / 2 ^ 53 ≤ |(x : ℚ)| / 2 := by
        apply div_le_div_of_nonneg_left (abs_nonneg _) (by norm_num) (by norm_num)
      norm_num at hx' hp' hdiv
      linarith
  · rintro rfl
    exact roundDouble_intCast x (lt_trans hp (by norm_num))

/-- The difference `18014398509481988 - 2` is halfway between two doubles and is rounded
to the one with the even significand. -/
theorem roundDouble_tie_down : roundDouble 18014398509481986 = 18014398509481984 := by
  rw [@roundDouble_of_exponent 18014398509481986 54 (by norm_num) (by norm_num)]
  have e : (18014398509481986 : ℚ) / 2 ^ ((54 : ℤ) - 52) = ((4503599627370496 : ℤ) : ℚ) + 1 / 2 := by
    norm_num
  rw [e, roundHalfEven_add_half]
  norm_num

/-- The difference `36028797018963976 - 4` is halfway between two doubles and is rounded
to the one with the even significand. -/
theorem roundDouble_tie_down_55 : roundDouble 36028797018963972 = 36028797018963968 := by
  rw [@roundDouble_of_exponent 36028797018963972 55 (by norm_num) (by norm_num)]
  have e : (36028797018963972 : ℚ) / 2 ^ ((55 : ℤ) - 52) = ((4503599627370496 : ℤ) : ℚ) + 1 / 2 := by
    norm_num
  rw [e, roundHalfEven_add_half]
  norm_num


/-- When the two balances differ by less than 2^64 lamports (as two u64 values do), the
amount that the code computes cannot be an integer `p` from which the exact net amount
is 4096 lamports or more away. -/
theorem jsSub_jsSub_ne_of_far (a b c p : ℤ) (hrange : |a - b| < 2 ^ 64) (hp : |p| < 2 ^ 52)
    (hfar : 2 ^ 12 ≤ |a - b - c - p|) : jsSub (jsSub (a : ℚ) (b : ℚ)) (c : ℚ) ≠ (p : ℚ) := by
  intro h
  have e1 := abs_roundDouble_sub_le ((a : ℚ) - b)
  have e2 := abs_roundDouble_sub_le (jsSub (a : ℚ) (b : ℚ) - c)
  unfold jsSub at h e2
  rw [h] at e2
  set d := roundDouble ((a : ℚ) - b) with hd
  have hr : |(a : ℚ) - b| < 2 ^ 64 := by
    have : |((a - b : ℤ) : ℚ)| < ((2 ^ 64 : ℤ) : ℚ) := by
      rw [← Int.cast_abs]; exact_mod_cast hrange
    push_cast at this
    exact this
  have hp' : |(p : ℚ)| < 2 ^ 52 := by
    have : |(p : ℚ)| < ((2 ^ 52 : ℤ) : ℚ) := by
      rw [← Int.cast_abs]; exact_mod_cast hp
    push_cast at this
    exact this
  have hf : (2 : ℚ) ^ 12 ≤ |(a : ℚ) - b - c - p| := by
    have : ((2 ^ 12 : ℤ) : ℚ) ≤ |((a - b - c - p : ℤ) : ℚ)| := by
      rw [← Int.cast_abs]; exact_mod_cast hfar
    push_cast at this
    exact this
  have k1 : |d - (a - b)| < 2 ^ 11 := by
    have : |(a : ℚ) - b| / 2 ^ 53 < 2 ^ 11 := by
      rw [div_lt_iff₀ (by norm_num)]
      calc |(a : ℚ) - b| < 2 ^ 64 := hr
        _ = 2 ^ 11 * 2 ^ 53 := by norm_num
    linarith
  -- the distance of `d - c` from `p`
  have t1 : |d - c| ≤ |(p : ℚ) - (d - c)| + |(p : ℚ)| := by
    have := abs_add ((d - c) - p) p
    rw [abs_sub_comm (p : ℚ) (d - c)]
    simpa using this
  have t2 : |d - c| / 2 ^ 53 ≤ |d - c| / 2 := by
    apply div_le_div_of_nonneg_left (abs_nonneg _) (by norm_num) (by norm_num)
  have k2 : |(p : ℚ) - (d - c)| < 2 ^ 52 := by
    have hn := abs_nonneg ((p : ℚ) - (d - c))
    linarith
  have k3 : |(p : ℚ) - (d - c)| < 1 := by
    have : |d - c| < 2 ^ 53 := by linarith
    have : |d - c| / 2 ^ 53 < 1 := by
      rw [div_lt_iff₀ (by norm_num)]; linarith
    linarith
  have t3 : |(a : ℚ) - b - c - p| ≤ |d - (a - b)| + |(p : ℚ) - (d - c)| := by
    have := abs_add ((a : ℚ) - b - d) (d - c - p)
    rw [abs_sub_comm d ((a : ℚ) - b), abs_sub_comm (p : ℚ) (d - c)]
    have e : (a : ℚ) - b - d + (d - c - p) = a - b - c - p := by ring
    rw [e] at this
    exact this
  norm_num at hf k1 k3 t3
  linarith


theorem roundDouble_two_pow_53 : roundDouble 9007199254740992 = 9007199254740992 := by
  have h := roundDouble_scaled (2 ^ 52) 1 (by norm_num) (by norm_num)
  norm_num at h
  exact h

/-- The increment is exact up to 2^53. -/
theorem jsIncrement_exact (n : Int) (h1 : -2 ^ 53 ≤ n) (h2 : n < 2 ^ 53) :
    jsIncrement n = n + 1 := by
  unfold jsIncrement
  have e : (n : ℚ) + 1 = ((n + 1 : ℤ) : ℚ) := by push_cast; rfl
  rcases eq_or_lt_of_le (show n + 1 ≤ 2 ^ 53 by omega) with heq | hlt
  · rw [e, heq]
    have := roundDouble_two_pow_53
    norm_num at this ⊢
    rw [this]
    exact Int.floor_eq_iff.2 (by norm_num)
  · rw [e, roundDouble_intCast (n + 1) (by rw [abs_lt]; constructor <;> omega)]
    exact Int.floor_intCast _

/-- At 2^53 the increment leaves the number as it is: 2^53 + 1 is halfway between the
doubles 2^53 and 2^53 + 2 and is rounded to the one with the even significand. -/
theorem jsIncrement_two_pow_53 : jsIncrement 9007199254740992 = 9007199254740992 := by
  unfold jsIncrement
  have h : roundDouble (((9007199254740992 : ℤ) : ℚ) + 1) = 9007199254740992 := by
    rw [show (((9007199254740992 : ℤ) : ℚ) + 1) = 9007199254740993 by norm_num]
    rw [@roundDouble_of_exponent 9007199254740993 53 (by norm_num) (by norm_num)]
    have e : (9007199254740993 : ℚ) / 2 ^ ((53 : ℤ) - 52) =
        ((4503599627370496 : ℤ) : ℚ) + 1 / 2 := by norm_num
    rw [e, roundHalfEven_add_half]
    norm_num
  rw [h]
  exact Int.floor_eq_iff.2 (by norm_num)

theorem roundHalfEven_nonneg {x : ℚ} (h : 0 ≤ x) : 0 ≤ roundHalfEven x := by
  have hf : 0 ≤ ⌊x⌋ := Int.floor_nonneg.2 h
  unfold roundHalfEven
  split_ifs <;> omega

theorem roundDouble_nonneg {q : ℚ} (h : 0 ≤ q) : 0 ≤ roundDouble q := by
  unfold roundDouble
  split_ifs with h0
  · exact le_refl _
  · apply mul_nonneg
    · exact_mod_cast roundHalfEven_nonneg (div_nonneg h (zpow_pos (by norm_num) _).le)
    · exact (zpow_pos (by norm_num) _).le

/-- The increment of a number from -1 on is not negative. -/
theorem jsIncrement_nonneg (n : Int) (h : -1 ≤ n) : 0 ≤ jsIncrement n := by
  unfold jsIncrement
  apply Int.floor_nonneg.2
  apply roundDouble_nonneg
  have : (0 : ℚ) ≤ ((n + 1 : ℤ) : ℚ) := by exact_mod_cast (show (0 : ℤ) ≤ n + 1 by omega)
  push_cast at this
  exact this

theorem jsIncrement_neg_one : jsIncrement (-1) = 0 := by
  have := jsIncrement_exact (-1) (by norm_num) (by norm_num)
  simpa using this

theorem jsIncrement_zero : jsIncrement 0 = 1 := by
  have := jsIncrement_exact 0 (by norm_num) (by norm_num)
  simpa using this

theorem jsIncrement_one : jsIncrement 1 = 2 := by
  have := jsIncrement_exact 1 (by norm_num) (by norm_num)
  simpa using this

/-! ### Tier selection -/

theorem getCurrentTier_eq_none_iff (tiers : List PricingTier) (now : Int) :
    getCurrentTier tiers now = none ↔
      ∀ u ∈ tiers, ¬ (u.startDate ≤ now ∧ now < u.endDate) := by
  induction tiers with
  | nil => simp [getCurrentTier]
  | cons t rest ih =>
    unfold getCurrentTier
    by_cases h : now ≥ t.startDate ∧ now < t.endDate
    · simp only [if_pos h]
      constructor
      · intro hc; cases hc
      · intro hall; exact absurd h (hall t (List.mem_cons_self _ _))
    · simp only [if_neg h, ih, List.mem_cons, forall_eq_or_imp]
      constructor
      · intro hr; exact ⟨h, hr⟩
      · intro hr; exact hr.2

theorem getCurrentTier_eq_some_iff (tiers : List PricingTier) (now : Int) (t : PricingTier) :
    getCurrentTier tiers now = some t ↔
      ∃ pre post, tiers = pre ++ t :: post ∧ (t.startDate ≤ now ∧ now < t.endDate) ∧
        ∀ u ∈ pre, ¬ (u.startDate ≤ now ∧ now < u.endDate) := by
  induction tiers with
  | nil => simp [getCurrentTier]
  | cons a rest ih =>
    unfold getCurrentTier
    by_cases h : now ≥ a.startDate ∧ now < a.endDate
    · simp only [if_pos h, Option.some.injEq]
      constructor
      · rintro rfl
        exact ⟨[], rest, rfl, h, by simp⟩
      · rintro ⟨pre, post, heq, _, hpre⟩
        cases pre with
        | nil => simp only [List.nil_append, List.cons.injEq] at heq; exact heq.1
        | cons b pre' =>
          simp only [List.cons_append, List.cons.injEq] at heq
          exact absurd h (heq.1 ▸ hpre b (List.mem_cons_self _ _))
    · simp only [if_neg h, ih]
      constructor
      · rintro ⟨pre, post, rfl, ht, hpre⟩
        refine ⟨a :: pre, post, rfl, ht, ?_⟩
        intro u hu
        rcases List.mem_cons.1 hu with rfl | hu
        · exact h
        · exact hpre u hu
      · rintro ⟨pre, post, heq, ht, hpre⟩
        cases pre with
        | nil =>
          simp only [List.nil_append, List.cons.injEq] at heq
          exact absurd (heq.1 ▸ ht) h
        | cons b pre' =>
          simp only [List.cons_append, List.cons.injEq] at heq
          exact ⟨pre', post, heq.2, ht, fun u hu => hpre u (List.mem_cons_of_mem _ hu)⟩

/-- C1: for every tier list and time, `getCurrentTier` returns the first tier in
declaration order whose half-open window `[startDate, endDate)` contains the time and
`null` when there is none; a tier is selected at its `startDate` (when no earlier tier is
active) and never at its `endDate`; for the configured `PRICING_TIERS` each tier is
selected at its own `startDate` and no tier is active at any tier's `endDate`. -/
theorem getCurrentTier_first_in_window :
    (∀ (tiers : List PricingTier) (now : Int) (t : PricingTier),
      getCurrentTier tiers now = some t ↔
        ∃ pre post, tiers = pre ++ t :: post ∧ (t.startDate ≤ now ∧ now < t.endDate) ∧
          ∀ u ∈ pre, ¬ (u.startDate ≤ now ∧ now < u.endDate)) ∧
    (∀ (tiers : List PricingTier) (now : Int),
      getCurrentTier tiers now = none ↔
        ∀ u ∈ tiers, ¬ (u.startDate ≤ now ∧ now < u.endDate)) ∧
    (∀ (pre post : List PricingTier) (t : PricingTier), t.startDate < t.endDate →
      (∀ u ∈ pre, ¬ (u.startDate ≤ t.startDate ∧ t.startDate < u.endDate)) →
      getCurrentTier (pre ++ t :: post) t.startDate = some t) ∧
    (∀ (tiers : List PricingTier) (t : PricingTier),
      getCurrentTier tiers t.endDate ≠ some t) ∧
    (∀ t ∈ PRICING_TIERS, getCurrentTier PRICING_TIERS t.startDate = some t) ∧
    (∀ t ∈ PRICING_TIERS, getCurrentTier PRICING_TIERS t.endDate = none) := by
  refine ⟨getCurrentTier_eq_some_iff, getCurrentTier_eq_none_iff, ?_, ?_, ?_, ?_⟩
  · intro pre post t hlt hpre
    exact (getCurrentTier_eq_some_iff _ _ _).2 ⟨pre, post, rfl, ⟨le_refl _, hlt⟩, hpre⟩
  · intro tiers t h
    obtain ⟨_, _, _, ht, _⟩ := (getCurrentTier_eq_some_iff _ _ _).1 h
    exact lt_irrefl _ ht.2
  · intro t ht
    simp only [PRICING_TIERS, List.mem_cons, List.mem_singleton, List.not_mem_nil,
      or_false] at ht
    rcases ht with rfl | rfl | rfl | rfl <;>
      simp [PRICING_TIERS, getCurrentTier, spaceCadet, spaceVoyager, spaceExplorer, spacePioneer]
  · intro t ht
    simp only [PRICING_TIERS, List.mem_cons, List.mem_singleton, List.not_mem_nil,
      or_false] at ht
    rcases ht with rfl | rfl | rfl | rfl <;>
      simp [PRICING_TIERS, getCurrentTier, spaceCadet, spaceVoyager, spaceExplorer, spacePioneer]

/-- Witness for C1: at 2025-07-15T15:55:00Z, its `startDate`, the first configured tier is
selected from the list that holds only that tier. -/
theorem getCurrentTier_first_in_window_witness :
    spaceCadet.startDate < spaceCadet.endDate ∧
    getCurrentTier ([] ++ spaceCadet :: []) spaceCadet.startDate = some spaceCadet :=
  ⟨by decide, getCurrentTier_first_in_window.2.2.1 [] [] spaceCadet (by decide) (by simp)⟩

/-! ### The payment check -/

/-- The `priceLamports` of each configured tier is the double `priceSOL * LAMPORTS_PER_SOL`. -/
theorem pricingTiers_priceLamports (t : PricingTier) (ht : t ∈ PRICING_TIERS) :
    jsMul t.priceSOL LAMPORTS_PER_SOL = t.priceLamports := by
  simp only [PRICING_TIERS, List.mem_cons, List.mem_singleton, List.not_mem_nil,
    or_false] at ht
  unfold jsMul LAMPORTS_PER_SOL
  rcases ht with rfl | rfl | rfl | rfl <;>
    simp only [spaceCadet, spaceVoyager, spaceExplorer, spacePioneer]
  · have h := roundDouble_intCast 500000000 (by norm_num)
    norm_num at h ⊢; exact h
  · have h := roundDouble_intCast 1000000000 (by norm_num)
    norm_num at h ⊢; exact h
  · have h := roundDouble_intCast 5000000000 (by norm_num)
    norm_num at h ⊢; exact h
  · have h := roundDouble_intCast 10000000000 (by norm_num)
    norm_num at h ⊢; exact h

/-- For each configured tier the double-precision check
`(amountLamports / LAMPORTS_PER_SOL) * LAMPORTS_PER_SOL == priceLamports` holds exactly when
the integer `amountLamports` is the price. -/
theorem paymentCheck_iff (t : PricingTier) (ht : t ∈ PRICING_TIERS) (x : ℤ) :
    jsMul (jsDiv (x : ℚ) LAMPORTS_PER_SOL) LAMPORTS_PER_SOL = t.priceLamports ↔
      (x : ℚ) = t.priceLamports := by
  simp only [PRICING_TIERS, List.mem_cons, List.mem_singleton, List.not_mem_nil,
    or_false] at ht
  unfold jsMul jsDiv LAMPORTS_PER_SOL
  rcases ht with rfl | rfl | rfl | rfl <;>
    simp only [spaceCadet, spaceVoyager, spaceExplorer, spacePioneer]
  · have h := paymentRoundTrip_iff x 500000000 (by norm_num) (by norm_num)
      (by have := roundDouble_half; norm_num at this ⊢; exact this)
    simp only [Int.cast_ofNat] at h
    rw [h]
    refine ⟨fun hx => by subst hx; norm_num, fun hx => ?_⟩
    simp only at hx
    exact_mod_cast hx
  · have h := paymentRoundTrip_iff x 1000000000 (by norm_num) (by norm_num)
      (by have := roundDouble_intCast 1 (by norm_num); norm_num at this ⊢; exact this)
    simp only [Int.cast_ofNat] at h
    rw [h]
    refine ⟨fun hx => by subst hx; norm_num, fun hx => ?_⟩
    simp only at hx
    exact_mod_cast hx
  · have h := paymentRoundTrip_iff x 5000000000 (by norm_num) (by norm_num)
      (by have := roundDouble_intCast 5 (by norm_num); norm_num at this ⊢; exact this)
    simp only [Int.cast_ofNat] at h
    rw [h]
    refine ⟨fun hx => by subst hx; norm_num, fun hx => ?_⟩
    simp only at hx
    exact_mod_cast hx
  · have h := paymentRoundTrip_iff x 10000000000 (by norm_num) (by norm_num)
      (by have := roundDouble_intCast 10 (by norm_num); norm_num at this ⊢; exact this)
    simp only [Int.cast_ofNat] at h
    rw [h]
    refine ⟨fun hx => by subst hx; norm_num, fun hx => ?_⟩
    simp only at hx
    exact_mod_cast hx

/-! ### Wallet authorization -/

theorem isWalletAuthorized_eq_true_iff (env : Env) (s : ServerState) (walletAddress : String)
    (hauth : env.authReadFails = false) (hcount : env.walletCountReadFails = false) :
    isWalletAuthorized env s walletAddress = true ↔
      ∃ data, s.authorizedWallets walletAddress = some data ∧
        (data.expiresAt = none ∨ ∃ t, data.expiresAt = some t ∧ ¬ t < env.authTime) ∧
        storedWalletCount s walletAddress < MAX_MINTS_PER_WALLET := by
  unfold isWalletAuthorized getWalletMintCount storedWalletCount
  rw [hauth, hcount]
  cases hdoc : s.authorizedWallets walletAddress with
  | none => simp
  | some data =>
    cases hexp : data.expiresAt with
    | none => simp [hexp]
    | some t =>
      by_cases hlt : t < env.authTime
      · simp [hexp, hlt]
      · simp [hexp, hlt, not_lt.1 hlt]

theorem storedWalletCount_lt_of_authorized {env : Env} {s : ServerState} {w : String}
    (h : isWalletAuthorized env s w = true) (hcount : env.walletCountReadFails = false) :
    storedWalletCount s w < MAX_MINTS_PER_WALLET := by
  have hauth : env.authReadFails = false := by
    cases hf : env.authReadFails with
    | false => rfl
    | true => simp [isWalletAuthorized, hf] at h
  obtain ⟨_, _, _, hlt⟩ := (isWalletAuthorized_eq_true_iff env s w hauth hcount).1 h
  exact hlt

theorem isWalletAuthorized_eq_false_of_cap {env : Env} {s : ServerState} {w : String}
    (hcap : MAX_MINTS_PER_WALLET ≤ storedWalletCount s w)
    (hcount : env.walletCountReadFails = false) : isWalletAuthorized env s w = false := by
  cases h : isWalletAuthorized env s w with
  | false => rfl
  | true => exact absurd (storedWalletCount_lt_of_authorized h hcount) (not_lt.2 hcap)

/-- C2: when the reads of the authorization record and of the count record succeed,
`isWalletAuthorized` is true exactly when an `authorized_wallets` record exists for the
wallet, the record has no `expiresAt` or its `expiresAt` is not before the current time,
and the stored `mintCount` (0 without a count record) is below
`MAX_MINTS_PER_WALLET = 2`. -/
theorem isWalletAuthorized_iff (env : Env) (s : ServerState) (walletAddress : String)
    (hauth : env.authReadFails = false) (hcount : env.walletCountReadFails = false) :
    MAX_MINTS_PER_WALLET = 2 ∧
    (isWalletAuthorized env s walletAddress = true ↔
      ∃ data, s.authorizedWallets walletAddress = some data ∧
        (data.expiresAt = none ∨ ∃ t, data.expiresAt = some t ∧ ¬ t < env.authTime) ∧
        storedWalletCount s walletAddress < MAX_MINTS_PER_WALLET) :=
  ⟨rfl, isWalletAuthorized_eq_true_iff env s walletAddress hauth hcount⟩

/-- Witness for C2: an authorized wallet without expiry and without a count record. -/
theorem isWalletAuthorized_iff_witness :
    MAX_MINTS_PER_WALLET = 2 ∧
    (isWalletAuthorized
        { currentTime := 0, authTime := 0, paymentTx := .ok none,
          sendAndConfirm := .error "", parseLeaf := .error "" }
        { tracking := none, mirror := none, processed := [],
          authorizedWallets := fun w => if w = "alice" then some { expiresAt := none } else none,
          walletMintCounts := fun _ => none, tierMintCounts := fun _ => none }
        "alice" = true ↔
      ∃ data, (if "alice" = "alice" then some ({ expiresAt := none } : AuthorizedWallet)
          else none) = some data ∧
        (data.expiresAt = none ∨ ∃ t, data.expiresAt = some t ∧ ¬ t < (0 : Int)) ∧
        storedWalletCount
          { tracking := none, mirror := none, processed := [],
            authorizedWallets := fun w =>
              if w = "alice" then some { expiresAt := none } else none,
            walletMintCounts := fun _ => none, tierMintCounts := fun _ => none }
          "alice" < MAX_MINTS_PER_WALLET) :=
  isWalletAuthorized_iff _ _ "alice" rfl rfl


/-- C3, counterexample: the wallet `alice` is authorized and has already reached the cap
(stored `mintCount` 2); the read of her count record fails; `isWalletAuthorized` answers
`true`, because `getWalletMintCount` turns the failed read into the count 0. -/
theorem isWalletAuthorized_count_read_failure_open :
    (({ currentTime := 0, authTime := 0, walletCountReadFails := true, paymentTx := .ok none,
        sendAndConfirm := .error "", parseLeaf := .error "" } : Env).walletCountReadFails = true) ∧
    storedWalletCount
      { tracking := none, mirror := none, processed := [],
        authorizedWallets := fun w => if w = "alice" then some { expiresAt := none } else none,
        walletMintCounts := fun w =>
          if w = "alice" then some { mintCount := 2, mintTransactions := ["m1", "m2"] } else none,
        tierMintCounts := fun _ => none } "alice" = 2 ∧
    isWalletAuthorized
      { currentTime := 0, authTime := 0, walletCountReadFails := true, paymentTx := .ok none,
        sendAndConfirm := .error "", parseLeaf := .error "" }
      { tracking := none, mirror := none, processed := [],
        authorizedWallets := fun w => if w = "alice" then some { expiresAt := none } else none,
        walletMintCounts := fun w =>
          if w = "alice" then some { mintCount := 2, mintTransactions := ["m1", "m2"] } else none,
        tierMintCounts := fun _ => none } "alice" = true := by
  refine ⟨rfl, ?_, ?_⟩
  · simp [storedWalletCount]
  · simp [isWalletAuthorized, getWalletMintCount, MAX_MINTS_PER_WALLET]

/-- C3, amended: `isWalletAuthorized` returns `false` whenever the read of the
authorization record fails. A failed read of the count record does not: it is taken as
the count 0 by `getWalletMintCount`, and the answer is then `true` exactly when the
authorization record exists and is not expired. -/
theorem isWalletAuthorized_read_failures (env : Env) (s : ServerState) (walletAddress : String) :
    (env.authReadFails = true → isWalletAuthorized env s walletAddress = false) ∧
    (env.authReadFails = false → env.walletCountReadFails = true →
      (isWalletAuthorized env s walletAddress = true ↔
        ∃ data, s.authorizedWallets walletAddress = some data ∧
          (data.expiresAt = none ∨ ∃ t, data.expiresAt = some t ∧ ¬ t < env.authTime))) := by
  constructor
  · intro h
    simp [isWalletAuthorized, h]
  · intro hauth hcount
    unfold isWalletAuthorized getWalletMintCount
    rw [hauth, hcount]
    cases hdoc : s.authorizedWallets walletAddress with
    | none => simp
    | some data =>
      cases hexp : data.expiresAt with
      | none => simp [hexp, MAX_MINTS_PER_WALLET]
      | some t =>
        by_cases hlt : t < env.authTime
        · simp [hexp, hlt, MAX_MINTS_PER_WALLET]
        · simp [hexp, hlt, not_lt.1 hlt, MAX_MINTS_PER_WALLET]

/-- Witness for C3 (amended): a failing read of the authorization record of an authorized
wallet. -/
theorem isWalletAuthorized_read_failures_witness :
    isWalletAuthorized
      { currentTime := 0, authTime := 0, authReadFails := true, paymentTx := .ok none,
        sendAndConfirm := .error "", parseLeaf := .error "" }
      { tracking := none, mirror := none, processed := [],
        authorizedWallets := fun w => if w = "alice" then some { expiresAt := none } else none,
        walletMintCounts := fun _ => none, tierMintCounts := fun _ => none }
      "alice" = false :=
  (isWalletAuthorized_read_failures _ _ "alice").1 rfl


/-! ### The identifier ledger during a request -/

theorem loadMintTrackingData_ok {env : Env} {s s' : ServerState} {r : MintTrackingRecord}
    (h : loadMintTrackingData env s = .ok (r, s')) :
    s' = { s with tracking := some r } ∧
      (s.tracking = some r ∨ (s.tracking = none ∧ r = initialData)) := by
  unfold loadMintTrackingData at h
  cases ht : s.tracking with
  | some r0 =>
    rw [ht] at h
    simp only [Except.ok.injEq, Prod.mk.injEq] at h
    obtain ⟨rfl, rfl⟩ := h
    exact ⟨by cases s; simp_all, Or.inl rfl⟩
  | none =>
    rw [ht] at h
    cases hw : env.writeFileError with
    | some e => rw [hw] at h; cases h
    | none =>
      rw [hw] at h
      simp only [Except.ok.injEq, Prod.mk.injEq] at h
      obtain ⟨rfl, rfl⟩ := h
      exact ⟨rfl, Or.inr ⟨rfl, rfl⟩⟩

theorem loadMintTrackingData_of_some (env : Env) {s : ServerState} {r : MintTrackingRecord}
    (h : s.tracking = some r) : loadMintTrackingData env s = .ok (r, s) := by
  simp [loadMintTrackingData, h]

theorem isIdMinted_of_some (env : Env) {s : ServerState} {r : MintTrackingRecord}
    (h : s.tracking = some r) (id : Int) :
    isIdMinted env s id = .ok (r.mintedIds.contains id, s) := by
  simp [isIdMinted, loadMintTrackingData_of_some env h]

/-- The forward scan on an existing tracking file never throws and does not touch the
file: it ends at an id that is not minted, or it has not ended when the fuel is used
up. -/
theorem scanForward_of_some (env : Env) {s : ServerState} {r : MintTrackingRecord}
    (h : s.tracking = some r) (fuel : Nat) (n : Int) :
    (∃ m, scanForward env fuel s n = .ok (m, s) ∧ m ∉ r.mintedIds) ∨
      scanForward env fuel s n = .unending := by
  induction fuel generalizing n with
  | zero => exact Or.inr rfl
  | succ k ih =>
    unfold scanForward
    rw [isIdMinted_of_some env h]
    cases hc : r.mintedIds.contains n with
    | true => exact ih (jsIncrement n)
    | false => exact Or.inl ⟨n, rfl, by simpa using hc⟩

theorem allocateMintId_of_some (env : Env) {s : ServerState} {r : MintTrackingRecord}
    (h : s.tracking = some r) :
    (∃ n, allocateMintId env s = .ok (n, s) ∧ n ∉ r.mintedIds) ∨
      allocateMintId env s = .unending := by
  unfold allocateMintId getNextMintId
  rw [loadMintTrackingData_of_some env h]
  simp only
  rw [isIdMinted_of_some env h]
  cases hc : r.mintedIds.contains (jsIncrement r.lastMintedId) with
  | true => exact scanForward_of_some env h _ _
  | false => exact Or.inl ⟨_, rfl, by simpa using hc⟩

theorem allocateMintId_of_none (env : Env) {s : ServerState} (h : s.tracking = none) :
    allocateMintId env s =
      match env.writeFileError with
      | some e => .error e
      | none => .ok (0, { s with tracking := some initialData }) := by
  unfold allocateMintId getNextMintId loadMintTrackingData
  rw [h]
  cases hw : env.writeFileError with
  | some e => rfl
  | none =>
    simp only
    rw [isIdMinted_of_some env (r := initialData) rfl]
    simp [initialData, jsIncrement_neg_one]

/-- STEP 5 changes nothing but, possibly, the tracking file: it either leaves the state
as it is or, when the file is missing, creates it and allocates the id 0. -/
theorem allocateMintId_ok {env : Env} {s s1 : ServerState} {n : Int}
    (h : allocateMintId env s = .ok (n, s1)) :
    s1 = s ∨ (s.tracking = none ∧ n = 0 ∧ s1 = { s with tracking := some initialData }) := by
  cases ht : s.tracking with
  | some r =>
    rcases allocateMintId_of_some env ht with ⟨m, hm, _⟩ | hu
    · rw [hm] at h
      simp only [Allocation.ok.injEq, Prod.mk.injEq] at h
      exact Or.inl h.2.symm
    · rw [hu] at h; cases h
  | none =>
    rw [allocateMintId_of_none env ht] at h
    cases hw : env.writeFileError with
    | some e => rw [hw] at h; cases h
    | none =>
      rw [hw] at h
      simp only [Allocation.ok.injEq, Prod.mk.injEq] at h
      exact Or.inr ⟨rfl, h.1.symm, h.2.symm⟩

theorem allocateMintId_error {env : Env} {s : ServerState} {e : String}
    (h : allocateMintId env s = .error e) : env.writeFileError = some e := by
  cases ht : s.tracking with
  | some r =>
    rcases allocateMintId_of_some env ht with ⟨m, hm, _⟩ | hu
    · rw [hm] at h; cases h
    · rw [hu] at h; cases h
  | none =>
    rw [allocateMintId_of_none env ht] at h
    cases hw : env.writeFileError with
    | some e' => rw [hw] at h; simp only [Allocation.error.injEq] at h; rw [h]
    | none => rw [hw] at h; cases h

/-- The forward scan can fail to end only on an existing tracking file, which it leaves
as it is. -/
theorem allocateMintId_unending {env : Env} {s : ServerState}
    (h : allocateMintId env s = .unending) : ∃ r, s.tracking = some r := by
  cases ht : s.tracking with
  | some r => exact ⟨r, rfl⟩
  | none =>
    rw [allocateMintId_of_none env ht] at h
    cases hw : env.writeFileError with
    | some e' => rw [hw] at h; cases h
    | none => rw [hw] at h; cases h

theorem allocateMintId_total (env : Env) (s : ServerState) (hw : env.writeFileError = none) :
    (∃ n s1, allocateMintId env s = .ok (n, s1)) ∨ allocateMintId env s = .unending := by
  cases ht : s.tracking with
  | some r =>
    rcases allocateMintId_of_some env ht with ⟨m, hm, _⟩ | hu
    · exact Or.inl ⟨m, s, hm⟩
    · exact Or.inr hu
  | none =>
    rw [allocateMintId_of_none env ht, hw]
    exact Or.inl ⟨_, _, rfl⟩

/-- What `recordMintedId` does when the file can be written: the record on file (or
`initialData` when there is none) with the id added becomes the file content, and the
mirror too unless the GitHub call fails. -/
theorem recordMintedId_of_write_ok (env : Env) (s : ServerState) (id : Int)
    (hw : env.writeFileError = none) :
    recordMintedId env s id =
      .ok ({ s with
              tracking := some (withMintedId (s.tracking.getD initialData) id),
              mirror := if env.githubFails then s.mirror
                else some (withMintedId (s.tracking.getD initialData) id) },
           [.writeFile (withMintedId (s.tracking.getD initialData) id),
            .updateFileOnGitHub (withMintedId (s.tracking.getD initialData) id)
              ("Update mint tracking: NFT #" ++ toString id)]) := by
  unfold recordMintedId loadMintTrackingData
  cases ht : s.tracking with
  | some r =>
    simp only [hw, Option.getD_some]
    cases env.githubFails <;> simp
  | none =>
    simp only [hw, Option.getD_none]
    cases env.githubFails <;> simp

theorem recordMintedId_of_write_error (env : Env) (s : ServerState) (id : Int) (e : String)
    (hw : env.writeFileError = some e) : recordMintedId env s id = .error e := by
  unfold recordMintedId loadMintTrackingData
  cases ht : s.tracking with
  | some r => simp [hw]
  | none => simp [hw]


/-! ### The guards of the mint handler, one by one -/

theorem mintHandler_no_tier {tiers : List PricingTier} {env : Env} {s : ServerState}
    {req : MintRequest} (h1 : getCurrentTier tiers env.currentTime = none) :
    mintHandler tiers env s req = ⟨.rejected 410 .NO_ACTIVE_TIER, s, [.getCurrentTier]⟩ := by
  simp [mintHandler, h1]

theorem mintHandler_exhausted {tiers : List PricingTier} {env : Env} {s : ServerState}
    {req : MintRequest} {t : PricingTier} (h1 : getCurrentTier tiers env.currentTime = some t)
    (h2 : t.maxSupply ≤ getTierMintedCount env s t.name) :
    mintHandler tiers env s req =
      ⟨.rejected 410 .TIER_SUPPLY_EXHAUSTED, s,
        [.getCurrentTier, .getTierMintedCount t.name]⟩ := by
  simp [mintHandler, h1, h2, guardCalls]

theorem mintHandler_unauthorized {tiers : List PricingTier} {env : Env} {s : ServerState}
    {req : MintRequest} {t : PricingTier} (h1 : getCurrentTier tiers env.currentTime = some t)
    (h2 : getTierMintedCount env s t.name < t.maxSupply)
    (h3 : isWalletAuthorized env s req.userWallet = false) :
    mintHandler tiers env s req =
      ⟨.rejected 403 .WALLET_NOT_AUTHORIZED, s,
        [.getCurrentTier, .getTierMintedCount t.name, .isWalletAuthorized req.userWallet]⟩ := by
  simp [mintHandler, h1, not_le.2 h2, h3, guardCalls]

theorem mintHandler_payment_throws {tiers : List PricingTier} {env : Env} {s : ServerState}
    {req : MintRequest} {t : PricingTier} {e : String}
    (h1 : getCurrentTier tiers env.currentTime = some t)
    (h2 : getTierMintedCount env s t.name < t.maxSupply)
    (h3 : isWalletAuthorized env s req.userWallet = true)
    (h4 : getTransactionAmount env = .error e) :
    mintHandler tiers env s req =
      ⟨.failure 500 e, s,
        [.getCurrentTier, .getTierMintedCount t.name, .isWalletAuthorized req.userWallet,
          .getTransactionAmount req.paymentSignature]⟩ := by
  simp [mintHandler, h1, not_le.2 h2, h3, h4, guardCalls]

theorem mintHandler_payment_refused {tiers : List PricingTier} {env : Env} {s : ServerState}
    {req : MintRequest} {t : PricingTier} (h1 : getCurrentTier tiers env.currentTime = some t)
    (h2 : getTierMintedCount env s t.name < t.maxSupply)
    (h3 : isWalletAuthorized env s req.userWallet = true)
    (h4 : paymentRefused env t) :
    mintHandler tiers env s req =
      ⟨.rejected 409 .INSUFFICIENT_PAYMENT, s,
        [.getCurrentTier, .getTierMintedCount t.name, .isWalletAuthorized req.userWallet,
          .getTransactionAmount req.paymentSignature]⟩ := by
  obtain ⟨amount, ha, hne⟩ := h4
  simp [mintHandler, h1, not_le.2 h2, h3, ha, hne, guardCalls]

theorem mintHandler_duplicate {tiers : List PricingTier} {env : Env} {s : ServerState}
    {req : MintRequest} {t : PricingTier} (h1 : getCurrentTier tiers env.currentTime = some t)
    (h2 : getTierMintedCount env s t.name < t.maxSupply)
    (h3 : isWalletAuthorized env s req.userWallet = true)
    (h4 : paymentAccepted env t)
    (h5 : isTransactionProcessed s.processed req.paymentSignature = true) :
    mintHandler tiers env s req =
      ⟨.rejected 409 .DUPLICATE_TRANSACTION, s,
        [.getCurrentTier, .getTierMintedCount t.name, .isWalletAuthorized req.userWallet,
          .getTransactionAmount req.paymentSignature,
          .isTransactionProcessed req.paymentSignature]⟩ := by
  obtain ⟨amount, ha, he⟩ := h4
  simp [mintHandler, h1, not_le.2 h2, h3, ha, he, h5, guardCalls]

theorem mintHandler_verification_failed {tiers : List PricingTier} {env : Env}
    {s : ServerState} {req : MintRequest} {t : PricingTier}
    (h1 : getCurrentTier tiers env.currentTime = some t)
    (h2 : getTierMintedCount env s t.name < t.maxSupply)
    (h3 : isWalletAuthorized env s req.userWallet = true)
    (h4 : paymentAccepted env t)
    (h5 : isTransactionProcessed s.processed req.paymentSignature = false)
    (h6 : env.txDetailsError.isSome = true) :
    mintHandler tiers env s req =
      ⟨.rejected 400 .TRANSACTION_VERIFICATION_FAILED, s,
        [.getCurrentTier, .getTierMintedCount t.name, .isWalletAuthorized req.userWallet,
          .getTransactionAmount req.paymentSignature,
          .isTransactionProcessed req.paymentSignature,
          .getWalletAddressesFromTransaction req.paymentSignature]⟩ := by
  obtain ⟨amount, ha, he⟩ := h4
  simp [mintHandler, h1, not_le.2 h2, h3, ha, he, h5, h6, guardCalls]

theorem mintHandler_allocation_throws {tiers : List PricingTier} {env : Env}
    {s : ServerState} {req : MintRequest} {t : PricingTier} {e : String}
    (h1 : getCurrentTier tiers env.currentTime = some t)
    (h2 : getTierMintedCount env s t.name < t.maxSupply)
    (h3 : isWalletAuthorized env s req.userWallet = true)
    (h4 : paymentAccepted env t)
    (h5 : isTransactionProcessed s.processed req.paymentSignature = false)
    (h6 : env.txDetailsError.isSome = false)
    (h7 : allocateMintId env s = .error e) :
    mintHandler tiers env s req = ⟨.failure 500 e, s, guardCalls t.name req⟩ := by
  obtain ⟨amount, ha, he⟩ := h4
  simp [mintHandler, h1, not_le.2 h2, h3, ha, he, h5, h6, h7]

/-- A request whose forward scan never ends is never answered, and changes nothing. -/
theorem mintHandler_unending {tiers : List PricingTier} {env : Env}
    {s : ServerState} {req : MintRequest} {t : PricingTier}
    (h1 : getCurrentTier tiers env.currentTime = some t)
    (h2 : getTierMintedCount env s t.name < t.maxSupply)
    (h3 : isWalletAuthorized env s req.userWallet = true)
    (h4 : paymentAccepted env t)
    (h5 : isTransactionProcessed s.processed req.paymentSignature = false)
    (h6 : env.txDetailsError.isSome = false)
    (h7 : allocateMintId env s = .unending) :
    mintHandler tiers env s req = ⟨.unanswered, s, guardCalls t.name req⟩ := by
  obtain ⟨amount, ha, he⟩ := h4
  simp [mintHandler, h1, not_le.2 h2, h3, ha, he, h5, h6, h7]

theorem mintHandler_max_supply {tiers : List PricingTier} {env : Env} {s s1 : ServerState}
    {req : MintRequest} {t : PricingTier} {n : Int}
    (h1 : getCurrentTier tiers env.currentTime = some t)
    (h2 : getTierMintedCount env s t.name < t.maxSupply)
    (h3 : isWalletAuthorized env s req.userWallet = true)
    (h4 : paymentAccepted env t)
    (h5 : isTransactionProcessed s.processed req.paymentSignature = false)
    (h6 : env.txDetailsError.isSome = false)
    (h7 : allocateMintId env s = .ok (n, s1)) (h8 : MAX_SUPPLY ≤ n) :
    mintHandler tiers env s req =
      ⟨.rejected 410 .MAX_SUPPLY_REACHED, s1, guardCalls t.name req⟩ := by
  obtain ⟨amount, ha, he⟩ := h4
  simp [mintHandler, h1, not_le.2 h2, h3, ha, he, h5, h6, h7, h8]

theorem mintHandler_admitted {tiers : List PricingTier} {env : Env} {s s1 : ServerState}
    {req : MintRequest} {t : PricingTier} {n : Int}
    (h1 : getCurrentTier tiers env.currentTime = some t)
    (h2 : getTierMintedCount env s t.name < t.maxSupply)
    (h3 : isWalletAuthorized env s req.userWallet = true)
    (h4 : paymentAccepted env t)
    (h5 : isTransactionProcessed s.processed req.paymentSignature = false)
    (h6 : env.txDetailsError.isSome = false)
    (h7 : allocateMintId env s = .ok (n, s1)) (h8 : n < MAX_SUPPLY) :
    mintHandler tiers env s req = mintAndRecord env s1 req t.name n (guardCalls t.name req) := by
  obtain ⟨amount, ha, he⟩ := h4
  simp [mintHandler, h1, not_le.2 h2, h3, ha, he, h5, h6, h7, not_le.2 h8]

/-- Every run of the handler is one of the eleven cases above. -/
theorem mintHandler_cases (tiers : List PricingTier) (env : Env) (s : ServerState)
    (req : MintRequest) :
    getCurrentTier tiers env.currentTime = none ∨
    ∃ t, getCurrentTier tiers env.currentTime = some t ∧
      (t.maxSupply ≤ getTierMintedCount env s t.name ∨
       getTierMintedCount env s t.name < t.maxSupply ∧
        (isWalletAuthorized env s req.userWallet = false ∨
         isWalletAuthorized env s req.userWallet = true ∧
          ((∃ e, getTransactionAmount env = .error e) ∨
           paymentRefused env t ∨
           paymentAccepted env t ∧
            (isTransactionProcessed s.processed req.paymentSignature = true ∨
             isTransactionProcessed s.processed req.paymentSignature = false ∧
              (env.txDetailsError.isSome = true ∨
               env.txDetailsError.isSome = false ∧
                (allocateMintId env s = .unending ∨
                 (∃ e, allocateMintId env s = .error e) ∨
                 ∃ n s1, allocateMintId env s = .ok (n, s1) ∧
                  (MAX_SUPPLY ≤ n ∨ n < MAX_SUPPLY))))))) := by
  cases h1 : getCurrentTier tiers env.currentTime with
  | none => exact Or.inl rfl
  | some t =>
    refine Or.inr ⟨t, rfl, ?_⟩
    rcases le_or_lt t.maxSupply (getTierMintedCount env s t.name) with h2 | h2
    · exact Or.inl h2
    refine Or.inr ⟨h2, ?_⟩
    cases h3 : isWalletAuthorized env s req.userWallet with
    | false => exact Or.inl rfl
    | true =>
      refine Or.inr ⟨rfl, ?_⟩
      cases h4 : getTransactionAmount env with
      | error e => exact Or.inl ⟨e, rfl⟩
      | ok amount =>
        refine Or.inr ?_
        by_cases hp : jsMul amount LAMPORTS_PER_SOL = t.priceLamports
        · refine Or.inr ⟨⟨amount, h4, hp⟩, ?_⟩
          cases h5 : isTransactionProcessed s.processed req.paymentSignature with
          | true => exact Or.inl rfl
          | false =>
            refine Or.inr ⟨rfl, ?_⟩
            cases h6 : env.txDetailsError.isSome with
            | true => exact Or.inl rfl
            | false =>
              refine Or.inr ⟨rfl, ?_⟩
              cases h7 : allocateMintId env s with
              | unending => exact Or.inl rfl
              | error e => exact Or.inr (Or.inl ⟨e, rfl⟩)
              | ok p =>
                obtain ⟨n, s1⟩ := p
                exact Or.inr (Or.inr ⟨n, s1, rfl, le_or_lt _ _⟩)
        · exact Or.inl ⟨amount, h4, hp⟩


/-! ### Minting and bookkeeping -/

theorem updateFirebaseCounts_walletMintCounts (env : Env) (s : ServerState) (req : MintRequest)
    (tierName sig : String) :
    (updateFirebaseCounts env s req tierName sig).1.walletMintCounts =
      if env.walletIncrementFails then s.walletMintCounts
      else Function.update s.walletMintCounts req.userWallet
        (some { mintCount := storedWalletCount s req.userWallet + 1,
                mintTransactions := storedWalletTransactions s req.userWallet ++ [sig] }) := by
  unfold updateFirebaseCounts incrementWalletMintCount incrementTierMintCount
    storedWalletCount storedWalletTransactions
  cases hwf : env.walletIncrementFails <;> cases htf : env.tierIncrementFails <;>
    cases hwc : s.walletMintCounts req.userWallet <;>
    cases htc : s.tierMintCounts tierName <;> simp [hwc, htc]

theorem updateFirebaseCounts_tierMintCounts (env : Env) (s : ServerState) (req : MintRequest)
    (tierName sig : String) :
    (updateFirebaseCounts env s req tierName sig).1.tierMintCounts =
      if env.walletIncrementFails = true ∨ env.tierIncrementFails = true then s.tierMintCounts
      else Function.update s.tierMintCounts tierName
        (some { mintCount := storedTierCount s tierName + 1,
                mintTransactions := storedTierTransactions s tierName ++
                  [{ signature := sig, wallet := req.userWallet }] }) := by
  unfold updateFirebaseCounts incrementWalletMintCount incrementTierMintCount
    storedTierCount storedTierTransactions
  cases hwf : env.walletIncrementFails <;> cases htf : env.tierIncrementFails <;>
    cases hwc : s.walletMintCounts req.userWallet <;>
    cases htc : s.tierMintCounts tierName <;> simp [hwc, htc]

theorem updateFirebaseCounts_rest (env : Env) (s : ServerState) (req : MintRequest)
    (tierName sig : String) :
    (updateFirebaseCounts env s req tierName sig).1.tracking = s.tracking ∧
    (updateFirebaseCounts env s req tierName sig).1.mirror = s.mirror ∧
    (updateFirebaseCounts env s req tierName sig).1.processed = s.processed ∧
    (updateFirebaseCounts env s req tierName sig).1.authorizedWallets = s.authorizedWallets := by
  unfold updateFirebaseCounts incrementWalletMintCount incrementTierMintCount
  cases hwf : env.walletIncrementFails <;> cases htf : env.tierIncrementFails <;>
    cases hwc : s.walletMintCounts req.userWallet <;>
    cases htc : s.tierMintCounts tierName <;> simp [hwc, htc]

theorem mintAndRecord_success {env : Env} {sig asset : String} (s : ServerState)
    (req : MintRequest) (tierName : String) (n : Int) (before : List Call)
    (hs : env.sendAndConfirm = .ok sig) (hp : env.parseLeaf = .ok asset)
    (hw : env.writeFileError = none) (ha : env.addProcessedError = none) :
    (mintAndRecord env s req tierName n before).response = .success n asset sig ∧
    (mintAndRecord env s req tierName n before).state =
      (updateFirebaseCounts env (recordedState env s req n) req tierName sig).1 := by
  unfold mintAndRecord
  simp only [hs, hp, ha, recordMintedId_of_write_ok env s n hw, recordedState, and_self]

/-- When the handler reaches STEP 7 and does not answer with success, the response is the
status 500 response of the outer `catch`, and the replay guard and the Firestore
collections are as before. -/
theorem mintAndRecord_failure (env : Env) (s : ServerState) (req : MintRequest)
    (tierName : String) (n : Int) (before : List Call)
    (h : (mintAndRecord env s req tierName n before).response.isSuccess = false) :
    (∃ e, (mintAndRecord env s req tierName n before).response = .failure 500 e) ∧
    (mintAndRecord env s req tierName n before).state.processed = s.processed ∧
    (mintAndRecord env s req tierName n before).state.authorizedWallets = s.authorizedWallets ∧
    (mintAndRecord env s req tierName n before).state.walletMintCounts = s.walletMintCounts ∧
    (mintAndRecord env s req tierName n before).state.tierMintCounts = s.tierMintCounts := by
  unfold mintAndRecord at h ⊢
  cases hs : env.sendAndConfirm with
  | error e => simp [hs]
  | ok sig =>
    cases hp : env.parseLeaf with
    | error e => simp [hs, hp]
    | ok asset =>
      cases hw : env.writeFileError with
      | some e => simp [hs, hp, recordMintedId_of_write_error env s n e hw]
      | none =>
        cases ha : env.addProcessedError with
        | some e =>
          simp only [hs, hp, ha, recordMintedId_of_write_ok env s n hw]
          cases env.githubFails <;> simp
        | none =>
          simp [hs, hp, ha, recordMintedId_of_write_ok env s n hw, Response.isSuccess] at h

theorem mintAndRecord_isSuccess_iff (env : Env) (s : ServerState) (req : MintRequest)
    (tierName : String) (n : Int) (before : List Call) :
    (mintAndRecord env s req tierName n before).response.isSuccess = true ↔
      (∃ sig, env.sendAndConfirm = .ok sig) ∧ (∃ asset, env.parseLeaf = .ok asset) ∧
        env.writeFileError = none ∧ env.addProcessedError = none := by
  constructor
  · intro h
    unfold mintAndRecord at h
    cases hs : env.sendAndConfirm with
    | error e => simp [hs, Response.isSuccess] at h
    | ok sig =>
      cases hp : env.parseLeaf with
      | error e => simp [hs, hp, Response.isSuccess] at h
      | ok asset =>
        cases hw : env.writeFileError with
        | some e =>
          simp [hs, hp, recordMintedId_of_write_error env s n e hw, Response.isSuccess] at h
        | none =>
          cases ha : env.addProcessedError with
          | some e =>
            simp [hs, hp, ha, recordMintedId_of_write_ok env s n hw, Response.isSuccess] at h
          | none => exact ⟨⟨sig, rfl⟩, ⟨asset, rfl⟩, rfl, rfl⟩
  · rintro ⟨⟨sig, hs⟩, ⟨asset, hp⟩, hw, ha⟩
    rw [(mintAndRecord_success s req tierName n before hs hp hw ha).1]
    rfl

theorem mintAndRecord_calls (env : Env) (s : ServerState) (req : MintRequest)
    (tierName : String) (n : Int) (before : List Call) :
    ∃ after, (mintAndRecord env s req tierName n before).calls =
      before ++ Call.sendAndConfirm n req.userWallet :: after := by
  unfold mintAndRecord
  cases hs : env.sendAndConfirm with
  | error e => exact ⟨[], by simp⟩
  | ok sig =>
    cases hp : env.parseLeaf with
    | error e => exact ⟨[.parseLeaf sig], by simp⟩
    | ok asset =>
      cases hr : recordMintedId env s n with
      | error e => exact ⟨[.parseLeaf sig, .recordMintedId n], by simp⟩
      | ok p =>
        cases ha : env.addProcessedError with
        | some e =>
          exact ⟨.parseLeaf sig :: .recordMintedId n ::
            (p.2 ++ [.addProcessedTransaction req.paymentSignature]), by simp⟩
        | none =>
          exact ⟨.parseLeaf sig :: .recordMintedId n ::
            (p.2 ++ .addProcessedTransaction req.paymentSignature ::
              (updateFirebaseCounts env
                { p.1 with processed :=
                    addProcessedTransaction p.1.processed req.paymentSignature }
                req tierName sig).2), by simp⟩


/-! ### What one request does to the state -/

/-- A success response means: every guard passed, the mint was confirmed and parsed, the id
was recorded and the payment id added to the replay guard; the final state is the one the
two Firestore increments leave. -/
theorem mintHandler_success {tiers : List PricingTier} {env : Env} {s : ServerState}
    {req : MintRequest} (h : (mintHandler tiers env s req).response.isSuccess = true) :
    ∃ t n s1 sig asset,
      getCurrentTier tiers env.currentTime = some t ∧
      getTierMintedCount env s t.name < t.maxSupply ∧
      isWalletAuthorized env s req.userWallet = true ∧
      paymentAccepted env t ∧
      isTransactionProcessed s.processed req.paymentSignature = false ∧
      env.txDetailsError.isSome = false ∧
      allocateMintId env s = .ok (n, s1) ∧ n < MAX_SUPPLY ∧
      env.sendAndConfirm = .ok sig ∧ env.parseLeaf = .ok asset ∧
      env.writeFileError = none ∧ env.addProcessedError = none ∧
      (mintHandler tiers env s req).response = .success n asset sig ∧
      (mintHandler tiers env s req).state =
        (updateFirebaseCounts env (recordedState env s1 req n) req t.name sig).1 := by
  rcases mintHandler_cases tiers env s req with h1 | ⟨t, h1, hc⟩
  · rw [mintHandler_no_tier h1] at h; cases h
  rcases hc with h2 | ⟨h2, hc⟩
  · rw [mintHandler_exhausted h1 h2] at h; cases h
  rcases hc with h3 | ⟨h3, hc⟩
  · rw [mintHandler_unauthorized h1 h2 h3] at h; cases h
  rcases hc with ⟨e, h4⟩ | h4 | ⟨h4, hc⟩
  · rw [mintHandler_payment_throws h1 h2 h3 h4] at h; cases h
  · rw [mintHandler_payment_refused h1 h2 h3 h4] at h; cases h
  rcases hc with h5 | ⟨h5, hc⟩
  · rw [mintHandler_duplicate h1 h2 h3 h4 h5] at h; cases h
  rcases hc with h6 | ⟨h6, hc⟩
  · rw [mintHandler_verification_failed h1 h2 h3 h4 h5 h6] at h; cases h
  rcases hc with hu | ⟨e, h7⟩ | ⟨n, s1, h7, h8 | h8⟩
  · rw [mintHandler_unending h1 h2 h3 h4 h5 h6 hu] at h; cases h
  · rw [mintHandler_allocation_throws h1 h2 h3 h4 h5 h6 h7] at h; cases h
  · rw [mintHandler_max_supply h1 h2 h3 h4 h5 h6 h7 h8] at h; cases h
  · rw [mintHandler_admitted h1 h2 h3 h4 h5 h6 h7 h8] at h ⊢
    obtain ⟨⟨sig, hs⟩, ⟨asset, hp⟩, hw, ha⟩ := (mintAndRecord_isSuccess_iff _ _ _ _ _ _).1 h
    obtain ⟨hr, hst⟩ := mintAndRecord_success s1 req t.name n (guardCalls t.name req) hs hp hw ha
    exact ⟨t, n, s1, sig, asset, h1, h2, h3, h4, h5, h6, h7, h8, hs, hp, hw, ha, hr, hst⟩

/-- A response other than success leaves the replay guard and the three Firestore
collections as they were. -/
theorem mintHandler_not_success {tiers : List PricingTier} {env : Env} {s : ServerState}
    {req : MintRequest} (h : (mintHandler tiers env s req).response.isSuccess = false) :
    (mintHandler tiers env s req).state.processed = s.processed ∧
    (mintHandler tiers env s req).state.authorizedWallets = s.authorizedWallets ∧
    (mintHandler tiers env s req).state.walletMintCounts = s.walletMintCounts ∧
    (mintHandler tiers env s req).state.tierMintCounts = s.tierMintCounts := by
  rcases mintHandler_cases tiers env s req with h1 | ⟨t, h1, hc⟩
  · rw [mintHandler_no_tier h1]; simp
  rcases hc with h2 | ⟨h2, hc⟩
  · rw [mintHandler_exhausted h1 h2]; simp
  rcases hc with h3 | ⟨h3, hc⟩
  · rw [mintHandler_unauthorized h1 h2 h3]; simp
  rcases hc with ⟨e, h4⟩ | h4 | ⟨h4, hc⟩
  · rw [mintHandler_payment_throws h1 h2 h3 h4]; simp
  · rw [mintHandler_payment_refused h1 h2 h3 h4]; simp
  rcases hc with h5 | ⟨h5, hc⟩
  · rw [mintHandler_duplicate h1 h2 h3 h4 h5]; simp
  rcases hc with h6 | ⟨h6, hc⟩
  · rw [mintHandler_verification_failed h1 h2 h3 h4 h5 h6]; simp
  rcases hc with hu | ⟨e, h7⟩ | ⟨n, s1, h7, h8 | h8⟩
  · rw [mintHandler_unending h1 h2 h3 h4 h5 h6 hu]; simp
  · rw [mintHandler_allocation_throws h1 h2 h3 h4 h5 h6 h7]; simp
  · rw [mintHandler_max_supply h1 h2 h3 h4 h5 h6 h7 h8]
    rcases allocateMintId_ok h7 with rfl | ⟨_, _, rfl⟩ <;> simp
  · rw [mintHandler_admitted h1 h2 h3 h4 h5 h6 h7 h8] at h ⊢
    obtain ⟨_, hp, ha, hw, ht⟩ := mintAndRecord_failure env s1 req t.name n _ h
    rw [hp, ha, hw, ht]
    rcases allocateMintId_ok h7 with rfl | ⟨_, _, rfl⟩ <;> simp

/-- A guard response (`rejected`) has one of the seven codes with its 4xx status, leaves the
whole state as it was, and no mint has been submitted. -/
theorem mintHandler_rejected {tiers : List PricingTier} {env : Env} {s : ServerState}
    {req : MintRequest} {status : Nat} {code : ErrorCode}
    (h : (mintHandler tiers env s req).response = .rejected status code) :
    (mintHandler tiers env s req).state = s ∧
    (∀ n w, Call.sendAndConfirm n w ∉ (mintHandler tiers env s req).calls) ∧
    400 ≤ status ∧ status < 500 := by
  rcases mintHandler_cases tiers env s req with h1 | ⟨t, h1, hc⟩
  · rw [mintHandler_no_tier h1] at h ⊢
    simp only [Response.rejected.injEq] at h
    obtain ⟨rfl, rfl⟩ := h; simp
  rcases hc with h2 | ⟨h2, hc⟩
  · rw [mintHandler_exhausted h1 h2] at h ⊢
    simp only [Response.rejected.injEq] at h
    obtain ⟨rfl, rfl⟩ := h; simp
  rcases hc with h3 | ⟨h3, hc⟩
  · rw [mintHandler_unauthorized h1 h2 h3] at h ⊢
    simp only [Response.rejected.injEq] at h
    obtain ⟨rfl, rfl⟩ := h; simp
  rcases hc with ⟨e, h4⟩ | h4 | ⟨h4, hc⟩
  · rw [mintHandler_payment_throws h1 h2 h3 h4] at h; cases h
  · rw [mintHandler_payment_refused h1 h2 h3 h4] at h ⊢
    simp only [Response.rejected.injEq] at h
    obtain ⟨rfl, rfl⟩ := h; simp
  rcases hc with h5 | ⟨h5, hc⟩
  · rw [mintHandler_duplicate h1 h2 h3 h4 h5] at h ⊢
    simp only [Response.rejected.injEq] at h
    obtain ⟨rfl, rfl⟩ := h; simp
  rcases hc with h6 | ⟨h6, hc⟩
  · rw [mintHandler_verification_failed h1 h2 h3 h4 h5 h6] at h ⊢
    simp only [Response.rejected.injEq] at h
    obtain ⟨rfl, rfl⟩ := h; simp
  rcases hc with hu | ⟨e, h7⟩ | ⟨n, s1, h7, h8 | h8⟩
  · rw [mintHandler_unending h1 h2 h3 h4 h5 h6 hu] at h; cases h
  · rw [mintHandler_allocation_throws h1 h2 h3 h4 h5 h6 h7] at h; cases h
  · rw [mintHandler_max_supply h1 h2 h3 h4 h5 h6 h7 h8] at h ⊢
    simp only [Response.rejected.injEq] at h
    obtain ⟨rfl, rfl⟩ := h
    rcases allocateMintId_ok h7 with rfl | ⟨_, hn, _⟩
    · simp [guardCalls]
    · rw [hn] at h8; simp [MAX_SUPPLY] at h8
  · rw [mintHandler_admitted h1 h2 h3 h4 h5 h6 h7 h8] at h
    by_cases hsucc : (mintAndRecord env s1 req t.name n (guardCalls t.name req)).response.isSuccess
        = true
    · rw [h] at hsucc; cases hsucc
    · obtain ⟨⟨e, he⟩, _⟩ := mintAndRecord_failure env s1 req t.name n _
        (Bool.eq_false_iff.2 hsucc)
      rw [he] at h; cases h


/-- The outcome of a request that passes every guard and whose collaborators all succeed
up to the replay guard. -/
theorem mintHandler_completes {tiers : List PricingTier} {env : Env} {s s1 : ServerState}
    {req : MintRequest} {t : PricingTier} {n : Int} {sig asset : String}
    (h1 : getCurrentTier tiers env.currentTime = some t)
    (h2 : getTierMintedCount env s t.name < t.maxSupply)
    (h3 : isWalletAuthorized env s req.userWallet = true)
    (h4 : paymentAccepted env t)
    (h5 : isTransactionProcessed s.processed req.paymentSignature = false)
    (h6 : env.txDetailsError.isSome = false)
    (h7 : allocateMintId env s = .ok (n, s1)) (h8 : n < MAX_SUPPLY)
    (hs : env.sendAndConfirm = .ok sig) (hp : env.parseLeaf = .ok asset)
    (hw : env.writeFileError = none) (ha : env.addProcessedError = none) :
    (mintHandler tiers env s req).response = .success n asset sig ∧
    (mintHandler tiers env s req).state =
      (updateFirebaseCounts env (recordedState env s1 req n) req t.name sig).1 := by
  rw [mintHandler_admitted h1 h2 h3 h4 h5 h6 h7 h8]
  exact mintAndRecord_success s1 req t.name n _ hs hp hw ha

theorem allocateMintId_stores {env : Env} {s s1 : ServerState} {n : Int}
    (h : allocateMintId env s = .ok (n, s1)) :
    s1.processed = s.processed ∧ s1.authorizedWallets = s.authorizedWallets ∧
    s1.walletMintCounts = s.walletMintCounts ∧ s1.tierMintCounts = s.tierMintCounts := by
  rcases allocateMintId_ok h with rfl | ⟨_, _, rfl⟩ <;> simp

/-- The stored count of any wallet after a request: one more than before when the request
is by that wallet, answered with success, and the wallet increment did not throw;
otherwise the same. -/
theorem mintHandler_storedWalletCount (tiers : List PricingTier) (env : Env) (s : ServerState)
    (req : MintRequest) (w : String) :
    storedWalletCount (mintHandler tiers env s req).state w =
      storedWalletCount s w +
        if (mintHandler tiers env s req).response.isSuccess = true ∧ req.userWallet = w ∧
            env.walletIncrementFails = false then 1 else 0 := by
  cases hsucc : (mintHandler tiers env s req).response.isSuccess with
  | false =>
    obtain ⟨_, _, hwc, _⟩ := mintHandler_not_success hsucc
    simp [storedWalletCount, hwc]
  | true =>
    obtain ⟨t, n, s1, sig, asset, _, _, _, _, _, _, h7, _, _, _, _, _, _, hst⟩ :=
      mintHandler_success hsucc
    obtain ⟨_, _, hwc, _⟩ := allocateMintId_stores h7
    have hrec : storedWalletCount (recordedState env s1 req n) = storedWalletCount s := by
      funext x; simp [storedWalletCount, recordedState, hwc]
    have hrec' : (recordedState env s1 req n).walletMintCounts = s.walletMintCounts := by
      simp [recordedState, hwc]
    unfold storedWalletCount at hrec ⊢
    rw [hst, updateFirebaseCounts_walletMintCounts]
    cases hf : env.walletIncrementFails with
    | true => simp [hrec']
    | false =>
      by_cases hw : req.userWallet = w
      · subst hw
        have := congrFun hrec req.userWallet
        simp [storedWalletCount, hrec'] at this ⊢
      · simp [hrec', hw, Function.update_noteq (Ne.symm hw)]

/-- The stored count of any tier after a request: one more than before when the request
is answered with success in that tier and neither increment threw; otherwise the same. -/
theorem mintHandler_storedTierCount (tiers : List PricingTier) (env : Env) (s : ServerState)
    (req : MintRequest) (name : String) :
    storedTierCount (mintHandler tiers env s req).state name =
      storedTierCount s name +
        if (mintHandler tiers env s req).response.isSuccess = true ∧
            (∃ t, getCurrentTier tiers env.currentTime = some t ∧ t.name = name) ∧
            env.walletIncrementFails = false ∧ env.tierIncrementFails = false then 1 else 0 := by
  cases hsucc : (mintHandler tiers env s req).response.isSuccess with
  | false =>
    obtain ⟨_, _, _, htc⟩ := mintHandler_not_success hsucc
    simp [storedTierCount, htc]
  | true =>
    obtain ⟨t, n, s1, sig, asset, h1, _, _, _, _, _, h7, _, _, _, _, _, _, hst⟩ :=
      mintHandler_success hsucc
    obtain ⟨_, _, _, htc⟩ := allocateMintId_stores h7
    have hrec' : (recordedState env s1 req n).tierMintCounts = s.tierMintCounts := by
      simp [recordedState, htc]
    unfold storedTierCount
    rw [hst, updateFirebaseCounts_tierMintCounts, h1]
    cases hf : env.walletIncrementFails with
    | true => simp [hrec']
    | false =>
      cases hg : env.tierIncrementFails with
      | true => simp [hrec']
      | false =>
        by_cases hn : t.name = name
        · subst hn
          simp [storedTierCount, hrec']
        · simp [hrec', hn, Function.update_noteq (Ne.symm hn)]


/-! ### The per-wallet cap over a run of requests -/

theorem successfulMints_cons (w : String) (req : MintRequest) (resp : Response)
    (log : List (MintRequest × Response)) :
    successfulMints w ((req, resp) :: log) =
      (if req.userWallet = w ∧ resp.isSuccess = true then 1 else 0) + successfulMints w log := by
  unfold successfulMints
  by_cases h : req.userWallet = w <;> cases hs : resp.isSuccess <;>
    simp [List.filter_cons, h, hs, Nat.add_comm]

theorem runMints_storedWalletCount (tiers : List PricingTier) (w : String) :
    ∀ (run : List (Env × MintRequest)) (s : ServerState),
      (∀ p ∈ run, p.2.userWallet = w →
        p.1.walletCountReadFails = false ∧ p.1.walletIncrementFails = false) →
      storedWalletCount s w ≤ MAX_MINTS_PER_WALLET →
      storedWalletCount (runMints tiers s run).1 w =
          storedWalletCount s w + successfulMints w (runMints tiers s run).2 ∧
        storedWalletCount (runMints tiers s run).1 w ≤ MAX_MINTS_PER_WALLET := by
  intro run
  induction run with
  | nil => intro s _ hle; exact ⟨by simp [runMints, successfulMints], hle⟩
  | cons p rest ih =>
    intro s hrun hle
    obtain ⟨env, req⟩ := p
    have hstep := mintHandler_storedWalletCount tiers env s req w
    have hhere := hrun (env, req) (List.mem_cons_self _ _)
    have hle' : storedWalletCount (mintHandler tiers env s req).state w ≤
        MAX_MINTS_PER_WALLET := by
      rw [hstep]
      split_ifs with hc
      · obtain ⟨hsucc, hw, _⟩ := hc
        obtain ⟨t, n, s1, sig, asset, _, _, h3, _⟩ := mintHandler_success hsucc
        have := storedWalletCount_lt_of_authorized h3 (hhere hw).1
        rw [hw] at this
        omega
      · simpa using hle
    obtain ⟨ih1, ih2⟩ := ih (mintHandler tiers env s req).state
      (fun q hq => hrun q (List.mem_cons_of_mem _ hq)) hle'
    simp only [runMints]
    refine ⟨?_, ih2⟩
    rw [ih1, hstep, successfulMints_cons]
    by_cases hw : req.userWallet = w
    · have hinc : env.walletIncrementFails = false := (hhere hw).2
      cases hsucc : (mintHandler tiers env s req).response.isSuccess <;>
        simp [hw, hinc, Nat.add_assoc]
    · simp [hw]

/-- C4, counterexample: the wallet `alice` is authorized and its stored `mintCount` is 2; a
mint request by `alice` at unix time 0, when no configured tier is active, is answered
with `NO_ACTIVE_TIER` and status 410, not with `WALLET_NOT_AUTHORIZED` and status 403. -/
theorem mint_at_cap_outside_tiers :
    storedWalletCount
      { tracking := none, mirror := none, processed := [],
        authorizedWallets := fun w => if w = "alice" then some { expiresAt := none } else none,
        walletMintCounts := fun w =>
          if w = "alice" then some { mintCount := 2, mintTransactions := ["m1", "m2"] } else none,
        tierMintCounts := fun _ => none } "alice" = 2 ∧
    (mintHandler PRICING_TIERS
      { currentTime := 0, authTime := 0, paymentTx := .ok none,
        sendAndConfirm := .error "", parseLeaf := .error "" }
      { tracking := none, mirror := none, processed := [],
        authorizedWallets := fun w => if w = "alice" then some { expiresAt := none } else none,
        walletMintCounts := fun w =>
          if w = "alice" then some { mintCount := 2, mintTransactions := ["m1", "m2"] } else none,
        tierMintCounts := fun _ => none }
      { userWallet := "alice", paymentSignature := "pay3" }).response =
      .rejected 410 .NO_ACTIVE_TIER := by
  refine ⟨by simp [storedWalletCount], ?_⟩
  rw [mintHandler_no_tier (by simp [getCurrentTier, PRICING_TIERS, spaceCadet, spaceVoyager,
    spaceExplorer, spacePioneer])]

/-- C4, amended: in every sequential run of mint requests in which the count reads and the
count increments for the wallet succeed, starting from a store without a count record
for the wallet, the stored `mintCount` after the run equals the number `N` of successful
mints by the wallet, and `N ≤ 2`. A mint request by the wallet while its stored
`mintCount` is 2 (the count read succeeding) is rejected by a guard without a mint being
submitted and without any change of state: with `WALLET_NOT_AUTHORIZED` (status 403)
when a tier is active and below its supply cap, and with the code of the earlier guard,
`NO_ACTIVE_TIER` or `TIER_SUPPLY_EXHAUSTED` (status 410), otherwise. -/
theorem wallet_cap_over_runs (tiers : List PricingTier) (w : String) :
    (∀ (s : ServerState) (run : List (Env × MintRequest)),
      s.walletMintCounts w = none →
      (∀ p ∈ run, p.2.userWallet = w →
        p.1.walletCountReadFails = false ∧ p.1.walletIncrementFails = false) →
      storedWalletCount (runMints tiers s run).1 w = successfulMints w (runMints tiers s run).2 ∧
        successfulMints w (runMints tiers s run).2 ≤ 2) ∧
    (∀ (env : Env) (s : ServerState) (req : MintRequest),
      req.userWallet = w → storedWalletCount s w = 2 → env.walletCountReadFails = false →
      (getCurrentTier tiers env.currentTime = none →
        (mintHandler tiers env s req).response = .rejected 410 .NO_ACTIVE_TIER) ∧
      (∀ t, getCurrentTier tiers env.currentTime = some t →
        t.maxSupply ≤ getTierMintedCount env s t.name →
        (mintHandler tiers env s req).response = .rejected 410 .TIER_SUPPLY_EXHAUSTED) ∧
      (∀ t, getCurrentTier tiers env.currentTime = some t →
        getTierMintedCount env s t.name < t.maxSupply →
        (mintHandler tiers env s req).response = .rejected 403 .WALLET_NOT_AUTHORIZED) ∧
      (mintHandler tiers env s req).state = s ∧
      ∀ n leafOwner, Call.sendAndConfirm n leafOwner ∉ (mintHandler tiers env s req).calls) := by
  constructor
  · intro s run hnone hrun
    have h0 : storedWalletCount s w = 0 := by simp [storedWalletCount, hnone]
    obtain ⟨h1, h2⟩ := runMints_storedWalletCount tiers w run s hrun (by rw [h0]; exact Nat.zero_le _)
    rw [h0, Nat.zero_add] at h1
    exact ⟨h1, by rw [← h1]; exact h2⟩
  · intro env s req hw hcap hread
    have hna : isWalletAuthorized env s req.userWallet = false := by
      apply isWalletAuthorized_eq_false_of_cap _ hread
      rw [hw, hcap]; exact le_refl _
    have key : ∃ status code, (mintHandler tiers env s req).response = .rejected status code := by
      cases h1 : getCurrentTier tiers env.currentTime with
      | none => exact ⟨_, _, by rw [mintHandler_no_tier h1]⟩
      | some t =>
        rcases le_or_lt t.maxSupply (getTierMintedCount env s t.name) with h2 | h2
        · exact ⟨_, _, by rw [mintHandler_exhausted h1 h2]⟩
        · exact ⟨_, _, by rw [mintHandler_unauthorized h1 h2 hna]⟩
    obtain ⟨status, code, hrej⟩ := key
    obtain ⟨hst, hcalls, _⟩ := mintHandler_rejected hrej
    refine ⟨fun h1 => by rw [mintHandler_no_tier h1], fun t h1 h2 => ?_, fun t h1 h2 => ?_,
      hst, hcalls⟩
    · rw [mintHandler_exhausted h1 h2]
    · rw [mintHandler_unauthorized h1 h2 hna]


/-- Witness for C4 (amended): a three-request run by `alice` from the fresh server state,
and a request by `alice` at her cap during the first tier, answered with
`WALLET_NOT_AUTHORIZED`. -/
theorem wallet_cap_over_runs_witness :
    (storedWalletCount
        (runMints PRICING_TIERS freshState
          [(calmEnv 1752594900 500000000, { userWallet := "alice", paymentSignature := "p1" }),
           (calmEnv 1752594901 500000000, { userWallet := "alice", paymentSignature := "p2" }),
           (calmEnv 1752594902 500000000, { userWallet := "alice", paymentSignature := "p3" })]).1
        "alice" =
      successfulMints "alice"
        (runMints PRICING_TIERS freshState
          [(calmEnv 1752594900 500000000, { userWallet := "alice", paymentSignature := "p1" }),
           (calmEnv 1752594901 500000000, { userWallet := "alice", paymentSignature := "p2" }),
           (calmEnv 1752594902 500000000, { userWallet := "alice", paymentSignature := "p3" })]).2 ∧
      successfulMints "alice"
        (runMints PRICING_TIERS freshState
          [(calmEnv 1752594900 500000000, { userWallet := "alice", paymentSignature := "p1" }),
           (calmEnv 1752594901 500000000, { userWallet := "alice", paymentSignature := "p2" }),
           (calmEnv 1752594902 500000000, { userWallet := "alice", paymentSignature := "p3" })]).2
        ≤ 2) ∧
    (mintHandler PRICING_TIERS (calmEnv 1752594900 500000000) cappedState
      { userWallet := "alice", paymentSignature := "p3" }).response =
      .rejected 403 .WALLET_NOT_AUTHORIZED :=
  ⟨(wallet_cap_over_runs PRICING_TIERS "alice").1 freshState _ rfl
      (by intro p hp _; simp at hp; rcases hp with rfl | rfl | rfl <;> exact ⟨rfl, rfl⟩),
   ((wallet_cap_over_runs PRICING_TIERS "alice").2 (calmEnv 1752594900 500000000) cappedState
      { userWallet := "alice", paymentSignature := "p3" } rfl
      (by simp [storedWalletCount, cappedState]) rfl).2.2.1
      spaceCadet
      (by simp [getCurrentTier, PRICING_TIERS, calmEnv, spaceCadet])
      (by simp [getTierMintedCount, getTierMintCount, calmEnv, cappedState, freshState, spaceCadet])⟩

/-! ### The per-tier supply cap -/

theorem mem_of_getCurrentTier {tiers : List PricingTier} {now : Int} {t : PricingTier}
    (h : getCurrentTier tiers now = some t) : t ∈ tiers := by
  obtain ⟨pre, post, rfl, _⟩ := (getCurrentTier_eq_some_iff tiers now t).1 h
  simp

theorem getTierMintedCount_of_read_ok {env : Env} (s : ServerState) (name : String)
    (h : env.tierCountReadFails = false) :
    getTierMintedCount env s name = storedTierCount s name := by
  simp [getTierMintedCount, getTierMintCount, storedTierCount, h]

theorem runMints_storedTierCount (tiers : List PricingTier)
    (hnames : ∀ t ∈ tiers, ∀ u ∈ tiers, t.name = u.name → t = u) :
    ∀ (run : List (Env × MintRequest)) (s : ServerState),
      (∀ p ∈ run, p.1.tierCountReadFails = false) →
      (∀ t ∈ tiers, storedTierCount s t.name ≤ t.maxSupply) →
      ∀ t ∈ tiers, storedTierCount (runMints tiers s run).1 t.name ≤ t.maxSupply := by
  intro run
  induction run with
  | nil => intro s _ hinv; simpa [runMints] using hinv
  | cons p rest ih =>
    intro s hrun hinv
    obtain ⟨env, req⟩ := p
    simp only [runMints]
    apply ih _ (fun q hq => hrun q (List.mem_cons_of_mem _ hq))
    intro t ht
    rw [mintHandler_storedTierCount]
    split_ifs with hc
    · obtain ⟨hsucc, ⟨t0, h0, hname⟩, _, _⟩ := hc
      obtain ⟨t', n, s1, sig, asset, h1, h2, _⟩ := mintHandler_success hsucc
      rw [h0] at h1
      simp only [Option.some.injEq] at h1
      subst h1
      have heq : t0 = t := hnames t0 (mem_of_getCurrentTier h0) t ht hname
      subst heq
      rw [getTierMintedCount_of_read_ok s _ (hrun (env, req) (List.mem_cons_self _ _))] at h2
      omega
    · simpa using hinv t ht

theorem priceLamports_intCast {t : PricingTier} (ht : t ∈ PRICING_TIERS) :
    ∃ p : ℤ, t.priceLamports = p ∧ |p| < 2 ^ 52 := by
  simp only [PRICING_TIERS, List.mem_cons, List.mem_singleton, List.not_mem_nil,
    or_false] at ht
  rcases ht with rfl | rfl | rfl | rfl
  · exact ⟨500000000, by norm_num [spaceCadet], by norm_num⟩
  · exact ⟨1000000000, by norm_num [spaceVoyager], by norm_num⟩
  · exact ⟨5000000000, by norm_num [spaceExplorer], by norm_num⟩
  · exact ⟨10000000000, by norm_num [spacePioneer], by norm_num⟩

/-- The payment check on the amount as the code computes it: the conversion to SOL and
back does not change the verdict, the two subtractions can. -/
theorem paymentCheck_computed_iff {t : PricingTier} (ht : t ∈ PRICING_TIERS) (tx : PaymentTx) :
    jsMul (jsDiv (jsSub (jsSub tx.preBalance tx.postBalance) tx.fee) LAMPORTS_PER_SOL)
        LAMPORTS_PER_SOL = t.priceLamports ↔
      jsSub (jsSub tx.preBalance tx.postBalance) tx.fee = t.priceLamports := by
  obtain ⟨k, hk⟩ := jsSub_isInt tx.preBalance tx.postBalance
  rw [hk]
  obtain ⟨k2, hk2⟩ := jsSub_isInt k tx.fee
  rw [hk2]
  exact paymentCheck_iff t ht k2

theorem paymentAccepted_iff_computed {t : PricingTier} (ht : t ∈ PRICING_TIERS) {env : Env}
    {tx : PaymentTx} (hp : env.paymentTx = .ok (some tx)) :
    paymentAccepted env t ↔
      jsSub (jsSub tx.preBalance tx.postBalance) tx.fee = t.priceLamports := by
  unfold paymentAccepted getTransactionAmount
  rw [hp]
  simp only [Except.ok.injEq, exists_eq_left']
  exact paymentCheck_computed_iff ht tx

theorem paymentRefused_iff_computed {t : PricingTier} (ht : t ∈ PRICING_TIERS) {env : Env}
    {tx : PaymentTx} (hp : env.paymentTx = .ok (some tx)) :
    paymentRefused env t ↔
      jsSub (jsSub tx.preBalance tx.postBalance) tx.fee ≠ t.priceLamports := by
  unfold paymentRefused getTransactionAmount
  rw [hp]
  simp only [Except.ok.injEq, exists_eq_left']
  exact not_congr (paymentCheck_computed_iff ht tx)

/-- When the two balances differ by less than 2^53 lamports, the amount that the code
computes is the price exactly when the exact net amount is. -/
theorem computedAmount_eq_price_iff {t : PricingTier} (ht : t ∈ PRICING_TIERS) (tx : PaymentTx)
    (hsafe : |tx.preBalance - tx.postBalance| < 2 ^ 53) :
    jsSub (jsSub tx.preBalance tx.postBalance) tx.fee = t.priceLamports ↔
      ((tx.preBalance - tx.postBalance - tx.fee : Int) : ℚ) = t.priceLamports := by
  obtain ⟨p, hp, hlt⟩ := priceLamports_intCast ht
  rw [jsSub_exact _ _ hsafe, hp]
  unfold jsSub
  have e : ((tx.preBalance - tx.postBalance : ℤ) : ℚ) - (tx.fee : ℚ) =
      ((tx.preBalance - tx.postBalance - tx.fee : ℤ) : ℚ) := by push_cast; ring
  rw [e, roundDouble_intCast_eq_iff _ p hlt]
  norm_cast

theorem paymentAccepted_iff {t : PricingTier} (ht : t ∈ PRICING_TIERS) {env : Env}
    {tx : PaymentTx} (hp : env.paymentTx = .ok (some tx))
    (hsafe : |tx.preBalance - tx.postBalance| < 2 ^ 53) :
    paymentAccepted env t ↔
      ((tx.preBalance - tx.postBalance - tx.fee : Int) : ℚ) = t.priceLamports :=
  (paymentAccepted_iff_computed ht hp).trans (computedAmount_eq_price_iff ht tx hsafe)

theorem paymentRefused_iff {t : PricingTier} (ht : t ∈ PRICING_TIERS) {env : Env}
    {tx : PaymentTx} (hp : env.paymentTx = .ok (some tx))
    (hsafe : |tx.preBalance - tx.postBalance| < 2 ^ 53) :
    paymentRefused env t ↔
      ((tx.preBalance - tx.postBalance - tx.fee : Int) : ℚ) ≠ t.priceLamports :=
  (paymentRefused_iff_computed ht hp).trans (not_congr (computedAmount_eq_price_iff ht tx hsafe))


theorem pricingTiers_names_unique :
    ∀ t ∈ PRICING_TIERS, ∀ u ∈ PRICING_TIERS, t.name = u.name → t = u := by
  intro t ht u hu
  simp only [PRICING_TIERS, List.mem_cons, List.mem_singleton, List.not_mem_nil,
    or_false] at ht hu
  rcases ht with rfl | rfl | rfl | rfl <;> rcases hu with rfl | rfl | rfl | rfl <;>
    simp [spaceCadet, spaceVoyager, spaceExplorer, spacePioneer]

/-- C5, counterexample: the tier "Space Pioneer NFTs" (supply cap 100) has the stored
`mintCount` 100; a request by the authorized wallet `alice` arrives during that tier with
the exact payment of 10 SOL while the read of the tier count fails. The handler takes
the count as 0, answers with success, and the stored `mintCount` becomes 101. -/
theorem tier_cap_exceeded_on_read_failure :
    storedTierCount pioneerSoldOut "Space Pioneer NFTs" = 100 ∧
    (mintHandler PRICING_TIERS
      (tierReadFailingEnv 1752940800 10000000000) pioneerSoldOut
      { userWallet := "alice", paymentSignature := "pay" }).response =
      .success 0 "asset" "mintSig" ∧
    storedTierCount
      (mintHandler PRICING_TIERS
        (tierReadFailingEnv 1752940800 10000000000) pioneerSoldOut
        { userWallet := "alice", paymentSignature := "pay" }).state
      "Space Pioneer NFTs" = 101 := by
  have ht : spacePioneer ∈ PRICING_TIERS := by simp [PRICING_TIERS]
  have h := @mintHandler_completes PRICING_TIERS (tierReadFailingEnv 1752940800 10000000000)
    pioneerSoldOut { pioneerSoldOut with tracking := some initialData }
    { userWallet := "alice", paymentSignature := "pay" } spacePioneer 0 "mintSig" "asset"
    (by simp [getCurrentTier, PRICING_TIERS, tierReadFailingEnv, spaceCadet, spaceVoyager,
          spaceExplorer, spacePioneer])
    (by simp [getTierMintedCount, getTierMintCount, tierReadFailingEnv, spacePioneer])
    (by simp [isWalletAuthorized, getWalletMintCount, tierReadFailingEnv, pioneerSoldOut,
          freshState, aliceAuthorized, MAX_MINTS_PER_WALLET])
    ((@paymentAccepted_iff _ ht _ (sampleTx 10000000000) rfl (by decide)).2
      (by norm_num [spacePioneer, sampleTx]))
    (by simp [isTransactionProcessed, pioneerSoldOut, freshState])
    rfl
    (by rw [allocateMintId_of_none _ (by simp [pioneerSoldOut, freshState])]; rfl)
    (by decide) rfl rfl rfl rfl
  refine ⟨by simp [storedTierCount, pioneerSoldOut], h.1, ?_⟩
  rw [h.2]
  unfold storedTierCount
  rw [updateFirebaseCounts_tierMintCounts]
  simp [tierReadFailingEnv, recordedState, storedTierCount, pioneerSoldOut, spacePioneer]

/-- C5, amended: with tier names unique, in every sequential run of mint requests in which
the reads of the tier count succeed, starting from a store in which no tier's stored
`mintCount` exceeds its `maxSupply`, no tier's stored `mintCount` exceeds its `maxSupply`
afterwards; and a mint request that arrives while the stored count of the active tier,
successfully read, is at least its `maxSupply` is rejected with `TIER_SUPPLY_EXHAUSTED`
(status 410), without a mint being submitted and without any change of state. -/
theorem tier_cap_over_runs (tiers : List PricingTier)
    (hnames : ∀ t ∈ tiers, ∀ u ∈ tiers, t.name = u.name → t = u) :
    (∀ (s : ServerState) (run : List (Env × MintRequest)),
      (∀ p ∈ run, p.1.tierCountReadFails = false) →
      (∀ t ∈ tiers, storedTierCount s t.name ≤ t.maxSupply) →
      ∀ t ∈ tiers, storedTierCount (runMints tiers s run).1 t.name ≤ t.maxSupply) ∧
    (∀ (env : Env) (s : ServerState) (req : MintRequest) (t : PricingTier),
      getCurrentTier tiers env.currentTime = some t → env.tierCountReadFails = false →
      t.maxSupply ≤ storedTierCount s t.name →
      (mintHandler tiers env s req).response = .rejected 410 .TIER_SUPPLY_EXHAUSTED ∧
      (mintHandler tiers env s req).state = s ∧
      ∀ n leafOwner, Call.sendAndConfirm n leafOwner ∉ (mintHandler tiers env s req).calls) := by
  refine ⟨fun s run hrun hinv => runMints_storedTierCount tiers hnames run s hrun hinv, ?_⟩
  intro env s req t h1 hread hcap
  rw [← getTierMintedCount_of_read_ok s t.name hread] at hcap
  rw [mintHandler_exhausted h1 hcap]
  simp

/-- Witness for C5 (amended): the configured tiers, a run of two requests from the fresh
server state, and a request during the sold-out tier "Space Pioneer NFTs". -/
theorem tier_cap_over_runs_witness :
    (∀ t ∈ PRICING_TIERS,
      storedTierCount
        (runMints PRICING_TIERS freshState
          [(calmEnv 1752594900 500000000, { userWallet := "alice", paymentSignature := "p1" }),
           (calmEnv 1752594901 500000000, { userWallet := "alice", paymentSignature := "p2" })]).1
        t.name ≤ t.maxSupply) ∧
    (mintHandler PRICING_TIERS (calmEnv 1752940800 10000000000) pioneerSoldOut
      { userWallet := "alice", paymentSignature := "pay" }).response =
      .rejected 410 .TIER_SUPPLY_EXHAUSTED :=
  ⟨(tier_cap_over_runs PRICING_TIERS pricingTiers_names_unique).1 freshState _
      (by intro p hp; simp at hp; rcases hp with rfl | rfl <;> rfl)
      (by intro t _; simp [storedTierCount, freshState]),
   ((tier_cap_over_runs PRICING_TIERS pricingTiers_names_unique).2
      (calmEnv 1752940800 10000000000) pioneerSoldOut
      { userWallet := "alice", paymentSignature := "pay" }
      spacePioneer
      (by simp [getCurrentTier, PRICING_TIERS, calmEnv, spaceCadet, spaceVoyager, spaceExplorer,
          spacePioneer]) rfl
      (by simp [storedTierCount, pioneerSoldOut, spacePioneer])).1⟩

/-! ### The replay guard -/

theorem mem_addProcessedTransaction (processed : List String) (sig x : String) :
    x ∈ addProcessedTransaction processed sig ↔ x = sig ∨ x ∈ processed := by
  unfold addProcessedTransaction
  by_cases h : processed.contains sig = true
  · rw [if_pos h]
    have hm : sig ∈ processed := by simpa using h
    constructor
    · exact Or.inr
    · rintro (rfl | hx)
      · exact hm
      · exact hx
  · rw [if_neg h]
    simp

theorem isTransactionProcessed_eq_true_iff (processed : List String) (sig : String) :
    isTransactionProcessed processed sig = true ↔ sig ∈ processed := by
  simp [isTransactionProcessed]

/-- The replay guard only grows during a request, and after a success it holds the
payment id of the request. -/
theorem mintHandler_processed (tiers : List PricingTier) (env : Env) (s : ServerState)
    (req : MintRequest) :
    (∀ x ∈ s.processed, x ∈ (mintHandler tiers env s req).state.processed) ∧
    ((mintHandler tiers env s req).response.isSuccess = true →
      req.paymentSignature ∈ (mintHandler tiers env s req).state.processed) := by
  cases hsucc : (mintHandler tiers env s req).response.isSuccess with
  | false =>
    obtain ⟨hp, _⟩ := mintHandler_not_success hsucc
    rw [hp]
    exact ⟨fun x hx => hx, fun h => by cases h⟩
  | true =>
    obtain ⟨t, n, s1, sig, asset, _, _, _, _, _, _, h7, _, _, _, _, _, _, hst⟩ :=
      mintHandler_success hsucc
    obtain ⟨hp1, _⟩ := allocateMintId_stores h7
    have hproc : (mintHandler tiers env s req).state.processed =
        addProcessedTransaction s.processed req.paymentSignature := by
      rw [hst, (updateFirebaseCounts_rest _ _ _ _ _).2.2.1]
      simp [recordedState, hp1]
    rw [hproc]
    exact ⟨fun x hx => (mem_addProcessedTransaction _ _ _).2 (Or.inr hx),
      fun _ => (mem_addProcessedTransaction _ _ _).2 (Or.inl rfl)⟩

theorem runMints_processed (tiers : List PricingTier) :
    ∀ (run : List (Env × MintRequest)) (s : ServerState),
      ∀ x ∈ s.processed, x ∈ (runMints tiers s run).1.processed := by
  intro run
  induction run with
  | nil => intro s x hx; exact hx
  | cons p rest ih =>
    intro s x hx
    obtain ⟨env, req⟩ := p
    simp only [runMints]
    exact ih _ x ((mintHandler_processed tiers env s req).1 x hx)

theorem runMints_nil (tiers : List PricingTier) (s : ServerState) :
    runMints tiers s [] = (s, []) := rfl

theorem runMints_cons (tiers : List PricingTier) (s : ServerState) (env : Env)
    (req : MintRequest) (rest : List (Env × MintRequest)) :
    runMints tiers s ((env, req) :: rest) =
      ((runMints tiers (mintHandler tiers env s req).state rest).1,
        (req, (mintHandler tiers env s req).response) ::
          (runMints tiers (mintHandler tiers env s req).state rest).2) := rfl

/-- C7: once a mint request carrying the payment id `p` has been answered with success,
every later mint request of the same process (after any requests in between) that carries
`p` and passes the tier, capacity, authorization and payment-amount guards is answered
with `DUPLICATE_TRANSACTION` and status 409; the state is unchanged and no mint is
submitted. -/
theorem replayed_payment_rejected (tiers : List PricingTier) (s : ServerState)
    (env1 : Env) (req1 : MintRequest) (between : List (Env × MintRequest))
    (env2 : Env) (req2 : MintRequest) (t : PricingTier)
    (hfirst : (mintHandler tiers env1 s req1).response.isSuccess = true)
    (hsame : req2.paymentSignature = req1.paymentSignature)
    (h1 : getCurrentTier tiers env2.currentTime = some t)
    (h2 : getTierMintedCount env2
      (runMints tiers (mintHandler tiers env1 s req1).state between).1 t.name < t.maxSupply)
    (h3 : isWalletAuthorized env2
      (runMints tiers (mintHandler tiers env1 s req1).state between).1 req2.userWallet = true)
    (h4 : paymentAccepted env2 t) :
    (mintHandler tiers env2
        (runMints tiers (mintHandler tiers env1 s req1).state between).1 req2).response =
      .rejected 409 .DUPLICATE_TRANSACTION ∧
    (mintHandler tiers env2
        (runMints tiers (mintHandler tiers env1 s req1).state between).1 req2).state =
      (runMints tiers (mintHandler tiers env1 s req1).state between).1 ∧
    ∀ n leafOwner, Call.sendAndConfirm n leafOwner ∉
      (mintHandler tiers env2
        (runMints tiers (mintHandler tiers env1 s req1).state between).1 req2).calls := by
  have hmem : req2.paymentSignature ∈
      (runMints tiers (mintHandler tiers env1 s req1).state between).1.processed := by
    rw [hsame]
    exact runMints_processed tiers between _ _ ((mintHandler_processed tiers env1 s req1).2 hfirst)
  have h5 := (isTransactionProcessed_eq_true_iff _ _).2 hmem
  rw [mintHandler_duplicate h1 h2 h3 h4 h5]
  simp

/-- The first request of the examples below is answered with success. -/
theorem first_sample_mint :
    (mintHandler PRICING_TIERS (calmEnv 1752594900 500000000) freshState
        { userWallet := "alice", paymentSignature := "p1" }).response =
      .success 0 "asset" "mintSig" ∧
    (mintHandler PRICING_TIERS (calmEnv 1752594900 500000000) freshState
        { userWallet := "alice", paymentSignature := "p1" }).state =
      (updateFirebaseCounts (calmEnv 1752594900 500000000)
        (recordedState (calmEnv 1752594900 500000000)
          { freshState with tracking := some initialData }
          { userWallet := "alice", paymentSignature := "p1" } 0)
        { userWallet := "alice", paymentSignature := "p1" } spaceCadet.name "mintSig").1 :=
  mintHandler_completes (t := spaceCadet)
    (by simp [getCurrentTier, PRICING_TIERS, calmEnv, spaceCadet])
    (by simp [getTierMintedCount, getTierMintCount, calmEnv, freshState, spaceCadet])
    (by simp [isWalletAuthorized, getWalletMintCount, calmEnv, freshState, aliceAuthorized,
          MAX_MINTS_PER_WALLET])
    ((@paymentAccepted_iff _ (by simp [PRICING_TIERS]) _ (sampleTx 500000000) rfl (by decide)).2
      (by norm_num [spaceCadet, sampleTx]))
    (by simp [isTransactionProcessed, freshState])
    rfl
    (by rw [allocateMintId_of_none _ (by simp [freshState])]; rfl)
    (by decide) rfl rfl rfl rfl


/-- Witness for C7: `alice` mints with the payment `p1` at the start of the first tier and
sends the same payment again one second later. -/
theorem replayed_payment_rejected_witness :
    (mintHandler PRICING_TIERS (calmEnv 1752594901 500000000)
        (runMints PRICING_TIERS
          (mintHandler PRICING_TIERS (calmEnv 1752594900 500000000) freshState
            { userWallet := "alice", paymentSignature := "p1" }).state []).1
        { userWallet := "alice", paymentSignature := "p1" }).response =
      .rejected 409 .DUPLICATE_TRANSACTION :=
  (replayed_payment_rejected PRICING_TIERS freshState (calmEnv 1752594900 500000000)
    { userWallet := "alice", paymentSignature := "p1" } [] (calmEnv 1752594901 500000000)
    { userWallet := "alice", paymentSignature := "p1" } spaceCadet
    (by rw [first_sample_mint.1]; rfl) rfl
    (by simp [getCurrentTier, PRICING_TIERS, calmEnv, spaceCadet])
    (by
      rw [runMints_nil]
      rw [first_sample_mint.2, getTierMintedCount_of_read_ok _ _ rfl]
      unfold storedTierCount
      rw [updateFirebaseCounts_tierMintCounts]
      simp [calmEnv, recordedState, freshState, storedTierCount, spaceCadet])
    (by
      rw [runMints_nil]
      rw [first_sample_mint.2, isWalletAuthorized_eq_true_iff _ _ _ rfl rfl]
      refine ⟨{ expiresAt := none }, ?_, Or.inl rfl, ?_⟩
      · rw [(updateFirebaseCounts_rest _ _ _ _ _).2.2.2]
        simp [recordedState, freshState, aliceAuthorized]
      · unfold storedWalletCount
        rw [updateFirebaseCounts_walletMintCounts]
        simp [calmEnv, recordedState, freshState, storedWalletCount, MAX_MINTS_PER_WALLET])
    ((@paymentAccepted_iff _ (by simp [PRICING_TIERS]) _ (sampleTx 500000000) rfl (by decide)).2
      (by norm_num [spaceCadet, sampleTx]))).1


/-! ### Guard order and rejected requests -/

/-- C8: the response of a mint request on which a guard fails carries the code of the
first failing guard in the order `NO_ACTIVE_TIER`, `TIER_SUPPLY_EXHAUSTED`,
`WALLET_NOT_AUTHORIZED`, `INSUFFICIENT_PAYMENT`, `DUPLICATE_TRANSACTION`,
`TRANSACTION_VERIFICATION_FAILED`, `MAX_SUPPLY_REACHED`, whatever the later guards would
have said; the calls made are exactly those of the guards up to the failing one, the
state is unchanged, and every guard response has a 4xx status and no mint submission. -/
theorem first_failing_guard_decides (tiers : List PricingTier) (env : Env) (s : ServerState)
    (req : MintRequest) :
    (getCurrentTier tiers env.currentTime = none →
      mintHandler tiers env s req = ⟨.rejected 410 .NO_ACTIVE_TIER, s, [.getCurrentTier]⟩) ∧
    (∀ t, getCurrentTier tiers env.currentTime = some t →
      (t.maxSupply ≤ getTierMintedCount env s t.name →
        mintHandler tiers env s req =
          ⟨.rejected 410 .TIER_SUPPLY_EXHAUSTED, s,
            [.getCurrentTier, .getTierMintedCount t.name]⟩) ∧
      (getTierMintedCount env s t.name < t.maxSupply →
        (isWalletAuthorized env s req.userWallet = false →
          mintHandler tiers env s req =
            ⟨.rejected 403 .WALLET_NOT_AUTHORIZED, s,
              [.getCurrentTier, .getTierMintedCount t.name,
                .isWalletAuthorized req.userWallet]⟩) ∧
        (isWalletAuthorized env s req.userWallet = true →
          (paymentRefused env t →
            mintHandler tiers env s req =
              ⟨.rejected 409 .INSUFFICIENT_PAYMENT, s,
                [.getCurrentTier, .getTierMintedCount t.name,
                  .isWalletAuthorized req.userWallet,
                  .getTransactionAmount req.paymentSignature]⟩) ∧
          (paymentAccepted env t →
            (isTransactionProcessed s.processed req.paymentSignature = true →
              mintHandler tiers env s req =
                ⟨.rejected 409 .DUPLICATE_TRANSACTION, s,
                  [.getCurrentTier, .getTierMintedCount t.name,
                    .isWalletAuthorized req.userWallet,
                    .getTransactionAmount req.paymentSignature,
                    .isTransactionProcessed req.paymentSignature]⟩) ∧
            (isTransactionProcessed s.processed req.paymentSignature = false →
              (env.txDetailsError.isSome = true →
                mintHandler tiers env s req =
                  ⟨.rejected 400 .TRANSACTION_VERIFICATION_FAILED, s,
                    [.getCurrentTier, .getTierMintedCount t.name,
                      .isWalletAuthorized req.userWallet,
                      .getTransactionAmount req.paymentSignature,
                      .isTransactionProcessed req.paymentSignature,
                      .getWalletAddressesFromTransaction req.paymentSignature]⟩) ∧
              (env.txDetailsError.isSome = false →
                ∀ n s1, allocateMintId env s = .ok (n, s1) → MAX_SUPPLY ≤ n →
                  mintHandler tiers env s req =
                    ⟨.rejected 410 .MAX_SUPPLY_REACHED, s,
                      [.getCurrentTier, .getTierMintedCount t.name,
                        .isWalletAuthorized req.userWallet,
                        .getTransactionAmount req.paymentSignature,
                        .isTransactionProcessed req.paymentSignature,
                        .getWalletAddressesFromTransaction req.paymentSignature,
                        .getNextMintId]⟩)))))) ∧
    (∀ status code, (mintHandler tiers env s req).response = .rejected status code →
      400 ≤ (mintHandler tiers env s req).response.status ∧
      (mintHandler tiers env s req).response.status < 500 ∧
      (mintHandler tiers env s req).state = s ∧
      ∀ n leafOwner, Call.sendAndConfirm n leafOwner ∉ (mintHandler tiers env s req).calls) := by
  refine ⟨fun h1 => mintHandler_no_tier h1, fun t h1 => ⟨fun h2 => mintHandler_exhausted h1 h2,
    fun h2 => ⟨fun h3 => mintHandler_unauthorized h1 h2 h3, fun h3 =>
      ⟨fun h4 => mintHandler_payment_refused h1 h2 h3 h4, fun h4 =>
        ⟨fun h5 => mintHandler_duplicate h1 h2 h3 h4 h5, fun h5 =>
          ⟨fun h6 => mintHandler_verification_failed h1 h2 h3 h4 h5 h6,
            fun h6 n s1 h7 h8 => ?_⟩⟩⟩⟩⟩, ?_⟩
  · rw [mintHandler_max_supply h1 h2 h3 h4 h5 h6 h7 h8]
    rcases allocateMintId_ok h7 with rfl | ⟨_, hn, _⟩
    · rfl
    · rw [hn] at h8; simp [MAX_SUPPLY] at h8
  · intro status code h
    obtain ⟨hs, hc, hlo, hhi⟩ := mintHandler_rejected h
    refine ⟨?_, ?_, hs, hc⟩
    · rw [h]; exact hlo
    · rw [h]; exact hhi

/-- Witness for C8: a wallet that is not authorized, during the sold-out tier, gets
`TIER_SUPPLY_EXHAUSTED`; an already used payment id with a wrong amount gets
`INSUFFICIENT_PAYMENT`. -/
theorem first_failing_guard_decides_witness :
    isWalletAuthorized (calmEnv 1752940800 10000000000) pioneerSoldOut "mallory" = false ∧
    mintHandler PRICING_TIERS (calmEnv 1752940800 10000000000) pioneerSoldOut
        { userWallet := "mallory", paymentSignature := "pay" } =
      ⟨.rejected 410 .TIER_SUPPLY_EXHAUSTED, pioneerSoldOut,
        [.getCurrentTier, .getTierMintedCount spacePioneer.name]⟩ ∧
    isTransactionProcessed replayedState.processed "p1" = true ∧
    mintHandler PRICING_TIERS (calmEnv 1752594900 400000000) replayedState
        { userWallet := "alice", paymentSignature := "p1" } =
      ⟨.rejected 409 .INSUFFICIENT_PAYMENT, replayedState,
        [.getCurrentTier, .getTierMintedCount spaceCadet.name, .isWalletAuthorized "alice",
          .getTransactionAmount "p1"]⟩ :=
  ⟨by simp [isWalletAuthorized, calmEnv, pioneerSoldOut, freshState, aliceAuthorized],
   ((first_failing_guard_decides PRICING_TIERS (calmEnv 1752940800 10000000000) pioneerSoldOut
      { userWallet := "mallory", paymentSignature := "pay" }).2.1 spacePioneer
      (by simp [getCurrentTier, PRICING_TIERS, calmEnv, spaceCadet, spaceVoyager, spaceExplorer,
            spacePioneer])).1
      (by simp [getTierMintedCount, getTierMintCount, calmEnv, pioneerSoldOut, spacePioneer]),
   by simp [isTransactionProcessed, replayedState],
   ((((first_failing_guard_decides PRICING_TIERS (calmEnv 1752594900 400000000) replayedState
      { userWallet := "alice", paymentSignature := "p1" }).2.1 spaceCadet
      (by simp [getCurrentTier, PRICING_TIERS, calmEnv, spaceCadet])).2
      (by simp [getTierMintedCount, getTierMintCount, calmEnv, replayedState, freshState,
            spaceCadet])).2
      (by simp [isWalletAuthorized, getWalletMintCount, calmEnv, replayedState, freshState,
            aliceAuthorized, MAX_MINTS_PER_WALLET])).1
      ((@paymentRefused_iff _ (by simp [PRICING_TIERS]) _ (sampleTx 400000000) rfl (by decide)).2
        (by norm_num [spaceCadet, sampleTx]))⟩

/-- C9: a mint request rejected by a guard leaves the state as it was: the mint tracking
record (`mintedIds`, `lastMintedId`), the set of processed payment ids, every wallet mint
count and every tier mint count are the same after the request as before it. In
particular a request that reaches the payment check of the 0.5 SOL tier with a payment
of 0.4 SOL (400000000 lamports) is rejected with `INSUFFICIENT_PAYMENT` and changes
nothing, whenever the two balances of the payment differ by less than 2^64 lamports, as
any two lamport balances do. -/
theorem rejected_request_changes_nothing :
    (∀ (tiers : List PricingTier) (env : Env) (s : ServerState) (req : MintRequest)
        (status : Nat) (code : ErrorCode),
      (mintHandler tiers env s req).response = .rejected status code →
      (mintHandler tiers env s req).state = s ∧
      (mintHandler tiers env s req).state.tracking = s.tracking ∧
      (mintHandler tiers env s req).state.processed = s.processed ∧
      (∀ w, (mintHandler tiers env s req).state.walletMintCounts w = s.walletMintCounts w) ∧
      (∀ name, (mintHandler tiers env s req).state.tierMintCounts name =
        s.tierMintCounts name)) ∧
    (∀ (env : Env) (s : ServerState) (req : MintRequest) (tx : PaymentTx),
      getCurrentTier PRICING_TIERS env.currentTime = some spaceCadet →
      getTierMintedCount env s spaceCadet.name < spaceCadet.maxSupply →
      isWalletAuthorized env s req.userWallet = true →
      env.paymentTx = .ok (some tx) →
      tx.preBalance - tx.postBalance - tx.fee = 400000000 →
      |tx.preBalance - tx.postBalance| < 2 ^ 64 →
      (mintHandler PRICING_TIERS env s req).response = .rejected 409 .INSUFFICIENT_PAYMENT ∧
      (mintHandler PRICING_TIERS env s req).state = s) := by
  constructor
  · intro tiers env s req status code h
    obtain ⟨hs, _⟩ := mintHandler_rejected h
    rw [hs]
    exact ⟨rfl, rfl, rfl, fun _ => rfl, fun _ => rfl⟩
  · intro env s req tx h1 h2 h3 hp hnet hrange
    have href : paymentRefused env spaceCadet := by
      apply (paymentRefused_iff_computed (by simp [PRICING_TIERS]) hp).2
      have hne := jsSub_jsSub_ne_of_far tx.preBalance tx.postBalance tx.fee 500000000 hrange
        (by norm_num) (by rw [hnet]; norm_num)
      simpa [spaceCadet] using hne
    rw [mintHandler_payment_refused h1 h2 h3 href]
    exact ⟨rfl, rfl⟩

/-- Witness for C9: `alice` pays 0.4 SOL at the start of the 0.5 SOL tier. -/
theorem rejected_request_changes_nothing_witness :
    (mintHandler PRICING_TIERS (calmEnv 1752594900 400000000) freshState
        { userWallet := "alice", paymentSignature := "p1" }).response =
      .rejected 409 .INSUFFICIENT_PAYMENT ∧
    (mintHandler PRICING_TIERS (calmEnv 1752594900 400000000) freshState
        { userWallet := "alice", paymentSignature := "p1" }).state = freshState :=
  rejected_request_changes_nothing.2 (calmEnv 1752594900 400000000) freshState
    { userWallet := "alice", paymentSignature := "p1" } (sampleTx 400000000)
    (by simp [getCurrentTier, PRICING_TIERS, calmEnv, spaceCadet])
    (by simp [getTierMintedCount, getTierMintCount, calmEnv, freshState, spaceCadet])
    (by simp [isWalletAuthorized, getWalletMintCount, calmEnv, freshState, aliceAuthorized,
          MAX_MINTS_PER_WALLET])
    rfl (by norm_num [sampleTx]) (by decide)


/-! ### The successful mint -/

theorem getCurrentTier_at_startDate (t : PricingTier) (ht : t ∈ PRICING_TIERS) :
    getCurrentTier PRICING_TIERS t.startDate = some t := by
  simp only [PRICING_TIERS, List.mem_cons, List.mem_singleton, List.not_mem_nil,
    or_false] at ht
  rcases ht with rfl | rfl | rfl | rfl <;>
    simp [PRICING_TIERS, getCurrentTier, spaceCadet, spaceVoyager, spaceExplorer, spacePioneer]

theorem mem_withMintedId (r : MintTrackingRecord) (id : Int) :
    id ∈ (withMintedId r id).mintedIds ∧ (withMintedId r id).lastMintedId = id := by
  unfold withMintedId
  refine ⟨?_, rfl⟩
  by_cases h : id ∈ r.mintedIds
  · simp [h]
  · simp [h]

/-- The amount that the code computes for `tieTx`: the first subtraction gives
`36028797018963972`, which is halfway between two doubles and is rounded down by 4. -/
theorem computedAmount_tieTx :
    jsSub (tieTx.preBalance : ℚ) (tieTx.postBalance : ℚ) = 36028797018963968 ∧
    jsSub (jsSub (tieTx.preBalance : ℚ) (tieTx.postBalance : ℚ)) (tieTx.fee : ℚ) = 499999996 := by
  have h1 : jsSub (tieTx.preBalance : ℚ) (tieTx.postBalance : ℚ) = 36028797018963968 := by
    unfold jsSub
    norm_num [tieTx]
    exact roundDouble_tie_down_55
  refine ⟨h1, ?_⟩
  rw [h1]
  unfold jsSub
  have h := roundDouble_intCast 499999996 (by norm_num)
  norm_num [tieTx] at h ⊢
  exact h

/-- C10, counterexample: `alice`, authorized and without mints, sends a request at the
`startDate` of the first tier of the fresh server, with an unused payment whose exact net
amount `preBalance - postBalance - fee` is the price, 500000000 lamports; every
collaborator succeeds and the id 0 is free. The pre-balance is above 2^55 lamports, the
first subtraction is rounded, the code computes 499999996 lamports, and the request is
answered with `INSUFFICIENT_PAYMENT`. -/
theorem exact_payment_refused :
    (payingEnv 1752594900 tieTx).currentTime = spaceCadet.startDate ∧
    isWalletAuthorized (payingEnv 1752594900 tieTx) freshState "alice" = true ∧
    storedWalletCount freshState "alice" = 0 ∧
    storedTierCount freshState spaceCadet.name < spaceCadet.maxSupply ∧
    isTransactionProcessed freshState.processed "p1" = false ∧
    allocateMintId (payingEnv 1752594900 tieTx) freshState =
      .ok (0, { freshState with tracking := some initialData }) ∧
    tieTx.preBalance - tieTx.postBalance - tieTx.fee = 500000000 ∧
    spaceCadet.priceLamports = 500000000 ∧
    jsSub (jsSub (tieTx.preBalance : ℚ) (tieTx.postBalance : ℚ)) (tieTx.fee : ℚ) = 499999996 ∧
    (mintHandler PRICING_TIERS (payingEnv 1752594900 tieTx) freshState
      { userWallet := "alice", paymentSignature := "p1" }).response =
      .rejected 409 .INSUFFICIENT_PAYMENT := by
  have hauth : isWalletAuthorized (payingEnv 1752594900 tieTx) freshState "alice" = true := by
    simp [isWalletAuthorized, getWalletMintCount, payingEnv, freshState, aliceAuthorized,
      MAX_MINTS_PER_WALLET]
  have href : paymentRefused (payingEnv 1752594900 tieTx) spaceCadet := by
    apply (@paymentRefused_iff_computed _ (by simp [PRICING_TIERS]) _ tieTx rfl).2
    rw [computedAmount_tieTx.2]
    norm_num [spaceCadet]
  refine ⟨rfl, hauth, by simp [storedWalletCount, freshState],
    by simp [storedTierCount, freshState, spaceCadet],
    by simp [isTransactionProcessed, freshState],
    by rw [allocateMintId_of_none _ (by simp [freshState])]; rfl,
    by decide, rfl, computedAmount_tieTx.2, ?_⟩
  rw [mintHandler_payment_refused
    (by simp [getCurrentTier, PRICING_TIERS, payingEnv, spaceCadet])
    (by simp [getTierMintedCount, getTierMintCount, payingEnv, freshState, spaceCadet])
    hauth href]

/-- C10, amended: a mint request arriving at `now = startDate` of a configured tier whose
stored mint count is below `maxSupply`, from an authorized, unexpired wallet with stored
`mintCount` 0, with an unused payment id whose transaction moved exactly the tier's
`priceLamports` between two balances that differ by less than 2^53 lamports, all
collaborators succeeding and the allocated id `n` below `MAX_SUPPLY`, is answered with
success for `n`; afterwards the wallet's `mintCount` is 1, the tier's `mintCount` is one
greater than before, `n` is in `mintedIds` and `lastMintedId` is `n`. -/
theorem mint_at_tier_start_succeeds (t : PricingTier) (ht : t ∈ PRICING_TIERS) (env : Env)
    (s s1 : ServerState) (req : MintRequest) (tx : PaymentTx) (sig asset : String) (n : Int)
    (hnow : env.currentTime = t.startDate)
    (hsupply : storedTierCount s t.name < t.maxSupply)
    (hauth : ∃ data, s.authorizedWallets req.userWallet = some data ∧
      (data.expiresAt = none ∨ ∃ e, data.expiresAt = some e ∧ ¬ e < env.authTime))
    (hzero : storedWalletCount s req.userWallet = 0)
    (hunused : isTransactionProcessed s.processed req.paymentSignature = false)
    (htx : env.paymentTx = .ok (some tx))
    (hnet : ((tx.preBalance - tx.postBalance - tx.fee : Int) : ℚ) = t.priceLamports)
    (hsafe : |tx.preBalance - tx.postBalance| < 2 ^ 53)
    (hr1 : env.tierCountReadFails = false) (hr2 : env.authReadFails = false)
    (hr3 : env.walletCountReadFails = false) (hdetails : env.txDetailsError = none)
    (hsend : env.sendAndConfirm = .ok sig) (hleaf : env.parseLeaf = .ok asset)
    (hwrite : env.writeFileError = none) (hadd : env.addProcessedError = none)
    (hwi : env.walletIncrementFails = false) (hti : env.tierIncrementFails = false)
    (halloc : allocateMintId env s = .ok (n, s1)) (hfree : n < MAX_SUPPLY) :
    (mintHandler PRICING_TIERS env s req).response = .success n asset sig ∧
    storedWalletCount (mintHandler PRICING_TIERS env s req).state req.userWallet = 1 ∧
    storedTierCount (mintHandler PRICING_TIERS env s req).state t.name =
      storedTierCount s t.name + 1 ∧
    ∃ r, (mintHandler PRICING_TIERS env s req).state.tracking = some r ∧
      n ∈ r.mintedIds ∧ r.lastMintedId = n := by
  have h1 : getCurrentTier PRICING_TIERS env.currentTime = some t := by
    rw [hnow]; exact getCurrentTier_at_startDate t ht
  have h2 : getTierMintedCount env s t.name < t.maxSupply := by
    rw [getTierMintedCount_of_read_ok s t.name hr1]; exact hsupply
  have h3 : isWalletAuthorized env s req.userWallet = true := by
    rw [isWalletAuthorized_eq_true_iff env s _ hr2 hr3]
    obtain ⟨data, hd, he⟩ := hauth
    exact ⟨data, hd, he, by rw [hzero]; decide⟩
  have h4 : paymentAccepted env t := (paymentAccepted_iff ht htx hsafe).2 hnet
  have h6 : env.txDetailsError.isSome = false := by rw [hdetails]; rfl
  obtain ⟨hresp, hstate⟩ :=
    mintHandler_completes h1 h2 h3 h4 hunused h6 halloc hfree hsend hleaf hwrite hadd
  have hsucc : (mintHandler PRICING_TIERS env s req).response.isSuccess = true := by
    rw [hresp]; rfl
  refine ⟨hresp, ?_, ?_, ?_⟩
  · rw [mintHandler_storedWalletCount, hzero, if_pos ⟨hsucc, rfl, hwi⟩]
  · rw [mintHandler_storedTierCount, if_pos ⟨hsucc, ⟨t, h1, rfl⟩, hwi, hti⟩]
  · refine ⟨withMintedId (s1.tracking.getD initialData) n, ?_, mem_withMintedId _ n⟩
    rw [hstate, (updateFirebaseCounts_rest _ _ _ _ _).1]
    rfl

/-- Witness for C10 (amended): `alice`, authorized and without mints, pays exactly 0.5 SOL
(500000000 lamports) at the `startDate` of the first tier of the fresh server. -/
theorem mint_at_tier_start_succeeds_witness :
    spaceCadet.priceLamports = 500000000 ∧
    (mintHandler PRICING_TIERS (calmEnv 1752594900 500000000) freshState
        { userWallet := "alice", paymentSignature := "p1" }).response =
      .success 0 "asset" "mintSig" ∧
    storedWalletCount
      (mintHandler PRICING_TIERS (calmEnv 1752594900 500000000) freshState
        { userWallet := "alice", paymentSignature := "p1" }).state "alice" = 1 ∧
    storedTierCount
      (mintHandler PRICING_TIERS (calmEnv 1752594900 500000000) freshState
        { userWallet := "alice", paymentSignature := "p1" }).state spaceCadet.name =
      storedTierCount freshState spaceCadet.name + 1 ∧
    ∃ r, (mintHandler PRICING_TIERS (calmEnv 1752594900 500000000) freshState
        { userWallet := "alice", paymentSignature := "p1" }).state.tracking = some r ∧
      (0 : Int) ∈ r.mintedIds ∧ r.lastMintedId = 0 :=
  ⟨rfl,
   mint_at_tier_start_succeeds spaceCadet (by simp [PRICING_TIERS])
    (calmEnv 1752594900 500000000) freshState { freshState with tracking := some initialData }
    { userWallet := "alice", paymentSignature := "p1" } (sampleTx 500000000) "mintSig" "asset" 0
    rfl
    (by simp [storedTierCount, freshState, spaceCadet])
    ⟨{ expiresAt := none }, by simp [freshState, aliceAuthorized], Or.inl rfl⟩
    (by simp [storedWalletCount, freshState])
    (by simp [isTransactionProcessed, freshState])
    rfl (by norm_num [spaceCadet, sampleTx]) (by decide)
    rfl rfl rfl rfl rfl rfl rfl rfl rfl rfl
    (by rw [allocateMintId_of_none _ (by simp [freshState])]; rfl)
    (by decide)⟩


/-! ### The forward scan of STEP 5 -/

/-- The forward scan on an existing tracking file, in terms of the numbers it visits: it
has not ended after `fuel` evaluations of its condition exactly when the first `fuel`
numbers are all minted. -/
theorem scanForward_unending_iff (env : Env) {s : ServerState} {r : MintTrackingRecord}
    (h : s.tracking = some r) :
    ∀ (fuel : Nat) (n : Int), scanForward env fuel s n = .unending ↔
      ∀ i, i < fuel → jsIncrement^[i] n ∈ r.mintedIds := by
  intro fuel
  induction fuel with
  | zero => intro n; exact ⟨fun _ i hi => absurd hi (Nat.not_lt_zero i), fun _ => rfl⟩
  | succ f ih =>
    intro n
    unfold scanForward
    rw [isIdMinted_of_some env h]
    by_cases hc : n ∈ r.mintedIds
    · have hc' : r.mintedIds.contains n = true := by simpa using hc
      rw [hc']
      simp only
      rw [ih]
      constructor
      · intro hall i hi
        cases i with
        | zero => exact hc
        | succ j => exact hall j (by omega)
      · intro hall i hi
        exact hall (i + 1) (by omega)
    · have hc' : r.mintedIds.contains n = false := by simpa using hc
      rw [hc']
      simp only
      constructor
      · intro hx; cases hx
      · intro hall
        exact absurd (hall 0 (by omega)) hc

/-- The forward scan on an existing tracking file ends at `m` exactly when `m` is the
first of the numbers it visits that is not minted, and the fuel reaches that far. -/
theorem scanForward_ok_iff (env : Env) {s : ServerState} {r : MintTrackingRecord}
    (h : s.tracking = some r) :
    ∀ (fuel : Nat) (n m : Int) (s1 : ServerState), scanForward env fuel s n = .ok (m, s1) ↔
      s1 = s ∧ ∃ i, i < fuel ∧ jsIncrement^[i] n = m ∧ m ∉ r.mintedIds ∧
        ∀ j, j < i → jsIncrement^[j] n ∈ r.mintedIds := by
  intro fuel
  induction fuel with
  | zero =>
    intro n m s1
    constructor
    · intro hx; cases hx
    · rintro ⟨_, i, hi, _⟩; exact absurd hi (Nat.not_lt_zero i)
  | succ f ih =>
    intro n m s1
    unfold scanForward
    rw [isIdMinted_of_some env h]
    by_cases hc : n ∈ r.mintedIds
    · have hc' : r.mintedIds.contains n = true := by simpa using hc
      rw [hc']
      simp only
      rw [ih]
      constructor
      · rintro ⟨hs, i, hi, hm, hnot, hall⟩
        refine ⟨hs, i + 1, by omega, hm, hnot, ?_⟩
        intro j hj
        cases j with
        | zero => exact hc
        | succ k => exact hall k (by omega)
      · rintro ⟨hs, i, hi, hm, hnot, hall⟩
        cases i with
        | zero =>
          simp only [Function.iterate_zero, id_eq] at hm
          rw [hm] at hc
          exact absurd hc hnot
        | succ k =>
          exact ⟨hs, k, by omega, hm, hnot, fun j hj => hall (j + 1) (by omega)⟩
    · have hc' : r.mintedIds.contains n = false := by simpa using hc
      rw [hc']
      simp only [Allocation.ok.injEq, Prod.mk.injEq]
      constructor
      · rintro ⟨rfl, rfl⟩
        exact ⟨rfl, 0, by omega, rfl, hc, fun j hj => absurd hj (Nat.not_lt_zero j)⟩
      · rintro ⟨hs, i, hi, hm, hnot, hall⟩
        cases i with
        | zero => exact ⟨hm, hs.symm⟩
        | succ k => exact absurd (hall 0 (by omega)) hc

/-- Numbers that are all in a list repeat within one more step than the list is long,
and from then on for ever: if the first `ids.length + 1` numbers that a function visits
from `n` are in `ids`, all of them are. -/
theorem iterate_mem_of_prefix (f : Int → Int) (ids : List Int) (n : Int)
    (hall : ∀ i, i < ids.length + 1 → f^[i] n ∈ ids) : ∀ k, f^[k] n ∈ ids := by
  have hcard : ids.toFinset.card < (Finset.range (ids.length + 1)).card := by
    rw [Finset.card_range]
    exact Nat.lt_succ_of_le (List.toFinset_card_le ids)
  obtain ⟨i, hi, j, hj, hne, heq⟩ :=
    Finset.exists_ne_map_eq_of_card_lt_of_maps_to hcard
      (f := fun i => f^[i] n)
      (fun i hi => List.mem_toFinset.2 (hall i (Finset.mem_range.1 hi)))
  simp only [Finset.mem_range] at hi hj
  -- two positions `a < b` with the same number
  obtain ⟨a, b, hab, hb, hsame⟩ : ∃ a b : Nat, a < b ∧ b < ids.length + 1 ∧
      f^[a] n = f^[b] n := by
    rcases Nat.lt_or_gt_of_ne hne with hlt | hgt
    · exact ⟨i, j, hlt, hj, heq⟩
    · exact ⟨j, i, hgt, hi, heq.symm⟩
  intro k
  induction k using Nat.strong_induction_on with
  | _ k ih =>
    by_cases hk : k < ids.length + 1
    · exact hall k hk
    · have e : f^[k] n = f^[k - b + a] n := by
        have h1 : k = (k - b) + b := by omega
        conv_lhs => rw [h1]
        rw [Function.iterate_add_apply, ← hsame, ← Function.iterate_add_apply]
      rw [e]
      exact ih (k - b + a) (by omega)

/-- The forward scan on an existing tracking file either ends within `mintedIds.length`
increments, at an id that is not minted, or never ends: with more fuel than
`mintedIds.length` the outcome is the same, however much more. -/
theorem scanForward_fuel (env : Env) {s : ServerState} {r : MintTrackingRecord}
    (h : s.tracking = some r) (n : Int) :
    (∃ m i, i ≤ r.mintedIds.length ∧ jsIncrement^[i] n = m ∧ m ∉ r.mintedIds ∧
      (∀ j, j < i → jsIncrement^[j] n ∈ r.mintedIds) ∧
      ∀ fuel, r.mintedIds.length < fuel → scanForward env fuel s n = .ok (m, s)) ∨
    ((∀ k, jsIncrement^[k] n ∈ r.mintedIds) ∧
      ∀ fuel, scanForward env fuel s n = .unending) := by
  by_cases hall : ∀ i, i < r.mintedIds.length + 1 → jsIncrement^[i] n ∈ r.mintedIds
  · right
    have hk := iterate_mem_of_prefix jsIncrement r.mintedIds n hall
    exact ⟨hk, fun fuel => (scanForward_unending_iff env h fuel n).2 (fun i _ => hk i)⟩
  · left
    push_neg at hall
    -- the first position whose number is not minted
    have hex : ∃ i, i < r.mintedIds.length + 1 ∧ jsIncrement^[i] n ∉ r.mintedIds := hall
    classical
    let i0 := Nat.find hex
    have hi0 : i0 < r.mintedIds.length + 1 ∧ jsIncrement^[i0] n ∉ r.mintedIds := Nat.find_spec hex
    have hmin : ∀ j, j < i0 → jsIncrement^[j] n ∈ r.mintedIds := by
      intro j hj
      by_contra hcon
      exact Nat.find_min hex hj ⟨by omega, hcon⟩
    refine ⟨jsIncrement^[i0] n, i0, by omega, rfl, hi0.2, hmin, fun fuel hfuel => ?_⟩
    exact (scanForward_ok_iff env h fuel n _ s).2 ⟨rfl, i0, by omega, rfl, hi0.2, hmin⟩

/-- Within 2^53 the numbers that the scan visits are consecutive. -/
theorem jsIncrement_iterate (n : Int) (i : Nat) (h1 : -2 ^ 53 ≤ n) (h2 : n + i ≤ 2 ^ 53) :
    jsIncrement^[i] n = n + i := by
  induction i generalizing n with
  | zero => simp
  | succ k ih =>
    rw [Function.iterate_succ_apply, jsIncrement_exact n h1 (by push_cast at h2; omega),
      ih (n + 1) (by omega) (by push_cast at h2 ⊢; omega)]
    push_cast
    ring

/-- A list of integers cannot contain `fuel` consecutive integers when it is shorter
than `fuel`. -/
theorem consecutive_le_length (ids : List Int) (n : Int) (fuel : Nat)
    (hall : ∀ k, n ≤ k → k < n + fuel → k ∈ ids) : fuel ≤ ids.length := by
  have hnodup : ((List.range fuel).map fun i : Nat => n + (i : Int)).Nodup := by
    apply List.Nodup.map _ (List.nodup_range fuel)
    intro a b hab
    simp only at hab
    omega
  have hsub : ((List.range fuel).map fun i : Nat => n + (i : Int)) ⊆ ids := by
    intro x hx
    simp only [List.mem_map, List.mem_range] at hx
    obtain ⟨i, hi, rfl⟩ := hx
    exact hall _ (by omega) (by omega)
  have := (List.subperm_of_subset hnodup hsub).length_le
  simpa using this

/-- The numbers that the scan visits from a number that is not negative are not
negative. -/
theorem jsIncrement_iterate_nonneg (n : Int) (h : 0 ≤ n) (i : Nat) : 0 ≤ jsIncrement^[i] n := by
  induction i generalizing n with
  | zero => simpa using h
  | succ k ih =>
    rw [Function.iterate_succ_apply]
    exact ih _ (jsIncrement_nonneg n (by omega))

/-- STEP 5 on an existing tracking file within 2^53: the allocated id is the least
integer from `lastMintedId + 1` on that is not in `mintedIds`, it is reached after at
most `mintedIds.length` increments, and the file is not touched. -/
theorem allocateMintId_least (env : Env) {s : ServerState} {r : MintTrackingRecord}
    (h : s.tracking = some r) (hlow : -2 ^ 53 ≤ r.lastMintedId)
    (hhigh : r.lastMintedId + 1 + r.mintedIds.length ≤ 2 ^ 53) :
    ∃ n, allocateMintId env s = .ok (n, s) ∧ r.lastMintedId + 1 ≤ n ∧
      n ≤ r.lastMintedId + 1 + r.mintedIds.length ∧ n ∉ r.mintedIds ∧
      ∀ k, r.lastMintedId + 1 ≤ k → k < n → k ∈ r.mintedIds := by
  unfold allocateMintId getNextMintId
  rw [loadMintTrackingData_of_some env h]
  simp only
  rw [jsIncrement_exact r.lastMintedId hlow (by omega), isIdMinted_of_some env h]
  by_cases hc : r.lastMintedId + 1 ∈ r.mintedIds
  · have hc' : r.mintedIds.contains (r.lastMintedId + 1) = true := by simpa using hc
    rw [hc']
    simp only [scanFuel, h]
    have hit : ∀ i : Nat, i ≤ r.mintedIds.length →
        jsIncrement^[i] (r.lastMintedId + 1) = r.lastMintedId + 1 + i := fun i hi =>
      jsIncrement_iterate (r.lastMintedId + 1) i (by omega) (by omega)
    rcases scanForward_fuel env h (r.lastMintedId + 1) with
      ⟨m, i, hi, hm, hnot, hmin, hfuel⟩ | ⟨hk, _⟩
    · rw [hfuel _ (Nat.lt_succ_self _)]
      rw [hit i hi] at hm
      refine ⟨m, rfl, by omega, by omega, hnot, ?_⟩
      intro k hk1 hk2
      have hj := hmin (k - (r.lastMintedId + 1)).toNat (by omega)
      rw [hit _ (by omega)] at hj
      have e : r.lastMintedId + 1 + ((k - (r.lastMintedId + 1)).toNat : Int) = k := by omega
      rwa [e] at hj
    · exfalso
      have := consecutive_le_length r.mintedIds (r.lastMintedId + 1)
        (r.mintedIds.length + 1) (fun k hk1 hk2 => by
          have hj := hk (k - (r.lastMintedId + 1)).toNat
          rw [hit _ (by push_cast at hk2; omega)] at hj
          have e : r.lastMintedId + 1 + ((k - (r.lastMintedId + 1)).toNat : Int) = k := by
            omega
          rwa [e] at hj)
      omega
  · have hc' : r.mintedIds.contains (r.lastMintedId + 1) = false := by simpa using hc
    rw [hc']
    exact ⟨_, rfl, le_refl _, by omega, hc, fun k h1 h2 => absurd h2 (not_lt.2 h1)⟩

/-- The id STEP 5 allocates is not negative when the sequence pointer is at least -1. -/
theorem allocateMintId_nonneg {env : Env} {s s1 : ServerState} {n : Int}
    (h : allocateMintId env s = .ok (n, s1)) (hptr : -1 ≤ (trackingOf s).lastMintedId) :
    0 ≤ n := by
  cases ht : s.tracking with
  | some r =>
    have hptr' : -1 ≤ r.lastMintedId := by simpa [trackingOf, ht] using hptr
    have hstart := jsIncrement_nonneg r.lastMintedId hptr'
    unfold allocateMintId getNextMintId at h
    rw [loadMintTrackingData_of_some env ht] at h
    simp only at h
    rw [isIdMinted_of_some env ht] at h
    cases hc : r.mintedIds.contains (jsIncrement r.lastMintedId) with
    | true =>
      rw [hc] at h
      simp only at h
      obtain ⟨_, i, _, hm, _⟩ := (scanForward_ok_iff env ht _ _ _ _).1 h
      rw [← hm]
      exact jsIncrement_iterate_nonneg _ hstart i
    | false =>
      rw [hc] at h
      simp only [Allocation.ok.injEq, Prod.mk.injEq] at h
      rw [← h.1]
      exact hstart
  | none =>
    rcases allocateMintId_ok h with rfl | ⟨_, hn, _⟩
    · rw [allocateMintId_of_none env ht] at h
      cases hw : env.writeFileError with
      | some e => rw [hw] at h; cases h
      | none =>
        rw [hw] at h
        simp only [Allocation.ok.injEq, Prod.mk.injEq] at h
        rw [← h.1]
    · rw [hn]


theorem mintAndRecord_not_rejected (env : Env) (s : ServerState) (req : MintRequest)
    (tierName : String) (n : Int) (before : List Call) (status : Nat) (code : ErrorCode) :
    (mintAndRecord env s req tierName n before).response ≠ .rejected status code := by
  intro h
  by_cases hsucc : (mintAndRecord env s req tierName n before).response.isSuccess = true
  · rw [h] at hsucc; cases hsucc
  · obtain ⟨⟨e, he⟩, _⟩ := mintAndRecord_failure env s req tierName n before
      (Bool.eq_false_iff.2 hsucc)
    rw [he] at h; cases h

theorem updateFirebaseCounts_calls (env : Env) (s : ServerState) (req : MintRequest)
    (tierName sig : String) (m : Int) (w : String) :
    Call.sendAndConfirm m w ∉ (updateFirebaseCounts env s req tierName sig).2 := by
  unfold updateFirebaseCounts
  cases incrementWalletMintCount env s req.userWallet sig with
  | none => simp
  | some p =>
    simp only
    cases incrementTierMintCount env p.2 tierName sig req.userWallet <;> simp

/-- The mint submissions among the calls of STEP 7 to STEP 10: the one for the allocated
id and the requesting wallet, and nothing else. -/
theorem mintAndRecord_sendAndConfirm_mem (env : Env) (s : ServerState) (req : MintRequest)
    (tierName : String) (n : Int) (before : List Call) (m : Int) (w : String) :
    Call.sendAndConfirm m w ∈ (mintAndRecord env s req tierName n before).calls ↔
      Call.sendAndConfirm m w ∈ before ∨ (m = n ∧ w = req.userWallet) := by
  unfold mintAndRecord
  cases hs : env.sendAndConfirm with
  | error e => simp
  | ok sig =>
    cases hp : env.parseLeaf with
    | error e => simp
    | ok asset =>
      cases hw : env.writeFileError with
      | some e => simp [recordMintedId_of_write_error env s n e hw]
      | none =>
        cases ha : env.addProcessedError with
        | some e => simp [recordMintedId_of_write_ok env s n hw]
        | none =>
          simp [recordMintedId_of_write_ok env s n hw, updateFirebaseCounts_calls]

theorem sendAndConfirm_not_mem_guardCalls (tierName : String) (req : MintRequest) (m : Int)
    (w : String) : Call.sendAndConfirm m w ∉ guardCalls tierName req := by
  simp [guardCalls]

/-! ### Which ids get recorded -/

theorem mem_withMintedId_iff (r : MintTrackingRecord) (id x : Int) :
    x ∈ (withMintedId r id).mintedIds ↔ x ∈ r.mintedIds ∨ x = id := by
  unfold withMintedId
  by_cases h : id ∈ r.mintedIds
  · have hc : r.mintedIds.contains id = true := by simpa using h
    simp only [hc, if_true]
    constructor
    · exact Or.inl
    · rintro (hx | rfl)
      · exact hx
      · exact h
  · simp [h]

theorem mem_withAirdropMintedId_iff (r : MintTrackingRecord) (id x : Int) :
    x ∈ (withAirdropMintedId r id).mintedIds ↔ x ∈ r.mintedIds ∨ x = id := by
  unfold withAirdropMintedId
  by_cases h : id ∈ r.mintedIds
  · have hc : r.mintedIds.contains id = true := by simpa using h
    simp only [hc, if_true]
    constructor
    · exact Or.inl
    · rintro (hx | rfl)
      · exact hx
      · exact h
  · simp [h]

theorem mintedIdsOf_eq (s : ServerState) : mintedIdsOf s = (trackingOf s).mintedIds := by
  unfold mintedIdsOf trackingOf
  cases s.tracking <;> rfl

/-- STEP 7 to STEP 10 leave the tracking file as it was or with the allocated id recorded
by `recordMintedId`. -/
theorem mintAndRecord_tracking (env : Env) (s : ServerState) (req : MintRequest)
    (tierName : String) (n : Int) (before : List Call) :
    (mintAndRecord env s req tierName n before).state.tracking = s.tracking ∨
    (mintAndRecord env s req tierName n before).state.tracking =
      some (withMintedId (trackingOf s) n) := by
  unfold mintAndRecord trackingOf
  cases hs : env.sendAndConfirm with
  | error e => exact Or.inl rfl
  | ok sig =>
    cases hp : env.parseLeaf with
    | error e => exact Or.inl rfl
    | ok asset =>
      cases hw : env.writeFileError with
      | some e =>
        rw [recordMintedId_of_write_error env s n e hw]
        exact Or.inl rfl
      | none =>
        rw [recordMintedId_of_write_ok env s n hw]
        cases ha : env.addProcessedError with
        | some e => exact Or.inr rfl
        | none =>
          refine Or.inr ?_
          simp only
          rw [(updateFirebaseCounts_rest _ _ _ _ _).1]

/-- The tracking file after a mint request: as the request found it (created with
`initialData` if it was missing), or with the allocated id, which is below `MAX_SUPPLY`,
recorded by `recordMintedId`. -/
theorem mintHandler_tracking (tiers : List PricingTier) (env : Env) (s : ServerState)
    (req : MintRequest) :
    (mintHandler tiers env s req).state.tracking = s.tracking ∨
    (mintHandler tiers env s req).state.tracking = some (trackingOf s) ∨
    ∃ n, (∃ s1, allocateMintId env s = .ok (n, s1)) ∧ n < MAX_SUPPLY ∧
      (mintHandler tiers env s req).state.tracking = some (withMintedId (trackingOf s) n) := by
  rcases mintHandler_cases tiers env s req with h1 | ⟨t, h1, hc⟩
  · rw [mintHandler_no_tier h1]; exact Or.inl rfl
  rcases hc with h2 | ⟨h2, hc⟩
  · rw [mintHandler_exhausted h1 h2]; exact Or.inl rfl
  rcases hc with h3 | ⟨h3, hc⟩
  · rw [mintHandler_unauthorized h1 h2 h3]; exact Or.inl rfl
  rcases hc with ⟨e, h4⟩ | h4 | ⟨h4, hc⟩
  · rw [mintHandler_payment_throws h1 h2 h3 h4]; exact Or.inl rfl
  · rw [mintHandler_payment_refused h1 h2 h3 h4]; exact Or.inl rfl
  rcases hc with h5 | ⟨h5, hc⟩
  · rw [mintHandler_duplicate h1 h2 h3 h4 h5]; exact Or.inl rfl
  rcases hc with h6 | ⟨h6, hc⟩
  · rw [mintHandler_verification_failed h1 h2 h3 h4 h5 h6]; exact Or.inl rfl
  rcases hc with hu | ⟨e, h7⟩ | ⟨n, s1, h7, h8 | h8⟩
  · rw [mintHandler_unending h1 h2 h3 h4 h5 h6 hu]; exact Or.inl rfl
  · rw [mintHandler_allocation_throws h1 h2 h3 h4 h5 h6 h7]; exact Or.inl rfl
  · rw [mintHandler_max_supply h1 h2 h3 h4 h5 h6 h7 h8]
    rcases allocateMintId_ok h7 with rfl | ⟨hn, _, rfl⟩
    · exact Or.inl rfl
    · exact Or.inr (Or.inl (by simp [trackingOf, hn]))
  · rw [mintHandler_admitted h1 h2 h3 h4 h5 h6 h7 h8]
    have hs1 : s1.tracking = s.tracking ∨ s1.tracking = some (trackingOf s) := by
      rcases allocateMintId_ok h7 with rfl | ⟨hn, _, rfl⟩
      · exact Or.inl rfl
      · exact Or.inr (by simp [trackingOf, hn])
    have htr : trackingOf s1 = trackingOf s := by
      rcases hs1 with h | h
      · simp [trackingOf, h]
      · simp [trackingOf, h]
    rcases mintAndRecord_tracking env s1 req t.name n (guardCalls t.name req) with h | h
    · rw [h]
      rcases hs1 with h' | h'
      · exact Or.inl h'
      · exact Or.inr (Or.inl h')
    · rw [h, htr]
      exact Or.inr (Or.inr ⟨n, ⟨s1, h7⟩, h8, rfl⟩)

/-! ### The airdrop handler -/

theorem isIdMinted_eq (env : Env) (s : ServerState) (id : Int) :
    isIdMinted env s id =
      match s.tracking with
      | some r => .ok (r.mintedIds.contains id, s)
      | none =>
        match env.writeFileError with
        | some e => .error e
        | none => .ok (false, { s with tracking := some initialData }) := by
  unfold isIdMinted loadMintTrackingData
  cases s.tracking with
  | some r => rfl
  | none => cases env.writeFileError <;> simp [initialData]

theorem recordAirdropMintedId_of_write_ok (env : Env) (s : ServerState) (id : Int)
    (hw : env.writeFileError = none) :
    recordAirdropMintedId env s id =
      .ok ({ s with
              tracking := some (withAirdropMintedId (trackingOf s) id),
              mirror := if env.githubFails then s.mirror
                else some (withAirdropMintedId (trackingOf s) id) },
           [.writeFile (withAirdropMintedId (trackingOf s) id),
            .updateFileOnGitHub (withAirdropMintedId (trackingOf s) id)
              ("Airdrop update: NFT #" ++ toString id)]) := by
  unfold recordAirdropMintedId loadMintTrackingData trackingOf
  cases ht : s.tracking with
  | some r =>
    simp only [hw, Option.getD_some]
    cases env.githubFails <;> simp
  | none =>
    simp only [hw, Option.getD_none]
    cases env.githubFails <;> simp

theorem recordAirdropMintedId_of_write_error (env : Env) (s : ServerState) (id : Int)
    (e : String) (hw : env.writeFileError = some e) :
    recordAirdropMintedId env s id = .error e := by
  unfold recordAirdropMintedId loadMintTrackingData
  cases ht : s.tracking with
  | some r => simp [hw]
  | none => simp [hw]

theorem airdropHandler_unauthorized {adminWallet : String} {env : Env} {s : ServerState}
    {req : AirdropRequest} (h : req.authorization ≠ some ("Bearer " ++ adminWallet)) :
    airdropHandler adminWallet env s req = ⟨.rejected 401 .UNAUTHORIZED, s, []⟩ := by
  simp [airdropHandler, h]

theorem airdropHandler_invalid_request {adminWallet : String} {env : Env} {s : ServerState}
    {req : AirdropRequest} (h : req.authorization = some ("Bearer " ++ adminWallet))
    (h2 : req.userWallet = "" ∨ req.nftId.isFalsy = true) :
    airdropHandler adminWallet env s req = ⟨.rejected 400 .INVALID_REQUEST, s, []⟩ := by
  simp [airdropHandler, h, h2]

theorem airdropHandler_not_a_number {adminWallet : String} {env : Env} {s : ServerState}
    {req : AirdropRequest} (h : req.authorization = some ("Bearer " ++ adminWallet))
    (h2 : req.userWallet ≠ "") (h3 : req.nftId.isFalsy = false)
    (h4 : req.nftId.toNftNumber = none) :
    airdropHandler adminWallet env s req = ⟨.rejected 400 .INVALID_NFT_ID, s, []⟩ := by
  simp [airdropHandler, h, h2, h3, h4]

theorem airdropHandler_out_of_range {adminWallet : String} {env : Env} {s : ServerState}
    {req : AirdropRequest} {n : Int} (h : req.authorization = some ("Bearer " ++ adminWallet))
    (h2 : req.userWallet ≠ "") (h3 : req.nftId.isFalsy = false)
    (h4 : req.nftId.toNftNumber = some n) (h5 : n < 0 ∨ 10000 ≤ n) :
    airdropHandler adminWallet env s req = ⟨.rejected 400 .INVALID_NFT_ID, s, []⟩ := by
  simp [airdropHandler, h, h2, h3, h4, h5]

/-- An airdrop request that passes authentication and validation, for the id `n`: the
rest of the handler. -/
theorem airdropHandler_valid {adminWallet : String} {env : Env} {s : ServerState}
    {req : AirdropRequest} {n : Int} (h : req.authorization = some ("Bearer " ++ adminWallet))
    (h2 : req.userWallet ≠ "") (h3 : req.nftId.isFalsy = false)
    (h4 : req.nftId.toNftNumber = some n) (h5 : 0 ≤ n) (h6 : n < 10000) :
    airdropHandler adminWallet env s req =
      match isIdMinted env s n with
      | .error e => ⟨.failure 500 e, s, [.isIdMinted n]⟩
      | .ok (true, s1) => ⟨.rejected 409 .NFT_ALREADY_MINTED, s1, [.isIdMinted n]⟩
      | .ok (false, s1) =>
        match env.sendAndConfirm with
        | .error e => ⟨.failure 500 e, s1, [.isIdMinted n, .sendAndConfirm n req.userWallet]⟩
        | .ok mintSignature =>
          match env.parseLeaf with
          | .error e =>
            ⟨.failure 500 e, s1,
              [.isIdMinted n, .sendAndConfirm n req.userWallet, .parseLeaf mintSignature]⟩
          | .ok assetId =>
            match recordAirdropMintedId env s1 n with
            | .error e =>
              ⟨.failure 500 e, s1,
                [.isIdMinted n, .sendAndConfirm n req.userWallet, .parseLeaf mintSignature,
                  .recordAirdropMintedId n]⟩
            | .ok (s2, recordCalls) =>
              ⟨.success n assetId mintSignature, s2,
                [.isIdMinted n, .sendAndConfirm n req.userWallet, .parseLeaf mintSignature,
                  .recordAirdropMintedId n] ++ recordCalls⟩ := by
  simp [airdropHandler, h, h2, h3, h4, not_lt.2 h5, h6]

/-- Every run of the airdrop handler is one of the five cases above. -/
theorem airdropHandler_cases (adminWallet : String) (req : AirdropRequest) :
    req.authorization ≠ some ("Bearer " ++ adminWallet) ∨
    req.authorization = some ("Bearer " ++ adminWallet) ∧
      ((req.userWallet = "" ∨ req.nftId.isFalsy = true) ∨
       req.userWallet ≠ "" ∧ req.nftId.isFalsy = false ∧
        (req.nftId.toNftNumber = none ∨
         ∃ n, req.nftId.toNftNumber = some n ∧
          ((n < 0 ∨ 10000 ≤ n) ∨ (0 ≤ n ∧ n < 10000)))) := by
  by_cases h : req.authorization = some ("Bearer " ++ adminWallet)
  · refine Or.inr ⟨h, ?_⟩
    by_cases h2 : req.userWallet = ""
    · exact Or.inl (Or.inl h2)
    cases h3 : req.nftId.isFalsy with
    | true => exact Or.inl (Or.inr rfl)
    | false =>
      refine Or.inr ⟨h2, rfl, ?_⟩
      cases h4 : req.nftId.toNftNumber with
      | none => exact Or.inl rfl
      | some n =>
        refine Or.inr ⟨n, rfl, ?_⟩
        by_cases h5 : n < 0 ∨ 10000 ≤ n
        · exact Or.inl h5
        · push_neg at h5
          exact Or.inr h5
  · exact Or.inl h

/-- The tracking file after an airdrop request: as the request found it (created with
`initialData` if it was missing), or with the requested id, which is in `[0, 10000)` and
was not minted, recorded by `recordAirdropMintedId` on a success response. -/
theorem airdropHandler_tracking (adminWallet : String) (env : Env) (s : ServerState)
    (req : AirdropRequest) :
    (airdropHandler adminWallet env s req).state.tracking = s.tracking ∨
    (airdropHandler adminWallet env s req).state.tracking = some (trackingOf s) ∨
    ∃ n, req.nftId.toNftNumber = some n ∧ 0 ≤ n ∧ n < 10000 ∧
      n ∉ (trackingOf s).mintedIds ∧
      (airdropHandler adminWallet env s req).response.isSuccess = true ∧
      (airdropHandler adminWallet env s req).state.tracking =
        some (withAirdropMintedId (trackingOf s) n) := by
  rcases airdropHandler_cases adminWallet req with h | ⟨h, h2 | ⟨h2, h3, h4 | ⟨n, h4, h5 | h5⟩⟩⟩
  · rw [airdropHandler_unauthorized h]; exact Or.inl rfl
  · rw [airdropHandler_invalid_request h h2]; exact Or.inl rfl
  · rw [airdropHandler_not_a_number h h2 h3 h4]; exact Or.inl rfl
  · rw [airdropHandler_out_of_range h h2 h3 h4 h5]; exact Or.inl rfl
  · rw [airdropHandler_valid h h2 h3 h4 h5.1 h5.2, isIdMinted_eq]
    cases ht : s.tracking with
    | some r =>
      simp only
      cases hc : r.mintedIds.contains n with
      | true => exact Or.inl ht
      | false =>
        simp only
        cases hs : env.sendAndConfirm with
        | error e => exact Or.inl ht
        | ok sig =>
          cases hp : env.parseLeaf with
          | error e => exact Or.inl ht
          | ok asset =>
            cases hw : env.writeFileError with
            | some e =>
              simp only [recordAirdropMintedId_of_write_error env s n e hw]
              exact Or.inl ht
            | none =>
              simp only [recordAirdropMintedId_of_write_ok env s n hw]
              refine Or.inr (Or.inr ⟨n, h4, h5.1, h5.2, ?_, rfl, rfl⟩)
              simpa [trackingOf, ht] using hc
    | none =>
      cases hw : env.writeFileError with
      | some e => exact Or.inl ht
      | none =>
        simp only
        cases hs : env.sendAndConfirm with
        | error e => exact Or.inr (Or.inl (by simp [trackingOf, ht]))
        | ok sig =>
          cases hp : env.parseLeaf with
          | error e => exact Or.inr (Or.inl (by simp [trackingOf, ht]))
          | ok asset =>
            simp only [recordAirdropMintedId_of_write_ok env _ n hw]
            refine Or.inr (Or.inr ⟨n, h4, h5.1, h5.2, ?_, rfl, ?_⟩)
            · simp [trackingOf, ht, initialData]
            · simp [trackingOf, ht]


theorem trackingOf_of_tracking_eq {s s' : ServerState}
    (h : s'.tracking = s.tracking ∨ s'.tracking = some (trackingOf s)) :
    trackingOf s' = trackingOf s := by
  rcases h with h | h
  · simp [trackingOf, h]
  · simp [trackingOf, h]

/-- C12, counterexample: the administrator requests the airdrop of the id 2500 on the
fresh server; the request is answered with success and 2500, which is not below
`MAX_SUPPLY = 2500`, is recorded in `mintedIds`. -/
theorem airdrop_records_id_2500 :
    MAX_SUPPLY = 2500 ∧
    (airdropHandler "admin" (calmEnv 0 0) freshState (adminAirdrop (.number 2500))).response =
      .success 2500 "asset" "mintSig" ∧
    (2500 : Int) ∈
      mintedIdsOf
        (airdropHandler "admin" (calmEnv 0 0) freshState (adminAirdrop (.number 2500))).state := by
  have h := @airdropHandler_valid "admin" (calmEnv 0 0) freshState (adminAirdrop (.number 2500))
    2500 rfl (by decide) rfl rfl (by decide) (by decide)
  rw [h, isIdMinted_eq]
  refine ⟨rfl, ?_, ?_⟩
  · simp [freshState, calmEnv, recordAirdropMintedId_of_write_ok]
  · simp [freshState, calmEnv, recordAirdropMintedId_of_write_ok, mintedIdsOf, trackingOf,
      withAirdropMintedId, initialData]

/-- C12, amended: every id that a normal mint records is an integer below
`MAX_SUPPLY = 2500`, and it is in `[0, 2500)` when the sequence pointer is at least -1,
which then remains so; every id that the airdrop path
records is an integer in `[0, 10000)`, and the airdrop leaves the sequence pointer alone;
an airdrop request for an id of 10000 or more changes nothing and, when it passes
authentication and names a wallet, is rejected with `INVALID_NFT_ID` (status 400). -/
theorem recorded_ids_in_range :
    MAX_SUPPLY = 2500 ∧
    (∀ (tiers : List PricingTier) (env : Env) (s : ServerState) (req : MintRequest),
      -1 ≤ (trackingOf s).lastMintedId →
      (∀ id ∈ mintedIdsOf (mintHandler tiers env s req).state,
        id ∈ mintedIdsOf s ∨ (0 ≤ id ∧ id < MAX_SUPPLY)) ∧
      -1 ≤ (trackingOf (mintHandler tiers env s req).state).lastMintedId) ∧
    (∀ (adminWallet : String) (env : Env) (s : ServerState) (req : AirdropRequest),
      (∀ id ∈ mintedIdsOf (airdropHandler adminWallet env s req).state,
        id ∈ mintedIdsOf s ∨ (0 ≤ id ∧ id < 10000)) ∧
      (trackingOf (airdropHandler adminWallet env s req).state).lastMintedId =
        (trackingOf s).lastMintedId) ∧
    (∀ (adminWallet : String) (env : Env) (s : ServerState) (req : AirdropRequest) (n : Int),
      req.nftId.toNftNumber = some n → 10000 ≤ n →
      (airdropHandler adminWallet env s req).state = s ∧
      (req.authorization = some ("Bearer " ++ adminWallet) → req.userWallet ≠ "" →
        (airdropHandler adminWallet env s req).response = .rejected 400 .INVALID_NFT_ID)) := by
  refine ⟨rfl, ?_, ?_, ?_⟩
  · intro tiers env s req hptr
    rcases mintHandler_tracking tiers env s req with h | h | ⟨n, ⟨s1, h7⟩, h8, h⟩
    · have ht := trackingOf_of_tracking_eq (Or.inl h)
      exact ⟨fun id hid => Or.inl (by rw [mintedIdsOf_eq] at hid ⊢; rwa [ht] at hid),
        by rw [ht]; exact hptr⟩
    · have ht := trackingOf_of_tracking_eq (Or.inr h)
      exact ⟨fun id hid => Or.inl (by rw [mintedIdsOf_eq] at hid ⊢; rwa [ht] at hid),
        by rw [ht]; exact hptr⟩
    · have hge := allocateMintId_nonneg h7 hptr
      have ht : trackingOf (mintHandler tiers env s req).state =
          withMintedId (trackingOf s) n := by simp [trackingOf, h]
      constructor
      · intro id hid
        rw [mintedIdsOf_eq, ht, mem_withMintedId_iff] at hid
        rcases hid with hid | rfl
        · exact Or.inl (by rw [mintedIdsOf_eq]; exact hid)
        · exact Or.inr ⟨by omega, h8⟩
      · rw [ht]
        show -1 ≤ n
        omega
  · intro adminWallet env s req
    rcases airdropHandler_tracking adminWallet env s req with h | h | ⟨n, _, h0, h1, _, _, h⟩
    · have ht := trackingOf_of_tracking_eq (Or.inl h)
      exact ⟨fun id hid => Or.inl (by rw [mintedIdsOf_eq] at hid ⊢; rwa [ht] at hid),
        by rw [ht]⟩
    · have ht := trackingOf_of_tracking_eq (Or.inr h)
      exact ⟨fun id hid => Or.inl (by rw [mintedIdsOf_eq] at hid ⊢; rwa [ht] at hid),
        by rw [ht]⟩
    · have ht : trackingOf (airdropHandler adminWallet env s req).state =
          withAirdropMintedId (trackingOf s) n := by simp [trackingOf, h]
      constructor
      · intro id hid
        rw [mintedIdsOf_eq, ht, mem_withAirdropMintedId_iff] at hid
        rcases hid with hid | rfl
        · exact Or.inl (by rw [mintedIdsOf_eq]; exact hid)
        · exact Or.inr ⟨h0, h1⟩
      · rw [ht]; rfl
  · intro adminWallet env s req n h4 hn
    rcases airdropHandler_cases adminWallet req with
      h | ⟨h, h2 | ⟨h2, h3, h4' | ⟨m, h4', h5 | h5⟩⟩⟩
    · rw [airdropHandler_unauthorized h]
      exact ⟨rfl, fun ha => absurd ha h⟩
    · rw [airdropHandler_invalid_request h h2]
      refine ⟨rfl, fun _ hw => ?_⟩
      rcases h2 with h2 | h2
      · exact absurd h2 hw
      · exfalso
        cases hid : req.nftId with
        | absent => rw [hid] at h4; cases h4
        | number k =>
          rw [hid] at h4 h2
          simp only [NftIdField.toNftNumber, Option.some.injEq] at h4
          simp only [NftIdField.isFalsy, decide_eq_true_eq] at h2
          omega
        | text str =>
          rw [hid] at h4 h2
          simp only [NftIdField.isFalsy, decide_eq_true_eq] at h2
          subst h2
          simp [NftIdField.toNftNumber, parseInt] at h4
    · rw [h4] at h4'; cases h4'
    · rw [airdropHandler_out_of_range h h2 h3 h4' h5]
      exact ⟨rfl, fun _ _ => rfl⟩
    · rw [h4] at h4'
      simp only [Option.some.injEq] at h4'
      omega

/-- Witness for C12 (amended): a mint request and an airdrop request for the id 2500 on
the fresh server, and an airdrop request for the id 10000. -/
theorem recorded_ids_in_range_witness :
    (∀ id ∈ mintedIdsOf
        (mintHandler PRICING_TIERS (calmEnv 1752594900 500000000) freshState
          { userWallet := "alice", paymentSignature := "p1" }).state,
      id ∈ mintedIdsOf freshState ∨ (0 ≤ id ∧ id < MAX_SUPPLY)) ∧
    (∀ id ∈ mintedIdsOf
        (airdropHandler "admin" (calmEnv 0 0) freshState (adminAirdrop (.number 2500))).state,
      id ∈ mintedIdsOf freshState ∨ (0 ≤ id ∧ id < 10000)) ∧
    (airdropHandler "admin" (calmEnv 0 0) freshState (adminAirdrop (.number 10000))).response =
      .rejected 400 .INVALID_NFT_ID :=
  ⟨(recorded_ids_in_range.2.1 PRICING_TIERS (calmEnv 1752594900 500000000) freshState
      { userWallet := "alice", paymentSignature := "p1" }
      (by simp [trackingOf, freshState, initialData])).1,
   (recorded_ids_in_range.2.2.1 "admin" (calmEnv 0 0) freshState
      (adminAirdrop (.number 2500))).1,
   (recorded_ids_in_range.2.2.2 "admin" (calmEnv 0 0) freshState
      (adminAirdrop (.number 10000)) 10000 rfl (by decide)).2 rfl (by decide)⟩


/-! ### Recording an id -/

theorem getNextMintId_of_some {env : Env} {s : ServerState} {r : MintTrackingRecord}
    (h : s.tracking = some r) : getNextMintId env s = .ok (jsIncrement r.lastMintedId, s) := by
  simp [getNextMintId, loadMintTrackingData, h]

theorem getNextMintId_of_none {env : Env} {s : ServerState} (h : s.tracking = none)
    (hw : env.writeFileError = none) :
    getNextMintId env s = .ok (0, { s with tracking := some initialData }) := by
  simp [getNextMintId, loadMintTrackingData, h, hw, initialData, jsIncrement_neg_one]

theorem isIdMinted_of_none {env : Env} {s : ServerState} (h : s.tracking = none)
    (hw : env.writeFileError = none) (id : Int) :
    isIdMinted env s id = .ok (false, { s with tracking := some initialData }) := by
  simp [isIdMinted, loadMintTrackingData, h, hw, initialData]

theorem recordAirdropMintedId_error_or_ok (env : Env) (s : ServerState) (id : Int) :
    (∃ e, recordAirdropMintedId env s id = .error e) ∨
    ∃ calls, recordAirdropMintedId env s id =
      .ok ({ s with
              tracking := some (withAirdropMintedId (trackingOf s) id),
              mirror := if env.githubFails then s.mirror
                else some (withAirdropMintedId (trackingOf s) id) }, calls) := by
  cases hw : env.writeFileError with
  | some e => exact Or.inl ⟨e, recordAirdropMintedId_of_write_error env s id e hw⟩
  | none => exact Or.inr ⟨_, recordAirdropMintedId_of_write_ok env s id hw⟩

theorem recordMintedId_error_or_ok (env : Env) (s : ServerState) (id : Int) :
    (∃ e, recordMintedId env s id = .error e) ∨
    ∃ calls, recordMintedId env s id =
      .ok ({ s with
              tracking := some (withMintedId (trackingOf s) id),
              mirror := if env.githubFails then s.mirror
                else some (withMintedId (trackingOf s) id) }, calls) := by
  cases hw : env.writeFileError with
  | some e => exact Or.inl ⟨e, recordMintedId_of_write_error env s id e hw⟩
  | none => exact Or.inr ⟨_, recordMintedId_of_write_ok env s id hw⟩

/-- A sequence of airdrop recordings on a file that holds a record leaves a record with
the same `lastMintedId` in which every id of the old record is still present. -/
theorem recordAirdropMintedIds_tracking (steps : List (Env × Int)) :
    ∀ (s : ServerState) (r : MintTrackingRecord), s.tracking = some r →
      ∃ r', (recordAirdropMintedIds s steps).tracking = some r' ∧
        r'.lastMintedId = r.lastMintedId ∧ ∀ x ∈ r.mintedIds, x ∈ r'.mintedIds := by
  induction steps with
  | nil => intro s r h; exact ⟨r, h, rfl, fun _ hx => hx⟩
  | cons step rest ih =>
    intro s r h
    obtain ⟨env, id⟩ := step
    rcases recordAirdropMintedId_error_or_ok env s id with ⟨e, he⟩ | ⟨calls, hok⟩
    · simp only [recordAirdropMintedIds, he]
      exact ih s r h
    · simp only [recordAirdropMintedIds, hok]
      have ht : trackingOf s = r := by simp [trackingOf, h]
      rw [ht]
      obtain ⟨r', h1, h2, h3⟩ := ih
        { s with
          tracking := some (withAirdropMintedId r id),
          mirror := if env.githubFails then s.mirror else some (withAirdropMintedId r id) }
        (withAirdropMintedId r id) rfl
      exact ⟨r', h1, h2, fun x hx => h3 x ((mem_withAirdropMintedId_iff r id x).2 (Or.inl hx))⟩

/-- C13: when the tracking file holds the record `r`, `recordAirdropMintedId(id)` (the
local write succeeding) leaves on file a record whose `mintedIds` contains `id` and whose
`lastMintedId` is `r.lastMintedId`; and after any sequence of airdrop recordings, whether
or not some of them throw, `getNextMintId` returns the same value as before: the
double-precision sum `r.lastMintedId + 1`, which is the exact sum for a sequence pointer
from -2^53 to 2^53 - 1. -/
theorem airdrop_recording_keeps_next_id (r : MintTrackingRecord) (id : Int) (env : Env)
    (s : ServerState) (hr : s.tracking = some r) :
    (env.writeFileError = none →
      ∃ s1 calls r1, recordAirdropMintedId env s id = .ok (s1, calls) ∧
        s1.tracking = some r1 ∧ id ∈ r1.mintedIds ∧ r1.lastMintedId = r.lastMintedId ∧
        r1 = withAirdropMintedId r id) ∧
    (∀ (steps : List (Env × Int)) (env1 env2 : Env),
      getNextMintId env1 s = .ok (jsIncrement r.lastMintedId, s) ∧
      getNextMintId env2 (recordAirdropMintedIds s steps) =
        .ok (jsIncrement r.lastMintedId, recordAirdropMintedIds s steps)) ∧
    (-2 ^ 53 ≤ r.lastMintedId → r.lastMintedId < 2 ^ 53 →
      ∀ (steps : List (Env × Int)) (env1 env2 : Env),
        getNextMintId env1 s = .ok (r.lastMintedId + 1, s) ∧
        getNextMintId env2 (recordAirdropMintedIds s steps) =
          .ok (r.lastMintedId + 1, recordAirdropMintedIds s steps)) := by
  have hgen : ∀ (steps : List (Env × Int)) (env1 env2 : Env),
      getNextMintId env1 s = .ok (jsIncrement r.lastMintedId, s) ∧
      getNextMintId env2 (recordAirdropMintedIds s steps) =
        .ok (jsIncrement r.lastMintedId, recordAirdropMintedIds s steps) := by
    intro steps env1 env2
    obtain ⟨r', h1, h2, _⟩ := recordAirdropMintedIds_tracking steps s r hr
    exact ⟨getNextMintId_of_some hr, by rw [getNextMintId_of_some h1, h2]⟩
  refine ⟨?_, hgen, ?_⟩
  · intro hw
    have ht : trackingOf s = r := by simp [trackingOf, hr]
    refine ⟨_, _, withAirdropMintedId r id, recordAirdropMintedId_of_write_ok env s id hw,
      by rw [ht], (mem_withAirdropMintedId_iff r id id).2 (Or.inr rfl), rfl, rfl⟩
  · intro hlow hhigh steps env1 env2
    rw [← jsIncrement_exact r.lastMintedId hlow hhigh]
    exact hgen steps env1 env2

/-- Witness for C13: on the file with the ids 0, 1 and 3 and the sequence pointer 0, the
airdrops of the ids 7 and 2 leave the next sequential id at 1. -/
theorem airdrop_recording_keeps_next_id_witness :
    (∃ s1 calls r1, recordAirdropMintedId (calmEnv 0 0) gapState 7 = .ok (s1, calls) ∧
        s1.tracking = some r1 ∧ (7 : Int) ∈ r1.mintedIds ∧ r1.lastMintedId = 0 ∧
        r1 = withAirdropMintedId { mintedIds := [0, 1, 3], lastMintedId := 0 } 7) ∧
    getNextMintId (calmEnv 0 0)
        (recordAirdropMintedIds gapState [(calmEnv 0 0, 7), (writeFailingEnv 0 0, 5),
          (calmEnv 0 0, 2)]) =
      .ok ((0 : Int) + 1,
        recordAirdropMintedIds gapState [(calmEnv 0 0, 7), (writeFailingEnv 0 0, 5),
          (calmEnv 0 0, 2)]) :=
  ⟨(airdrop_recording_keeps_next_id { mintedIds := [0, 1, 3], lastMintedId := 0 } 7
      (calmEnv 0 0) gapState rfl).1 rfl,
   ((airdrop_recording_keeps_next_id { mintedIds := [0, 1, 3], lastMintedId := 0 } 7
      (calmEnv 0 0) gapState rfl).2.2 (by norm_num) (by norm_num)
      [(calmEnv 0 0, 7), (writeFailingEnv 0 0, 5), (calmEnv 0 0, 2)]
      (calmEnv 0 0) (calmEnv 0 0)).2⟩

theorem withMintedId_mintedIds (r : MintTrackingRecord) (id : Int) :
    (withMintedId r id).mintedIds =
      if id ∈ r.mintedIds then r.mintedIds else r.mintedIds ++ [id] := by
  unfold withMintedId
  by_cases h : id ∈ r.mintedIds
  · have hc : r.mintedIds.contains id = true := by simpa using h
    simp [hc, h]
  · have hc : r.mintedIds.contains id = false := by simpa using h
    simp [hc, h]

theorem withAirdropMintedId_mintedIds (r : MintTrackingRecord) (id : Int) :
    (withAirdropMintedId r id).mintedIds =
      if id ∈ r.mintedIds then r.mintedIds else r.mintedIds ++ [id] := by
  unfold withAirdropMintedId
  by_cases h : id ∈ r.mintedIds
  · have hc : r.mintedIds.contains id = true := by simpa using h
    simp [hc, h]
  · have hc : r.mintedIds.contains id = false := by simpa using h
    simp [hc, h]

/-- Adding an id that is pushed only when absent keeps every position of the old list,
and changes the number of copies of an id only for the added id, from 0 to 1. -/
theorem append_if_absent_spec (old : List Int) (id : Int) :
    let new := if id ∈ old then old else old ++ [id]
    old <+: new ∧
    (∀ i, i < old.length → new[i]? = old[i]?) ∧
    (∀ x, new.count x = if x = id ∧ id ∉ old then 1 else old.count x) ∧
    (id ∈ old → new = old) := by
  intro new
  by_cases h : id ∈ old
  · have hn : new = old := by simp [new, h]
    rw [hn]
    exact ⟨List.prefix_refl _, fun _ _ => rfl, fun x => by simp [h], fun _ => rfl⟩
  · have hn : new = old ++ [id] := by simp [new, h]
    rw [hn]
    refine ⟨List.prefix_append _ _, fun i hi => List.getElem?_append_left hi, fun x => ?_,
      fun h' => absurd h' h⟩
    by_cases hx : x = id
    · subst hx
      simp [h, List.count_eq_zero_of_not_mem h]
    · have hx' : ¬ id = x := fun e => hx e.symm
      simp [hx, List.count_append, List.count_singleton, hx']

/-- C14: `mintedIds` is append-only. When the tracking file holds the record `r`, the
list on file after `recordMintedId(id)` and after `recordAirdropMintedId(id)` has
`r.mintedIds` as a prefix, so that every old element is at its old position; an id that
was present is present as often as before, and the new id is added once if it was
absent and not at all if it was present. A call that throws writes nothing. -/
theorem mintedIds_append_only (r : MintTrackingRecord) (id : Int) (env : Env) (s : ServerState)
    (hr : s.tracking = some r) :
    (∀ record ∈ [recordMintedId, recordAirdropMintedId],
      (∃ e, record env s id = .error e ∧ env.writeFileError = some e) ∨
      ∃ s1 calls r1, record env s id = .ok (s1, calls) ∧ s1.tracking = some r1 ∧
        r.mintedIds <+: r1.mintedIds ∧
        (∀ i, i < r.mintedIds.length → r1.mintedIds[i]? = r.mintedIds[i]?) ∧
        (∀ x, r1.mintedIds.count x =
          if x = id ∧ id ∉ r.mintedIds then 1 else r.mintedIds.count x) ∧
        (id ∈ r.mintedIds → r1.mintedIds = r.mintedIds)) ∧
    (env.writeFileError = none →
      (∃ s1 calls, recordMintedId env s id = .ok (s1, calls)) ∧
      ∃ s1 calls, recordAirdropMintedId env s id = .ok (s1, calls)) := by
  have ht : trackingOf s = r := by simp [trackingOf, hr]
  have ht' : s.tracking.getD initialData = r := ht
  constructor
  · intro record hrec
    simp only [List.mem_cons, List.mem_singleton, List.not_mem_nil, or_false] at hrec
    cases hw : env.writeFileError with
    | some e =>
      refine Or.inl ⟨e, ?_, rfl⟩
      rcases hrec with rfl | rfl
      · exact recordMintedId_of_write_error env s id e hw
      · exact recordAirdropMintedId_of_write_error env s id e hw
    | none =>
      right
      rcases hrec with rfl | rfl
      · refine ⟨_, _, withMintedId r id, recordMintedId_of_write_ok env s id hw, by rw [ht'],
          ?_⟩
        rw [withMintedId_mintedIds]
        exact append_if_absent_spec r.mintedIds id
      · refine ⟨_, _, withAirdropMintedId r id, recordAirdropMintedId_of_write_ok env s id hw,
          by rw [ht], ?_⟩
        rw [withAirdropMintedId_mintedIds]
        exact append_if_absent_spec r.mintedIds id
  · intro hw
    exact ⟨⟨_, _, recordMintedId_of_write_ok env s id hw⟩,
      ⟨_, _, recordAirdropMintedId_of_write_ok env s id hw⟩⟩

/-- Witness for C14: recording the id 1, which is present, and the id 2, which is not,
on the file with the ids 0, 1 and 3. -/
theorem mintedIds_append_only_witness :
    ((∃ s1 calls, recordMintedId (calmEnv 0 0) gapState 1 = .ok (s1, calls)) ∧
      ∃ s1 calls, recordAirdropMintedId (calmEnv 0 0) gapState 1 = .ok (s1, calls)) ∧
    ((∃ s1 calls, recordMintedId (calmEnv 0 0) gapState 2 = .ok (s1, calls)) ∧
      ∃ s1 calls, recordAirdropMintedId (calmEnv 0 0) gapState 2 = .ok (s1, calls)) :=
  ⟨(mintedIds_append_only { mintedIds := [0, 1, 3], lastMintedId := 0 } 1 (calmEnv 0 0)
      gapState rfl).2 rfl,
   (mintedIds_append_only { mintedIds := [0, 1, 3], lastMintedId := 0 } 2 (calmEnv 0 0)
      gapState rfl).2 rfl⟩


/-- C15: when the tracking file holds the record `r` and the local write succeeds,
`recordMintedId(id)` writes to the local file, once, the record whose `mintedIds` is
`r.mintedIds` with `id` pushed at the end (unchanged if `id` was already present) and
whose `lastMintedId` is `id`; that record is the file content afterwards, and nothing
else of the state changes except the mirror. When the local write throws, so does
`recordMintedId`. -/
theorem recordMintedId_persists (r : MintTrackingRecord) (id : Int) (env : Env)
    (s : ServerState) (hr : s.tracking = some r) :
    (env.writeFileError = none →
      ∃ s1 r1 commitMessage,
        recordMintedId env s id =
          .ok (s1, [.writeFile r1, .updateFileOnGitHub r1 commitMessage]) ∧
        s1.tracking = some r1 ∧
        r1.mintedIds = (if id ∈ r.mintedIds then r.mintedIds else r.mintedIds ++ [id]) ∧
        r1.lastMintedId = id ∧
        s1.processed = s.processed ∧ s1.authorizedWallets = s.authorizedWallets ∧
        s1.walletMintCounts = s.walletMintCounts ∧ s1.tierMintCounts = s.tierMintCounts) ∧
    (∀ e, env.writeFileError = some e → recordMintedId env s id = .error e) := by
  have ht : s.tracking.getD initialData = r := by simp [hr]
  constructor
  · intro hw
    refine ⟨{ s with
        tracking := some (withMintedId r id),
        mirror := if env.githubFails then s.mirror else some (withMintedId r id) },
      withMintedId r id, "Update mint tracking: NFT #" ++ toString id, ?_, rfl,
      withMintedId_mintedIds r id, rfl, rfl, rfl, rfl, rfl⟩
    rw [recordMintedId_of_write_ok env s id hw, ht]
  · intro e hw
    exact recordMintedId_of_write_error env s id e hw

/-- Witness for C15: recording the id 2 on the file with the ids 0, 1 and 3. -/
theorem recordMintedId_persists_witness :
    ∃ s1 r1 commitMessage,
      recordMintedId (calmEnv 0 0) gapState 2 =
        .ok (s1, [.writeFile r1, .updateFileOnGitHub r1 commitMessage]) ∧
      s1.tracking = some r1 ∧
      r1.mintedIds = (if (2 : Int) ∈ [0, 1, 3] then [0, 1, 3] else [0, 1, 3] ++ [2]) ∧
      r1.lastMintedId = 2 ∧
      s1.processed = gapState.processed ∧
      s1.authorizedWallets = gapState.authorizedWallets ∧
      s1.walletMintCounts = gapState.walletMintCounts ∧
      s1.tierMintCounts = gapState.tierMintCounts :=
  (recordMintedId_persists { mintedIds := [0, 1, 3], lastMintedId := 0 } 2 (calmEnv 0 0)
    gapState rfl).1 rfl

/-! ### The bookkeeping after a confirmed mint -/

theorem allocateMintId_not_minted {env : Env} {s s1 : ServerState} {n : Int}
    (h : allocateMintId env s = .ok (n, s1)) : n ∉ mintedIdsOf s1 := by
  cases ht : s.tracking with
  | some r =>
    rcases allocateMintId_of_some env ht with ⟨m, hm, hnot⟩ | hu
    · rw [hm] at h
      simp only [Allocation.ok.injEq, Prod.mk.injEq] at h
      obtain ⟨rfl, rfl⟩ := h
      simpa [mintedIdsOf, ht] using hnot
    · rw [hu] at h; cases h
  | none =>
    rw [allocateMintId_of_none env ht] at h
    cases hw : env.writeFileError with
    | some e => rw [hw] at h; cases h
    | none =>
      rw [hw] at h
      simp only [Allocation.ok.injEq, Prod.mk.injEq] at h
      obtain ⟨rfl, rfl⟩ := h
      simp [mintedIdsOf, initialData]

theorem allocateMintId_gapState (env : Env) : allocateMintId env gapState = .ok (2, gapState) := by
  simp [allocateMintId, getNextMintId, isIdMinted, loadMintTrackingData, scanForward, scanFuel,
    gapState, jsIncrement_zero, jsIncrement_one]

theorem updateFirebaseCounts_snd (env : Env) (s : ServerState) (req : MintRequest)
    (tierName sig : String) :
    (updateFirebaseCounts env s req tierName sig).2 =
      if env.walletIncrementFails then [.incrementWalletMintCount req.userWallet sig]
      else [.incrementWalletMintCount req.userWallet sig,
            .incrementTierMintCount tierName sig req.userWallet] := by
  unfold updateFirebaseCounts incrementWalletMintCount incrementTierMintCount
  cases hwi : env.walletIncrementFails
  · cases hti : env.tierIncrementFails <;>
      cases hwc : s.walletMintCounts req.userWallet <;>
      cases htc : s.tierMintCounts tierName <;> simp [hwc, htc]
  · simp

/-- The calls of STEP 8 to STEP 9.1 after a confirmed mint whose leaf was parsed: each
step is reached only when no earlier step has thrown out of its `try` block. -/
theorem mintAndRecord_bookkeeping_calls {env : Env} {sig asset : String} (s : ServerState)
    (req : MintRequest) (tierName : String) (n : Int) (before : List Call)
    (hs : env.sendAndConfirm = .ok sig) (hp : env.parseLeaf = .ok asset) :
    (mintAndRecord env s req tierName n before).calls =
      before ++ [.sendAndConfirm n req.userWallet, .parseLeaf sig, .recordMintedId n] ++
        match env.writeFileError with
        | some _ => []
        | none =>
          [.writeFile (withMintedId (trackingOf s) n),
           .updateFileOnGitHub (withMintedId (trackingOf s) n)
             ("Update mint tracking: NFT #" ++ toString n),
           .addProcessedTransaction req.paymentSignature] ++
            match env.addProcessedError with
            | some _ => []
            | none =>
              if env.walletIncrementFails then [.incrementWalletMintCount req.userWallet sig]
              else [.incrementWalletMintCount req.userWallet sig,
                    .incrementTierMintCount tierName sig req.userWallet] := by
  unfold mintAndRecord
  cases hw : env.writeFileError with
  | some e => simp [hs, hp, recordMintedId_of_write_error env s n e hw]
  | none =>
    cases ha : env.addProcessedError with
    | some e => simp [hs, hp, ha, recordMintedId_of_write_ok env s n hw, trackingOf]
    | none =>
      simp only [hs, hp, ha, recordMintedId_of_write_ok env s n hw, updateFirebaseCounts_snd,
        trackingOf]
      simp

/-- The response after a confirmed mint whose leaf was parsed. -/
theorem mintAndRecord_bookkeeping_response {env : Env} {sig asset : String} (s : ServerState)
    (req : MintRequest) (tierName : String) (n : Int) (before : List Call)
    (hs : env.sendAndConfirm = .ok sig) (hp : env.parseLeaf = .ok asset) :
    (mintAndRecord env s req tierName n before).response =
      match env.writeFileError with
      | some e => .failure 500 e
      | none =>
        match env.addProcessedError with
        | some e => .failure 500 e
        | none => .success n asset sig := by
  unfold mintAndRecord
  cases hw : env.writeFileError with
  | some e => simp [hs, hp, recordMintedId_of_write_error env s n e hw]
  | none =>
    cases ha : env.addProcessedError with
    | some e => simp [hs, hp, ha, recordMintedId_of_write_ok env s n hw]
    | none => simp [hs, hp, ha, recordMintedId_of_write_ok env s n hw]

/-- The tracking file and the replay guard after a confirmed mint whose leaf was
parsed. -/
theorem mintAndRecord_bookkeeping_state {env : Env} {sig asset : String} (s : ServerState)
    (req : MintRequest) (tierName : String) (n : Int) (before : List Call)
    (hs : env.sendAndConfirm = .ok sig) (hp : env.parseLeaf = .ok asset) :
    (mintAndRecord env s req tierName n before).state.tracking =
      (match env.writeFileError with
       | some _ => s.tracking
       | none => some (withMintedId (trackingOf s) n)) ∧
    (mintAndRecord env s req tierName n before).state.processed =
      (match env.writeFileError, env.addProcessedError with
       | none, none => addProcessedTransaction s.processed req.paymentSignature
       | _, _ => s.processed) := by
  unfold mintAndRecord
  cases hw : env.writeFileError with
  | some e => simp [hs, hp, recordMintedId_of_write_error env s n e hw]
  | none =>
    cases ha : env.addProcessedError with
    | some e => simp [hs, hp, ha, recordMintedId_of_write_ok env s n hw, trackingOf]
    | none =>
      simp only [hs, hp, ha, recordMintedId_of_write_ok env s n hw, trackingOf]
      rw [(updateFirebaseCounts_rest _ _ _ _ _).1, (updateFirebaseCounts_rest _ _ _ _ _).2.2.1]
      exact ⟨rfl, rfl⟩

/-- C18, counterexample: `alice` pays the price of the first tier and the mint of the id 2
is submitted and confirmed, but the write of the tracking file throws `EACCES`: the
response is the status 500 error response, not the success response. -/
theorem confirmed_mint_answered_500 :
    (writeFailingEnv 1752594900 500000000).sendAndConfirm = .ok "mintSig" ∧
    Call.sendAndConfirm 2 "alice" ∈
      (mintHandler PRICING_TIERS (writeFailingEnv 1752594900 500000000) gapState
        { userWallet := "alice", paymentSignature := "p1" }).calls ∧
    (mintHandler PRICING_TIERS (writeFailingEnv 1752594900 500000000) gapState
        { userWallet := "alice", paymentSignature := "p1" }).response =
      .failure 500 "EACCES" := by
  have h := @mintHandler_admitted PRICING_TIERS (writeFailingEnv 1752594900 500000000) gapState
    gapState { userWallet := "alice", paymentSignature := "p1" } spaceCadet 2
    (by simp [getCurrentTier, PRICING_TIERS, writeFailingEnv, spaceCadet])
    (by simp [getTierMintedCount, getTierMintCount, writeFailingEnv, gapState, freshState,
          spaceCadet])
    (by simp [isWalletAuthorized, getWalletMintCount, writeFailingEnv, gapState, freshState,
          aliceAuthorized, MAX_MINTS_PER_WALLET])
    ((@paymentAccepted_iff _ (by simp [PRICING_TIERS]) _ (sampleTx 500000000) rfl (by decide)).2
      (by norm_num [spaceCadet, sampleTx]))
    (by simp [isTransactionProcessed, gapState, freshState])
    rfl (allocateMintId_gapState _) (by decide)
  rw [h]
  refine ⟨rfl, ?_, ?_⟩
  · rw [mintAndRecord_sendAndConfirm_mem]
    exact Or.inr ⟨rfl, rfl⟩
  · rw [@mintAndRecord_bookkeeping_response _ "mintSig" "asset" _ _ _ _ _ rfl rfl]
    rfl

/-- C18, amended: for every mint request that has passed the guards and whose mint has
been confirmed and its leaf parsed, the response is the success response with the
allocated `nftNumber` whenever the local write of the tracking file and the addition of
the payment id to the replay guard do not throw, whether or not the GitHub mirror, the
wallet count increment or the tier count increment fails; when the local write of the
tracking file throws, or the addition to the replay guard throws, the response is the
status 500 error response with the thrown message. -/
theorem confirmed_mint_response {tiers : List PricingTier} {env : Env} {s s1 : ServerState}
    {req : MintRequest} {t : PricingTier} {n : Int} {sig asset : String}
    (h1 : getCurrentTier tiers env.currentTime = some t)
    (h2 : getTierMintedCount env s t.name < t.maxSupply)
    (h3 : isWalletAuthorized env s req.userWallet = true)
    (h4 : paymentAccepted env t)
    (h5 : isTransactionProcessed s.processed req.paymentSignature = false)
    (h6 : env.txDetailsError.isSome = false)
    (h7 : allocateMintId env s = .ok (n, s1)) (h8 : n < MAX_SUPPLY)
    (hs : env.sendAndConfirm = .ok sig) (hp : env.parseLeaf = .ok asset) :
    Call.sendAndConfirm n req.userWallet ∈ (mintHandler tiers env s req).calls ∧
    (env.writeFileError = none → env.addProcessedError = none →
      (mintHandler tiers env s req).response = .success n asset sig) ∧
    (∀ e, env.writeFileError = some e →
      (mintHandler tiers env s req).response = .failure 500 e) ∧
    (∀ e, env.writeFileError = none → env.addProcessedError = some e →
      (mintHandler tiers env s req).response = .failure 500 e) := by
  rw [mintHandler_admitted h1 h2 h3 h4 h5 h6 h7 h8,
    mintAndRecord_bookkeeping_response _ _ _ _ _ hs hp, mintAndRecord_sendAndConfirm_mem]
  refine ⟨Or.inr ⟨rfl, rfl⟩, fun hw ha => by rw [hw, ha], fun e hw => by rw [hw],
    fun e hw ha => by rw [hw, ha]⟩

/-- Witness for C18 (amended): the wallet count increment throws and the response is
still the success response for the allocated id 2. -/
theorem confirmed_mint_response_witness :
    (mintHandler PRICING_TIERS (walletIncrementFailingEnv 1752594900 500000000) gapState
        { userWallet := "alice", paymentSignature := "p1" }).response =
      .success 2 "asset" "mintSig" :=
  (@confirmed_mint_response PRICING_TIERS (walletIncrementFailingEnv 1752594900 500000000)
    gapState gapState { userWallet := "alice", paymentSignature := "p1" } spaceCadet 2
    "mintSig" "asset"
    (by simp [getCurrentTier, PRICING_TIERS, walletIncrementFailingEnv, spaceCadet])
    (by simp [getTierMintedCount, getTierMintCount, walletIncrementFailingEnv, gapState,
          freshState, spaceCadet])
    (by simp [isWalletAuthorized, getWalletMintCount, walletIncrementFailingEnv, gapState,
          freshState, aliceAuthorized, MAX_MINTS_PER_WALLET])
    ((@paymentAccepted_iff _ (by simp [PRICING_TIERS]) _ (sampleTx 500000000) rfl (by decide)).2
      (by norm_num [spaceCadet, sampleTx]))
    (by simp [isTransactionProcessed, gapState, freshState])
    rfl (allocateMintId_gapState _) (by decide) rfl rfl).2.1 rfl rfl


/-- C19, counterexample: in the first request the wallet count increment throws, and the
tier count is not incremented although the response is the success response; in the
second the write of the tracking file throws after the confirmed mint, and the payment
id is not added to the replay guard. -/
theorem bookkeeping_steps_not_independent :
    ((mintHandler PRICING_TIERS (walletIncrementFailingEnv 1752594900 500000000) gapState
        { userWallet := "alice", paymentSignature := "p1" }).response =
        .success 2 "asset" "mintSig" ∧
      storedTierCount
        (mintHandler PRICING_TIERS (walletIncrementFailingEnv 1752594900 500000000) gapState
          { userWallet := "alice", paymentSignature := "p1" }).state spaceCadet.name = 0 ∧
      Call.incrementTierMintCount spaceCadet.name "mintSig" "alice" ∉
        (mintHandler PRICING_TIERS (walletIncrementFailingEnv 1752594900 500000000) gapState
          { userWallet := "alice", paymentSignature := "p1" }).calls) ∧
    (Call.sendAndConfirm 2 "alice" ∈
        (mintHandler PRICING_TIERS (writeFailingEnv 1752594900 500000000) gapState
          { userWallet := "alice", paymentSignature := "p1" }).calls ∧
      "p1" ∉
        (mintHandler PRICING_TIERS (writeFailingEnv 1752594900 500000000) gapState
          { userWallet := "alice", paymentSignature := "p1" }).state.processed ∧
      Call.addProcessedTransaction "p1" ∉
        (mintHandler PRICING_TIERS (writeFailingEnv 1752594900 500000000) gapState
          { userWallet := "alice", paymentSignature := "p1" }).calls) := by
  have hA := @mintHandler_admitted PRICING_TIERS
    (walletIncrementFailingEnv 1752594900 500000000) gapState
    gapState { userWallet := "alice", paymentSignature := "p1" } spaceCadet 2
    (by simp [getCurrentTier, PRICING_TIERS, walletIncrementFailingEnv, spaceCadet])
    (by simp [getTierMintedCount, getTierMintCount, walletIncrementFailingEnv, gapState,
          freshState, spaceCadet])
    (by simp [isWalletAuthorized, getWalletMintCount, walletIncrementFailingEnv, gapState,
          freshState, aliceAuthorized, MAX_MINTS_PER_WALLET])
    ((@paymentAccepted_iff _ (by simp [PRICING_TIERS]) _ (sampleTx 500000000) rfl (by decide)).2
      (by norm_num [spaceCadet, sampleTx]))
    (by simp [isTransactionProcessed, gapState, freshState])
    rfl (allocateMintId_gapState _) (by decide)
  have hB := @mintHandler_admitted PRICING_TIERS (writeFailingEnv 1752594900 500000000) gapState
    gapState { userWallet := "alice", paymentSignature := "p1" } spaceCadet 2
    (by simp [getCurrentTier, PRICING_TIERS, writeFailingEnv, spaceCadet])
    (by simp [getTierMintedCount, getTierMintCount, writeFailingEnv, gapState, freshState,
          spaceCadet])
    (by simp [isWalletAuthorized, getWalletMintCount, writeFailingEnv, gapState, freshState,
          aliceAuthorized, MAX_MINTS_PER_WALLET])
    ((@paymentAccepted_iff _ (by simp [PRICING_TIERS]) _ (sampleTx 500000000) rfl (by decide)).2
      (by norm_num [spaceCadet, sampleTx]))
    (by simp [isTransactionProcessed, gapState, freshState])
    rfl (allocateMintId_gapState _) (by decide)
  refine ⟨⟨?_, ?_, ?_⟩, ?_, ?_, ?_⟩
  · rw [hA, @mintAndRecord_bookkeeping_response _ "mintSig" "asset" _ _ _ _ _ rfl rfl]
    rfl
  · rw [mintHandler_storedTierCount, if_neg (fun h => Bool.noConfusion h.2.2.1)]
    rfl
  · rw [hA, @mintAndRecord_bookkeeping_calls _ "mintSig" "asset" _ _ _ _ _ rfl rfl]
    simp [walletIncrementFailingEnv, guardCalls]
  · rw [hB, mintAndRecord_sendAndConfirm_mem]
    exact Or.inr ⟨rfl, rfl⟩
  · rw [hB, (@mintAndRecord_bookkeeping_state _ "mintSig" "asset" _ _ _ _ _ rfl rfl).2]
    simp [writeFailingEnv, gapState, freshState]
  · rw [hB, @mintAndRecord_bookkeeping_calls _ "mintSig" "asset" _ _ _ _ _ rfl rfl]
    simp [writeFailingEnv, guardCalls]

/-- C19, amended: the four post-mint bookkeeping steps run in sequence. For every mint
request that has passed the guards and whose mint has been confirmed and its leaf
parsed: recording the id is always attempted and puts the id on file exactly when the
local write succeeds; the payment id is added to the replay guard exactly when recording
the id and the addition itself do not throw; the wallet count is incremented exactly
when, besides, its increment does not throw; and the tier count is incremented exactly
when, besides, neither the wallet count increment nor its own increment throws. A step
that fails thus prevents every later step and undoes no earlier one; a failure of the
GitHub mirror prevents nothing. -/
theorem bookkeeping_steps_in_sequence {tiers : List PricingTier} {env : Env}
    {s s1 : ServerState} {req : MintRequest} {t : PricingTier} {n : Int} {sig asset : String}
    (h1 : getCurrentTier tiers env.currentTime = some t)
    (h2 : getTierMintedCount env s t.name < t.maxSupply)
    (h3 : isWalletAuthorized env s req.userWallet = true)
    (h4 : paymentAccepted env t)
    (h5 : isTransactionProcessed s.processed req.paymentSignature = false)
    (h6 : env.txDetailsError.isSome = false)
    (h7 : allocateMintId env s = .ok (n, s1)) (h8 : n < MAX_SUPPLY)
    (hs : env.sendAndConfirm = .ok sig) (hp : env.parseLeaf = .ok asset) :
    (Call.recordMintedId n ∈ (mintHandler tiers env s req).calls ∧
      (n ∈ mintedIdsOf (mintHandler tiers env s req).state ↔ env.writeFileError = none)) ∧
    ((Call.addProcessedTransaction req.paymentSignature ∈ (mintHandler tiers env s req).calls ↔
        env.writeFileError = none) ∧
      (req.paymentSignature ∈ (mintHandler tiers env s req).state.processed ↔
        env.writeFileError = none ∧ env.addProcessedError = none)) ∧
    ((Call.incrementWalletMintCount req.userWallet sig ∈ (mintHandler tiers env s req).calls ↔
        env.writeFileError = none ∧ env.addProcessedError = none) ∧
      storedWalletCount (mintHandler tiers env s req).state req.userWallet =
        storedWalletCount s req.userWallet +
          if env.writeFileError = none ∧ env.addProcessedError = none ∧
            env.walletIncrementFails = false then 1 else 0) ∧
    ((Call.incrementTierMintCount t.name sig req.userWallet ∈
          (mintHandler tiers env s req).calls ↔
        env.writeFileError = none ∧ env.addProcessedError = none ∧
          env.walletIncrementFails = false) ∧
      storedTierCount (mintHandler tiers env s req).state t.name =
        storedTierCount s t.name +
          if env.writeFileError = none ∧ env.addProcessedError = none ∧
            env.walletIncrementFails = false ∧ env.tierIncrementFails = false
          then 1 else 0) := by
  have hsucc : (mintHandler tiers env s req).response.isSuccess = true ↔
      env.writeFileError = none ∧ env.addProcessedError = none := by
    rw [mintHandler_admitted h1 h2 h3 h4 h5 h6 h7 h8, mintAndRecord_isSuccess_iff]
    exact ⟨fun h => h.2.2, fun h => ⟨⟨sig, hs⟩, ⟨asset, hp⟩, h⟩⟩
  have hnot := allocateMintId_not_minted h7
  have hproc : req.paymentSignature ∉ s1.processed := by
    rw [(allocateMintId_stores h7).1, ← isTransactionProcessed_eq_true_iff, h5]
    simp
  have hcalls := mintAndRecord_bookkeeping_calls s1 req t.name n (guardCalls t.name req) hs hp
  have hstate := mintAndRecord_bookkeeping_state s1 req t.name n (guardCalls t.name req) hs hp
  rw [← mintHandler_admitted h1 h2 h3 h4 h5 h6 h7 h8] at hcalls hstate
  refine ⟨⟨?_, ?_⟩, ⟨?_, ?_⟩, ⟨?_, ?_⟩, ?_, ?_⟩
  · rw [hcalls]; simp
  · rw [mintedIdsOf_eq] at hnot ⊢
    unfold trackingOf at hnot ⊢
    rw [hstate.1]
    cases hw : env.writeFileError with
    | some e => simpa using hnot
    | none => simpa using (mem_withMintedId (s1.tracking.getD initialData) n).1
  · rw [hcalls]
    cases hw : env.writeFileError <;> cases ha : env.addProcessedError <;>
      cases hwi : env.walletIncrementFails <;> simp [guardCalls]
  · rw [hstate.2]
    cases hw : env.writeFileError <;> cases ha : env.addProcessedError <;>
      simp [mem_addProcessedTransaction, hproc]
  · rw [hcalls]
    cases hw : env.writeFileError <;> cases ha : env.addProcessedError <;>
      cases hwi : env.walletIncrementFails <;> simp [guardCalls]
  · rw [mintHandler_storedWalletCount]
    simp only [hsucc, true_and, and_assoc]
  · rw [hcalls]
    cases hw : env.writeFileError <;> cases ha : env.addProcessedError <;>
      cases hwi : env.walletIncrementFails <;> simp [guardCalls]
  · rw [mintHandler_storedTierCount]
    have ht : (∃ t', getCurrentTier tiers env.currentTime = some t' ∧ t'.name = t.name) ↔ True :=
      iff_true_intro ⟨t, h1, rfl⟩
    simp only [hsucc, ht, true_and, and_assoc]

/-- Witness for C19 (amended): no step throws; the id 2 is put on file and the payment id
`p1` is added to the replay guard. -/
theorem bookkeeping_steps_in_sequence_witness :
    (2 : Int) ∈ mintedIdsOf
      (mintHandler PRICING_TIERS (calmEnv 1752594900 500000000) gapState
        { userWallet := "alice", paymentSignature := "p1" }).state ∧
    "p1" ∈
      (mintHandler PRICING_TIERS (calmEnv 1752594900 500000000) gapState
        { userWallet := "alice", paymentSignature := "p1" }).state.processed :=
  have h := @bookkeeping_steps_in_sequence PRICING_TIERS (calmEnv 1752594900 500000000)
    gapState gapState { userWallet := "alice", paymentSignature := "p1" } spaceCadet 2
    "mintSig" "asset"
    (by simp [getCurrentTier, PRICING_TIERS, calmEnv, spaceCadet])
    (by simp [getTierMintedCount, getTierMintCount, calmEnv, gapState, freshState, spaceCadet])
    (by simp [isWalletAuthorized, getWalletMintCount, calmEnv, gapState, freshState,
          aliceAuthorized, MAX_MINTS_PER_WALLET])
    ((@paymentAccepted_iff _ (by simp [PRICING_TIERS]) _ (sampleTx 500000000) rfl (by decide)).2
      (by norm_num [spaceCadet, sampleTx]))
    (by simp [isTransactionProcessed, gapState, freshState])
    rfl (allocateMintId_gapState _) (by decide) rfl rfl
  ⟨h.1.2.2 rfl, h.2.1.2.2 ⟨rfl, rfl⟩⟩


/-! ### The GitHub mirror -/

/-- The ways in which `updateFileOnGitHub` throws: the client cannot be created, the
lookup of the current `sha` fails with a status other than 404, or the update call
fails. -/
theorem updateFileOnGitHub_error_iff (api : GitHubApi) (e : String) :
    updateFileOnGitHub api = .error e ↔
      api.initializeOctokit = some e ∨
      (api.initializeOctokit = none ∧
        ((∃ status, api.getContent = .error (status, e) ∧ status ≠ 404) ∨
         (((∃ sha, api.getContent = .ok sha) ∨ ∃ e', api.getContent = .error (404, e')) ∧
           api.createOrUpdateFileContents = some e))) := by
  unfold updateFileOnGitHub
  cases hi : api.initializeOctokit with
  | some e0 => simp
  | none =>
    cases hg : api.getContent with
    | ok sha =>
      cases hc : api.createOrUpdateFileContents <;> simp
    | error err =>
      obtain ⟨status, e1⟩ := err
      by_cases h404 : status = 404
      · subst h404
        cases hc : api.createOrUpdateFileContents <;> simp
      · cases hc : api.createOrUpdateFileContents <;> simp [h404] <;>
          exact ⟨fun h => ⟨status, ⟨rfl, h⟩, h404⟩, fun ⟨_, ⟨_, h⟩, _⟩ => h⟩

theorem withGitHub_githubFails_of_error {api : GitHubApi} {e : String} (env : Env)
    (h : updateFileOnGitHub api = .error e) : (env.withGitHub api).githubFails = true := by
  simp [Env.withGitHub, h]

/-- C20: whichever way `updateFileOnGitHub` fails, `recordMintedId(id)` and
`recordAirdropMintedId(id)` (the local write succeeding) complete without throwing; the
local tracking file then holds the record with `id` in `mintedIds`; the calls made are
the local write followed by one call of the mirror, which is passed the content that was
written to the local file; the mirror copy is left as it was. -/
theorem mirror_failure_is_swallowed (api : GitHubApi) (env : Env) (s : ServerState) (id : Int)
    (e : String) (hfail : updateFileOnGitHub api = .error e)
    (hw : env.writeFileError = none) :
    (∃ s1 content,
      recordMintedId (env.withGitHub api) s id =
        .ok (s1, [.writeFile content,
                  .updateFileOnGitHub content ("Update mint tracking: NFT #" ++ toString id)]) ∧
      s1.tracking = some content ∧ id ∈ content.mintedIds ∧ s1.mirror = s.mirror) ∧
    (∃ s1 content,
      recordAirdropMintedId (env.withGitHub api) s id =
        .ok (s1, [.writeFile content,
                  .updateFileOnGitHub content ("Airdrop update: NFT #" ++ toString id)]) ∧
      s1.tracking = some content ∧ id ∈ content.mintedIds ∧ s1.mirror = s.mirror) := by
  have hg := withGitHub_githubFails_of_error env hfail
  have hw' : (env.withGitHub api).writeFileError = none := hw
  constructor
  · refine ⟨_, _, recordMintedId_of_write_ok _ s id hw', rfl, (mem_withMintedId _ id).1, ?_⟩
    simp [hg]
  · refine ⟨_, _, recordAirdropMintedId_of_write_ok _ s id hw', rfl,
      (mem_withAirdropMintedId_iff _ id id).2 (Or.inr rfl), ?_⟩
    simp [hg]

/-- Witness for C20: the lookup of the current `sha` fails with status 500 while the id 2
is recorded on the file with the ids 0, 1 and 3. -/
theorem mirror_failure_is_swallowed_witness :
    (∃ s1 content,
      recordMintedId
          ((calmEnv 0 0).withGitHub { getContent := .error (500, "Server Error") })
          gapState 2 =
        .ok (s1, [.writeFile content,
                  .updateFileOnGitHub content ("Update mint tracking: NFT #" ++ toString (2 : Int))]) ∧
      s1.tracking = some content ∧ (2 : Int) ∈ content.mintedIds ∧
      s1.mirror = gapState.mirror) ∧
    (∃ s1 content,
      recordAirdropMintedId
          ((calmEnv 0 0).withGitHub { getContent := .error (500, "Server Error") })
          gapState 2 =
        .ok (s1, [.writeFile content,
                  .updateFileOnGitHub content ("Airdrop update: NFT #" ++ toString (2 : Int))]) ∧
      s1.tracking = some content ∧ (2 : Int) ∈ content.mintedIds ∧
      s1.mirror = gapState.mirror) :=
  mirror_failure_is_swallowed { getContent := .error (500, "Server Error") } (calmEnv 0 0)
    gapState 2 "Server Error" (by simp [updateFileOnGitHub]) rfl


/-! ### The tracking file as text -/


theorem digitChar_spec (d : Nat) (hd : d < 10) :
    (Nat.digitChar d).isDigit = true ∧ (Nat.digitChar d).toNat - '0'.toNat = d ∧
    (Nat.digitChar d = '0' → d = 0) ∧ Nat.digitChar d ≠ '-' := by
  interval_cases d <;> exact ⟨rfl, rfl, by decide, by decide⟩

theorem digitsValue_nil (acc : Nat) : digitsValue acc [] = acc := rfl

theorem digitsValue_cons (acc : Nat) (c : Char) (cs : List Char) :
    digitsValue acc (c :: cs) = digitsValue (10 * acc + (c.toNat - '0'.toNat)) cs := rfl

theorem digitsValue_append (acc : Nat) (xs ys : List Char) :
    digitsValue acc (xs ++ ys) = digitsValue (digitsValue acc xs) ys := by
  induction xs generalizing acc with
  | nil => rfl
  | cons c cs ih => exact ih _

/-- The decimal digits that `Nat.toDigitsCore` puts in front of `ds`, given enough fuel:
digit characters, at least one, with a leading zero only for the number 0, and with the
number as value. -/
theorem toDigitsCore_spec (fuel : Nat) :
    ∀ (n : Nat) (ds : List Char), n < fuel →
      ∃ c front, Nat.toDigitsCore 10 fuel n ds = c :: front ++ ds ∧
        (∀ x ∈ c :: front, ∃ d, d < 10 ∧ x = Nat.digitChar d) ∧
        (c = '0' → n = 0 ∧ front = []) ∧
        digitsValue 0 (c :: front) = n := by
  induction fuel with
  | zero => intro n ds h; omega
  | succ fuel ih =>
    intro n ds h
    have hlt10 : n % 10 < 10 := Nat.mod_lt _ (by norm_num)
    obtain ⟨-, hval, hzero, -⟩ := digitChar_spec (n % 10) hlt10
    generalize hcd : Nat.digitChar (n % 10) = cd at hval hzero
    have hcore : Nat.toDigitsCore 10 (fuel + 1) n ds =
        if n / 10 = 0 then cd :: ds else Nat.toDigitsCore 10 fuel (n / 10) (cd :: ds) := by
      rw [← hcd]; rfl
    rw [hcore]
    by_cases h0 : n / 10 = 0
    · have hn : n < 10 := by omega
      have hmod : n % 10 = n := Nat.mod_eq_of_lt hn
      rw [if_pos h0]
      refine ⟨cd, [], rfl, ?_, ?_, ?_⟩
      · intro x hx
        rw [List.mem_singleton] at hx
        exact ⟨n % 10, hlt10, by rw [hx, hcd]⟩
      · intro hc
        exact ⟨by have := hzero hc; omega, rfl⟩
      · rw [digitsValue_cons, digitsValue_nil, hval, hmod]
        omega
    · have hlt : n / 10 < fuel := by omega
      obtain ⟨c, front, h1, h2, h3, h4⟩ := ih (n / 10) (cd :: ds) hlt
      rw [if_neg h0]
      refine ⟨c, front ++ [cd], ?_, ?_, ?_, ?_⟩
      · rw [h1]; simp
      · intro x hx
        rw [← List.cons_append, List.mem_append] at hx
        rcases hx with hx | hx
        · exact h2 x hx
        · rw [List.mem_singleton] at hx
          exact ⟨n % 10, hlt10, by rw [hx, hcd]⟩
      · intro hc
        exact absurd (h3 hc).1 h0
      · rw [← List.cons_append, digitsValue_append, h4, digitsValue_cons, digitsValue_nil, hval]
        omega

theorem toDigits_spec (n : Nat) :
    ∃ c front, Nat.toDigits 10 n = c :: front ∧
      (∀ x ∈ c :: front, ∃ d, d < 10 ∧ x = Nat.digitChar d) ∧
      (c = '0' → front = []) ∧
      digitsValue 0 (c :: front) = n := by
  obtain ⟨c, front, h1, h2, h3, h4⟩ := toDigitsCore_spec (n + 1) n [] (by omega)
  exact ⟨c, front, by simpa [Nat.toDigits] using h1, h2, fun hc => (h3 hc).2, h4⟩

/-- The number token read from the characters that the printer writes for an integer. -/
theorem finishNumber_numberChars (n : Int) : finishNumber (numberChars n) = some (.number n) := by
  obtain ⟨c, front, h1, h2, h3, h4⟩ := toDigits_spec n.natAbs
  obtain ⟨d, hd, hc⟩ := h2 c (List.mem_cons_self _ _)
  have hminus : c ≠ '-' := by rw [hc]; exact (digitChar_spec d hd).2.2.2
  have hlead : ¬ (c = '0' ∧ 1 < (c :: front).length) := by
    rintro ⟨hz, hl⟩
    rw [h3 hz] at hl
    simp at hl
  unfold numberChars finishNumber
  by_cases hn : n < 0
  · simp only [hn, if_true, h1, List.head?_cons, List.tail_cons, List.isEmpty_cons,
      Option.some.injEq, Bool.false_eq_true, false_or, hlead, if_false, h4]
    congr 2
    omega
  · have hne : ¬ (c = '-') := hminus
    simp only [hn, if_false, h1, List.head?_cons, Option.some.injEq, hne, List.isEmpty_cons,
      Bool.false_eq_true, false_or, hlead, h4]
    congr 2
    omega

theorem lexFrom_append (a b : List Char) :
    ∀ st, lexFrom st (a ++ b) = (lexFrom st a).bind fun st1 => lexFrom st1 b := by
  induction a with
  | nil => intro st; rfl
  | cons c cs ih =>
    intro st
    simp only [List.cons_append, lexFrom]
    cases lexStep st c with
    | none => rfl
    | some st1 => exact ih st1

theorem lexStep_number_digit (ts : List Token) (acc : List Char) (d : Nat) (hd : d < 10) :
    lexStep ⟨ts, .number acc⟩ (Nat.digitChar d) =
      some ⟨ts, .number (acc ++ [Nat.digitChar d])⟩ := by
  interval_cases d <;> rfl

theorem lexIdle_digit (ts : List Token) (d : Nat) (hd : d < 10) :
    lexIdle ts (Nat.digitChar d) = some ⟨ts, .number [Nat.digitChar d]⟩ := by
  interval_cases d <;> rfl

theorem lexFrom_number_digits (ts : List Token) (ds : List Char)
    (h : ∀ x ∈ ds, ∃ d, d < 10 ∧ x = Nat.digitChar d) :
    ∀ acc, lexFrom ⟨ts, .number acc⟩ ds = some ⟨ts, .number (acc ++ ds)⟩ := by
  induction ds with
  | nil => intro acc; simp [lexFrom]
  | cons c cs ih =>
    intro acc
    obtain ⟨d, hd, rfl⟩ := h _ (List.mem_cons_self _ _)
    simp only [lexFrom, lexStep_number_digit ts acc d hd]
    rw [ih (fun x hx => h x (List.mem_cons_of_mem _ hx))]
    simp

/-- Reading the characters of a printed integer between tokens leaves the tokenizer in
the middle of that number. -/
theorem lexFrom_numberChars (ts : List Token) (n : Int) :
    lexFrom ⟨ts, .idle⟩ (numberChars n) = some ⟨ts, .number (numberChars n)⟩ := by
  obtain ⟨c, front, h1, h2, _, _⟩ := toDigits_spec n.natAbs
  obtain ⟨d, hd, hc⟩ := h2 c (List.mem_cons_self _ _)
  have hfront : ∀ x ∈ front, ∃ d, d < 10 ∧ x = Nat.digitChar d :=
    fun x hx => h2 x (List.mem_cons_of_mem _ hx)
  unfold numberChars
  by_cases hn : n < 0
  · simp only [hn, if_true, h1]
    have hstep : lexStep ⟨ts, .idle⟩ '-' = some ⟨ts, .number ['-']⟩ := rfl
    simp only [lexFrom, hstep]
    have := lexFrom_number_digits ts (c :: front) h2 ['-']
    simpa [lexFrom] using this
  · simp only [hn, if_false, h1]
    have hstep : lexStep ⟨ts, .idle⟩ c = some ⟨ts, .number [c]⟩ := by
      rw [hc]; exact lexIdle_digit ts d hd
    simp only [lexFrom, hstep]
    have := lexFrom_number_digits ts front hfront [c]
    simpa using this

theorem lexFrom_number_end (ts : List Token) (n : Int) (c : Char) (rest : List Char)
    (hc : c.isDigit = false) :
    lexFrom ⟨ts, .number (numberChars n)⟩ (c :: rest) =
      (lexIdle (ts ++ [.number n]) c).bind fun st => lexFrom st rest := by
  simp only [lexFrom, lexStep, hc, finishNumber_numberChars, Bool.false_eq_true, if_false]
  cases lexIdle (ts ++ [.number n]) c <;> rfl

/-- A printed integer followed by a character that is not a digit is read as its number
token, and that character is read as the start of the next token. -/
theorem lexFrom_numberChars_then (ts : List Token) (n : Int) (c : Char) (rest : List Char)
    (hc : c.isDigit = false) :
    lexFrom ⟨ts, .idle⟩ (numberChars n ++ c :: rest) =
      (lexIdle (ts ++ [.number n]) c).bind fun st => lexFrom st rest := by
  rw [lexFrom_append, lexFrom_numberChars]
  exact lexFrom_number_end ts n c rest hc

theorem lexFrom_items (xs : List Int) :
    ∀ (x : Int) (ts : List Token) (rest : List Char),
      lexFrom ⟨ts, .idle⟩ (numberChars x ++ (itemsTailChars xs ++ ("\n  ]".toList ++ rest))) =
        lexFrom ⟨ts ++ (.number x :: itemsTailTokens xs ++ [.endArray]), .idle⟩ rest := by
  induction xs with
  | nil =>
    intro x ts rest
    have h := lexFrom_numberChars_then ts x '\n' (' ' :: ' ' :: ']' :: rest) rfl
    have h2 : ((lexIdle (ts ++ [.number x]) '\n').bind fun st =>
        lexFrom st (' ' :: ' ' :: ']' :: rest)) =
        lexFrom ⟨ts ++ [.number x] ++ [.endArray], .idle⟩ rest := rfl
    rw [h2] at h
    simpa [itemsTailChars, itemsTailTokens] using h
  | cons y ys ih =>
    intro x ts rest
    have h := lexFrom_numberChars_then ts x ','
      ('\n' :: ' ' :: ' ' :: ' ' :: ' ' ::
        (numberChars y ++ (itemsTailChars ys ++ ("\n  ]".toList ++ rest)))) rfl
    have h2 : ((lexIdle (ts ++ [.number x]) ',').bind fun st =>
        lexFrom st ('\n' :: ' ' :: ' ' :: ' ' :: ' ' ::
          (numberChars y ++ (itemsTailChars ys ++ ("\n  ]".toList ++ rest))))) =
        lexFrom ⟨ts ++ [.number x] ++ [.valueSeparator], .idle⟩
          (numberChars y ++ (itemsTailChars ys ++ ("\n  ]".toList ++ rest))) := rfl
    rw [h2, ih] at h
    simpa [itemsTailChars, itemsTailTokens] using h

theorem lexFrom_arrayChars (ids : List Int) (ts : List Token) (rest : List Char) :
    lexFrom ⟨ts, .idle⟩ (arrayChars ids ++ rest) =
      lexFrom ⟨ts ++ arrayTokens ids, .idle⟩ rest := by
  cases ids with
  | nil =>
    have h : lexFrom ⟨ts, .idle⟩ (arrayChars [] ++ rest) =
        lexFrom ⟨ts ++ [.beginArray] ++ [.endArray], .idle⟩ rest := rfl
    rw [h]
    simp [arrayTokens]
  | cons x xs =>
    have h := lexFrom_items xs x (ts ++ [.beginArray]) rest
    have h2 : lexFrom ⟨ts, .idle⟩ (arrayChars (x :: xs) ++ rest) =
        lexFrom ⟨ts ++ [.beginArray], .idle⟩
          (numberChars x ++ (itemsTailChars xs ++ ("\n  ]".toList ++ rest))) := by
      have h3 : arrayChars (x :: xs) ++ rest =
          '[' :: '\n' :: ' ' :: ' ' :: ' ' :: ' ' ::
            (numberChars x ++ (itemsTailChars xs ++ ("\n  ]".toList ++ rest))) := by
        simp [arrayChars]
      rw [h3]
      rfl
    rw [h2, h]
    simp [arrayTokens]

/-- The tokenizer reads the printed tracking record as its tokens. -/
theorem tokenize_stringify (r : MintTrackingRecord) :
    tokenize (JSON.stringify r).toList = some (recordTokens r) := by
  have h1 : (JSON.stringify r).toList =
      "\x7b\n  \x22mintedIds\x22: ".toList ++ (arrayChars r.mintedIds ++
        (",\n  \x22lastMintedId\x22: ".toList ++ (numberChars r.lastMintedId ++
          "\n\x7d".toList))) := by
    simp [JSON.stringify]
  have h2 : ∀ rest, lexFrom ⟨[], .idle⟩ ("\x7b\n  \x22mintedIds\x22: ".toList ++ rest) =
      lexFrom ⟨[.beginObject, .string "mintedIds", .nameSeparator], .idle⟩ rest :=
    fun _ => rfl
  have h3 : ∀ ts rest, lexFrom ⟨ts, .idle⟩ (",\n  \x22lastMintedId\x22: ".toList ++ rest) =
      lexFrom ⟨ts ++ [.valueSeparator] ++ [.string "lastMintedId"] ++ [.nameSeparator], .idle⟩
        rest :=
    fun _ _ => rfl
  have h4 : ∀ ts, lexFrom ⟨ts, .idle⟩ (numberChars r.lastMintedId ++ "\n\x7d".toList) =
      some ⟨ts ++ [.number r.lastMintedId] ++ [.endObject], .idle⟩ := by
    intro ts
    have h := lexFrom_numberChars_then ts r.lastMintedId '\n' [Char.ofNat 0x7D] rfl
    exact h.trans rfl
  unfold tokenize
  rw [h1, h2, lexFrom_arrayChars, h3, h4]
  simp [lexEnd, recordTokens]

theorem parseFrom_append (a b : List Token) :
    ∀ st, parseFrom st (a ++ b) = (parseFrom st a).bind fun st1 => parseFrom st1 b := by
  induction a with
  | nil => intro st; rfl
  | cons c cs ih =>
    intro st
    simp only [List.cons_append, parseFrom]
    cases parseStep st c with
    | none => rfl
    | some st1 => exact ih st1

theorem parseFrom_items (xs : List Int) :
    ∀ (items : List Json) (stack : List Frame) (rest : List Token),
      parseFrom ⟨.array items :: stack, .separatorOrEnd⟩ (itemsTailTokens xs ++ rest) =
        parseFrom ⟨.array (items ++ xs.map .number) :: stack, .separatorOrEnd⟩ rest := by
  induction xs with
  | nil => intro items stack rest; simp [itemsTailTokens]
  | cons y ys ih =>
    intro items stack rest
    have h : parseFrom ⟨.array items :: stack, .separatorOrEnd⟩
        (itemsTailTokens (y :: ys) ++ rest) =
        parseFrom ⟨.array (items ++ [.number y]) :: stack, .separatorOrEnd⟩
          (itemsTailTokens ys ++ rest) := rfl
    rw [h, ih]
    simp

theorem parseFrom_arrayTokens (ids : List Int) (members : List (String × Json)) (key : String)
    (stack : List Frame) (rest : List Token) :
    parseFrom ⟨.member members key :: stack, .value⟩ (arrayTokens ids ++ rest) =
      parseFrom ⟨.object (members ++ [(key, .array (ids.map .number))]) :: stack,
        .separatorOrEnd⟩ rest := by
  cases ids with
  | nil => rfl
  | cons x xs =>
    have h : parseFrom ⟨.member members key :: stack, .value⟩ (arrayTokens (x :: xs) ++ rest) =
        parseFrom ⟨.array [.number x] :: .member members key :: stack, .separatorOrEnd⟩
          (itemsTailTokens xs ++ (.endArray :: rest)) := by
      have h3 : arrayTokens (x :: xs) ++ rest =
          .beginArray :: .number x :: (itemsTailTokens xs ++ (.endArray :: rest)) := by
        simp [arrayTokens]
      rw [h3]
      rfl
    rw [h, parseFrom_items]
    rfl

/-- The parser reads the tokens of a printed tracking record as its value. -/
theorem parseTokens_recordTokens (r : MintTrackingRecord) :
    parseTokens (recordTokens r) = some (recordValue r) := by
  have h1 : parseFrom ⟨[], .value⟩ (recordTokens r) =
      parseFrom ⟨[.member [] "mintedIds"], .value⟩
        (arrayTokens r.mintedIds ++
          [.valueSeparator, .string "lastMintedId", .nameSeparator,
            .number r.lastMintedId, .endObject]) := by
    have h3 : recordTokens r =
        .beginObject :: .string "mintedIds" :: .nameSeparator ::
          (arrayTokens r.mintedIds ++
            [.valueSeparator, .string "lastMintedId", .nameSeparator,
              .number r.lastMintedId, .endObject]) := by
      simp [recordTokens]
    rw [h3]
    rfl
  unfold parseTokens
  rw [h1, parseFrom_arrayTokens]
  rfl

theorem toIntList_map_number (ids : List Int) : toIntList (ids.map .number) = some ids := by
  induction ids with
  | nil => rfl
  | cons x xs ih => simp [toIntList, ih]

theorem toMintTrackingRecord_recordValue (r : MintTrackingRecord) :
    toMintTrackingRecord (recordValue r) = some r := by
  have h1 : (recordValue r).property "mintedIds" = some (.array (r.mintedIds.map .number)) := by
    simp [recordValue, Json.property, List.find?]
  have h2 : (recordValue r).property "lastMintedId" = some (.number r.lastMintedId) := by
    simp [recordValue, Json.property, List.find?]
  unfold toMintTrackingRecord
  rw [h1, h2]
  simp [toIntList_map_number]

/-- Reading back the text that `JSON.stringify` prints for a tracking record gives the
record. -/
theorem readTrackingFile_stringify (r : MintTrackingRecord) :
    JSON.parse (JSON.stringify r) = some (recordValue r) ∧
    readTrackingFile (JSON.stringify r) = some r := by
  have h : JSON.parse (JSON.stringify r) = some (recordValue r) := by
    unfold JSON.parse
    rw [tokenize_stringify]
    exact parseTokens_recordTokens r
  exact ⟨h, by unfold readTrackingFile; rw [h]; exact toMintTrackingRecord_recordValue r⟩

/-- C16: for every tracking record, the text that `recordMintedId` and
`recordAirdropMintedId` write for it with `JSON.stringify(trackingData, null, 2)` is read
back by `JSON.parse` as a value whose `mintedIds` is the same list of integers in the
same order and whose `lastMintedId` is the same integer; so `loadMintTrackingData`, run
on a file with that text, returns the record, and the file that either function leaves
reads back as the record it wrote. -/
theorem tracking_file_round_trip (r : MintTrackingRecord) :
    readTrackingFile (JSON.stringify r) = some r ∧
    (∀ (env : Env) (s : ServerState), s.tracking = readTrackingFile (JSON.stringify r) →
      loadMintTrackingData env s = .ok (r, s)) ∧
    (∀ record ∈ [recordMintedId, recordAirdropMintedId],
      ∀ (env : Env) (s s1 : ServerState) (id : Int) (calls : List Call),
        record env s id = .ok (s1, calls) →
        ∃ content, calls.head? = some (.writeFile content) ∧
          s1.tracking = readTrackingFile (JSON.stringify content)) := by
  refine ⟨(readTrackingFile_stringify r).2, fun env s hs => ?_, fun record hrec env s s1 id calls h => ?_⟩
  · rw [(readTrackingFile_stringify r).2] at hs
    simp [loadMintTrackingData, hs]
  · simp only [List.mem_cons, List.mem_singleton, List.not_mem_nil, or_false] at hrec
    rcases hrec with rfl | rfl
    · cases hw : env.writeFileError with
      | some e => rw [recordMintedId_of_write_error env s id e hw] at h; cases h
      | none =>
        rw [recordMintedId_of_write_ok env s id hw] at h
        simp only [Except.ok.injEq, Prod.mk.injEq] at h
        obtain ⟨rfl, rfl⟩ := h
        exact ⟨_, rfl, ((readTrackingFile_stringify _).2).symm⟩
    · cases hw : env.writeFileError with
      | some e => rw [recordAirdropMintedId_of_write_error env s id e hw] at h; cases h
      | none =>
        rw [recordAirdropMintedId_of_write_ok env s id hw] at h
        simp only [Except.ok.injEq, Prod.mk.injEq] at h
        obtain ⟨rfl, rfl⟩ := h
        exact ⟨_, rfl, ((readTrackingFile_stringify _).2).symm⟩

/-- Witness for C16: the record with the ids 0, 1 and 3 and the sequence pointer 3, and
the text written for it. -/
theorem tracking_file_round_trip_witness :
    JSON.stringify sampleRecord =
      "\x7b\n  \x22mintedIds\x22: [\n    0,\n    1,\n    3\n  ],\n  \x22lastMintedId\x22: 3\n\x7d" ∧
    readTrackingFile (JSON.stringify sampleRecord) = some sampleRecord ∧
    loadMintTrackingData (calmEnv 0 0)
        { freshState with tracking := readTrackingFile (JSON.stringify sampleRecord) } =
      .ok (sampleRecord,
        { freshState with tracking := readTrackingFile (JSON.stringify sampleRecord) }) :=
  ⟨by decide, (tracking_file_round_trip sampleRecord).1,
   (tracking_file_round_trip sampleRecord).2.1 (calmEnv 0 0)
     { freshState with tracking := readTrackingFile (JSON.stringify sampleRecord) } rfl⟩


/-! ### The count documents -/

theorem incrementWalletMintCount_spec (env : Env) (s : ServerState) (w sig : String)
    (hok : env.walletIncrementFails = false) :
    (s.walletMintCounts w = none →
      ∃ s1, incrementWalletMintCount env s w sig = some (1, s1) ∧
        s1.walletMintCounts w = some { mintCount := 1, mintTransactions := [sig] } ∧
        (∀ x, x ≠ w → s1.walletMintCounts x = s.walletMintCounts x) ∧
        s1.tierMintCounts = s.tierMintCounts) ∧
    (∀ data, s.walletMintCounts w = some data →
      ∃ s1, incrementWalletMintCount env s w sig = some (data.mintCount + 1, s1) ∧
        s1.walletMintCounts w =
          some { mintCount := data.mintCount + 1,
                 mintTransactions := data.mintTransactions ++ [sig] } ∧
        (∀ x, x ≠ w → s1.walletMintCounts x = s.walletMintCounts x) ∧
        s1.tierMintCounts = s.tierMintCounts) := by
  constructor
  · intro h
    simp only [incrementWalletMintCount, hok, h, Bool.false_eq_true, if_false]
    exact ⟨_, rfl, by simp, fun x hx => by simp [Function.update_noteq hx], rfl⟩
  · intro data h
    simp only [incrementWalletMintCount, hok, h, Bool.false_eq_true, if_false]
    exact ⟨_, rfl, by simp, fun x hx => by simp [Function.update_noteq hx], rfl⟩

theorem incrementTierMintCount_spec (env : Env) (s : ServerState) (t sig w : String)
    (hok : env.tierIncrementFails = false) :
    (s.tierMintCounts t = none →
      ∃ s1, incrementTierMintCount env s t sig w = some (1, s1) ∧
        s1.tierMintCounts t =
          some { mintCount := 1, mintTransactions := [{ signature := sig, wallet := w }] } ∧
        (∀ x, x ≠ t → s1.tierMintCounts x = s.tierMintCounts x) ∧
        s1.walletMintCounts = s.walletMintCounts) ∧
    (∀ data, s.tierMintCounts t = some data →
      ∃ s1, incrementTierMintCount env s t sig w = some (data.mintCount + 1, s1) ∧
        s1.tierMintCounts t =
          some { mintCount := data.mintCount + 1,
                 mintTransactions := data.mintTransactions ++
                   [{ signature := sig, wallet := w }] } ∧
        (∀ x, x ≠ t → s1.tierMintCounts x = s.tierMintCounts x) ∧
        s1.walletMintCounts = s.walletMintCounts) := by
  constructor
  · intro h
    simp only [incrementTierMintCount, hok, h, Bool.false_eq_true, if_false]
    exact ⟨_, rfl, by simp, fun x hx => by simp [Function.update_noteq hx], rfl⟩
  · intro data h
    simp only [incrementTierMintCount, hok, h, Bool.false_eq_true, if_false]
    exact ⟨_, rfl, by simp, fun x hx => by simp [Function.update_noteq hx], rfl⟩

theorem incrementWalletMintCount_of_fails (env : Env) (s : ServerState) (w sig : String)
    (h : env.walletIncrementFails = true) : incrementWalletMintCount env s w sig = none := by
  simp [incrementWalletMintCount, h]

theorem incrementTierMintCount_of_fails (env : Env) (s : ServerState) (t sig w : String)
    (h : env.tierIncrementFails = true) : incrementTierMintCount env s t sig w = none := by
  simp [incrementTierMintCount, h]

/-- Every operation on the count documents keeps `mintCount` equal to the length of
`mintTransactions` in every document. -/
theorem applyCountOperation_consistent (s : ServerState) (operation : CountOperation)
    (h : countsConsistent s) : countsConsistent (applyCountOperation s operation) := by
  obtain ⟨hw, ht⟩ := h
  cases operation with
  | incrementWalletMintCount env w sig =>
    cases hf : env.walletIncrementFails with
    | true =>
      simp only [applyCountOperation, incrementWalletMintCount_of_fails env s w sig hf]
      exact ⟨hw, ht⟩
    | false =>
      obtain ⟨h1, h2⟩ := incrementWalletMintCount_spec env s w sig hf
      cases hd : s.walletMintCounts w with
      | none =>
        obtain ⟨s1, he, hnew, hother, htier⟩ := h1 hd
        simp only [applyCountOperation, he]
        refine ⟨fun x data hx => ?_, fun x data hx => ht x data (htier ▸ hx)⟩
        by_cases hxw : x = w
        · subst hxw
          rw [hnew] at hx
          cases hx
          rfl
        · exact hw x data (hother x hxw ▸ hx)
      | some d =>
        obtain ⟨s1, he, hnew, hother, htier⟩ := h2 d hd
        simp only [applyCountOperation, he]
        refine ⟨fun x data hx => ?_, fun x data hx => ht x data (htier ▸ hx)⟩
        by_cases hxw : x = w
        · subst hxw
          rw [hnew] at hx
          cases hx
          simp [hw x d hd]
        · exact hw x data (hother x hxw ▸ hx)
  | resetWalletMintCount deleteFails w =>
    cases deleteFails with
    | true => exact ⟨hw, ht⟩
    | false =>
      refine ⟨fun x data hx => ?_, ht⟩
      by_cases hxw : x = w
      · subst hxw
        simp [applyCountOperation, resetWalletMintCount] at hx
      · have : s.walletMintCounts x = some data := by
          simpa [applyCountOperation, resetWalletMintCount, Function.update_noteq hxw] using hx
        exact hw x data this
  | incrementTierMintCount env t sig w =>
    cases hf : env.tierIncrementFails with
    | true =>
      simp only [applyCountOperation, incrementTierMintCount_of_fails env s t sig w hf]
      exact ⟨hw, ht⟩
    | false =>
      obtain ⟨h1, h2⟩ := incrementTierMintCount_spec env s t sig w hf
      cases hd : s.tierMintCounts t with
      | none =>
        obtain ⟨s1, he, hnew, hother, hwallet⟩ := h1 hd
        simp only [applyCountOperation, he]
        refine ⟨fun x data hx => hw x data (hwallet ▸ hx), fun x data hx => ?_⟩
        by_cases hxt : x = t
        · subst hxt
          rw [hnew] at hx
          cases hx
          rfl
        · exact ht x data (hother x hxt ▸ hx)
      | some d =>
        obtain ⟨s1, he, hnew, hother, hwallet⟩ := h2 d hd
        simp only [applyCountOperation, he]
        refine ⟨fun x data hx => hw x data (hwallet ▸ hx), fun x data hx => ?_⟩
        by_cases hxt : x = t
        · subst hxt
          rw [hnew] at hx
          cases hx
          simp [ht x d hd]
        · exact ht x data (hother x hxt ▸ hx)
  | resetTierMintCount deleteFails t =>
    cases deleteFails with
    | true => exact ⟨hw, ht⟩
    | false =>
      refine ⟨hw, fun x data hx => ?_⟩
      by_cases hxt : x = t
      · subst hxt
        simp [applyCountOperation, resetTierMintCount] at hx
      · have : s.tierMintCounts x = some data := by
          simpa [applyCountOperation, resetTierMintCount, Function.update_noteq hxt] using hx
        exact ht x data this

theorem applyCountOperations_consistent (operations : List CountOperation) :
    ∀ s, countsConsistent s → countsConsistent (applyCountOperations s operations) := by
  induction operations with
  | nil => intro s h; exact h
  | cons operation rest ih =>
    intro s h
    exact ih _ (applyCountOperation_consistent s operation h)

/-- C21: in every state reached from a store without count documents by calls of
`incrementWalletMintCount`, `resetWalletMintCount`, `incrementTierMintCount` and
`resetTierMintCount`, every wallet record and every tier record has `mintCount` equal to
the length of `mintTransactions`. An increment that does not throw creates, for an absent
record, the record with `mintCount` 1 and a one-element list, and otherwise adds 1 to
`mintCount` and appends one element at the end of the list, the earlier elements
staying in order; an operation that throws changes nothing. -/
theorem count_equals_transactions_length :
    (∀ (s : ServerState) (operations : List CountOperation),
      (∀ w, s.walletMintCounts w = none) → (∀ t, s.tierMintCounts t = none) →
      countsConsistent (applyCountOperations s operations)) ∧
    (∀ (env : Env) (s : ServerState) (w sig : String), env.walletIncrementFails = false →
      (s.walletMintCounts w = none →
        ∃ s1, incrementWalletMintCount env s w sig = some (1, s1) ∧
          s1.walletMintCounts w = some { mintCount := 1, mintTransactions := [sig] }) ∧
      (∀ data, s.walletMintCounts w = some data →
        ∃ s1, incrementWalletMintCount env s w sig = some (data.mintCount + 1, s1) ∧
          s1.walletMintCounts w =
            some { mintCount := data.mintCount + 1,
                   mintTransactions := data.mintTransactions ++ [sig] })) ∧
    (∀ (env : Env) (s : ServerState) (t sig w : String), env.tierIncrementFails = false →
      (s.tierMintCounts t = none →
        ∃ s1, incrementTierMintCount env s t sig w = some (1, s1) ∧
          s1.tierMintCounts t =
            some { mintCount := 1,
                   mintTransactions := [{ signature := sig, wallet := w }] }) ∧
      (∀ data, s.tierMintCounts t = some data →
        ∃ s1, incrementTierMintCount env s t sig w = some (data.mintCount + 1, s1) ∧
          s1.tierMintCounts t =
            some { mintCount := data.mintCount + 1,
                   mintTransactions := data.mintTransactions ++
                     [{ signature := sig, wallet := w }] })) := by
  refine ⟨fun s operations hw ht => ?_, fun env s w sig hok => ?_, fun env s t sig w hok => ?_⟩
  · apply applyCountOperations_consistent
    exact ⟨fun x data hx => (by rw [hw x] at hx; cases hx),
      fun x data hx => (by rw [ht x] at hx; cases hx)⟩
  · obtain ⟨h1, h2⟩ := incrementWalletMintCount_spec env s w sig hok
    exact ⟨fun h => (h1 h).imp fun _ hs => ⟨hs.1, hs.2.1⟩,
      fun data h => (h2 data h).imp fun _ hs => ⟨hs.1, hs.2.1⟩⟩
  · obtain ⟨h1, h2⟩ := incrementTierMintCount_spec env s t sig w hok
    exact ⟨fun h => (h1 h).imp fun _ hs => ⟨hs.1, hs.2.1⟩,
      fun data h => (h2 data h).imp fun _ hs => ⟨hs.1, hs.2.1⟩⟩

/-- Witness for C21: on the fresh server `alice` is counted twice, the first tier once,
`alice` is reset and counted again. -/
theorem count_equals_transactions_length_witness :
    countsConsistent
      (applyCountOperations freshState
        [.incrementWalletMintCount (calmEnv 0 0) "alice" "m1",
         .incrementWalletMintCount (calmEnv 0 0) "alice" "m2",
         .incrementTierMintCount (calmEnv 0 0) "Space Cadet NFTs" "m1" "alice",
         .resetWalletMintCount false "alice",
         .incrementWalletMintCount (calmEnv 0 0) "alice" "m3"]) ∧
    ∃ s1, incrementWalletMintCount (calmEnv 0 0) freshState "alice" "m1" = some (1, s1) ∧
      s1.walletMintCounts "alice" = some { mintCount := 1, mintTransactions := ["m1"] } :=
  ⟨count_equals_transactions_length.1 freshState _ (fun _ => rfl) (fun _ => rfl),
   (count_equals_transactions_length.2.1 (calmEnv 0 0) freshState "alice" "m1" rfl).1 rfl⟩


/-! ### What is appended to a wallet's `mintTransactions` -/

/-- One request appends to the stored `mintTransactions` of a wallet the signature of
the mint transaction, when the request is by that wallet, is answered with success and
the wallet count increment does not throw; otherwise the list stays as it was. -/
theorem mintHandler_storedWalletTransactions (tiers : List PricingTier) (env : Env)
    (s : ServerState) (req : MintRequest) (w : String)
    (hinc : req.userWallet = w → env.walletIncrementFails = false) :
    storedWalletTransactions (mintHandler tiers env s req).state w =
      storedWalletTransactions s w ++
        (recordedSignature w (req, (mintHandler tiers env s req).response)).toList := by
  cases hsucc : (mintHandler tiers env s req).response.isSuccess with
  | false =>
    obtain ⟨_, _, hwc, _⟩ := mintHandler_not_success hsucc
    have hnone : recordedSignature w (req, (mintHandler tiers env s req).response) = none := by
      unfold recordedSignature
      cases hr : (mintHandler tiers env s req).response with
      | success n a sig => rw [hr] at hsucc; cases hsucc
      | rejected st c => rfl
      | failure st m => rfl
      | unanswered => rfl
    simp [storedWalletTransactions, hwc, hnone]
  | true =>
    obtain ⟨t, n, s1, sig, asset, _, _, _, _, _, _, h7, _, hs, _, _, _, hresp, hst⟩ :=
      mintHandler_success hsucc
    obtain ⟨_, _, hwc, _⟩ := allocateMintId_stores h7
    have hrec' : (recordedState env s1 req n).walletMintCounts = s.walletMintCounts := by
      simp [recordedState, hwc]
    have hrt : storedWalletTransactions (recordedState env s1 req n) req.userWallet =
        storedWalletTransactions s req.userWallet := by
      simp [storedWalletTransactions, hrec']
    unfold storedWalletTransactions at hrt ⊢
    rw [hst, updateFirebaseCounts_walletMintCounts, hresp]
    by_cases hw : req.userWallet = w
    · have hf := hinc hw
      subst hw
      simp only [hf, Bool.false_eq_true, if_false, Function.update_same, recordedSignature,
        if_true, Option.toList_some]
      unfold storedWalletTransactions
      rw [hrec']
    · cases hf : env.walletIncrementFails <;>
        simp [hrec', hw, Function.update_noteq (Ne.symm hw), recordedSignature]

theorem mintSignaturesOf_cons (w : String) (entry : MintRequest × Response)
    (log : List (MintRequest × Response)) :
    mintSignaturesOf w (entry :: log) =
      (recordedSignature w entry).toList ++ mintSignaturesOf w log := by
  unfold mintSignaturesOf
  cases h : recordedSignature w entry <;> simp [List.filterMap_cons, h]

theorem runMints_storedWalletTransactions (tiers : List PricingTier) (w : String) :
    ∀ (run : List (Env × MintRequest)) (s : ServerState),
      (∀ p ∈ run, p.2.userWallet = w → p.1.walletIncrementFails = false) →
      storedWalletTransactions (runMints tiers s run).1 w =
        storedWalletTransactions s w ++ mintSignaturesOf w (runMints tiers s run).2 := by
  intro run
  induction run with
  | nil => intro s _; simp [runMints_nil, mintSignaturesOf]
  | cons p rest ih =>
    intro s hrun
    obtain ⟨env, req⟩ := p
    rw [runMints_cons]
    simp only
    rw [ih _ (fun q hq => hrun q (List.mem_cons_of_mem _ hq)), mintSignaturesOf_cons,
      mintHandler_storedWalletTransactions tiers env s req w
        (hrun (env, req) (List.mem_cons_self _ _)),
      List.append_assoc]

/-- C22, counterexample: `alice` mints on the fresh server with the payment id `p1`; the
mint transaction has the signature `mintSig`. The request is answered with success and
her stored `mintTransactions` is `[mintSig]`: the payment id `p1` is not in it. -/
theorem payment_id_not_recorded :
    (mintHandler PRICING_TIERS (calmEnv 1752594900 500000000) freshState
        { userWallet := "alice", paymentSignature := "p1" }).response =
      .success 0 "asset" "mintSig" ∧
    storedWalletTransactions
      (mintHandler PRICING_TIERS (calmEnv 1752594900 500000000) freshState
        { userWallet := "alice", paymentSignature := "p1" }).state "alice" = ["mintSig"] ∧
    "p1" ∉ storedWalletTransactions
      (mintHandler PRICING_TIERS (calmEnv 1752594900 500000000) freshState
        { userWallet := "alice", paymentSignature := "p1" }).state "alice" := by
  have h := mintHandler_storedWalletTransactions PRICING_TIERS (calmEnv 1752594900 500000000)
    freshState { userWallet := "alice", paymentSignature := "p1" } "alice" (fun _ => rfl)
  rw [first_sample_mint.1] at h
  have h2 : storedWalletTransactions
      (mintHandler PRICING_TIERS (calmEnv 1752594900 500000000) freshState
        { userWallet := "alice", paymentSignature := "p1" }).state "alice" = ["mintSig"] := by
    rw [h]
    simp [storedWalletTransactions, freshState, recordedSignature]
  refine ⟨first_sample_mint.1, h2, ?_⟩
  rw [h2]
  decide

/-- C22, amended: for every mint request answered with success whose wallet count
increment does not throw, the element appended to the wallet's `mintTransactions` is
the signature of the mint transaction, which is the `transactionId` of the response
(the payment id goes to the replay guard only); so, in every sequential run in which
the wallet's count increments do not throw, a wallet's `mintTransactions` is its list at
the start followed by the mint signatures of its successful mints, in order. -/
theorem mint_signature_is_recorded (tiers : List PricingTier) (w : String) :
    (∀ (env : Env) (s : ServerState) (req : MintRequest) (n : Int) (asset sig : String),
      req.userWallet = w → env.walletIncrementFails = false →
      (mintHandler tiers env s req).response = .success n asset sig →
      env.sendAndConfirm = .ok sig ∧
      storedWalletTransactions (mintHandler tiers env s req).state w =
        storedWalletTransactions s w ++ [sig] ∧
      req.paymentSignature ∈ (mintHandler tiers env s req).state.processed) ∧
    (∀ (s : ServerState) (run : List (Env × MintRequest)),
      (∀ p ∈ run, p.2.userWallet = w → p.1.walletIncrementFails = false) →
      storedWalletTransactions (runMints tiers s run).1 w =
        storedWalletTransactions s w ++ mintSignaturesOf w (runMints tiers s run).2) := by
  refine ⟨fun env s req n asset sig hw hf hresp => ?_,
    fun s run hrun => runMints_storedWalletTransactions tiers w run s hrun⟩
  have hsucc : (mintHandler tiers env s req).response.isSuccess = true := by rw [hresp]; rfl
  obtain ⟨t, n', s1, sig', asset', _, _, _, _, _, _, _, _, hs, _, _, _, hresp', _⟩ :=
    mintHandler_success hsucc
  rw [hresp] at hresp'
  simp only [Response.success.injEq] at hresp'
  obtain ⟨_, _, rfl⟩ := hresp'
  refine ⟨hs, ?_, (mintHandler_processed tiers env s req).2 hsucc⟩
  rw [mintHandler_storedWalletTransactions tiers env s req w (fun _ => hf), hresp]
  simp [recordedSignature, hw]

/-- Witness for C22 (amended): the first mint of `alice` on the fresh server appends the
mint signature `mintSig` to her empty list. -/
theorem mint_signature_is_recorded_witness :
    (calmEnv 1752594900 500000000).sendAndConfirm = .ok "mintSig" ∧
    storedWalletTransactions
      (mintHandler PRICING_TIERS (calmEnv 1752594900 500000000) freshState
        { userWallet := "alice", paymentSignature := "p1" }).state "alice" =
      storedWalletTransactions freshState "alice" ++ ["mintSig"] ∧
    "p1" ∈ (mintHandler PRICING_TIERS (calmEnv 1752594900 500000000) freshState
        { userWallet := "alice", paymentSignature := "p1" }).state.processed :=
  (mint_signature_is_recorded PRICING_TIERS "alice").1 (calmEnv 1752594900 500000000)
    freshState { userWallet := "alice", paymentSignature := "p1" } 0 "asset" "mintSig"
    rfl rfl first_sample_mint.1


/-! ### A mint that fails -/

theorem allocateMintId_trackingOf {env : Env} {s s1 : ServerState} {n : Int}
    (h : allocateMintId env s = .ok (n, s1)) : trackingOf s1 = trackingOf s := by
  rcases allocateMintId_ok h with rfl | ⟨hn, _, rfl⟩
  · rfl
  · simp [trackingOf, hn]

theorem mintAndRecord_of_send_error {env : Env} {e : String} (s : ServerState)
    (req : MintRequest) (tierName : String) (n : Int) (before : List Call)
    (hs : env.sendAndConfirm = .error e) :
    mintAndRecord env s req tierName n before =
      ⟨.failure 500 e, s, before ++ [.sendAndConfirm n req.userWallet]⟩ := by
  simp [mintAndRecord, hs]

/-- C24: for every mint request that passes all guards, if building, sending or
confirming the mint transaction throws, the response has status 500 with the thrown
message; the mint is submitted once and nothing is called after it; the allocated id is
not in `mintedIds`, the tracking record with its `lastMintedId` is as before, the payment
id is not added to the replay guard, and the wallet and tier count documents are as
before. -/
theorem failed_mint_leaves_no_trace {tiers : List PricingTier} {env : Env}
    {s s1 : ServerState} {req : MintRequest} {t : PricingTier} {n : Int} {e : String}
    (h1 : getCurrentTier tiers env.currentTime = some t)
    (h2 : getTierMintedCount env s t.name < t.maxSupply)
    (h3 : isWalletAuthorized env s req.userWallet = true)
    (h4 : paymentAccepted env t)
    (h5 : isTransactionProcessed s.processed req.paymentSignature = false)
    (h6 : env.txDetailsError.isSome = false)
    (h7 : allocateMintId env s = .ok (n, s1)) (h8 : n < MAX_SUPPLY)
    (hs : env.sendAndConfirm = .error e) :
    (mintHandler tiers env s req).response = .failure 500 e ∧
    (mintHandler tiers env s req).response.status = 500 ∧
    (mintHandler tiers env s req).calls =
      guardCalls t.name req ++ [.sendAndConfirm n req.userWallet] ∧
    ((mintHandler tiers env s req).calls.filter Call.isSubmission).length = 1 ∧
    n ∉ mintedIdsOf (mintHandler tiers env s req).state ∧
    trackingOf (mintHandler tiers env s req).state = trackingOf s ∧
    (mintHandler tiers env s req).state.processed = s.processed ∧
    req.paymentSignature ∉ (mintHandler tiers env s req).state.processed ∧
    (mintHandler tiers env s req).state.walletMintCounts = s.walletMintCounts ∧
    (mintHandler tiers env s req).state.tierMintCounts = s.tierMintCounts := by
  obtain ⟨hp, _, hwc, htc⟩ := allocateMintId_stores h7
  have hnot : req.paymentSignature ∉ s.processed := by
    rw [← isTransactionProcessed_eq_true_iff, h5]
    simp
  rw [mintHandler_admitted h1 h2 h3 h4 h5 h6 h7 h8, mintAndRecord_of_send_error _ _ _ _ _ hs]
  refine ⟨rfl, rfl, rfl, ?_, allocateMintId_not_minted h7, allocateMintId_trackingOf h7, hp,
    ?_, hwc, htc⟩
  · simp [guardCalls, Call.isSubmission]
  · show req.paymentSignature ∉ s1.processed
    rw [hp]
    exact hnot

/-- Witness for C24: `alice` pays the price of the first tier on the server whose file
holds the ids 0, 1 and 3, and the submission of the mint for the id 2 fails. -/
theorem failed_mint_leaves_no_trace_witness :
    (mintHandler PRICING_TIERS
        { calmEnv 1752594900 500000000 with sendAndConfirm := .error "blockhash expired" }
        gapState { userWallet := "alice", paymentSignature := "p1" }).response =
      .failure 500 "blockhash expired" ∧
    (2 : Int) ∉ mintedIdsOf
      (mintHandler PRICING_TIERS
        { calmEnv 1752594900 500000000 with sendAndConfirm := .error "blockhash expired" }
        gapState { userWallet := "alice", paymentSignature := "p1" }).state :=
  have h := @failed_mint_leaves_no_trace PRICING_TIERS
    { calmEnv 1752594900 500000000 with sendAndConfirm := .error "blockhash expired" }
    gapState gapState { userWallet := "alice", paymentSignature := "p1" } spaceCadet 2
    "blockhash expired"
    (by simp [getCurrentTier, PRICING_TIERS, calmEnv, spaceCadet])
    (by simp [getTierMintedCount, getTierMintCount, calmEnv, gapState, freshState, spaceCadet])
    (by simp [isWalletAuthorized, getWalletMintCount, calmEnv, gapState, freshState,
          aliceAuthorized, MAX_MINTS_PER_WALLET])
    ((@paymentAccepted_iff _ (by simp [PRICING_TIERS]) _ (sampleTx 500000000) rfl (by decide)).2
      (by norm_num [spaceCadet, sampleTx]))
    (by simp [isTransactionProcessed, gapState, freshState])
    rfl (allocateMintId_gapState _) (by decide) rfl
  ⟨h.1, h.2.2.2.2.1⟩

/-! ### The credential check of the airdrop handler -/

/-- C25: an airdrop request whose `Authorization` header is missing or is not exactly
`Bearer ` followed by the configured administrator wallet is answered with status 401
and the code `UNAUTHORIZED`, whatever its body and whatever ids are minted; nothing is
called, so no mint is submitted, and the state with its tracking record is unchanged. -/
theorem airdrop_requires_credential (adminWallet : String) (env : Env) (s : ServerState)
    (req : AirdropRequest) (h : req.authorization ≠ some ("Bearer " ++ adminWallet)) :
    (airdropHandler adminWallet env s req).response = .rejected 401 .UNAUTHORIZED ∧
    (airdropHandler adminWallet env s req).response.status = 401 ∧
    (airdropHandler adminWallet env s req).calls = [] ∧
    (∀ n w, Call.sendAndConfirm n w ∉ (airdropHandler adminWallet env s req).calls) ∧
    (airdropHandler adminWallet env s req).state = s ∧
    (airdropHandler adminWallet env s req).state.tracking = s.tracking := by
  rw [airdropHandler_unauthorized h]
  exact ⟨rfl, rfl, rfl, fun _ _ => (by simp), rfl, rfl⟩

/-- Witness for C25: without the administrator's credential, a request without body
fields, a request for an id that is already minted and a well-formed request for a free
id are all answered with `UNAUTHORIZED`. -/
theorem airdrop_requires_credential_witness :
    (airdropHandler "admin" (calmEnv 0 0) gapState
        { authorization := none, userWallet := "", nftId := .absent }).response =
      .rejected 401 .UNAUTHORIZED ∧
    (airdropHandler "admin" (calmEnv 0 0) gapState
        { authorization := some "Bearer mallory", userWallet := "bob",
          nftId := .number 1 }).response =
      .rejected 401 .UNAUTHORIZED ∧
    (airdropHandler "admin" (calmEnv 0 0) gapState
        { authorization := some "bearer admin", userWallet := "bob",
          nftId := .number 7 }).response =
      .rejected 401 .UNAUTHORIZED :=
  ⟨(airdrop_requires_credential "admin" (calmEnv 0 0) gapState
      { authorization := none, userWallet := "", nftId := .absent } (by decide)).1,
   (airdrop_requires_credential "admin" (calmEnv 0 0) gapState
      { authorization := some "Bearer mallory", userWallet := "bob", nftId := .number 1 }
      (by decide)).1,
   (airdrop_requires_credential "admin" (calmEnv 0 0) gapState
      { authorization := some "bearer admin", userWallet := "bob", nftId := .number 7 }
      (by decide)).1⟩

/-! ### A payment transaction that is not found -/

/-- C30: for every mint request that passes the tier, capacity and authorization guards
and whose payment transaction `connection.getTransaction` does not find,
`getTransactionAmount` throws `Transaction not found` and the response is the status
500 response with that message: neither `INSUFFICIENT_PAYMENT` nor
`TRANSACTION_VERIFICATION_FAILED`, nor any other error code. No mint is submitted and
the state is unchanged. -/
theorem payment_not_found_answers_500 {tiers : List PricingTier} {env : Env}
    {s : ServerState} {req : MintRequest} {t : PricingTier}
    (h1 : getCurrentTier tiers env.currentTime = some t)
    (h2 : getTierMintedCount env s t.name < t.maxSupply)
    (h3 : isWalletAuthorized env s req.userWallet = true)
    (h4 : env.paymentTx = .ok none) :
    getTransactionAmount env = .error "Transaction not found" ∧
    (mintHandler tiers env s req).response = .failure 500 "Transaction not found" ∧
    (mintHandler tiers env s req).response.status = 500 ∧
    (∀ status code, (mintHandler tiers env s req).response ≠ .rejected status code) ∧
    (∀ n w, Call.sendAndConfirm n w ∉ (mintHandler tiers env s req).calls) ∧
    (mintHandler tiers env s req).state = s := by
  have hamount : getTransactionAmount env = .error "Transaction not found" := by
    simp [getTransactionAmount, h4]
  rw [mintHandler_payment_throws h1 h2 h3 hamount]
  exact ⟨hamount, rfl, rfl, fun _ _ h => (by cases h), fun _ _ => (by simp), rfl⟩

/-- Witness for C30: `alice` sends a payment signature that the RPC node does not know. -/
theorem payment_not_found_answers_500_witness :
    (mintHandler PRICING_TIERS { calmEnv 1752594900 500000000 with paymentTx := .ok none }
        freshState { userWallet := "alice", paymentSignature := "unknown" }).response =
      .failure 500 "Transaction not found" ∧
    (mintHandler PRICING_TIERS { calmEnv 1752594900 500000000 with paymentTx := .ok none }
        freshState { userWallet := "alice", paymentSignature := "unknown" }).state =
      freshState :=
  have h := @payment_not_found_answers_500 PRICING_TIERS
    { calmEnv 1752594900 500000000 with paymentTx := .ok none } freshState
    { userWallet := "alice", paymentSignature := "unknown" } spaceCadet
    (by simp [getCurrentTier, PRICING_TIERS, calmEnv, spaceCadet])
    (by simp [getTierMintedCount, getTierMintCount, calmEnv, freshState, spaceCadet])
    (by simp [isWalletAuthorized, getWalletMintCount, calmEnv, freshState, aliceAuthorized,
          MAX_MINTS_PER_WALLET])
    rfl
  ⟨h.2.1, h.2.2.2.2.2⟩


/-! ### The id validation of the airdrop handler -/

/-- The id validation for a numeric `nftId` other than 0, in an authenticated request
that names a wallet: the request passes exactly when `0 ≤ n ≤ 9999`, and is otherwise
rejected with `INVALID_NFT_ID`. -/
theorem airdropHandler_nonzero_number (adminWallet : String) (env : Env) (s : ServerState)
    (req : AirdropRequest) (n : Int)
    (h : req.authorization = some ("Bearer " ++ adminWallet)) (h2 : req.userWallet ≠ "")
    (hid : req.nftId = .number n) (hn : n ≠ 0) :
    ((0 ≤ n ∧ n ≤ 9999) →
      Call.isIdMinted n ∈ (airdropHandler adminWallet env s req).calls ∧
      (airdropHandler adminWallet env s req).response ≠ .rejected 400 .INVALID_NFT_ID ∧
      (airdropHandler adminWallet env s req).response ≠ .rejected 400 .INVALID_REQUEST) ∧
    (¬ (0 ≤ n ∧ n ≤ 9999) →
      airdropHandler adminWallet env s req = ⟨.rejected 400 .INVALID_NFT_ID, s, []⟩) := by
  have h3 : req.nftId.isFalsy = false := by simp [hid, NftIdField.isFalsy, hn]
  have h4 : req.nftId.toNftNumber = some n := by simp [hid, NftIdField.toNftNumber]
  constructor
  · rintro ⟨h5, h6⟩
    rw [airdropHandler_valid h h2 h3 h4 h5 (by omega)]
    rcases isIdMinted env s n with e | ⟨b, s1⟩
    · simp
    · cases b
      · cases env.sendAndConfirm with
        | error e => simp
        | ok sig =>
          cases env.parseLeaf with
          | error e => simp
          | ok asset =>
            rcases hr : recordAirdropMintedId env s1 n with e | ⟨s2, recordCalls⟩ <;>
              simp [hr]
      · simp
  · intro hr
    exact airdropHandler_out_of_range h h2 h3 h4 (by omega)

/-- C26: the administrator requests the airdrop of the id 0 to `bob` on the fresh
server. With `nftId` given as the number 0 the request is rejected with
`INVALID_REQUEST` (status 400) and nothing is called; with `nftId` given as the string
`0` the same id passes the validation and is minted. The ids 1 and 9999 given as numbers
pass, and the number 10000 is rejected with `INVALID_NFT_ID`. -/
theorem airdrop_number_zero_rejected :
    airdropHandler "admin" (calmEnv 0 0) freshState (adminAirdrop (.number 0)) =
      ⟨.rejected 400 .INVALID_REQUEST, freshState, []⟩ ∧
    (airdropHandler "admin" (calmEnv 0 0) freshState (adminAirdrop (.text "0"))).response =
      .success 0 "asset" "mintSig" ∧
    (airdropHandler "admin" (calmEnv 0 0) freshState (adminAirdrop (.number 1))).response =
      .success 1 "asset" "mintSig" ∧
    (airdropHandler "admin" (calmEnv 0 0) freshState (adminAirdrop (.number 9999))).response =
      .success 9999 "asset" "mintSig" ∧
    (airdropHandler "admin" (calmEnv 0 0) freshState (adminAirdrop (.number 10000))).response =
      .rejected 400 .INVALID_NFT_ID := by
  have hparse : (NftIdField.text "0").toNftNumber = some 0 := by decide
  have hvalid : ∀ (id : NftIdField) (n : Int), id.isFalsy = false → id.toNftNumber = some n →
      0 ≤ n → n < 10000 →
      (airdropHandler "admin" (calmEnv 0 0) freshState (adminAirdrop id)).response =
        .success n "asset" "mintSig" := by
    intro id n h3 h4 h5 h6
    have hw : (adminAirdrop id).userWallet ≠ "" := by
      show "bob" ≠ ""
      decide
    rw [@airdropHandler_valid "admin" (calmEnv 0 0) freshState (adminAirdrop id) n rfl
      hw h3 h4 h5 h6, isIdMinted_eq]
    simp [freshState, calmEnv, recordAirdropMintedId_of_write_ok]
  refine ⟨?_, hvalid _ 0 rfl hparse (by decide) (by decide),
    hvalid _ 1 rfl rfl (by decide) (by decide),
    hvalid _ 9999 rfl rfl (by decide) (by decide), ?_⟩
  · exact airdropHandler_invalid_request rfl (Or.inr rfl)
  · rw [@airdropHandler_out_of_range "admin" (calmEnv 0 0) freshState
      (adminAirdrop (.number 10000)) 10000 rfl (by decide) rfl rfl (Or.inr (by decide))]

/-! ### The payment guard and the requester -/

/-- For a request that has passed the tier, capacity and authorization guards, the
response is `INSUFFICIENT_PAYMENT` exactly when the payment check of STEP 2 fails. -/
theorem mintHandler_insufficient_iff {tiers : List PricingTier} {env : Env} {s : ServerState}
    {req : MintRequest} {t : PricingTier} (h1 : getCurrentTier tiers env.currentTime = some t)
    (h2 : getTierMintedCount env s t.name < t.maxSupply)
    (h3 : isWalletAuthorized env s req.userWallet = true) :
    (mintHandler tiers env s req).response = .rejected 409 .INSUFFICIENT_PAYMENT ↔
      paymentRefused env t := by
  constructor
  · intro h
    rcases mintHandler_cases tiers env s req with h1' | ⟨t', h1', hc⟩
    · rw [h1] at h1'; cases h1'
    rw [h1] at h1'
    cases h1'
    rcases hc with h2' | ⟨_, hc⟩
    · omega
    rcases hc with h3' | ⟨_, hc⟩
    · rw [h3] at h3'; cases h3'
    rcases hc with ⟨e, h4⟩ | h4 | ⟨h4, hc⟩
    · rw [mintHandler_payment_throws h1 h2 h3 h4] at h; cases h
    · exact h4
    rcases hc with h5 | ⟨h5, hc⟩
    · rw [mintHandler_duplicate h1 h2 h3 h4 h5] at h; cases h
    rcases hc with h6 | ⟨h6, hc⟩
    · rw [mintHandler_verification_failed h1 h2 h3 h4 h5 h6] at h; cases h
    rcases hc with hu | ⟨e, h7⟩ | ⟨n, s1, h7, h8 | h8⟩
    · rw [mintHandler_unending h1 h2 h3 h4 h5 h6 hu] at h; cases h
    · rw [mintHandler_allocation_throws h1 h2 h3 h4 h5 h6 h7] at h; cases h
    · rw [mintHandler_max_supply h1 h2 h3 h4 h5 h6 h7 h8] at h; cases h
    · rw [mintHandler_admitted h1 h2 h3 h4 h5 h6 h7 h8] at h
      exact absurd h (mintAndRecord_not_rejected _ _ _ _ _ _ _ _)
  · intro h
    rw [mintHandler_payment_refused h1 h2 h3 h]

theorem getTransactionAmount_withPayment (env : Env) (tx : ConfirmedTransaction) :
    getTransactionAmount (env.withPayment tx) =
      .ok (jsDiv (jsSub (jsSub tx.senderPreBalance tx.senderPostBalance) tx.fee)
        LAMPORTS_PER_SOL) := rfl

/-- C28: the payment guard does not depend on who requests, nor on who sent the payment
or received it. For two requests by any two wallets that reach the guard, and two
fetched payment transactions with the same first-account pre-balance, post-balance and
fee (the same transaction, or any two that differ in their sender, their other accounts
and the other balances), `getTransactionAmount` returns the same amount, computed from
those three numbers by two double-precision subtractions and a division, and the
`INSUFFICIENT_PAYMENT` decision is the same: it is taken exactly when that amount,
converted back to lamports, differs from the price of the active tier. -/
theorem payment_guard_ignores_requester {tiers : List PricingTier} {env : Env}
    {s : ServerState} {t : PricingTier} (tx1 tx2 : ConfirmedTransaction)
    (req1 req2 : MintRequest)
    (h1 : getCurrentTier tiers env.currentTime = some t)
    (h2 : getTierMintedCount env s t.name < t.maxSupply)
    (ha1 : isWalletAuthorized env s req1.userWallet = true)
    (ha2 : isWalletAuthorized env s req2.userWallet = true)
    (hpre : tx1.senderPreBalance = tx2.senderPreBalance)
    (hpost : tx1.senderPostBalance = tx2.senderPostBalance)
    (hfee : tx1.fee = tx2.fee) :
    getTransactionAmount (env.withPayment tx1) =
      .ok (jsDiv (jsSub (jsSub tx1.senderPreBalance tx1.senderPostBalance) tx1.fee)
        LAMPORTS_PER_SOL) ∧
    getTransactionAmount (env.withPayment tx1) = getTransactionAmount (env.withPayment tx2) ∧
    ((mintHandler tiers (env.withPayment tx1) s req1).response =
        .rejected 409 .INSUFFICIENT_PAYMENT ↔
      (mintHandler tiers (env.withPayment tx2) s req2).response =
        .rejected 409 .INSUFFICIENT_PAYMENT) ∧
    ((mintHandler tiers (env.withPayment tx1) s req1).response =
        .rejected 409 .INSUFFICIENT_PAYMENT ↔
      jsMul (jsDiv (jsSub (jsSub tx1.senderPreBalance tx1.senderPostBalance) tx1.fee)
        LAMPORTS_PER_SOL) LAMPORTS_PER_SOL ≠ t.priceLamports) := by
  have hsame : getTransactionAmount (env.withPayment tx1) =
      getTransactionAmount (env.withPayment tx2) := by
    rw [getTransactionAmount_withPayment, getTransactionAmount_withPayment, hpre, hpost, hfee]
  have hr : ∀ tx, paymentRefused (env.withPayment tx) t ↔
      jsMul (jsDiv (jsSub (jsSub tx.senderPreBalance tx.senderPostBalance) tx.fee)
        LAMPORTS_PER_SOL) LAMPORTS_PER_SOL ≠ t.priceLamports := by
    intro tx
    unfold paymentRefused
    rw [getTransactionAmount_withPayment]
    constructor
    · rintro ⟨amount, ha, hne⟩
      simp only [Except.ok.injEq] at ha
      rw [ha]
      exact hne
    · intro hne
      exact ⟨_, rfl, hne⟩
  have hi1 := @mintHandler_insufficient_iff tiers (env.withPayment tx1) s req1 t h1 h2 ha1
  have hi2 := @mintHandler_insufficient_iff tiers (env.withPayment tx2) s req2 t h1 h2 ha2
  refine ⟨rfl, hsame, ?_, hi1.trans (hr tx1)⟩
  rw [hi1, hi2, hr, hr, hpre, hpost, hfee]

/-- Witness for C28: `alice` presents a payment sent by `carol` to `merchant`, and `bob`
one sent by `dave` to himself; both moved 0.5 SOL net of the fee. -/
theorem payment_guard_ignores_requester_witness :
    getTransactionAmount ((calmEnv 1752594900 0).withPayment carolPays) =
      getTransactionAmount ((calmEnv 1752594900 0).withPayment davePays) ∧
    ((mintHandler PRICING_TIERS ((calmEnv 1752594900 0).withPayment carolPays) twoWallets
        { userWallet := "alice", paymentSignature := "p1" }).response =
        .rejected 409 .INSUFFICIENT_PAYMENT ↔
      (mintHandler PRICING_TIERS ((calmEnv 1752594900 0).withPayment davePays) twoWallets
        { userWallet := "bob", paymentSignature := "p2" }).response =
        .rejected 409 .INSUFFICIENT_PAYMENT) :=
  have h := @payment_guard_ignores_requester PRICING_TIERS (calmEnv 1752594900 0) twoWallets
    spaceCadet carolPays davePays { userWallet := "alice", paymentSignature := "p1" }
    { userWallet := "bob", paymentSignature := "p2" }
    (by simp [getCurrentTier, PRICING_TIERS, calmEnv, spaceCadet])
    (by simp [getTierMintedCount, getTierMintCount, calmEnv, twoWallets, freshState,
          spaceCadet])
    (by simp [isWalletAuthorized, getWalletMintCount, calmEnv, twoWallets, freshState,
          MAX_MINTS_PER_WALLET])
    (by simp [isWalletAuthorized, getWalletMintCount, calmEnv, twoWallets, freshState,
          MAX_MINTS_PER_WALLET])
    rfl rfl rfl
  ⟨h.2.1, h.2.2.1⟩


/-! ### No recorded id is minted twice -/

theorem mintedIdsOf_of_allocate {env : Env} {s s1 : ServerState} {n : Int}
    (h : allocateMintId env s = .ok (n, s1)) : mintedIdsOf s1 = mintedIdsOf s := by
  rw [mintedIdsOf_eq, mintedIdsOf_eq, allocateMintId_trackingOf h]

theorem withMintedId_mintedIds_of_not_mem {r : MintTrackingRecord} {id : Int}
    (h : id ∉ r.mintedIds) : (withMintedId r id).mintedIds = r.mintedIds ++ [id] := by
  rw [withMintedId_mintedIds, if_neg h]

theorem withAirdropMintedId_mintedIds_of_not_mem {r : MintTrackingRecord} {id : Int}
    (h : id ∉ r.mintedIds) : (withAirdropMintedId r id).mintedIds = r.mintedIds ++ [id] := by
  rw [withAirdropMintedId_mintedIds, if_neg h]

/-- A mint is submitted by the mint handler only for the id that STEP 5 allocated, after
all guards have passed. -/
theorem mintHandler_submitted {tiers : List PricingTier} {env : Env} {s : ServerState}
    {req : MintRequest} {m : Int} {w : String}
    (h : Call.sendAndConfirm m w ∈ (mintHandler tiers env s req).calls) :
    ∃ (t : PricingTier) (s1 : ServerState), allocateMintId env s = .ok (m, s1) ∧
      m < MAX_SUPPLY ∧ w = req.userWallet ∧
      mintHandler tiers env s req = mintAndRecord env s1 req t.name m (guardCalls t.name req) := by
  rcases mintHandler_cases tiers env s req with h1 | ⟨t, h1, hc⟩
  · rw [mintHandler_no_tier h1] at h; simp at h
  rcases hc with h2 | ⟨h2, hc⟩
  · rw [mintHandler_exhausted h1 h2] at h; simp [guardCalls] at h
  rcases hc with h3 | ⟨h3, hc⟩
  · rw [mintHandler_unauthorized h1 h2 h3] at h; simp [guardCalls] at h
  rcases hc with ⟨e, h4⟩ | h4 | ⟨h4, hc⟩
  · rw [mintHandler_payment_throws h1 h2 h3 h4] at h; simp at h
  · rw [mintHandler_payment_refused h1 h2 h3 h4] at h; simp at h
  rcases hc with h5 | ⟨h5, hc⟩
  · rw [mintHandler_duplicate h1 h2 h3 h4 h5] at h; simp at h
  rcases hc with h6 | ⟨h6, hc⟩
  · rw [mintHandler_verification_failed h1 h2 h3 h4 h5 h6] at h; simp at h
  rcases hc with hu | ⟨e, h7⟩ | ⟨n, s1, h7, h8 | h8⟩
  · rw [mintHandler_unending h1 h2 h3 h4 h5 h6 hu] at h
    exact absurd h (sendAndConfirm_not_mem_guardCalls _ _ _ _)
  · rw [mintHandler_allocation_throws h1 h2 h3 h4 h5 h6 h7] at h
    exact absurd h (sendAndConfirm_not_mem_guardCalls _ _ _ _)
  · rw [mintHandler_max_supply h1 h2 h3 h4 h5 h6 h7 h8] at h
    exact absurd h (sendAndConfirm_not_mem_guardCalls _ _ _ _)
  · have hadm := mintHandler_admitted h1 h2 h3 h4 h5 h6 h7 h8
    rw [hadm, mintAndRecord_sendAndConfirm_mem] at h
    rcases h with h | ⟨rfl, rfl⟩
    · exact absurd h (sendAndConfirm_not_mem_guardCalls _ _ _ _)
    · exact ⟨t, s1, h7, h8, rfl, hadm⟩

/-- What one mint request does to `mintedIds`: it submits a mint only for an id that is
not in the list, it adds at most that id, at the end, and it adds it whenever it answers
with success. -/
theorem mintHandler_mintedIds (tiers : List PricingTier) (env : Env) (s : ServerState)
    (req : MintRequest) :
    (∀ m w, Call.sendAndConfirm m w ∈ (mintHandler tiers env s req).calls →
      m ∉ mintedIdsOf s) ∧
    (mintedIdsOf (mintHandler tiers env s req).state = mintedIdsOf s ∨
      ∃ n, n ∉ mintedIdsOf s ∧
        mintedIdsOf (mintHandler tiers env s req).state = mintedIdsOf s ++ [n]) ∧
    (∀ n asset sig, (mintHandler tiers env s req).response = .success n asset sig →
      n ∉ mintedIdsOf s ∧
      mintedIdsOf (mintHandler tiers env s req).state = mintedIdsOf s ++ [n]) := by
  refine ⟨fun m w h => ?_, ?_, fun n asset sig h => ?_⟩
  · obtain ⟨t, s1, h7, _, _, _⟩ := mintHandler_submitted h
    rw [← mintedIdsOf_of_allocate h7]
    exact allocateMintId_not_minted h7
  · rcases mintHandler_tracking tiers env s req with h | h | ⟨n, ⟨s1, h7⟩, _, h⟩
    · left
      rw [mintedIdsOf_eq, mintedIdsOf_eq, trackingOf_of_tracking_eq (Or.inl h)]
    · left
      rw [mintedIdsOf_eq, mintedIdsOf_eq, trackingOf_of_tracking_eq (Or.inr h)]
    · have hnot : n ∉ mintedIdsOf s := by
        rw [← mintedIdsOf_of_allocate h7]
        exact allocateMintId_not_minted h7
      right
      refine ⟨n, hnot, ?_⟩
      rw [mintedIdsOf_eq] at hnot
      rw [mintedIdsOf_eq, mintedIdsOf_eq]
      simp only [trackingOf, h, Option.getD_some]
      exact withMintedId_mintedIds_of_not_mem hnot
  · have hsucc : (mintHandler tiers env s req).response.isSuccess = true := by rw [h]; rfl
    obtain ⟨t, n', s1, sig', asset', _, _, _, _, _, _, h7, _, _, _, _, _, hresp, hst⟩ :=
      mintHandler_success hsucc
    rw [h] at hresp
    simp only [Response.success.injEq] at hresp
    obtain ⟨rfl, _, _⟩ := hresp
    have hnot1 := allocateMintId_not_minted h7
    have hnot : n ∉ mintedIdsOf s := by
      rw [← mintedIdsOf_of_allocate h7]
      exact hnot1
    refine ⟨hnot, ?_⟩
    rw [← mintedIdsOf_of_allocate h7]
    rw [mintedIdsOf_eq] at hnot1
    rw [mintedIdsOf_eq, mintedIdsOf_eq]
    unfold trackingOf at hnot1 ⊢
    rw [hst, (updateFirebaseCounts_rest _ _ _ _ _).1]
    simp only [recordedState, Option.getD_some]
    exact withMintedId_mintedIds_of_not_mem hnot1

theorem mem_mintedIdsOf_iff (s : ServerState) (n : Int) :
    n ∈ mintedIdsOf s ↔ ∃ r, s.tracking = some r ∧ n ∈ r.mintedIds := by
  unfold mintedIdsOf
  cases s.tracking with
  | none => simp
  | some r => simp

/-- An airdrop request that has passed the validation, in each of its outcomes. -/
theorem airdropHandler_valid_cases {adminWallet : String} {env : Env} {s : ServerState}
    {req : AirdropRequest} {n : Int} (h : req.authorization = some ("Bearer " ++ adminWallet))
    (h2 : req.userWallet ≠ "") (h3 : req.nftId.isFalsy = false)
    (h4 : req.nftId.toNftNumber = some n) (h5 : 0 ≤ n) (h6 : n < 10000) :
    (n ∈ mintedIdsOf s ∧
      airdropHandler adminWallet env s req =
        ⟨.rejected 409 .NFT_ALREADY_MINTED, s, [.isIdMinted n]⟩) ∨
    (n ∉ mintedIdsOf s ∧
      ((∃ e, (airdropHandler adminWallet env s req).response = .failure 500 e ∧
          mintedIdsOf (airdropHandler adminWallet env s req).state = mintedIdsOf s ∧
          ∀ m w, Call.sendAndConfirm m w ∈ (airdropHandler adminWallet env s req).calls →
            m = n) ∨
       (∃ asset sig, (airdropHandler adminWallet env s req).response = .success n asset sig ∧
          mintedIdsOf (airdropHandler adminWallet env s req).state = mintedIdsOf s ++ [n] ∧
          ∀ m w, Call.sendAndConfirm m w ∈ (airdropHandler adminWallet env s req).calls →
            m = n))) := by
  rw [airdropHandler_valid h h2 h3 h4 h5 h6, isIdMinted_eq]
  cases ht : s.tracking with
  | some r =>
    simp only
    cases hc : r.mintedIds.contains n with
    | true =>
      left
      exact ⟨(mem_mintedIdsOf_iff s n).2 ⟨r, ht, by simpa using hc⟩, rfl⟩
    | false =>
      have hnot : n ∉ r.mintedIds := by simpa using hc
      have hnot' : n ∉ mintedIdsOf s := by
        rw [mem_mintedIdsOf_iff]
        rintro ⟨r', hr', hn⟩
        rw [ht] at hr'
        cases hr'
        exact hnot hn
      right
      refine ⟨hnot', ?_⟩
      simp only
      cases hs : env.sendAndConfirm with
      | error e => exact Or.inl ⟨e, rfl, rfl, fun m w hm => (by simp at hm; exact hm.1)⟩
      | ok sig =>
        cases hp : env.parseLeaf with
        | error e => exact Or.inl ⟨e, rfl, rfl, fun m w hm => (by simp at hm; exact hm.1)⟩
        | ok asset =>
          cases hw : env.writeFileError with
          | some e =>
            rw [recordAirdropMintedId_of_write_error env s n e hw]
            exact Or.inl ⟨e, rfl, rfl, fun m w hm => (by simp at hm; exact hm.1)⟩
          | none =>
            rw [recordAirdropMintedId_of_write_ok env s n hw]
            refine Or.inr ⟨asset, sig, rfl, ?_, fun m w hm => (by simp at hm; exact hm.1)⟩
            simp only [mintedIdsOf, ht, trackingOf, Option.getD_some]
            exact withAirdropMintedId_mintedIds_of_not_mem hnot
  | none =>
    have hnot' : n ∉ mintedIdsOf s := by simp [mintedIdsOf, ht]
    right
    refine ⟨hnot', ?_⟩
    cases hw : env.writeFileError with
    | some e => exact Or.inl ⟨e, rfl, rfl, fun m w hm => (by simp at hm)⟩
    | none =>
      simp only
      cases hs : env.sendAndConfirm with
      | error e =>
        exact Or.inl ⟨e, rfl, by simp [mintedIdsOf, ht, initialData],
          fun m w hm => (by simp at hm; exact hm.1)⟩
      | ok sig =>
        cases hp : env.parseLeaf with
        | error e =>
          exact Or.inl ⟨e, rfl, by simp [mintedIdsOf, ht, initialData],
            fun m w hm => (by simp at hm; exact hm.1)⟩
        | ok asset =>
          rw [recordAirdropMintedId_of_write_ok env _ n hw]
          refine Or.inr ⟨asset, sig, rfl, ?_, fun m w hm => (by simp at hm; exact hm.1)⟩
          simp [mintedIdsOf, ht, trackingOf, withAirdropMintedId, initialData]

/-- What one airdrop request does to `mintedIds`: as `mintHandler_mintedIds`. -/
theorem airdropHandler_mintedIds (adminWallet : String) (env : Env) (s : ServerState)
    (req : AirdropRequest) :
    (∀ m w, Call.sendAndConfirm m w ∈ (airdropHandler adminWallet env s req).calls →
      m ∉ mintedIdsOf s) ∧
    (mintedIdsOf (airdropHandler adminWallet env s req).state = mintedIdsOf s ∨
      ∃ n, n ∉ mintedIdsOf s ∧
        mintedIdsOf (airdropHandler adminWallet env s req).state = mintedIdsOf s ++ [n]) ∧
    (∀ n asset sig, (airdropHandler adminWallet env s req).response = .success n asset sig →
      n ∉ mintedIdsOf s ∧
      mintedIdsOf (airdropHandler adminWallet env s req).state = mintedIdsOf s ++ [n]) := by
  rcases airdropHandler_cases adminWallet req with
    h | ⟨h, h2 | ⟨h2, h3, h4 | ⟨n, h4, h5 | ⟨h5, h6⟩⟩⟩⟩
  · rw [airdropHandler_unauthorized h]
    exact ⟨fun _ _ hm => (by simp at hm), Or.inl rfl, fun _ _ _ hr => (by cases hr)⟩
  · rw [airdropHandler_invalid_request h h2]
    exact ⟨fun _ _ hm => (by simp at hm), Or.inl rfl, fun _ _ _ hr => (by cases hr)⟩
  · rw [airdropHandler_not_a_number h h2 h3 h4]
    exact ⟨fun _ _ hm => (by simp at hm), Or.inl rfl, fun _ _ _ hr => (by cases hr)⟩
  · rw [airdropHandler_out_of_range h h2 h3 h4 h5]
    exact ⟨fun _ _ hm => (by simp at hm), Or.inl rfl, fun _ _ _ hr => (by cases hr)⟩
  · rcases airdropHandler_valid_cases h h2 h3 h4 h5 h6 with
      ⟨_, hout⟩ | ⟨hnot, ⟨e, hresp, hids, hcalls⟩ | ⟨asset, sig, hresp, hids, hcalls⟩⟩
    · rw [hout]
      exact ⟨fun _ _ hm => (by simp at hm), Or.inl rfl, fun _ _ _ hr => (by cases hr)⟩
    · refine ⟨fun m w hm => ?_, Or.inl hids, fun n' a' s' hr => ?_⟩
      · rw [hcalls m w hm]; exact hnot
      · rw [hresp] at hr; cases hr
    · refine ⟨fun m w hm => ?_, Or.inr ⟨n, hnot, hids⟩, fun n' a' s' hr => ?_⟩
      · rw [hcalls m w hm]; exact hnot
      · rw [hresp] at hr
        simp only [Response.success.injEq] at hr
        obtain ⟨rfl, _, _⟩ := hr
        exact ⟨hnot, hids⟩


theorem handleRequest_mintedIds (tiers : List PricingTier) (adminWallet : String) (env : Env)
    (s : ServerState) (request : Request) :
    (∀ m w, Call.sendAndConfirm m w ∈ (handleRequest tiers adminWallet env s request).calls →
      m ∉ mintedIdsOf s) ∧
    (mintedIdsOf (handleRequest tiers adminWallet env s request).state = mintedIdsOf s ∨
      ∃ n, n ∉ mintedIdsOf s ∧
        mintedIdsOf (handleRequest tiers adminWallet env s request).state =
          mintedIdsOf s ++ [n]) ∧
    (∀ n asset sig,
      (handleRequest tiers adminWallet env s request).response = .success n asset sig →
      n ∉ mintedIdsOf s ∧
      mintedIdsOf (handleRequest tiers adminWallet env s request).state =
        mintedIdsOf s ++ [n]) := by
  cases request with
  | mint req => exact mintHandler_mintedIds tiers env s req
  | airdrop req => exact airdropHandler_mintedIds adminWallet env s req

theorem mem_mintedId_iff (out : Outcome) (n : Int) :
    out.mintedId = some n ↔ ∃ asset sig, out.response = .success n asset sig := by
  unfold Outcome.mintedId
  cases out.response with
  | success m a sg => simp
  | rejected st c => simp
  | failure st msg => simp
  | unanswered => simp

/-- Over a run that starts from a list of minted ids without duplicates: the list never
gets a duplicate, keeps its ids, and the ids of the success responses are new, pairwise
different and recorded. -/
theorem runRequests_nodup (tiers : List PricingTier) (adminWallet : String) :
    ∀ (run : List (Env × Request)) (s : ServerState), (mintedIdsOf s).Nodup →
      (mintedIdsOf (runRequests tiers adminWallet s run).1).Nodup ∧
      (mintedInRun (runRequests tiers adminWallet s run).2).Nodup ∧
      (∀ n ∈ mintedInRun (runRequests tiers adminWallet s run).2,
        n ∉ mintedIdsOf s ∧ n ∈ mintedIdsOf (runRequests tiers adminWallet s run).1) ∧
      (∀ n ∈ mintedIdsOf s, n ∈ mintedIdsOf (runRequests tiers adminWallet s run).1) := by
  intro run
  induction run with
  | nil =>
    intro s h
    exact ⟨h, by simp [runRequests, mintedInRun], by simp [runRequests, mintedInRun],
      fun n hn => hn⟩
  | cons p rest ih =>
    intro s h
    obtain ⟨env, request⟩ := p
    obtain ⟨_, hgrow, hsucc⟩ := handleRequest_mintedIds tiers adminWallet env s request
    have hsub : ∀ n ∈ mintedIdsOf s,
        n ∈ mintedIdsOf (handleRequest tiers adminWallet env s request).state := by
      intro n hn
      rcases hgrow with he | ⟨m, _, he⟩
      · rw [he]; exact hn
      · rw [he]; exact List.mem_append_left _ hn
    have hnodup : (mintedIdsOf (handleRequest tiers adminWallet env s request).state).Nodup := by
      rcases hgrow with he | ⟨m, hm, he⟩
      · rw [he]; exact h
      · rw [he]
        exact List.Nodup.append h (List.nodup_singleton m)
          (by intro x hx hx'; rw [List.mem_singleton] at hx'; subst hx'; exact hm hx)
    obtain ⟨ih1, ih2, ih3, ih4⟩ := ih _ hnodup
    simp only [runRequests]
    refine ⟨ih1, ?_, ?_, fun n hn => ih4 n (hsub n hn)⟩
    · unfold mintedInRun
      rw [List.filterMap_cons]
      cases hid : (handleRequest tiers adminWallet env s request).mintedId with
      | none => exact ih2
      | some n =>
        obtain ⟨asset, sig, hr⟩ := (mem_mintedId_iff _ n).1 hid
        obtain ⟨_, he⟩ := hsucc n asset sig hr
        refine List.nodup_cons.2 ⟨fun hmem => ?_, ih2⟩
        exact (ih3 n hmem).1 (by rw [he]; simp)
    · intro n hn
      unfold mintedInRun at hn
      rw [List.filterMap_cons] at hn
      cases hid : (handleRequest tiers adminWallet env s request).mintedId with
      | none =>
        rw [hid] at hn
        exact ⟨fun hmem => (ih3 n hn).1 (hsub n hmem), (ih3 n hn).2⟩
      | some m =>
        rw [hid] at hn
        rcases List.mem_cons.1 hn with rfl | hn'
        · obtain ⟨asset, sig, hr⟩ := (mem_mintedId_iff _ n).1 hid
          obtain ⟨hnot, he⟩ := hsucc n asset sig hr
          exact ⟨hnot, ih4 n (by rw [he]; simp)⟩
        · exact ⟨fun hmem => (ih3 n hn').1 (hsub n hmem), (ih3 n hn').2⟩

/-- C27, counterexample: on the server whose file holds the ids 0, 1 and 3, `alice`
mints while the write of the tracking file throws: the mint of the id 2 is submitted and
confirmed, the response is the status 500 response and 2 is not in `mintedIds`
afterwards. Her next request is answered with success for the same id 2: the id 2 has
been minted twice. -/
theorem confirmed_id_minted_twice :
    (writeFailingEnv 1752594900 500000000).sendAndConfirm = .ok "mintSig" ∧
    Call.sendAndConfirm 2 "alice" ∈
      (mintHandler PRICING_TIERS (writeFailingEnv 1752594900 500000000) gapState
        { userWallet := "alice", paymentSignature := "p1" }).calls ∧
    (2 : Int) ∉ mintedIdsOf
      (mintHandler PRICING_TIERS (writeFailingEnv 1752594900 500000000) gapState
        { userWallet := "alice", paymentSignature := "p1" }).state ∧
    (mintHandler PRICING_TIERS (calmEnv 1752594901 500000000)
        (mintHandler PRICING_TIERS (writeFailingEnv 1752594900 500000000) gapState
          { userWallet := "alice", paymentSignature := "p1" }).state
        { userWallet := "alice", paymentSignature := "p2" }).response =
      .success 2 "asset" "mintSig" ∧
    Call.sendAndConfirm 2 "alice" ∈
      (mintHandler PRICING_TIERS (calmEnv 1752594901 500000000)
        (mintHandler PRICING_TIERS (writeFailingEnv 1752594900 500000000) gapState
          { userWallet := "alice", paymentSignature := "p1" }).state
        { userWallet := "alice", paymentSignature := "p2" }).calls := by
  have hA := @mintHandler_admitted PRICING_TIERS (writeFailingEnv 1752594900 500000000) gapState
    gapState { userWallet := "alice", paymentSignature := "p1" } spaceCadet 2
    (by simp [getCurrentTier, PRICING_TIERS, writeFailingEnv, spaceCadet])
    (by simp [getTierMintedCount, getTierMintCount, writeFailingEnv, gapState, freshState,
          spaceCadet])
    (by simp [isWalletAuthorized, getWalletMintCount, writeFailingEnv, gapState, freshState,
          aliceAuthorized, MAX_MINTS_PER_WALLET])
    ((@paymentAccepted_iff _ (by simp [PRICING_TIERS]) _ (sampleTx 500000000) rfl (by decide)).2
      (by norm_num [spaceCadet, sampleTx]))
    (by simp [isTransactionProcessed, gapState, freshState])
    rfl (allocateMintId_gapState _) (by decide)
  have hB := @mintHandler_admitted PRICING_TIERS (calmEnv 1752594901 500000000) gapState
    gapState { userWallet := "alice", paymentSignature := "p2" } spaceCadet 2
    (by simp [getCurrentTier, PRICING_TIERS, calmEnv, spaceCadet])
    (by simp [getTierMintedCount, getTierMintCount, calmEnv, gapState, freshState, spaceCadet])
    (by simp [isWalletAuthorized, getWalletMintCount, calmEnv, gapState, freshState,
          aliceAuthorized, MAX_MINTS_PER_WALLET])
    ((@paymentAccepted_iff _ (by simp [PRICING_TIERS]) _ (sampleTx 500000000) rfl (by decide)).2
      (by norm_num [spaceCadet, sampleTx]))
    (by simp [isTransactionProcessed, gapState, freshState])
    rfl (allocateMintId_gapState _) (by decide)
  have hstate : (mintHandler PRICING_TIERS (writeFailingEnv 1752594900 500000000) gapState
      { userWallet := "alice", paymentSignature := "p1" }).state = gapState := by
    rw [hA]
    simp [mintAndRecord, writeFailingEnv, recordMintedId_of_write_error _ _ _ "EACCES"]
  rw [hstate]
  refine ⟨rfl, ?_, by simp [mintedIdsOf, gapState], ?_, ?_⟩
  · rw [hA, mintAndRecord_sendAndConfirm_mem]
    exact Or.inr ⟨rfl, rfl⟩
  · rw [hB, @mintAndRecord_bookkeeping_response _ "mintSig" "asset" _ _ _ _ _ rfl rfl]
    rfl
  · rw [hB, mintAndRecord_sendAndConfirm_mem]
    exact Or.inr ⟨rfl, rfl⟩

/-- C27, amended: in every sequential run of mint and airdrop requests that starts from
a tracking record whose `mintedIds` has no duplicates, each mint that is submitted
(normal or airdrop) is for an id that was not in `mintedIds` when the request was
processed; when the request is answered with success, the id is in `mintedIds`
afterwards; an authenticated, well-formed airdrop request for an id already in
`mintedIds` is rejected with `NFT_ALREADY_MINTED` (status 409) without a mint;
`mintedIds` never contains a duplicate; and the ids of the requests answered with
success are pairwise different and were not in `mintedIds` at the start. -/
theorem no_recorded_id_minted_twice (tiers : List PricingTier) (adminWallet : String) :
    (∀ (env : Env) (s : ServerState) (request : Request) (m : Int) (w : String),
      Call.sendAndConfirm m w ∈ (handleRequest tiers adminWallet env s request).calls →
      m ∉ mintedIdsOf s) ∧
    (∀ (env : Env) (s : ServerState) (request : Request) (n : Int) (asset sig : String),
      (handleRequest tiers adminWallet env s request).response = .success n asset sig →
      n ∉ mintedIdsOf s ∧
      n ∈ mintedIdsOf (handleRequest tiers adminWallet env s request).state) ∧
    (∀ (env : Env) (s : ServerState) (req : AirdropRequest) (n : Int),
      req.authorization = some ("Bearer " ++ adminWallet) → req.userWallet ≠ "" →
      req.nftId.isFalsy = false → req.nftId.toNftNumber = some n → 0 ≤ n → n < 10000 →
      n ∈ mintedIdsOf s →
      handleRequest tiers adminWallet env s (.airdrop req) =
        ⟨.rejected 409 .NFT_ALREADY_MINTED, s, [.isIdMinted n]⟩) ∧
    (∀ (s : ServerState) (run : List (Env × Request)), (mintedIdsOf s).Nodup →
      (mintedIdsOf (runRequests tiers adminWallet s run).1).Nodup ∧
      (mintedInRun (runRequests tiers adminWallet s run).2).Nodup ∧
      ∀ n ∈ mintedInRun (runRequests tiers adminWallet s run).2,
        n ∉ mintedIdsOf s ∧ n ∈ mintedIdsOf (runRequests tiers adminWallet s run).1) := by
  refine ⟨fun env s request m w h => (handleRequest_mintedIds tiers adminWallet env s request).1
      m w h, fun env s request n asset sig h => ?_, fun env s req n h h2 h3 h4 h5 h6 hin => ?_,
    fun s run hn => ?_⟩
  · obtain ⟨hnot, he⟩ :=
      (handleRequest_mintedIds tiers adminWallet env s request).2.2 n asset sig h
    exact ⟨hnot, by rw [he]; simp⟩
  · rcases airdropHandler_valid_cases h h2 h3 h4 h5 h6 with ⟨_, hout⟩ | ⟨hnot, _⟩
    · exact hout
    · exact absurd hin hnot
  · obtain ⟨a, b, c, _⟩ := runRequests_nodup tiers adminWallet run s hn
    exact ⟨a, b, c⟩

/-- Witness for C27 (amended): on the file with the ids 0, 1 and 3, the administrator
airdrops the id 2, `alice` mints, and the administrator asks for the id 3 again. -/
theorem no_recorded_id_minted_twice_witness :
    (mintedIdsOf (runRequests PRICING_TIERS "admin" gapState
      [(calmEnv 0 0, .airdrop (adminAirdrop (.number 2))),
       (calmEnv 1752594900 500000000,
         .mint { userWallet := "alice", paymentSignature := "p1" }),
       (calmEnv 0 0, .airdrop (adminAirdrop (.number 3)))]).1).Nodup ∧
    handleRequest PRICING_TIERS "admin" (calmEnv 0 0) gapState
        (.airdrop (adminAirdrop (.number 3))) =
      ⟨.rejected 409 .NFT_ALREADY_MINTED, gapState, [.isIdMinted 3]⟩ :=
  ⟨((no_recorded_id_minted_twice PRICING_TIERS "admin").2.2.2 gapState _
      (by simp [mintedIdsOf, gapState])).1,
   (no_recorded_id_minted_twice PRICING_TIERS "admin").2.2.1 (calmEnv 0 0) gapState
      (adminAirdrop (.number 3)) 3 rfl (by decide) rfl rfl (by decide) (by decide)
      (by simp [mintedIdsOf, gapState])⟩


/-! ### Requests in flight -/

theorem MintInFlight.run_responded (tiers : List PricingTier) (env : Env) (req : MintRequest)
    (r : Response) (s : ServerState) :
    ∀ k, MintInFlight.run tiers k ⟨env, req, .responded r⟩ s = (⟨env, req, .responded r⟩, s) := by
  intro k
  induction k with
  | zero => rfl
  | succ k ih => simpa [MintInFlight.run, MintInFlight.step] using ih

theorem MintInFlight.run_succ (tiers : List PricingTier) (k : Nat) (task : MintInFlight)
    (s : ServerState) :
    MintInFlight.run tiers (k + 1) task s =
      MintInFlight.run tiers k (task.step tiers s).1 (task.step tiers s).2 := rfl

/-- STEP 7 to STEP 10 carried out step by step without another request in between give
the response and the state of `mintAndRecord`. -/
theorem MintInFlight.run_submission (tiers : List PricingTier) (env : Env) (req : MintRequest)
    (t : PricingTier) (n : Int) (before : List Call) (s : ServerState) (k : Nat) :
    MintInFlight.run tiers (k + 5) ⟨env, req, .submission t n⟩ s =
      (⟨env, req, .responded (mintAndRecord env s req t.name n before).response⟩,
       (mintAndRecord env s req t.name n before).state) := by
  unfold mintAndRecord
  cases hs : env.sendAndConfirm with
  | error e =>
    rw [MintInFlight.run_succ]
    simp only [MintInFlight.step, hs]
    exact MintInFlight.run_responded tiers env req _ s _
  | ok sig =>
    cases hp : env.parseLeaf with
    | error e =>
      rw [MintInFlight.run_succ, MintInFlight.run_succ]
      simp only [MintInFlight.step, hs, hp]
      exact MintInFlight.run_responded tiers env req _ s _
    | ok asset =>
      rcases hr : recordMintedId env s n with e | ⟨s1, recordCalls⟩
      · rw [MintInFlight.run_succ, MintInFlight.run_succ, MintInFlight.run_succ]
        simp only [MintInFlight.step, hs, hp, hr]
        exact MintInFlight.run_responded tiers env req _ s _
      · cases ha : env.addProcessedError with
        | some e =>
          rw [MintInFlight.run_succ, MintInFlight.run_succ, MintInFlight.run_succ]
          simp only [MintInFlight.step, hs, hp, hr, ha]
          exact MintInFlight.run_responded tiers env req _ s1 _
        | none =>
          rw [MintInFlight.run_succ, MintInFlight.run_succ, MintInFlight.run_succ,
            MintInFlight.run_succ, MintInFlight.run_succ]
          simp only [MintInFlight.step, hs, hp, hr, ha, updateFirebaseCounts]
          rcases hwi : incrementWalletMintCount env
              { s1 with processed := addProcessedTransaction s1.processed req.paymentSignature }
              req.userWallet sig with _ | ⟨c, s2⟩
          · simp only [MintInFlight.step]
            exact MintInFlight.run_responded tiers env req _ _ _
          · simp only [MintInFlight.step]
            rcases hti : incrementTierMintCount env s2 t.name sig req.userWallet with
              _ | ⟨c2, s3⟩
            · exact MintInFlight.run_responded tiers env req _ _ _
            · exact MintInFlight.run_responded tiers env req _ _ _

theorem MintInFlight.step_tierGuard_none {tiers : List PricingTier} {env : Env}
    (req : MintRequest) (s : ServerState) (h1 : getCurrentTier tiers env.currentTime = none) :
    MintInFlight.step tiers ⟨env, req, .tierGuard⟩ s =
      (⟨env, req, .responded (.rejected 410 .NO_ACTIVE_TIER)⟩, s) := by
  simp only [MintInFlight.step, h1]

theorem MintInFlight.step_tierGuard_exhausted {tiers : List PricingTier} {env : Env}
    {s : ServerState} {t : PricingTier} (req : MintRequest)
    (h1 : getCurrentTier tiers env.currentTime = some t)
    (h2 : t.maxSupply ≤ getTierMintedCount env s t.name) :
    MintInFlight.step tiers ⟨env, req, .tierGuard⟩ s =
      (⟨env, req, .responded (.rejected 410 .TIER_SUPPLY_EXHAUSTED)⟩, s) := by
  simp only [MintInFlight.step, h1, ge_iff_le, h2, if_true]

theorem MintInFlight.step_tierGuard_pass {tiers : List PricingTier} {env : Env}
    {s : ServerState} {t : PricingTier} (req : MintRequest)
    (h1 : getCurrentTier tiers env.currentTime = some t)
    (h2 : getTierMintedCount env s t.name < t.maxSupply) :
    MintInFlight.step tiers ⟨env, req, .tierGuard⟩ s =
      (⟨env, req, .authorizationGuard t⟩, s) := by
  simp only [MintInFlight.step, h1, ge_iff_le, not_le.2 h2, if_false]

theorem MintInFlight.step_authorization_fail {env : Env} {s : ServerState} {req : MintRequest}
    (tiers : List PricingTier) (t : PricingTier)
    (h3 : isWalletAuthorized env s req.userWallet = false) :
    MintInFlight.step tiers ⟨env, req, .authorizationGuard t⟩ s =
      (⟨env, req, .responded (.rejected 403 .WALLET_NOT_AUTHORIZED)⟩, s) := by
  simp only [MintInFlight.step, h3, if_true]

theorem MintInFlight.step_authorization_pass {env : Env} {s : ServerState} {req : MintRequest}
    (tiers : List PricingTier) (t : PricingTier)
    (h3 : isWalletAuthorized env s req.userWallet = true) :
    MintInFlight.step tiers ⟨env, req, .authorizationGuard t⟩ s =
      (⟨env, req, .paymentGuard t⟩, s) := by
  simp only [MintInFlight.step, h3, Bool.true_eq_false, if_false]

theorem MintInFlight.step_payment_throws {env : Env} {e : String} (tiers : List PricingTier)
    (req : MintRequest) (t : PricingTier) (s : ServerState)
    (h4 : getTransactionAmount env = .error e) :
    MintInFlight.step tiers ⟨env, req, .paymentGuard t⟩ s =
      (⟨env, req, .responded (.failure 500 e)⟩, s) := by
  simp only [MintInFlight.step, h4]

theorem MintInFlight.step_payment_refused {env : Env} {t : PricingTier}
    (tiers : List PricingTier) (req : MintRequest) (s : ServerState)
    (h4 : paymentRefused env t) :
    MintInFlight.step tiers ⟨env, req, .paymentGuard t⟩ s =
      (⟨env, req, .responded (.rejected 409 .INSUFFICIENT_PAYMENT)⟩, s) := by
  obtain ⟨amount, ha, hne⟩ := h4
  simp only [MintInFlight.step, ha, ne_eq, hne, not_false_eq_true, if_true]

theorem MintInFlight.step_payment_duplicate {env : Env} {t : PricingTier} {s : ServerState}
    {req : MintRequest} (tiers : List PricingTier) (h4 : paymentAccepted env t)
    (h5 : isTransactionProcessed s.processed req.paymentSignature = true) :
    MintInFlight.step tiers ⟨env, req, .paymentGuard t⟩ s =
      (⟨env, req, .responded (.rejected 409 .DUPLICATE_TRANSACTION)⟩, s) := by
  obtain ⟨amount, ha, he⟩ := h4
  simp only [MintInFlight.step, ha, ne_eq, he, not_true_eq_false, if_false, h5, if_true]

theorem MintInFlight.step_payment_pass {env : Env} {t : PricingTier} {s : ServerState}
    {req : MintRequest} (tiers : List PricingTier) (h4 : paymentAccepted env t)
    (h5 : isTransactionProcessed s.processed req.paymentSignature = false) :
    MintInFlight.step tiers ⟨env, req, .paymentGuard t⟩ s =
      (⟨env, req, .detailsGuard t⟩, s) := by
  obtain ⟨amount, ha, he⟩ := h4
  simp only [MintInFlight.step, ha, ne_eq, he, not_true_eq_false, if_false, h5,
    Bool.false_eq_true]

theorem MintInFlight.step_details_fail {env : Env} (tiers : List PricingTier)
    (req : MintRequest) (t : PricingTier) (s : ServerState)
    (h6 : env.txDetailsError.isSome = true) :
    MintInFlight.step tiers ⟨env, req, .detailsGuard t⟩ s =
      (⟨env, req, .responded (.rejected 400 .TRANSACTION_VERIFICATION_FAILED)⟩, s) := by
  simp only [MintInFlight.step, h6, if_true]

theorem MintInFlight.step_details_pass {env : Env} (tiers : List PricingTier)
    (req : MintRequest) (t : PricingTier) (s : ServerState)
    (h6 : env.txDetailsError.isSome = false) :
    MintInFlight.step tiers ⟨env, req, .detailsGuard t⟩ s =
      (⟨env, req, .allocation t⟩, s) := by
  simp only [MintInFlight.step, h6, Bool.false_eq_true, if_false]

theorem MintInFlight.step_allocation_throws {env : Env} {s : ServerState} {e : String}
    (tiers : List PricingTier) (req : MintRequest) (t : PricingTier)
    (h7 : allocateMintId env s = .error e) :
    MintInFlight.step tiers ⟨env, req, .allocation t⟩ s =
      (⟨env, req, .responded (.failure 500 e)⟩, s) := by
  simp only [MintInFlight.step, h7]

theorem MintInFlight.step_allocation_max {env : Env} {s s1 : ServerState} {n : Int}
    (tiers : List PricingTier) (req : MintRequest) (t : PricingTier)
    (h7 : allocateMintId env s = .ok (n, s1)) (h8 : MAX_SUPPLY ≤ n) :
    MintInFlight.step tiers ⟨env, req, .allocation t⟩ s =
      (⟨env, req, .responded (.rejected 410 .MAX_SUPPLY_REACHED)⟩, s1) := by
  simp only [MintInFlight.step, h7, ge_iff_le, h8, if_true]

theorem MintInFlight.step_allocation_pass {env : Env} {s s1 : ServerState} {n : Int}
    (tiers : List PricingTier) (req : MintRequest) (t : PricingTier)
    (h7 : allocateMintId env s = .ok (n, s1)) (h8 : n < MAX_SUPPLY) :
    MintInFlight.step tiers ⟨env, req, .allocation t⟩ s =
      (⟨env, req, .submission t n⟩, s1) := by
  simp only [MintInFlight.step, h7, ge_iff_le, not_le.2 h8, if_false]

/-- A request in flight that is left alone for its ten steps gives the response and the
state of `mintHandler`, when that gives a response: the sequential handler is the
interleaving in which no other request moves. -/
theorem MintInFlight.run_alone (tiers : List PricingTier) (env : Env) (s : ServerState)
    (req : MintRequest) (k : Nat)
    (hanswered : (mintHandler tiers env s req).response ≠ .unanswered) :
    MintInFlight.run tiers (k + 10) ⟨env, req, .tierGuard⟩ s =
      (⟨env, req, .responded (mintHandler tiers env s req).response⟩,
       (mintHandler tiers env s req).state) := by
  rcases mintHandler_cases tiers env s req with h1 | ⟨t, h1, hc⟩
  · rw [mintHandler_no_tier h1, MintInFlight.run_succ, MintInFlight.step_tierGuard_none req s h1]
    exact MintInFlight.run_responded tiers env req _ s _
  rcases hc with h2 | ⟨h2, hc⟩
  · rw [mintHandler_exhausted h1 h2, MintInFlight.run_succ,
      MintInFlight.step_tierGuard_exhausted req h1 h2]
    exact MintInFlight.run_responded tiers env req _ s _
  rw [MintInFlight.run_succ, MintInFlight.step_tierGuard_pass req h1 h2]
  rcases hc with h3 | ⟨h3, hc⟩
  · rw [mintHandler_unauthorized h1 h2 h3, MintInFlight.run_succ,
      MintInFlight.step_authorization_fail tiers t h3]
    exact MintInFlight.run_responded tiers env req _ s _
  rw [MintInFlight.run_succ, MintInFlight.step_authorization_pass tiers t h3]
  rcases hc with ⟨e, h4⟩ | h4 | ⟨h4, hc⟩
  · rw [mintHandler_payment_throws h1 h2 h3 h4, MintInFlight.run_succ,
      MintInFlight.step_payment_throws tiers req t s h4]
    exact MintInFlight.run_responded tiers env req _ s _
  · rw [mintHandler_payment_refused h1 h2 h3 h4, MintInFlight.run_succ,
      MintInFlight.step_payment_refused tiers req s h4]
    exact MintInFlight.run_responded tiers env req _ s _
  rcases hc with h5 | ⟨h5, hc⟩
  · rw [mintHandler_duplicate h1 h2 h3 h4 h5, MintInFlight.run_succ,
      MintInFlight.step_payment_duplicate tiers h4 h5]
    exact MintInFlight.run_responded tiers env req _ s _
  rw [MintInFlight.run_succ, MintInFlight.step_payment_pass tiers h4 h5]
  rcases hc with h6 | ⟨h6, hc⟩
  · rw [mintHandler_verification_failed h1 h2 h3 h4 h5 h6, MintInFlight.run_succ,
      MintInFlight.step_details_fail tiers req t s h6]
    exact MintInFlight.run_responded tiers env req _ s _
  rw [MintInFlight.run_succ, MintInFlight.step_details_pass tiers req t s h6]
  rcases hc with hu | ⟨e, h7⟩ | ⟨n, s1, h7, h8 | h8⟩
  · exact absurd (by rw [mintHandler_unending h1 h2 h3 h4 h5 h6 hu]) hanswered
  · rw [mintHandler_allocation_throws h1 h2 h3 h4 h5 h6 h7, MintInFlight.run_succ,
      MintInFlight.step_allocation_throws tiers req t h7]
    exact MintInFlight.run_responded tiers env req _ s _
  · rw [mintHandler_max_supply h1 h2 h3 h4 h5 h6 h7 h8, MintInFlight.run_succ,
      MintInFlight.step_allocation_max tiers req t h7 h8]
    exact MintInFlight.run_responded tiers env req _ s1 _
  · rw [mintHandler_admitted h1 h2 h3 h4 h5 h6 h7 h8, MintInFlight.run_succ,
      MintInFlight.step_allocation_pass tiers req t h7 h8]
    exact MintInFlight.run_submission tiers env req t n _ s1 k

theorem MintInFlight.step_allocation_unending {env : Env} {s : ServerState}
    (tiers : List PricingTier) (req : MintRequest) (t : PricingTier)
    (h7 : allocateMintId env s = .unending) :
    MintInFlight.step tiers ⟨env, req, .allocation t⟩ s = (⟨env, req, .allocation t⟩, s) := by
  simp only [MintInFlight.step, h7]

/-- A request in flight whose forward scan never ends, left alone: after the four guard
steps it is at its allocation stage and stays there, however many steps follow, without
a response and without a change of the state, as `mintHandler` says. -/
theorem MintInFlight.run_alone_unending {tiers : List PricingTier} {env : Env}
    {s : ServerState} {req : MintRequest} {t : PricingTier}
    (h1 : getCurrentTier tiers env.currentTime = some t)
    (h2 : getTierMintedCount env s t.name < t.maxSupply)
    (h3 : isWalletAuthorized env s req.userWallet = true)
    (h4 : paymentAccepted env t)
    (h5 : isTransactionProcessed s.processed req.paymentSignature = false)
    (h6 : env.txDetailsError.isSome = false)
    (h7 : allocateMintId env s = .unending) (k : Nat) :
    MintInFlight.run tiers (k + 4) ⟨env, req, .tierGuard⟩ s =
      (⟨env, req, .allocation t⟩, s) ∧
    mintHandler tiers env s req = ⟨.unanswered, s, guardCalls t.name req⟩ := by
  refine ⟨?_, mintHandler_unending h1 h2 h3 h4 h5 h6 h7⟩
  rw [MintInFlight.run_succ, MintInFlight.step_tierGuard_pass req h1 h2,
    MintInFlight.run_succ, MintInFlight.step_authorization_pass tiers t h3,
    MintInFlight.run_succ, MintInFlight.step_payment_pass tiers h4 h5,
    MintInFlight.run_succ, MintInFlight.step_details_pass tiers req t s h6]
  induction k with
  | zero => rfl
  | succ k ih => rw [MintInFlight.run_succ, MintInFlight.step_allocation_unending tiers req t h7]; exact ih


theorem storedWalletCount_congr {s s1 : ServerState} (w : String)
    (h : s1.walletMintCounts = s.walletMintCounts) :
    storedWalletCount s1 w = storedWalletCount s w := by
  simp [storedWalletCount, h]

theorem recordMintedId_walletMintCounts {env : Env} {s s1 : ServerState} {n : Int}
    {calls : List Call} (h : recordMintedId env s n = .ok (s1, calls)) :
    s1.walletMintCounts = s.walletMintCounts := by
  rcases recordMintedId_error_or_ok env s n with ⟨e, he⟩ | ⟨calls', hok⟩
  · rw [he] at h; cases h
  · rw [hok] at h
    simp only [Except.ok.injEq, Prod.mk.injEq] at h
    rw [← h.1]

theorem incrementWalletMintCount_storedWalletCount {env : Env} {s s1 : ServerState}
    {w sig : String} {c : Nat} (h : incrementWalletMintCount env s w sig = some (c, s1))
    (x : String) :
    env.walletIncrementFails = false ∧
    storedWalletCount s1 x = storedWalletCount s x + if w = x then 1 else 0 := by
  cases hf : env.walletIncrementFails with
  | true => rw [incrementWalletMintCount_of_fails env s w sig hf] at h; cases h
  | false =>
    refine ⟨rfl, ?_⟩
    obtain ⟨h1, h2⟩ := incrementWalletMintCount_spec env s w sig hf
    cases hd : s.walletMintCounts w with
    | none =>
      obtain ⟨s2, he, hnew, hother, _⟩ := h1 hd
      rw [he] at h
      simp only [Option.some.injEq, Prod.mk.injEq] at h
      obtain ⟨_, rfl⟩ := h
      by_cases hx : w = x
      · subst hx
        simp [storedWalletCount, hnew, hd]
      · simp [storedWalletCount, hother x (Ne.symm hx), hx]
    | some d =>
      obtain ⟨s2, he, hnew, hother, _⟩ := h2 d hd
      rw [he] at h
      simp only [Option.some.injEq, Prod.mk.injEq] at h
      obtain ⟨_, rfl⟩ := h
      by_cases hx : w = x
      · subst hx
        simp [storedWalletCount, hnew, hd]
      · simp [storedWalletCount, hother x (Ne.symm hx), hx]

theorem incrementTierMintCount_walletMintCounts {env : Env} {s s1 : ServerState}
    {t sig w : String} {c : Nat} (h : incrementTierMintCount env s t sig w = some (c, s1)) :
    s1.walletMintCounts = s.walletMintCounts := by
  cases hf : env.tierIncrementFails with
  | true => rw [incrementTierMintCount_of_fails env s t sig w hf] at h; cases h
  | false =>
    obtain ⟨h1, h2⟩ := incrementTierMintCount_spec env s t sig w hf
    cases hd : s.tierMintCounts t with
    | none =>
      obtain ⟨s2, he, _, _, hw⟩ := h1 hd
      rw [he] at h
      simp only [Option.some.injEq, Prod.mk.injEq] at h
      rw [← h.2]
      exact hw
    | some d =>
      obtain ⟨s2, he, _, _, hw⟩ := h2 d hd
      rw [he] at h
      simp only [Option.some.injEq, Prod.mk.injEq] at h
      rw [← h.2]
      exact hw

theorem MintInFlight.step_env_req (tiers : List PricingTier) (task : MintInFlight)
    (s : ServerState) :
    (task.step tiers s).1.env = task.env ∧ (task.step tiers s).1.req = task.req := by
  obtain ⟨env, req, stage⟩ := task
  cases stage <;> simp only [MintInFlight.step] <;> (repeat' split) <;>
    first | exact ⟨rfl, rfl⟩ | trivial

/-- One step of a request in flight changes the stored `mintCount` of a wallet by the
number of increments of that wallet's count document that the step carries out. -/
theorem MintInFlight.step_counted (tiers : List PricingTier) (task : MintInFlight)
    (s : ServerState) (w : String) :
    storedWalletCount (task.step tiers s).2 w + task.counted w =
      storedWalletCount s w + (task.step tiers s).1.counted w := by
  obtain ⟨env, req, stage⟩ := task
  cases stage with
  | tierGuard =>
    simp only [MintInFlight.step]
    repeat' split
    all_goals simp [MintInFlight.counted, Response.isSuccess]
  | authorizationGuard t =>
    simp only [MintInFlight.step]
    repeat' split
    all_goals simp [MintInFlight.counted, Response.isSuccess]
  | paymentGuard t =>
    simp only [MintInFlight.step]
    repeat' split
    all_goals simp [MintInFlight.counted, Response.isSuccess]
  | detailsGuard t =>
    simp only [MintInFlight.step]
    repeat' split
    all_goals simp [MintInFlight.counted, Response.isSuccess]
  | allocation t =>
    simp only [MintInFlight.step]
    rcases h7 : allocateMintId env s with e | ⟨n, s1⟩ | _
    · simp [MintInFlight.counted, Response.isSuccess]
    · have hw := storedWalletCount_congr w (allocateMintId_stores h7).2.2.1
      simp only
      split <;> simp [MintInFlight.counted, Response.isSuccess, hw]
    · simp [MintInFlight.counted]
  | submission t n =>
    simp only [MintInFlight.step]
    repeat' split
    all_goals simp [MintInFlight.counted, Response.isSuccess]
  | leafParse t n sig =>
    simp only [MintInFlight.step]
    repeat' split
    all_goals simp [MintInFlight.counted, Response.isSuccess]
  | recording t n sig asset =>
    simp only [MintInFlight.step]
    rcases hr : recordMintedId env s n with e | ⟨s1, calls⟩
    · simp [MintInFlight.counted, Response.isSuccess]
    · have hw := storedWalletCount_congr w (recordMintedId_walletMintCounts hr)
      simp only
      split
      · simp [MintInFlight.counted, Response.isSuccess, hw]
      · simp only [MintInFlight.counted, Nat.add_zero, ite_self]
        rw [← hw]
        rfl
  | walletCount t n sig asset =>
    simp only [MintInFlight.step]
    rcases hi : incrementWalletMintCount env s req.userWallet sig with _ | ⟨c, s1⟩
    · have hf : env.walletIncrementFails = true := by
        cases hf : env.walletIncrementFails with
        | true => rfl
        | false =>
          obtain ⟨h1, h2⟩ := incrementWalletMintCount_spec env s req.userWallet sig hf
          cases hd : s.walletMintCounts req.userWallet with
          | none => obtain ⟨s2, he, _⟩ := h1 hd; rw [he] at hi; cases hi
          | some d => obtain ⟨s2, he, _⟩ := h2 d hd; rw [he] at hi; cases hi
      simp [MintInFlight.counted, hf]
    · obtain ⟨hf, hc⟩ := incrementWalletMintCount_storedWalletCount hi w
      simp only [MintInFlight.counted, hf, and_true]
      rw [hc]
      by_cases hx : req.userWallet = w <;> simp [hx]
  | tierCount t n sig asset =>
    simp only [MintInFlight.step]
    rcases hi : incrementTierMintCount env s t.name sig req.userWallet with _ | ⟨c, s1⟩
    · simp only [MintInFlight.counted, Response.isSuccess, if_true]
    · have hw := storedWalletCount_congr w (incrementTierMintCount_walletMintCounts hi)
      simp only [MintInFlight.counted, Response.isSuccess, if_true, hw]
  | responded r => rfl

/-- Under every interleaving the stored `mintCount` of a wallet grows by the number of
increments that the two requests have carried out on its count document. -/
theorem Server.run_counted (tiers : List PricingTier) (w : String) :
    ∀ (schedule : List Bool) (server : Server),
      storedWalletCount (Server.run tiers server schedule).state w +
          server.first.counted w + server.second.counted w =
        storedWalletCount server.state w +
          (Server.run tiers server schedule).first.counted w +
          (Server.run tiers server schedule).second.counted w := by
  intro schedule
  induction schedule with
  | nil => intro server; rfl
  | cons b rest ih =>
    intro server
    have h := ih (server.step tiers b)
    simp only [Server.run]
    cases b with
    | false =>
      have hs := MintInFlight.step_counted tiers server.first server.state w
      simp only [Server.step, Bool.false_eq_true, if_false] at h ⊢
      omega
    | true =>
      have hs := MintInFlight.step_counted tiers server.second server.state w
      simp only [Server.step, if_true] at h ⊢
      omega

theorem Server.run_append (tiers : List PricingTier) (a b : List Bool) :
    ∀ server, Server.run tiers server (a ++ b) =
      Server.run tiers (Server.run tiers server a) b := by
  induction a with
  | nil => intro server; rfl
  | cons x xs ih => intro server; exact ih _

theorem Server.run_first (tiers : List PricingTier) :
    ∀ (k : Nat) (first second : MintInFlight) (s : ServerState),
      Server.run tiers ⟨first, second, s⟩ (List.replicate k false) =
        ⟨(first.run tiers k s).1, second, (first.run tiers k s).2⟩ := by
  intro k
  induction k with
  | zero => intro first second s; rfl
  | succ k ih =>
    intro first second s
    simp only [List.replicate_succ, Server.run, Server.step, Bool.false_eq_true, if_false]
    rw [ih]
    rfl

theorem Server.run_second (tiers : List PricingTier) :
    ∀ (k : Nat) (first second : MintInFlight) (s : ServerState),
      Server.run tiers ⟨first, second, s⟩ (List.replicate k true) =
        ⟨first, (second.run tiers k s).1, (second.run tiers k s).2⟩ := by
  intro k
  induction k with
  | zero => intro first second s; rfl
  | succ k ih =>
    intro first second s
    simp only [List.replicate_succ, Server.run, Server.step, if_true]
    rw [ih]
    rfl


theorem MintInFlight.step_submission_ok {env : Env} {sig : String} (tiers : List PricingTier)
    (req : MintRequest) (t : PricingTier) (n : Int) (s : ServerState)
    (hs : env.sendAndConfirm = .ok sig) :
    MintInFlight.step tiers ⟨env, req, .submission t n⟩ s =
      (⟨env, req, .leafParse t n sig⟩, s) := by
  simp only [MintInFlight.step, hs]

theorem MintInFlight.step_leafParse_ok {env : Env} {asset : String} (tiers : List PricingTier)
    (req : MintRequest) (t : PricingTier) (n : Int) (sig : String) (s : ServerState)
    (hp : env.parseLeaf = .ok asset) :
    MintInFlight.step tiers ⟨env, req, .leafParse t n sig⟩ s =
      (⟨env, req, .recording t n sig asset⟩, s) := by
  simp only [MintInFlight.step, hp]

/-- A request that passes all guards and whose mint is confirmed and parsed is, after
seven steps of its own, about to record the allocated id. -/
theorem MintInFlight.run_to_recording {tiers : List PricingTier} {env : Env}
    {s s1 : ServerState} {req : MintRequest} {t : PricingTier} {n : Int} {sig asset : String}
    (h1 : getCurrentTier tiers env.currentTime = some t)
    (h2 : getTierMintedCount env s t.name < t.maxSupply)
    (h3 : isWalletAuthorized env s req.userWallet = true)
    (h4 : paymentAccepted env t)
    (h5 : isTransactionProcessed s.processed req.paymentSignature = false)
    (h6 : env.txDetailsError.isSome = false)
    (h7 : allocateMintId env s = .ok (n, s1)) (h8 : n < MAX_SUPPLY)
    (hs : env.sendAndConfirm = .ok sig) (hp : env.parseLeaf = .ok asset) :
    MintInFlight.run tiers 7 ⟨env, req, .tierGuard⟩ s =
      (⟨env, req, .recording t n sig asset⟩, s1) := by
  rw [MintInFlight.run_succ, MintInFlight.step_tierGuard_pass req h1 h2,
    MintInFlight.run_succ, MintInFlight.step_authorization_pass tiers t h3,
    MintInFlight.run_succ, MintInFlight.step_payment_pass tiers h4 h5,
    MintInFlight.run_succ, MintInFlight.step_details_pass tiers req t s h6,
    MintInFlight.run_succ, MintInFlight.step_allocation_pass tiers req t h7 h8,
    MintInFlight.run_succ, MintInFlight.step_submission_ok tiers req t n s1 hs,
    MintInFlight.run_succ, MintInFlight.step_leafParse_ok tiers req t n sig s1 hp]
  rfl

/-- A request that is about to record its id answers with success after three steps of
its own when the local write and the replay guard do not throw, whatever the state. -/
theorem MintInFlight.run_bookkeeping {env : Env} (tiers : List PricingTier)
    (req : MintRequest) (t : PricingTier) (n : Int) (sig asset : String) (s : ServerState)
    (hw : env.writeFileError = none) (ha : env.addProcessedError = none) :
    (MintInFlight.run tiers 3 ⟨env, req, .recording t n sig asset⟩ s).1 =
      ⟨env, req, .responded (.success n asset sig)⟩ := by
  rw [MintInFlight.run_succ]
  simp only [MintInFlight.step, recordMintedId_of_write_ok env s n hw, ha]
  rw [MintInFlight.run_succ]
  simp only [MintInFlight.step]
  split
  · rw [MintInFlight.run_responded]
  · rw [MintInFlight.run_succ]
    simp only [MintInFlight.step]
    split <;> rfl

theorem Server.run_env_req (tiers : List PricingTier) :
    ∀ (schedule : List Bool) (server : Server),
      (Server.run tiers server schedule).first.env = server.first.env ∧
      (Server.run tiers server schedule).first.req = server.first.req ∧
      (Server.run tiers server schedule).second.env = server.second.env ∧
      (Server.run tiers server schedule).second.req = server.second.req := by
  intro schedule
  induction schedule with
  | nil => intro server; exact ⟨rfl, rfl, rfl, rfl⟩
  | cons b rest ih =>
    intro server
    obtain ⟨a1, a2, a3, a4⟩ := ih (server.step tiers b)
    simp only [Server.run]
    rw [a1, a2, a3, a4]
    cases b with
    | false =>
      obtain ⟨e1, e2⟩ := MintInFlight.step_env_req tiers server.first server.state
      exact ⟨e1, e2, rfl, rfl⟩
    | true =>
      obtain ⟨e1, e2⟩ := MintInFlight.step_env_req tiers server.second server.state
      exact ⟨rfl, rfl, e1, e2⟩

theorem allocateMintId_aliceHasOne (env : Env) :
    allocateMintId env aliceHasOne = .ok (2, aliceHasOne) := by
  simp [allocateMintId, getNextMintId, isIdMinted, loadMintTrackingData, scanForward, scanFuel,
    aliceHasOne, gapState, jsIncrement_zero, jsIncrement_one]

/-- The two halves of the interleaving `raceSchedule` of `aliceTwice`: after the first
fourteen steps both requests have passed the authorization guard in a state in which the
stored `mintCount` of `alice` is 1, and the mint of each is confirmed; after the
remaining six both have answered with success. -/
theorem aliceTwice_race :
    Server.run PRICING_TIERS aliceTwice (List.replicate 7 false) =
      ⟨⟨calmEnv 1752594900 500000000, { userWallet := "alice", paymentSignature := "p1" },
          .recording spaceCadet 2 "mintSig" "asset"⟩,
        aliceTwice.second, aliceHasOne⟩ ∧
    Server.run PRICING_TIERS aliceTwice (List.replicate 7 false ++ List.replicate 7 true) =
      ⟨⟨calmEnv 1752594900 500000000, { userWallet := "alice", paymentSignature := "p1" },
          .recording spaceCadet 2 "mintSig" "asset"⟩,
        ⟨calmEnv 1752594900 500000000, { userWallet := "alice", paymentSignature := "p2" },
          .recording spaceCadet 2 "mintSig" "asset"⟩,
        aliceHasOne⟩ ∧
    (Server.run PRICING_TIERS aliceTwice raceSchedule).first.stage =
      .responded (.success 2 "asset" "mintSig") ∧
    (Server.run PRICING_TIERS aliceTwice raceSchedule).second.stage =
      .responded (.success 2 "asset" "mintSig") := by
  have hG : ∀ p : String,
      MintInFlight.run PRICING_TIERS 7
        ⟨calmEnv 1752594900 500000000, { userWallet := "alice", paymentSignature := p },
          .tierGuard⟩ aliceHasOne =
      (⟨calmEnv 1752594900 500000000, { userWallet := "alice", paymentSignature := p },
          .recording spaceCadet 2 "mintSig" "asset"⟩, aliceHasOne) := by
    intro p
    exact MintInFlight.run_to_recording
      (by simp [getCurrentTier, PRICING_TIERS, calmEnv, spaceCadet])
      (by simp [getTierMintedCount, getTierMintCount, calmEnv, aliceHasOne, gapState,
            freshState, spaceCadet])
      (by simp [isWalletAuthorized, getWalletMintCount, calmEnv, aliceHasOne, gapState,
            freshState, aliceAuthorized, MAX_MINTS_PER_WALLET])
      ((@paymentAccepted_iff _ (by simp [PRICING_TIERS]) _ (sampleTx 500000000) rfl (by decide)).2
        (by norm_num [spaceCadet, sampleTx]))
      (by simp [isTransactionProcessed, aliceHasOne, gapState, freshState])
      rfl (allocateMintId_aliceHasOne _) (by decide) rfl rfl
  have h7 : Server.run PRICING_TIERS aliceTwice (List.replicate 7 false) =
      ⟨⟨calmEnv 1752594900 500000000, { userWallet := "alice", paymentSignature := "p1" },
          .recording spaceCadet 2 "mintSig" "asset"⟩,
        aliceTwice.second, aliceHasOne⟩ := by
    have := Server.run_first PRICING_TIERS 7 aliceTwice.first aliceTwice.second aliceHasOne
    rw [show aliceTwice.first = ⟨calmEnv 1752594900 500000000,
      { userWallet := "alice", paymentSignature := "p1" }, .tierGuard⟩ from rfl, hG "p1"] at this
    exact this
  have h14 : Server.run PRICING_TIERS aliceTwice
      (List.replicate 7 false ++ List.replicate 7 true) =
      ⟨⟨calmEnv 1752594900 500000000, { userWallet := "alice", paymentSignature := "p1" },
          .recording spaceCadet 2 "mintSig" "asset"⟩,
        ⟨calmEnv 1752594900 500000000, { userWallet := "alice", paymentSignature := "p2" },
          .recording spaceCadet 2 "mintSig" "asset"⟩,
        aliceHasOne⟩ := by
    rw [Server.run_append, h7, Server.run_second,
      show aliceTwice.second = ⟨calmEnv 1752594900 500000000,
        { userWallet := "alice", paymentSignature := "p2" }, .tierGuard⟩ from rfl, hG "p2"]
  refine ⟨h7, h14, ?_, ?_⟩
  · unfold raceSchedule
    rw [← List.append_assoc, Server.run_append, h14, Server.run_append, Server.run_first,
      Server.run_second]
    simp only
    rw [MintInFlight.run_bookkeeping PRICING_TIERS _ _ _ _ _ _ rfl rfl]
  · unfold raceSchedule
    rw [← List.append_assoc, Server.run_append, h14, Server.run_append, Server.run_first,
      Server.run_second]
    simp only
    rw [MintInFlight.run_bookkeeping PRICING_TIERS _ _ _ _ _ _ rfl rfl]

/-- The stored `mintCount` of a wallet after any interleaving of two requests by that
wallet that both answer with success and whose wallet count increments do not throw. -/
theorem Server.run_both_success (tiers : List PricingTier) (w : String) (env1 env2 : Env)
    (req1 req2 : MintRequest) (s : ServerState) (schedule : List Bool)
    (hw1 : req1.userWallet = w) (hw2 : req2.userWallet = w)
    (hf1 : env1.walletIncrementFails = false) (hf2 : env2.walletIncrementFails = false)
    (hs1 : ∃ n asset sig,
      (Server.run tiers ⟨⟨env1, req1, .tierGuard⟩, ⟨env2, req2, .tierGuard⟩, s⟩
        schedule).first.stage = .responded (.success n asset sig))
    (hs2 : ∃ n asset sig,
      (Server.run tiers ⟨⟨env1, req1, .tierGuard⟩, ⟨env2, req2, .tierGuard⟩, s⟩
        schedule).second.stage = .responded (.success n asset sig)) :
    storedWalletCount
        (Server.run tiers ⟨⟨env1, req1, .tierGuard⟩, ⟨env2, req2, .tierGuard⟩, s⟩
          schedule).state w =
      storedWalletCount s w + 2 := by
  have h := Server.run_counted tiers w schedule
    ⟨⟨env1, req1, .tierGuard⟩, ⟨env2, req2, .tierGuard⟩, s⟩
  obtain ⟨e1, r1, e2, r2⟩ := Server.run_env_req tiers schedule
    ⟨⟨env1, req1, .tierGuard⟩, ⟨env2, req2, .tierGuard⟩, s⟩
  obtain ⟨n1, a1, g1, hs1⟩ := hs1
  obtain ⟨n2, a2, g2, hs2⟩ := hs2
  have c1 : (Server.run tiers ⟨⟨env1, req1, .tierGuard⟩, ⟨env2, req2, .tierGuard⟩, s⟩
      schedule).first.counted w = 1 := by
    unfold MintInFlight.counted
    rw [e1, r1, hs1]
    simp [hw1, hf1, Response.isSuccess]
  have c2 : (Server.run tiers ⟨⟨env1, req1, .tierGuard⟩, ⟨env2, req2, .tierGuard⟩, s⟩
      schedule).second.counted w = 1 := by
    unfold MintInFlight.counted
    rw [e2, r2, hs2]
    simp [hw2, hf2, Response.isSuccess]
  rw [c1, c2] at h
  simp only [MintInFlight.counted, ite_self, Nat.add_zero] at h
  omega


/-- C23, counterexample: `alice` is authorized, her stored `mintCount` is 1 and the cap
is 2; two requests of hers are in flight. The first passes the authorization guard,
reading the count 1, and its mint is confirmed; the stored count is still 1 when the
second does the same; then each does its bookkeeping. Both requests are answered with
success and the final stored `mintCount` is 3. -/
theorem concurrent_mints_reach_three :
    MAX_MINTS_PER_WALLET = 2 ∧
    getWalletMintCount (calmEnv 1752594900 500000000) aliceTwice.state "alice" = 1 ∧
    (Server.run PRICING_TIERS aliceTwice (List.replicate 7 false)).first.stage =
      .recording spaceCadet 2 "mintSig" "asset" ∧
    getWalletMintCount (calmEnv 1752594900 500000000)
      (Server.run PRICING_TIERS aliceTwice (List.replicate 7 false)).state "alice" = 1 ∧
    (Server.run PRICING_TIERS aliceTwice
      (List.replicate 7 false ++ List.replicate 7 true)).second.stage =
      .recording spaceCadet 2 "mintSig" "asset" ∧
    getWalletMintCount (calmEnv 1752594900 500000000)
      (Server.run PRICING_TIERS aliceTwice
        (List.replicate 7 false ++ List.replicate 7 true)).state "alice" = 1 ∧
    (Server.run PRICING_TIERS aliceTwice raceSchedule).first.stage =
      .responded (.success 2 "asset" "mintSig") ∧
    (Server.run PRICING_TIERS aliceTwice raceSchedule).second.stage =
      .responded (.success 2 "asset" "mintSig") ∧
    storedWalletCount (Server.run PRICING_TIERS aliceTwice raceSchedule).state "alice" = 3 := by
  obtain ⟨h7, h14, hf, hs⟩ := aliceTwice_race
  have hone : getWalletMintCount (calmEnv 1752594900 500000000) aliceHasOne "alice" = 1 := by
    simp [getWalletMintCount, calmEnv, aliceHasOne]
  have hthree := Server.run_both_success PRICING_TIERS "alice" (calmEnv 1752594900 500000000)
    (calmEnv 1752594900 500000000) { userWallet := "alice", paymentSignature := "p1" }
    { userWallet := "alice", paymentSignature := "p2" } aliceHasOne raceSchedule rfl rfl rfl rfl
    ⟨2, "asset", "mintSig", hf⟩ ⟨2, "asset", "mintSig", hs⟩
  refine ⟨rfl, hone, ?_, ?_, ?_, ?_, hf, hs, ?_⟩
  · rw [h7]
  · rw [h7]; exact hone
  · rw [h14]
  · rw [h14]; exact hone
  · have hstart : storedWalletCount aliceHasOne "alice" = 1 := by
      simp [storedWalletCount, aliceHasOne]
    rw [hstart] at hthree
    exact hthree

/-- C23, amended: for two mint requests in flight, under every interleaving of their
steps, the final stored `mintCount` of a wallet is the initial one plus the number of
wallet count increments that the two requests have carried out on it, each increment
being one atomic step that adds 1 to the count it finds and checks no cap. So when both
requests are by the same wallet and both are answered with success (both have passed
the authorization guard and both mints are confirmed), the wallet count increments not
throwing, the final `mintCount` is the initial one plus 2: it is 3, not 2, when it
was 1. -/
theorem concurrent_increments_add_up (tiers : List PricingTier) (w : String)
    (env1 env2 : Env) (req1 req2 : MintRequest) (s : ServerState) (schedule : List Bool) :
    storedWalletCount
        (Server.run tiers ⟨⟨env1, req1, .tierGuard⟩, ⟨env2, req2, .tierGuard⟩, s⟩
          schedule).state w =
      storedWalletCount s w +
        (Server.run tiers ⟨⟨env1, req1, .tierGuard⟩, ⟨env2, req2, .tierGuard⟩, s⟩
          schedule).first.counted w +
        (Server.run tiers ⟨⟨env1, req1, .tierGuard⟩, ⟨env2, req2, .tierGuard⟩, s⟩
          schedule).second.counted w ∧
    (req1.userWallet = w → req2.userWallet = w →
      env1.walletIncrementFails = false → env2.walletIncrementFails = false →
      (∃ n asset sig,
        (Server.run tiers ⟨⟨env1, req1, .tierGuard⟩, ⟨env2, req2, .tierGuard⟩, s⟩
          schedule).first.stage = .responded (.success n asset sig)) →
      (∃ n asset sig,
        (Server.run tiers ⟨⟨env1, req1, .tierGuard⟩, ⟨env2, req2, .tierGuard⟩, s⟩
          schedule).second.stage = .responded (.success n asset sig)) →
      storedWalletCount
          (Server.run tiers ⟨⟨env1, req1, .tierGuard⟩, ⟨env2, req2, .tierGuard⟩, s⟩
            schedule).state w =
        storedWalletCount s w + 2) := by
  constructor
  · have h := Server.run_counted tiers w schedule
      ⟨⟨env1, req1, .tierGuard⟩, ⟨env2, req2, .tierGuard⟩, s⟩
    simp only [MintInFlight.counted, ite_self, Nat.add_zero] at h
    exact h
  · intro hw1 hw2 hf1 hf2 hs1 hs2
    exact Server.run_both_success tiers w env1 env2 req1 req2 s schedule hw1 hw2 hf1 hf2 hs1 hs2

/-- Witness for C23 (amended): the two requests of `alice`, whose stored `mintCount`
is 1, under the interleaving `raceSchedule`. -/
theorem concurrent_increments_add_up_witness :
    storedWalletCount (Server.run PRICING_TIERS aliceTwice raceSchedule).state "alice" =
      storedWalletCount aliceHasOne "alice" + 2 :=
  (concurrent_increments_add_up PRICING_TIERS "alice" (calmEnv 1752594900 500000000)
    (calmEnv 1752594900 500000000) { userWallet := "alice", paymentSignature := "p1" }
    { userWallet := "alice", paymentSignature := "p2" } aliceHasOne raceSchedule).2
    rfl rfl rfl rfl ⟨2, "asset", "mintSig", aliceTwice_race.2.2.1⟩
    ⟨2, "asset", "mintSig", aliceTwice_race.2.2.2⟩


/-! ### Decimal strings as airdrop ids -/

theorem digitChar_not_special (d : Nat) (hd : d < 10) :
    isJsWhiteSpace (Nat.digitChar d) = false ∧ Nat.digitChar d ≠ '+' := by
  interval_cases d <;> exact ⟨rfl, by decide⟩

/-- The value `parseInt` gives for a non-empty string of decimal digits: the integer that
the string denotes. -/
theorem parseInt_digits (ds : List Char) (hne : ds ≠ [])
    (hd : ∀ c ∈ ds, ∃ d, d < 10 ∧ c = Nat.digitChar d) :
    parseInt (String.mk ds) = some (digitsValue 0 ds : Int) := by
  obtain ⟨c, rest, rfl⟩ := List.exists_cons_of_ne_nil hne
  obtain ⟨d, hlt, hc⟩ := hd c (List.mem_cons_self _ _)
  have hws : isJsWhiteSpace c = false := by rw [hc]; exact (digitChar_not_special d hlt).1
  have hplus : c ≠ '+' := by rw [hc]; exact (digitChar_not_special d hlt).2
  have hminus : c ≠ '-' := by rw [hc]; exact (digitChar_spec d hlt).2.2.2
  have hall : ∀ x ∈ c :: rest, x.isDigit = true := by
    intro x hx
    obtain ⟨d', hlt', hx'⟩ := hd x hx
    rw [hx']
    exact (digitChar_spec d' hlt').1
  have htake : (c :: rest).takeWhile Char.isDigit = c :: rest :=
    List.takeWhile_eq_self_iff.2 hall
  unfold parseInt
  simp only [String.toList, List.dropWhile_cons, hws, Bool.false_eq_true, if_false,
    List.head?_cons, Option.some.injEq, hminus, hplus, or_self, htake, List.isEmpty_cons]

/-- The id validation for an `nftId` given as a non-empty string of decimal digits, in
an authenticated request that names a wallet: the request passes exactly when the
integer that the string denotes is at most 9999, and is otherwise rejected with
`INVALID_NFT_ID`. This holds for the string `0` as well. -/
theorem airdropHandler_decimal_string (adminWallet : String) (env : Env) (s : ServerState)
    (req : AirdropRequest) (ds : List Char) (hne : ds ≠ [])
    (hd : ∀ c ∈ ds, ∃ d, d < 10 ∧ c = Nat.digitChar d)
    (h : req.authorization = some ("Bearer " ++ adminWallet)) (h2 : req.userWallet ≠ "")
    (hid : req.nftId = .text (String.mk ds)) :
    (digitsValue 0 ds ≤ 9999 →
      Call.isIdMinted (digitsValue 0 ds : Int) ∈ (airdropHandler adminWallet env s req).calls ∧
      (airdropHandler adminWallet env s req).response ≠ .rejected 400 .INVALID_NFT_ID ∧
      (airdropHandler adminWallet env s req).response ≠ .rejected 400 .INVALID_REQUEST) ∧
    (¬ digitsValue 0 ds ≤ 9999 →
      airdropHandler adminWallet env s req = ⟨.rejected 400 .INVALID_NFT_ID, s, []⟩) := by
  have h3 : req.nftId.isFalsy = false := by
    rw [hid]
    simp only [NftIdField.isFalsy, decide_eq_false_iff_not]
    intro he
    have := congrArg String.data he
    exact hne this
  have h4 : req.nftId.toNftNumber = some (digitsValue 0 ds : Int) := by
    rw [hid]
    exact parseInt_digits ds hne hd
  constructor
  · intro hle
    rw [airdropHandler_valid h h2 h3 h4 (by omega) (by omega)]
    rcases isIdMinted env s (digitsValue 0 ds : Int) with e | ⟨b, s1⟩
    · simp
    · cases b
      · cases env.sendAndConfirm with
        | error e => simp
        | ok sig =>
          cases env.parseLeaf with
          | error e => simp
          | ok asset =>
            rcases hr : recordAirdropMintedId env s1 (digitsValue 0 ds : Int) with
              e | ⟨s2, recordCalls⟩ <;> simp [hr]
      · simp
  · intro hgt
    exact airdropHandler_out_of_range h h2 h3 h4 (Or.inr (by omega))


/-! ### The payment amount -/

/-- The amount that the code computes for `roundedTx`: the first subtraction gives
`18014398509481986`, which is halfway between two doubles and is rounded down by 2. -/
theorem computedAmount_roundedTx :
    jsSub (roundedTx.preBalance : ℚ) (roundedTx.postBalance : ℚ) = 18014398509481984 ∧
    jsSub (jsSub (roundedTx.preBalance : ℚ) (roundedTx.postBalance : ℚ)) (roundedTx.fee : ℚ) =
      500000000 := by
  have h1 : jsSub (roundedTx.preBalance : ℚ) (roundedTx.postBalance : ℚ) =
      18014398509481984 := by
    unfold jsSub
    norm_num [roundedTx]
    exact roundDouble_tie_down
  refine ⟨h1, ?_⟩
  rw [h1]
  unfold jsSub
  have h := roundDouble_intCast 500000000 (by norm_num)
  norm_num [roundedTx] at h ⊢
  exact h

/-- C6, counterexample: `alice`, authorized, sends a request at the start of the first
tier (price 500000000 lamports) with a payment whose exact net amount
`preBalance - postBalance - fee` is 500000002 lamports. The pre-balance is above 2^54
lamports, the first subtraction is rounded and the code computes 500000000 lamports: the
payment check passes and the overpaying request is answered with success. -/
theorem inexact_payment_accepted :
    roundedTx.preBalance - roundedTx.postBalance - roundedTx.fee = 500000002 ∧
    spaceCadet.priceLamports = 500000000 ∧
    jsSub (roundedTx.preBalance : ℚ) (roundedTx.postBalance : ℚ) = 18014398509481984 ∧
    jsSub (jsSub (roundedTx.preBalance : ℚ) (roundedTx.postBalance : ℚ)) (roundedTx.fee : ℚ) =
      500000000 ∧
    paymentAccepted (payingEnv 1752594900 roundedTx) spaceCadet ∧
    (mintHandler PRICING_TIERS (payingEnv 1752594900 roundedTx) freshState
      { userWallet := "alice", paymentSignature := "p1" }).response =
      .success 0 "asset" "mintSig" := by
  have hacc : paymentAccepted (payingEnv 1752594900 roundedTx) spaceCadet := by
    apply (@paymentAccepted_iff_computed _ (by simp [PRICING_TIERS]) _ roundedTx rfl).2
    rw [computedAmount_roundedTx.2]
    norm_num [spaceCadet]
  refine ⟨by decide, rfl, computedAmount_roundedTx.1, computedAmount_roundedTx.2, hacc, ?_⟩
  exact (mintHandler_completes
    (by simp [getCurrentTier, PRICING_TIERS, payingEnv, spaceCadet])
    (by simp [getTierMintedCount, getTierMintCount, payingEnv, freshState, spaceCadet])
    (by simp [isWalletAuthorized, getWalletMintCount, payingEnv, freshState, aliceAuthorized,
          MAX_MINTS_PER_WALLET])
    hacc
    (by simp [isTransactionProcessed, freshState])
    rfl
    (by rw [allocateMintId_of_none _ (by simp [freshState])]; rfl)
    (by decide) rfl rfl rfl rfl).1

/-- C6, amended: for every configured tier and every payment transaction, the payment
check of the mint handler (the double-precision comparison
`(amount * LAMPORTS_PER_SOL) != priceLamports` on
`amount = (preBalance - postBalance - fee) / LAMPORTS_PER_SOL`) passes exactly when the
amount that the two double-precision subtractions give equals the tier's `priceLamports`,
and a request that reaches the check is answered with `INSUFFICIENT_PAYMENT` exactly
when it does not. When the two balances differ by less than 2^53 lamports, the first
subtraction is exact and the check passes exactly when the exact net amount
`preBalance - postBalance - fee` equals the price; a request that reaches the check with
any other net amount, every overpayment included, is answered with
`INSUFFICIENT_PAYMENT` and status 409, and one with the exact amount is not. -/
theorem payment_check_exact (t : PricingTier) (ht : t ∈ PRICING_TIERS) (env : Env)
    (tx : PaymentTx) (hp : env.paymentTx = .ok (some tx)) :
    (paymentAccepted env t ↔
      jsSub (jsSub tx.preBalance tx.postBalance) tx.fee = t.priceLamports) ∧
    (∀ (s : ServerState) (req : MintRequest),
      getCurrentTier PRICING_TIERS env.currentTime = some t →
      getTierMintedCount env s t.name < t.maxSupply →
      isWalletAuthorized env s req.userWallet = true →
      ((mintHandler PRICING_TIERS env s req).response = .rejected 409 .INSUFFICIENT_PAYMENT ↔
        jsSub (jsSub tx.preBalance tx.postBalance) tx.fee ≠ t.priceLamports)) ∧
    (|tx.preBalance - tx.postBalance| < 2 ^ 53 →
      (paymentAccepted env t ↔
        ((tx.preBalance - tx.postBalance - tx.fee : Int) : ℚ) = t.priceLamports) ∧
      (∀ (s : ServerState) (req : MintRequest),
        getCurrentTier PRICING_TIERS env.currentTime = some t →
        getTierMintedCount env s t.name < t.maxSupply →
        isWalletAuthorized env s req.userWallet = true →
        (((tx.preBalance - tx.postBalance - tx.fee : Int) : ℚ) ≠ t.priceLamports →
          (mintHandler PRICING_TIERS env s req).response =
            .rejected 409 .INSUFFICIENT_PAYMENT) ∧
        (t.priceLamports < ((tx.preBalance - tx.postBalance - tx.fee : Int) : ℚ) →
          (mintHandler PRICING_TIERS env s req).response =
            .rejected 409 .INSUFFICIENT_PAYMENT) ∧
        (((tx.preBalance - tx.postBalance - tx.fee : Int) : ℚ) = t.priceLamports →
          ∀ status, (mintHandler PRICING_TIERS env s req).response ≠
            .rejected status .INSUFFICIENT_PAYMENT))) := by
  refine ⟨paymentAccepted_iff_computed ht hp, fun s req h1 h2 h3 =>
    (mintHandler_insufficient_iff h1 h2 h3).trans (paymentRefused_iff_computed ht hp), ?_⟩
  intro hsafe
  refine ⟨paymentAccepted_iff ht hp hsafe, ?_⟩
  intro s req h1 h2 h3
  have hne : ((tx.preBalance - tx.postBalance - tx.fee : Int) : ℚ) ≠ t.priceLamports →
      (mintHandler PRICING_TIERS env s req).response = .rejected 409 .INSUFFICIENT_PAYMENT := by
    intro h
    rw [mintHandler_payment_refused h1 h2 h3 ((paymentRefused_iff ht hp hsafe).2 h)]
  refine ⟨hne, fun h => hne (ne_of_gt h), ?_⟩
  intro heq status hrej
  have h4 : paymentAccepted env t := (paymentAccepted_iff ht hp hsafe).2 heq
  rcases Bool.eq_false_or_eq_true (isTransactionProcessed s.processed req.paymentSignature)
    with h5 | h5
  · rw [mintHandler_duplicate h1 h2 h3 h4 h5] at hrej; cases hrej
  rcases Bool.eq_false_or_eq_true env.txDetailsError.isSome with h6 | h6
  · rw [mintHandler_verification_failed h1 h2 h3 h4 h5 h6] at hrej; cases hrej
  cases h7 : allocateMintId env s with
  | error e => rw [mintHandler_allocation_throws h1 h2 h3 h4 h5 h6 h7] at hrej; cases hrej
  | unending => rw [mintHandler_unending h1 h2 h3 h4 h5 h6 h7] at hrej; cases hrej
  | ok p =>
    obtain ⟨n, s1⟩ := p
    rcases le_or_lt MAX_SUPPLY n with h8 | h8
    · rw [mintHandler_max_supply h1 h2 h3 h4 h5 h6 h7 h8] at hrej; cases hrej
    · rw [mintHandler_admitted h1 h2 h3 h4 h5 h6 h7 h8] at hrej
      by_cases hsucc :
          (mintAndRecord env s1 req t.name n (guardCalls t.name req)).response.isSuccess = true
      · rw [hrej] at hsucc; cases hsucc
      · obtain ⟨⟨e, he⟩, _⟩ := mintAndRecord_failure env s1 req t.name n _
          (Bool.eq_false_iff.2 hsucc)
        rw [he] at hrej; cases hrej

/-- Witness for C6 (amended): an overpayment of one lamport against the first tier,
between balances far below 2^53 lamports, is rejected. -/
theorem payment_check_exact_witness :
    (mintHandler PRICING_TIERS (calmEnv 1752594900 500000001) freshState
      { userWallet := "alice", paymentSignature := "p1" }).response =
      .rejected 409 .INSUFFICIENT_PAYMENT :=
  (((payment_check_exact
      spaceCadet
      (by simp [PRICING_TIERS]) (calmEnv 1752594900 500000001) (sampleTx 500000001) rfl).2.2
      (by decide)).2
    freshState { userWallet := "alice", paymentSignature := "p1" }
    (by simp [getCurrentTier, PRICING_TIERS, calmEnv, spaceCadet, spaceVoyager, spaceExplorer,
          spacePioneer])
    (by simp [getTierMintedCount, getTierMintCount, calmEnv, freshState, spaceCadet])
    (by simp [isWalletAuthorized, getWalletMintCount, calmEnv, freshState, aliceAuthorized,
          MAX_MINTS_PER_WALLET])).2.1
    (by norm_num [spaceCadet, sampleTx])


/-! ### The forward scan at 2^53 -/

theorem scanForward_stuckState (env : Env) (fuel : Nat) :
    scanForward env fuel stuckState 9007199254740992 = .unending := by
  rw [scanForward_unending_iff env
    (show stuckState.tracking =
      some { mintedIds := [9007199254740992], lastMintedId := 9007199254740991 } from rfl)]
  intro i _
  rw [Function.iterate_fixed jsIncrement_two_pow_53]
  simp

theorem getNextMintId_stuckState (env : Env) :
    getNextMintId env stuckState = .ok (9007199254740992, stuckState) := by
  rw [getNextMintId_of_some
    (show stuckState.tracking =
      some { mintedIds := [9007199254740992], lastMintedId := 9007199254740991 } from rfl)]
  have h := jsIncrement_exact 9007199254740991 (by norm_num) (by norm_num)
  norm_num at h
  simp only [h]

theorem isIdMinted_stuckState (env : Env) :
    isIdMinted env stuckState 9007199254740992 = .ok (true, stuckState) := by
  rw [isIdMinted_of_some env
    (show stuckState.tracking =
      some { mintedIds := [9007199254740992], lastMintedId := 9007199254740991 } from rfl)]
  have hc : ([9007199254740992] : List Int).contains 9007199254740992 = true := by
    simp
  rw [hc]

/-- STEP 5 when the id after the sequence pointer is minted: the forward scan from it. -/
theorem allocateMintId_of_minted {env : Env} {s : ServerState} {n : Int}
    (h1 : getNextMintId env s = .ok (n, s)) (h2 : isIdMinted env s n = .ok (true, s)) :
    allocateMintId env s = scanForward env (scanFuel s) s n := by
  unfold allocateMintId
  rw [h1]
  simp only [h2]

theorem allocateMintId_stuckState (env : Env) : allocateMintId env stuckState = .unending := by
  rw [allocateMintId_of_minted (getNextMintId_stuckState env) (isIdMinted_stuckState env)]
  exact scanForward_stuckState env _

/-! ### Termination of the forward scan -/

/-- C29, counterexample: the tracking file holds the minted id 2^53 and the sequence
pointer 2^53 - 1. The scan starts at 2^53, which is minted, and `nftNumber++` leaves 2^53
as it is, since 2^53 + 1 is not a double: the condition of the loop is true again, however
often it is evaluated, and the loop never ends. -/
theorem scan_at_two_pow_53_never_ends :
    stuckState.tracking =
      some { mintedIds := [9007199254740992], lastMintedId := 9007199254740991 } ∧
    (∀ env, getNextMintId env stuckState = .ok (9007199254740992, stuckState)) ∧
    (∀ env, isIdMinted env stuckState 9007199254740992 = .ok (true, stuckState)) ∧
    jsIncrement 9007199254740992 = 9007199254740992 ∧
    (∀ env fuel, scanForward env fuel stuckState 9007199254740992 = .unending) ∧
    (∀ env fuel m s1, scanForward env fuel stuckState 9007199254740992 ≠ .ok (m, s1)) := by
  refine ⟨rfl, getNextMintId_stuckState, fun env => ?_, jsIncrement_two_pow_53,
    scanForward_stuckState, fun env fuel m s1 h => ?_⟩
  · exact isIdMinted_stuckState env
  · rw [scanForward_stuckState] at h; cases h

/-- C29, amended: for every tracking record and every start, the forward scan of STEP 5
(`while (await isIdMinted(nftNumber)) nftNumber++`) either ends after at most
`mintedIds.length` increments at an id that is not in `mintedIds`, every id it passed
being minted, or never ends: with more evaluations of its condition than
`mintedIds.length`, however many more, the loop returns that same id, or it has not
returned; the file is not touched. When the start is at least -2^53 and the start plus
`mintedIds.length` at most 2^53, the increments are exact and the scan ends, at the
least id from the start on that is not minted; STEP 5, which starts the scan at
`lastMintedId + 1`, then returns such an id. -/
theorem forward_scan_terminates (env : Env) (s : ServerState) (r : MintTrackingRecord)
    (h : s.tracking = some r) (start : Int) :
    ((∃ m i, i ≤ r.mintedIds.length ∧ jsIncrement^[i] start = m ∧ m ∉ r.mintedIds ∧
        (∀ j, j < i → jsIncrement^[j] start ∈ r.mintedIds) ∧
        ∀ fuel, r.mintedIds.length < fuel → scanForward env fuel s start = .ok (m, s)) ∨
      ((∀ k, jsIncrement^[k] start ∈ r.mintedIds) ∧
        ∀ fuel, scanForward env fuel s start = .unending)) ∧
    (-2 ^ 53 ≤ start → start + r.mintedIds.length ≤ 2 ^ 53 →
      ∃ m, start ≤ m ∧ m ≤ start + r.mintedIds.length ∧ m ∉ r.mintedIds ∧
        (∀ k, start ≤ k → k < m → k ∈ r.mintedIds) ∧
        ∀ fuel, r.mintedIds.length < fuel → scanForward env fuel s start = .ok (m, s)) ∧
    (-2 ^ 53 ≤ r.lastMintedId → r.lastMintedId + 1 + r.mintedIds.length ≤ 2 ^ 53 →
      ∃ n, allocateMintId env s = .ok (n, s) ∧
        n ≤ r.lastMintedId + 1 + r.mintedIds.length ∧ n ∉ r.mintedIds) := by
  refine ⟨scanForward_fuel env h start, fun hlow hhigh => ?_, fun hlow hhigh => ?_⟩
  · have hit : ∀ i : Nat, i ≤ r.mintedIds.length → jsIncrement^[i] start = start + i :=
      fun i hi => jsIncrement_iterate start i hlow (by omega)
    rcases scanForward_fuel env h start with ⟨m, i, hi, hm, hnot, hmin, hfuel⟩ | ⟨hk, _⟩
    · rw [hit i hi] at hm
      refine ⟨m, by omega, by omega, hnot, ?_, hfuel⟩
      intro k hk1 hk2
      have hj := hmin (k - start).toNat (by omega)
      rw [hit _ (by omega)] at hj
      have e : start + ((k - start).toNat : Int) = k := by omega
      rwa [e] at hj
    · exfalso
      have := consecutive_le_length r.mintedIds start (r.mintedIds.length + 1)
        (fun k hk1 hk2 => by
          have hj := hk (k - start).toNat
          rw [hit _ (by push_cast at hk2; omega)] at hj
          have e : start + ((k - start).toNat : Int) = k := by omega
          rwa [e] at hj)
      omega
  · obtain ⟨n, hn, _, hle, hnot, _⟩ := allocateMintId_least env h hlow hhigh
    exact ⟨n, hn, hle, hnot⟩

/-- Witness for C29 (amended): on the file with the ids 0, 1 and 3 the scan from 0 stops
at 2. -/
theorem forward_scan_terminates_witness :
    ∃ m, (0 : Int) ≤ m ∧ m ≤ 0 + ([0, 1, 3] : List Int).length ∧ m ∉ ([0, 1, 3] : List Int) ∧
      (∀ k, (0 : Int) ≤ k → k < m → k ∈ ([0, 1, 3] : List Int)) ∧
      ∀ fuel, ([0, 1, 3] : List Int).length < fuel →
        scanForward (calmEnv 0 0) fuel gapState 0 = .ok (m, gapState) :=
  (forward_scan_terminates (calmEnv 0 0) gapState { mintedIds := [0, 1, 3], lastMintedId := 0 }
    rfl 0).2.1 (by norm_num) (by norm_num)

/-! ### The allocated id -/

/-- C11, counterexample: the tracking file holds the minted id 2^53 and the sequence
pointer 2^53 - 1, so the least integer from `lastMintedId + 1` on that is not minted is
2^53 + 1, far above `MAX_SUPPLY`. `alice`, authorized, pays the price of the first tier
at its start. The forward scan of STEP 5 never ends: the request is not rejected with
`MAX_SUPPLY_REACHED`, it is never answered. -/
theorem stuck_request_never_answered :
    stuckState.tracking =
      some { mintedIds := [9007199254740992], lastMintedId := 9007199254740991 } ∧
    (9007199254740991 : Int) + 1 ∈ [(9007199254740992 : Int)] ∧
    (9007199254740991 : Int) + 2 ∉ [(9007199254740992 : Int)] ∧
    MAX_SUPPLY ≤ 9007199254740991 + 2 ∧
    allocateMintId (calmEnv 1752594900 500000000) stuckState = .unending ∧
    mintHandler PRICING_TIERS (calmEnv 1752594900 500000000) stuckState
        { userWallet := "alice", paymentSignature := "p1" } =
      ⟨.unanswered, stuckState,
        guardCalls "Space Cadet NFTs" { userWallet := "alice", paymentSignature := "p1" }⟩ ∧
    (mintHandler PRICING_TIERS (calmEnv 1752594900 500000000) stuckState
        { userWallet := "alice", paymentSignature := "p1" }).response ≠
      .rejected 410 .MAX_SUPPLY_REACHED := by
  have hout : mintHandler PRICING_TIERS (calmEnv 1752594900 500000000) stuckState
      { userWallet := "alice", paymentSignature := "p1" } =
      ⟨.unanswered, stuckState,
        guardCalls "Space Cadet NFTs" { userWallet := "alice", paymentSignature := "p1" }⟩ :=
    mintHandler_unending (t := spaceCadet)
      (by simp [getCurrentTier, PRICING_TIERS, calmEnv, spaceCadet])
      (by simp [getTierMintedCount, getTierMintCount, calmEnv, stuckState, freshState,
            spaceCadet])
      (by simp [isWalletAuthorized, getWalletMintCount, calmEnv, stuckState, freshState,
            aliceAuthorized, MAX_MINTS_PER_WALLET])
      ((@paymentAccepted_iff _ (by simp [PRICING_TIERS]) _ (sampleTx 500000000) rfl (by decide)).2
        (by norm_num [spaceCadet, sampleTx]))
      (by simp [isTransactionProcessed, stuckState, freshState])
      rfl (allocateMintId_stuckState _)
  refine ⟨rfl, by decide, by decide, by decide, allocateMintId_stuckState _, hout, ?_⟩
  rw [hout]
  intro h
  cases h

/-- C11, amended: for every mint tracking record, STEP 5 either allocates an id that is
not in `mintedIds` or never ends, and then the request is never answered; every mint the
handler submits is for an id that is not in `mintedIds` and is below 2500. When the
sequence pointer is at least -2^53 and `lastMintedId + 1 + mintedIds.length` is at most
2^53, the id allocated by STEP 5 is the least integer `n ≥ lastMintedId + 1` that is not
in `mintedIds`; a request that has passed the six earlier guards is rejected with
`MAX_SUPPLY_REACHED` (status 410) if and only if `n ≥ MAX_SUPPLY = 2500`, and otherwise
the mint is submitted for exactly `n` (and a success response reports `n`). -/
theorem allocated_id_is_least_free (tiers : List PricingTier) (env : Env) (s : ServerState)
    (req : MintRequest) (r : MintTrackingRecord) (t : PricingTier)
    (hfile : s.tracking = some r)
    (h1 : getCurrentTier tiers env.currentTime = some t)
    (h2 : getTierMintedCount env s t.name < t.maxSupply)
    (h3 : isWalletAuthorized env s req.userWallet = true)
    (h4 : paymentAccepted env t)
    (h5 : isTransactionProcessed s.processed req.paymentSignature = false)
    (h6 : env.txDetailsError.isSome = false) :
    MAX_SUPPLY = 2500 ∧
    ((∃ n, allocateMintId env s = .ok (n, s) ∧ n ∉ r.mintedIds) ∨
      (allocateMintId env s = .unending ∧
        mintHandler tiers env s req = ⟨.unanswered, s, guardCalls t.name req⟩)) ∧
    (∀ m w, Call.sendAndConfirm m w ∈ (mintHandler tiers env s req).calls →
      m ∉ r.mintedIds ∧ m < 2500) ∧
    (-2 ^ 53 ≤ r.lastMintedId → r.lastMintedId + 1 + r.mintedIds.length ≤ 2 ^ 53 →
      ∃ n, allocateMintId env s = .ok (n, s) ∧
        (r.lastMintedId + 1 ≤ n ∧ n ∉ r.mintedIds ∧
          ∀ k, r.lastMintedId + 1 ≤ k → k < n → k ∈ r.mintedIds) ∧
        ((mintHandler tiers env s req).response = .rejected 410 .MAX_SUPPLY_REACHED ↔
          MAX_SUPPLY ≤ n) ∧
        (n < MAX_SUPPLY →
          Call.sendAndConfirm n req.userWallet ∈ (mintHandler tiers env s req).calls) ∧
        (∀ m nftId sig,
          (mintHandler tiers env s req).response = .success m nftId sig → m = n) ∧
        (∀ m w, Call.sendAndConfirm m w ∈ (mintHandler tiers env s req).calls →
          m = n ∧ m ∉ r.mintedIds ∧ m < 2500)) := by
  refine ⟨rfl, ?_, ?_, ?_⟩
  · rcases allocateMintId_of_some env hfile with hok | hu
    · exact Or.inl hok
    · exact Or.inr ⟨hu, mintHandler_unending h1 h2 h3 h4 h5 h6 hu⟩
  · intro m w hmem
    obtain ⟨_, s1, h7, h8, _, _⟩ := mintHandler_submitted hmem
    have hnot := allocateMintId_not_minted h7
    rw [mintedIdsOf_of_allocate h7] at hnot
    exact ⟨by simpa [mintedIdsOf, hfile] using hnot, by simpa [MAX_SUPPLY] using h8⟩
  intro hlow hhigh
  obtain ⟨n, h7, hge, _, hnot, hleast⟩ := allocateMintId_least env hfile hlow hhigh
  refine ⟨n, h7, ⟨hge, hnot, hleast⟩, ?_⟩
  rcases le_or_lt MAX_SUPPLY n with h8 | h8
  · have hout := mintHandler_max_supply h1 h2 h3 h4 h5 h6 h7 h8
    rw [hout]
    refine ⟨⟨fun _ => h8, fun _ => rfl⟩, fun hlt => absurd hlt (not_lt.2 h8), ?_, ?_⟩
    · intro m nftId sig h; cases h
    · intro m w hmem
      exact absurd hmem (sendAndConfirm_not_mem_guardCalls _ _ _ _)
  · have hout := mintHandler_admitted h1 h2 h3 h4 h5 h6 h7 h8
    rw [hout]
    refine ⟨⟨fun h => absurd h (mintAndRecord_not_rejected _ _ _ _ _ _ _ _),
      fun h => absurd h8 (not_lt.2 h)⟩, fun _ => ?_, ?_, ?_⟩
    · exact (mintAndRecord_sendAndConfirm_mem _ _ _ _ _ _ _ _).2 (Or.inr ⟨rfl, rfl⟩)
    · intro m nftId sig h
      have hsucc : (mintAndRecord env s req t.name n (guardCalls t.name req)).response.isSuccess
          = true := by rw [h]; rfl
      obtain ⟨⟨sig', hs⟩, ⟨asset, hp⟩, hw, ha⟩ := (mintAndRecord_isSuccess_iff _ _ _ _ _ _).1 hsucc
      rw [(mintAndRecord_success s req t.name n _ hs hp hw ha).1] at h
      simp only [Response.success.injEq] at h
      exact h.1.symm
    · intro m w hmem
      rcases (mintAndRecord_sendAndConfirm_mem _ _ _ _ _ _ _ _).1 hmem with hb | ⟨rfl, _⟩
      · exact absurd hb (sendAndConfirm_not_mem_guardCalls _ _ _ _)
      · exact ⟨rfl, hnot, by simpa [MAX_SUPPLY] using h8⟩

/-- Witness for C11 (amended): the sequence pointer is 0 and the ids 0, 1 and 3 are
minted; the handler allocates the id 2 and submits the mint for it. -/
theorem allocated_id_is_least_free_witness :
    allocateMintId (calmEnv 1752594900 500000000) gapState = .ok (2, gapState) ∧
    Call.sendAndConfirm 2 "alice" ∈
      (mintHandler PRICING_TIERS (calmEnv 1752594900 500000000) gapState
        { userWallet := "alice", paymentSignature := "p1" }).calls := by
  obtain ⟨n, h7, ⟨hge, hnot, hleast⟩, _, hsend, _⟩ :=
    (allocated_id_is_least_free PRICING_TIERS (calmEnv 1752594900 500000000) gapState
      { userWallet := "alice", paymentSignature := "p1" }
      { mintedIds := [0, 1, 3], lastMintedId := 0 } spaceCadet rfl
      (by simp [getCurrentTier, PRICING_TIERS, calmEnv, spaceCadet])
      (by simp [getTierMintedCount, getTierMintCount, calmEnv, gapState, freshState,
            spaceCadet])
      (by simp [isWalletAuthorized, getWalletMintCount, calmEnv, gapState, freshState,
            aliceAuthorized, MAX_MINTS_PER_WALLET])
      ((@paymentAccepted_iff _ (by simp [PRICING_TIERS]) _ (sampleTx 500000000) rfl (by decide)).2
        (by norm_num [spaceCadet, sampleTx]))
      (by simp [isTransactionProcessed, gapState, freshState])
      rfl).2.2.2 (by norm_num) (by norm_num)
  have hn : n = 2 := by
    simp only [List.mem_cons, List.mem_singleton, List.not_mem_nil, or_false, not_or] at hnot
    simp only at hge
    have h2 : ¬ (2 : Int) < n := by
      intro hlt
      have := hleast 2 (by norm_num) hlt
      simp at this
    omega
  subst hn
  exact ⟨h7, hsend (by decide)⟩


/-! ### Loading the tracking file -/

/-- On a file that holds a tracking record or cannot be read, `loadMintTrackingData` on
the server state does what `loadMintTrackingData` on the file does. -/
theorem loadMintTrackingData_trackingFile (env : Env) (s : ServerState) :
    s.trackingFile.loadMintTrackingData env.writeFileError =
      match loadMintTrackingData env s with
      | .error e => .error e
      | .ok (trackingData, s1) => .ok (recordValue trackingData, s1.trackingFile) := by
  unfold ServerState.trackingFile TrackingFile.loadMintTrackingData loadMintTrackingData
  cases ht : s.tracking with
  | some r => simp [ht]
  | none =>
    cases hw : env.writeFileError with
    | some e => rfl
    | none => rfl

/-- C17, counterexample: the tracking file holds the text `{}`, which is JSON but not a
tracking record. `JSON.parse` returns the empty object, so the `try` block of
`loadMintTrackingData` returns it: the `catch` block is not entered, nothing is written
(whether or not a write would succeed), and the value returned is not the fresh record;
it has no `mintedIds` and no `lastMintedId`. -/
theorem parsable_file_is_not_reinitialised :
    JSON.parse "\x7b\x7d" = some (.object []) ∧
    (∀ writeFileError,
      TrackingFile.loadMintTrackingData (.parsed (.object [])) writeFileError =
        .ok (.object [], .parsed (.object []))) ∧
    toMintTrackingRecord (.object []) = none ∧
    Json.property (.object []) "mintedIds" = none ∧
    Json.property (.object []) "lastMintedId" = none ∧
    JSON.parse (JSON.stringify initialData) = some (recordValue initialData) ∧
    recordValue initialData =
      .object [("mintedIds", .array []), ("lastMintedId", .number (-1))] ∧
    Json.object [] ≠ recordValue initialData := by
  refine ⟨rfl, fun _ => rfl, rfl, rfl, rfl, (readTrackingFile_stringify _).1, rfl, ?_⟩
  intro h
  cases h

/-- C17, amended: `loadMintTrackingData` returns what `JSON.parse` gives for the text of
the file, whatever it is, and writes nothing then; in particular it returns the record on
file when the file holds one. Only when the file is missing or its text is not JSON, so
that reading or parsing throws, does it write the fresh record with no minted id and
`lastMintedId = -1` to the file and return it, so that `isIdMinted` answers false for
every id and `getNextMintId` answers 0, on that call and on every later one; if that
write of the fresh record throws, `loadMintTrackingData` throws. -/
theorem loadMintTrackingData_spec (env : Env) (s : ServerState) :
    (∀ value writeFileError,
      TrackingFile.loadMintTrackingData (.parsed value) writeFileError =
        .ok (value, .parsed value)) ∧
    (TrackingFile.loadMintTrackingData .unreadable none =
      .ok (recordValue initialData, .parsed (recordValue initialData))) ∧
    (∀ e, TrackingFile.loadMintTrackingData .unreadable (some e) = .error e) ∧
    (s.trackingFile.loadMintTrackingData env.writeFileError =
      match loadMintTrackingData env s with
      | .error e => .error e
      | .ok (trackingData, s1) => .ok (recordValue trackingData, s1.trackingFile)) ∧
    (∀ r, s.tracking = some r → loadMintTrackingData env s = .ok (r, s)) ∧
    (s.tracking = none → env.writeFileError = none →
      loadMintTrackingData env s = .ok (initialData, { s with tracking := some initialData }) ∧
      initialData = { mintedIds := [], lastMintedId := -1 } ∧
      (∀ id, isIdMinted env s id = .ok (false, { s with tracking := some initialData })) ∧
      getNextMintId env s = .ok (0, { s with tracking := some initialData }) ∧
      ∀ (later : Env) (id : Int),
        isIdMinted later { s with tracking := some initialData } id =
          .ok (false, { s with tracking := some initialData }) ∧
        getNextMintId later { s with tracking := some initialData } =
          .ok (0, { s with tracking := some initialData })) ∧
    (∀ e, s.tracking = none → env.writeFileError = some e →
      loadMintTrackingData env s = .error e) := by
  refine ⟨fun _ _ => rfl, rfl, fun _ => rfl, loadMintTrackingData_trackingFile env s,
    fun r hr => ?_, fun hn hw => ⟨?_, rfl, fun id => isIdMinted_of_none hn hw id,
    getNextMintId_of_none hn hw, fun later id => ⟨?_, ?_⟩⟩, fun e hn hw => ?_⟩
  · simp [loadMintTrackingData, hr]
  · simp [loadMintTrackingData, hn, hw]
  · simp [isIdMinted, loadMintTrackingData, initialData]
  · simp [getNextMintId, loadMintTrackingData, initialData, jsIncrement_neg_one]
  · simp [loadMintTrackingData, hn, hw]

/-- Witness for C17 (amended): the fresh server has no tracking file; the file with the
ids 0, 1 and 3 is returned as it is. -/
theorem loadMintTrackingData_spec_witness :
    loadMintTrackingData (calmEnv 0 0) gapState =
      .ok ({ mintedIds := [0, 1, 3], lastMintedId := 0 }, gapState) ∧
    getNextMintId (calmEnv 0 0) freshState =
      .ok (0, { freshState with tracking := some initialData }) ∧
    loadMintTrackingData (writeFailingEnv 0 0) freshState = .error "EACCES" :=
  ⟨(loadMintTrackingData_spec (calmEnv 0 0) gapState).2.2.2.2.1 _ rfl,
   ((loadMintTrackingData_spec (calmEnv 0 0) freshState).2.2.2.2.2.1 rfl rfl).2.2.2.1,
   (loadMintTrackingData_spec (writeFailingEnv 0 0) freshState).2.2.2.2.2.2 "EACCES" rfl rfl⟩

end MintBackend
